import Mathlib

/-!
# tcluvc: frame hand-off and recording engine

A shallow embedding of the recording and frame hand-off code of `tcluvc.c`
(functions `WriteFrame`, `CloseAVISegment`, `WriteAVIHeader`, `StartRecording`,
`FinishRecording`, `RecordFrameFromData`, `FrameCallback`, `FrameReady`,
`FrameReady0`, `StartCapture`, `StopCapture`, `GetImage` and the `record`,
`convmode`, `format`, `start`, `stop` branches of `UvcObjCmd`).

Conventions of the embedding.

* The control structure `TUVC` is passed explicitly; every function returns the
  updated structure next to its C result.
* `struct timeval` is a pair of integers; `time_t`, `suseconds_t` and
  `Tcl_WideInt` values are unbounded integers.
* `gettimeofday`, the libuvc conversion routines, `attemptckrealloc` and the
  outcome of the Tcl callback script are inputs of the functions that call them.
* The recording channel is a byte list with a position and two scripts that
  say how the next `Tcl_WriteRaw` and `Tcl_Seek` calls behave (an empty script
  means that every call succeeds).
* The code is taken with `LIBUVC_HAVE_JPEG` defined.
* The value of `-fps` is a `double`, given as a quotient of two naturals; the
  two divisions by it are IEEE 754 binary64 divisions (round to nearest, ties
  to even) followed by the conversion to an integer (`doubleQuotTrunc`).
* Flags that the C code keeps in an `int` and only ever sets to 0 or 1
  (`running`, `conv`, `ruser`, `idle`) are booleans; the thread id `tid` is
  modelled by whether it is non-NULL.
-/

namespace Tcluvc

/-! ## Time values -/

/-- The C `struct timeval`. -/
structure timeval where
  tv_sec : Int
  tv_usec : Int
  deriving DecidableEq, Repr

/-- The recurring code pattern
`diff.tv_sec = a.tv_sec - b.tv_sec; diff.tv_usec = a.tv_usec - b.tv_usec;
 if (diff.tv_usec < 0) { diff.tv_sec -= 1; diff.tv_usec += 1000000; }`. -/
def tvDiff (a b : timeval) : timeval :=
  let sec := a.tv_sec - b.tv_sec
  let usec := a.tv_usec - b.tv_usec
  if usec < 0 then { tv_sec := sec - 1, tv_usec := usec + 1000000 }
  else { tv_sec := sec, tv_usec := usec }

/-- The recurring test
`(diff.tv_sec > 0) || ((diff.tv_sec == 0) && (diff.tv_usec > 0))`. -/
def tvPositive (d : timeval) : Bool :=
  decide (d.tv_sec > 0) || (decide (d.tv_sec = 0) && decide (d.tv_usec > 0))

/-- The addition at the end of the timing block of `WriteFrame`:
`rtv.tv_sec += rrate.tv_sec; rtv.tv_usec += rrate.tv_usec;
 if (rtv.tv_usec > 1000000) { rtv.tv_sec += 1; rtv.tv_usec -= 1000000; }`. -/
def tvAdvance (t rrate : timeval) : timeval :=
  let sec := t.tv_sec + rrate.tv_sec
  let usec := t.tv_usec + rrate.tv_usec
  if usec > 1000000 then { tv_sec := sec + 1, tv_usec := usec - 1000000 }
  else { tv_sec := sec, tv_usec := usec }

/-- Value of a time in microseconds. -/
def timeval.micros (t : timeval) : Int := t.tv_sec * 1000000 + t.tv_usec

/-! ## Recording states -/

/-- The recording states `REC_STOP` .. `REC_ERROR`. -/
inductive RecState where
  | REC_STOP
  | REC_RECPRI
  | REC_RECORD
  | REC_PAUSEPRI
  | REC_PAUSE
  | REC_ERROR
  deriving DecidableEq, Repr

open RecState

/-- Numeric value of the `#define` of a recording state. -/
def RecState.code : RecState → Int
  | REC_STOP => 0
  | REC_RECPRI => 1
  | REC_RECORD => 2
  | REC_PAUSEPRI => 3
  | REC_PAUSE => 4
  | REC_ERROR => 5

/-! ## Frames -/

/-- The frame formats the code distinguishes; every other libuvc format is
`UVC_FRAME_FORMAT_OTHER`. -/
inductive uvc_frame_format where
  | UVC_FRAME_FORMAT_YUYV
  | UVC_FRAME_FORMAT_UYVY
  | UVC_FRAME_FORMAT_RGB
  | UVC_FRAME_FORMAT_MJPEG
  | UVC_FRAME_FORMAT_GRAY8
  | UVC_FRAME_FORMAT_GRAY16
  | UVC_FRAME_FORMAT_OTHER
  deriving DecidableEq, Repr

open uvc_frame_format

/-- The libuvc frame `uvc_frame_t`: `data` holds the `data_bytes` valid bytes
of the buffer. -/
structure uvc_frame where
  data : List Nat
  width : Nat
  height : Nat
  frame_format : uvc_frame_format
  step : Nat
  capture_time : timeval
  deriving DecidableEq, Repr

/-- The field `data_bytes` of a frame. -/
def uvc_frame.data_bytes (f : uvc_frame) : Nat := f.data.length

/-! ## The recording channel -/

/-- A Tcl channel used as recording sink: its contents, the access position,
and the behaviour of the coming calls. An entry `e` of `wscript` makes the next
`Tcl_WriteRaw` fail with -1 when `e < 0` and accept at most `e` bytes otherwise;
an entry `true` of `sscript` makes the next `Tcl_Seek` fail. -/
structure Channel where
  bytes : List Nat
  pos : Nat
  wscript : List Int
  sscript : List Bool
  deriving DecidableEq, Repr

/-- Contents of a channel after storing `buf` at offset `pos` (a gap past the
end is filled with zero bytes). -/
def storeAt (bytes : List Nat) (pos : Nat) (buf : List Nat) : List Nat :=
  List.takeD pos bytes 0 ++ buf ++ bytes.drop (pos + buf.length)

/-- The call `Tcl_WriteRaw(chan, buf, n)`: the first `n` bytes of the buffer
are offered to the channel; the result is the number of bytes accepted or -1.
The list `buf` holds the bytes the caller owns. With `n > buf.length` the code
reads the memory that lies behind them, which is not part of the state; the
model puts 0 in the place of such a byte, so only the count and the position
are meaningful then, and the properties that speak of the bytes written
require `n ≤ buf.length`. -/
def Tcl_WriteRaw (chan : Channel) (buf : List Nat) (n : Nat) : Int × Channel :=
  match chan.wscript with
  | [] =>
    ((n : Int), { chan with bytes := storeAt chan.bytes chan.pos (List.takeD n buf 0),
                            pos := chan.pos + n })
  | e :: rest =>
    if e < 0 then (-1, { chan with wscript := rest })
    else
      let k := min e.toNat n
      ((k : Int), { chan with bytes := storeAt chan.bytes chan.pos (List.takeD k buf 0),
                              pos := chan.pos + k,
                              wscript := rest })

/-- The two seek modes the code uses. -/
inductive SeekMode where
  | SEEK_SET
  | SEEK_CUR
  deriving DecidableEq, Repr

open SeekMode

/-- The call `Tcl_Seek(chan, offset, mode)`: the new position, or -1 when the
seek fails (scripted failure or negative target). -/
def Tcl_Seek (chan : Channel) (offset : Int) (mode : SeekMode) : Int × Channel :=
  let target : Int :=
    match mode with
    | SEEK_SET => offset
    | SEEK_CUR => (chan.pos : Int) + offset
  match chan.sscript with
  | [] =>
    if target < 0 then (-1, chan) else (target, { chan with pos := target.toNat })
  | fail :: rest =>
    if fail || decide (target < 0) then (-1, { chan with sscript := rest })
    else (target, { chan with pos := target.toNat, sscript := rest })

/-! ## RIFF/AVI structures -/

/-- Bytes of a 16 bit value, least significant first. -/
def le16 (v : Nat) : List Nat := [v % 256, v / 256 % 256]

/-- Bytes of a 32 bit value, least significant first. -/
def le32 (v : Nat) : List Nat :=
  [v % 256, v / 256 % 256, v / 65536 % 256, v / 16777216 % 256]

/-- The helper `PUT16LE`: the stored field, as the 16 bit value whose
little-endian bytes are in memory. -/
def PUT16LE (v : Int) : Nat := (v % 65536).toNat

/-- The helper `PUT32LE`: the stored field, as the 32 bit value whose
little-endian bytes are in memory (`v` is converted to `unsigned int`). -/
def PUT32LE (v : Int) : Nat := (v % 4294967296).toNat

/-- Conversion of an integer to the C type `int` (two's complement). -/
def toInt32 (v : Int) : Int := (v + 2147483648) % 4294967296 - 2147483648

/-- Bytes of an ASCII string. -/
def ascii (s : String) : List Nat := s.toList.map Char.toNat

/-- The C `struct RIFF_avih`; fields are the stored 32 bit values. -/
structure RIFF_avih where
  uspf : Nat
  bps : Nat
  res0 : Nat
  flags : Nat
  nframes : Nat
  res1 : Nat
  nstreams : Nat
  bufsize : Nat
  width : Nat
  height : Nat
  scale : Nat
  rate : Nat
  start : Nat
  length : Nat
  deriving DecidableEq, Repr

/-- The C `struct RIFF_strh`. -/
structure RIFF_strh where
  type : List Nat
  handler : List Nat
  flags : Nat
  priority : Nat
  res0 : Nat
  scale : Nat
  rate : Nat
  start : Nat
  length : Nat
  bufsize : Nat
  quality : Nat
  samplesize : Nat
  deriving DecidableEq, Repr

/-- The C `struct RIFF_strf_vids`. -/
structure RIFF_strf_vids where
  size : Nat
  width : Nat
  height : Nat
  planes : Nat
  bits : Nat
  compr : List Nat
  image_size : Nat
  xpels_meter : Nat
  ypels_meter : Nat
  num_colors : Nat
  imp_colors : Nat
  deriving DecidableEq, Repr

/-- The C `struct AVI_HDR`. -/
structure AVI_HDR where
  riff_id : List Nat
  riff_size : Nat
  riff_type : List Nat
  hdrl_list_id : List Nat
  hdrl_size : Nat
  hdrl_type : List Nat
  avih_id : List Nat
  avih_size : Nat
  avih : RIFF_avih
  deriving DecidableEq, Repr

/-- The C `struct AVIX_HDR`. -/
structure AVIX_HDR where
  riff_id : List Nat
  riff_size : Nat
  riff_type : List Nat
  data_list_id : List Nat
  data_size : Nat
  data_type : List Nat
  deriving DecidableEq, Repr

/-- The C `struct AVI_HDR_VIDEO`. -/
structure AVI_HDR_VIDEO where
  strl_list_id : List Nat
  strl_size : Nat
  strl_type : List Nat
  strh_id : List Nat
  strh_size : Nat
  strh : RIFF_strh
  strf_id : List Nat
  strf_size : Nat
  strf : RIFF_strf_vids
  deriving DecidableEq, Repr

/-- The C `struct AVI_HDR_ODML`. -/
structure AVI_HDR_ODML where
  strl_list_id : List Nat
  strl_size : Nat
  strl_type : List Nat
  strh_id : List Nat
  strh_size : Nat
  nframes : Nat
  deriving DecidableEq, Repr

/-- The C `struct AVI_DATA`. -/
structure AVI_DATA where
  data_list_id : List Nat
  data_size : Nat
  data_type : List Nat
  deriving DecidableEq, Repr

/-- The C `struct CHUNK_HDR`. -/
structure CHUNK_HDR where
  id : List Nat
  size : Nat
  deriving DecidableEq, Repr

/-- The C `struct AVI_IDX`. -/
structure AVI_IDX where
  id : List Nat
  flags : Nat
  offset : Nat
  size : Nat
  deriving DecidableEq, Repr

/-- A four character code as it lies in memory: exactly four bytes. -/
def fourcc (l : List Nat) : List Nat := List.takeD 4 l 0

/-- Memory image of a `struct RIFF_avih` (56 bytes). -/
def RIFF_avih.image (a : RIFF_avih) : List Nat :=
  le32 a.uspf ++ le32 a.bps ++ le32 a.res0 ++ le32 a.flags ++ le32 a.nframes ++
  le32 a.res1 ++ le32 a.nstreams ++ le32 a.bufsize ++ le32 a.width ++
  le32 a.height ++ le32 a.scale ++ le32 a.rate ++ le32 a.start ++ le32 a.length

/-- Memory image of a `struct RIFF_strh` (48 bytes). -/
def RIFF_strh.image (s : RIFF_strh) : List Nat :=
  fourcc s.type ++ fourcc s.handler ++ le32 s.flags ++ le32 s.priority ++
  le32 s.res0 ++ le32 s.scale ++ le32 s.rate ++ le32 s.start ++ le32 s.length ++
  le32 s.bufsize ++ le32 s.quality ++ le32 s.samplesize

/-- Memory image of a `struct RIFF_strf_vids` (40 bytes). -/
def RIFF_strf_vids.image (s : RIFF_strf_vids) : List Nat :=
  le32 s.size ++ le32 s.width ++ le32 s.height ++ le16 s.planes ++ le16 s.bits ++
  fourcc s.compr ++ le32 s.image_size ++ le32 s.xpels_meter ++
  le32 s.ypels_meter ++ le32 s.num_colors ++ le32 s.imp_colors

/-- Memory image of a `struct AVI_HDR` (88 bytes). -/
def AVI_HDR.image (h : AVI_HDR) : List Nat :=
  fourcc h.riff_id ++ le32 h.riff_size ++ fourcc h.riff_type ++
  fourcc h.hdrl_list_id ++ le32 h.hdrl_size ++ fourcc h.hdrl_type ++
  fourcc h.avih_id ++ le32 h.avih_size ++ h.avih.image

/-- Memory image of a `struct AVIX_HDR` (24 bytes). -/
def AVIX_HDR.image (h : AVIX_HDR) : List Nat :=
  fourcc h.riff_id ++ le32 h.riff_size ++ fourcc h.riff_type ++
  fourcc h.data_list_id ++ le32 h.data_size ++ fourcc h.data_type

/-- Memory image of a `struct AVI_HDR_VIDEO` (116 bytes). -/
def AVI_HDR_VIDEO.image (h : AVI_HDR_VIDEO) : List Nat :=
  fourcc h.strl_list_id ++ le32 h.strl_size ++ fourcc h.strl_type ++
  fourcc h.strh_id ++ le32 h.strh_size ++ h.strh.image ++
  fourcc h.strf_id ++ le32 h.strf_size ++ h.strf.image

/-- Memory image of a `struct AVI_HDR_ODML` (24 bytes). -/
def AVI_HDR_ODML.image (h : AVI_HDR_ODML) : List Nat :=
  fourcc h.strl_list_id ++ le32 h.strl_size ++ fourcc h.strl_type ++
  fourcc h.strh_id ++ le32 h.strh_size ++ le32 h.nframes

/-- Memory image of a `struct AVI_DATA` (12 bytes). -/
def AVI_DATA.image (d : AVI_DATA) : List Nat :=
  fourcc d.data_list_id ++ le32 d.data_size ++ fourcc d.data_type

/-- Memory image of a `struct CHUNK_HDR` (8 bytes). -/
def CHUNK_HDR.image (h : CHUNK_HDR) : List Nat :=
  fourcc h.id ++ le32 h.size

/-- Memory image of a `struct AVI_IDX` (16 bytes). -/
def AVI_IDX.image (e : AVI_IDX) : List Nat :=
  fourcc e.id ++ le32 e.flags ++ le32 e.offset ++ le32 e.size

/-- The value of `sizeof(struct RIFF_avih)`. -/
def sizeof_RIFF_avih : Nat := 56

/-- The value of `sizeof(struct RIFF_strh)`. -/
def sizeof_RIFF_strh : Nat := 48

/-- The value of `sizeof(struct RIFF_strf_vids)`. -/
def sizeof_RIFF_strf_vids : Nat := 40

/-- The value of `sizeof(struct AVI_HDR)`. -/
def sizeof_AVI_HDR : Nat := 88

/-- The value of `sizeof(struct AVIX_HDR)`. -/
def sizeof_AVIX_HDR : Nat := 24

/-- The value of `sizeof(struct AVI_HDR_VIDEO)`. -/
def sizeof_AVI_HDR_VIDEO : Nat := 116

/-- The value of `sizeof(struct AVI_HDR_ODML)`. -/
def sizeof_AVI_HDR_ODML : Nat := 24

/-- The value of `sizeof(struct AVI_DATA)`. -/
def sizeof_AVI_DATA : Nat := 12

/-- The value of `sizeof(struct CHUNK_HDR)`. -/
def sizeof_CHUNK_HDR : Nat := 8

/-- The value of `sizeof(struct AVI_IDX)`. -/
def sizeof_AVI_IDX : Nat := 16

/-- An all-zero `struct RIFF_avih`. -/
def RIFF_avih.zero : RIFF_avih :=
  { uspf := 0, bps := 0, res0 := 0, flags := 0, nframes := 0, res1 := 0,
    nstreams := 0, bufsize := 0, width := 0, height := 0, scale := 0, rate := 0,
    start := 0, length := 0 }

/-- An all-zero `struct RIFF_strh`. -/
def RIFF_strh.zero : RIFF_strh :=
  { type := [0, 0, 0, 0], handler := [0, 0, 0, 0], flags := 0, priority := 0,
    res0 := 0, scale := 0, rate := 0, start := 0, length := 0, bufsize := 0,
    quality := 0, samplesize := 0 }

/-- An all-zero `struct RIFF_strf_vids`. -/
def RIFF_strf_vids.zero : RIFF_strf_vids :=
  { size := 0, width := 0, height := 0, planes := 0, bits := 0,
    compr := [0, 0, 0, 0], image_size := 0, xpels_meter := 0, ypels_meter := 0,
    num_colors := 0, imp_colors := 0 }

/-- An all-zero `struct AVI_HDR`. -/
def AVI_HDR.zero : AVI_HDR :=
  { riff_id := [0, 0, 0, 0], riff_size := 0, riff_type := [0, 0, 0, 0],
    hdrl_list_id := [0, 0, 0, 0], hdrl_size := 0, hdrl_type := [0, 0, 0, 0],
    avih_id := [0, 0, 0, 0], avih_size := 0, avih := RIFF_avih.zero }

/-- An all-zero `struct AVI_HDR_VIDEO`. -/
def AVI_HDR_VIDEO.zero : AVI_HDR_VIDEO :=
  { strl_list_id := [0, 0, 0, 0], strl_size := 0, strl_type := [0, 0, 0, 0],
    strh_id := [0, 0, 0, 0], strh_size := 0, strh := RIFF_strh.zero,
    strf_id := [0, 0, 0, 0], strf_size := 0, strf := RIFF_strf_vids.zero }

/-- An all-zero `struct AVI_HDR_ODML`. -/
def AVI_HDR_ODML.zero : AVI_HDR_ODML :=
  { strl_list_id := [0, 0, 0, 0], strl_size := 0, strl_type := [0, 0, 0, 0],
    strh_id := [0, 0, 0, 0], strh_size := 0, nframes := 0 }

/-- An all-zero `struct AVI_DATA`. -/
def AVI_DATA.zero : AVI_DATA :=
  { data_list_id := [0, 0, 0, 0], data_size := 0, data_type := [0, 0, 0, 0] }

/-- An all-zero `struct AVI_IDX`. -/
def AVI_IDX.zero : AVI_IDX :=
  { id := [0, 0, 0, 0], flags := 0, offset := 0, size := 0 }

/-! ## The control structure -/

/-- The frame format item `UFMT` (without its textual representation). -/
structure UFMT where
  width : Int
  height : Int
  fps : Int
  iscomp : Bool
  bpp : Int
  fourcc : List Nat
  fpsList : List Int
  deriving DecidableEq, Repr

/-- The member `avi` of `TUVC`: state of the AVI file writer. The index buffer
`idx` is `none` for NULL and otherwise holds its `num_idx` allocated entries. -/
structure AVI where
  nframes : Int
  nframes0 : Int
  totsize : Int
  segsize : Int
  segsize0 : Int
  segstart : Int
  hdrsize : Int
  pos0 : Int
  rate : timeval
  avi_hdr : AVI_HDR
  avi_hdrv : AVI_HDR_VIDEO
  avi_hdro : AVI_HDR_ODML
  avi_data : AVI_DATA
  idx_off : Int
  curr_idx : Int
  num_idx : Int
  idx : Option (List AVI_IDX)
  deriving DecidableEq, Repr

/-- The result of `memset(&tuvc->avi, 0, sizeof(tuvc->avi))`. -/
def AVI.zero : AVI :=
  { nframes := 0, nframes0 := 0, totsize := 0, segsize := 0, segsize0 := 0,
    segstart := 0, hdrsize := 0, pos0 := 0, rate := { tv_sec := 0, tv_usec := 0 },
    avi_hdr := AVI_HDR.zero, avi_hdrv := AVI_HDR_VIDEO.zero,
    avi_hdro := AVI_HDR_ODML.zero, avi_data := AVI_DATA.zero,
    idx_off := 0, curr_idx := 0, num_idx := 0, idx := none }

/-- The control structure `TUVC`, restricted to the members the capture and
recording code reads or writes. `evq` is the part of the thread's event queue
that holds the `TUEVT` events of this device, oldest first, each with whether
its `tuvc` pointer is still set; `idleCall` says whether a do-when-idle call
of `FrameReady` is pending; `closed` lists the channels closed so far, most
recent first, so that the final contents of a recording stay observable. -/
structure TUVC where
  running : Bool
  frame : Option uvc_frame
  tid : Bool
  evq : List Bool
  numev : Int
  idle : Bool
  idleCall : Bool
  width : Int
  height : Int
  conv : Bool
  fps : Int
  usefmt : Int
  iscomp : Bool
  greyshift : Int
  fmts : List (Int × UFMT)
  counters0 : Int
  counters1 : Int
  counters2 : Int
  rstate : RecState
  ruser : Bool
  rchan : Option Channel
  rbdStr : List Nat
  rrate : timeval
  rtv : timeval
  ltv : timeval
  avi : AVI
  closed : List Channel
  deriving DecidableEq, Repr

/-- The call `Tcl_WriteRaw(rchan, buf, n)` on the member `rchan`: result and
new channel. The code reaches such a call only with a non-NULL channel; for
NULL, and for a negative count, the model reports -1 and writes nothing. -/
def writeTo (rchan : Option Channel) (buf : List Nat) (n : Int) : Int × Option Channel :=
  match rchan with
  | none => (-1, none)
  | some c =>
    if n < 0 then (-1, some c)
    else ((Tcl_WriteRaw c buf n.toNat).1, some (Tcl_WriteRaw c buf n.toNat).2)

/-- The call `Tcl_Seek(rchan, offset, mode)` on the member `rchan`: result and
new channel; for NULL the model reports -1. -/
def seekTo (rchan : Option Channel) (offset : Int) (mode : SeekMode) : Int × Option Channel :=
  match rchan with
  | none => (-1, none)
  | some c => ((Tcl_Seek c offset mode).1, some (Tcl_Seek c offset mode).2)

/-- The call `Tcl_WriteRaw(tuvc->rchan, buf, n)`. -/
def chanWrite (tuvc : TUVC) (buf : List Nat) (n : Int) : Int × TUVC :=
  ((writeTo tuvc.rchan buf n).1, { tuvc with rchan := (writeTo tuvc.rchan buf n).2 })

/-- The call `Tcl_Seek(tuvc->rchan, offset, mode)`. -/
def chanSeek (tuvc : TUVC) (offset : Int) (mode : SeekMode) : Int × TUVC :=
  ((seekTo tuvc.rchan offset mode).1, { tuvc with rchan := (seekTo tuvc.rchan offset mode).2 })

/-- The test `memcmp(&tuvc->avi.avi_hdrv.strh.handler, "MJPG", 4) == 0`. -/
def handlerIsMJPG (tuvc : TUVC) : Bool :=
  decide (fourcc tuvc.avi.avi_hdrv.strh.handler = ascii "MJPG")

/-- Memory image of an index buffer. -/
def idxImage (idx : List AVI_IDX) : List Nat :=
  (idx.map AVI_IDX.image).flatten

/-! ## The AVI writer -/

/-- First part of `WriteAVIHeader`: with `end` set and an index buffer present
the chunk `idx1` is written and the index flag set, otherwise the flag is
cleared. The second component is the local variable `idx_size`. -/
def writeIndexChunk (tuvc : TUVC) (end_ : Bool) : TUVC × Int :=
  if end_ && tuvc.avi.idx.isSome then
    let idx_size : Int := toInt32 (tuvc.avi.curr_idx * sizeof_AVI_IDX)
    let idxh : CHUNK_HDR := { id := ascii "idx1", size := PUT32LE idx_size }
    let w1 := chanWrite tuvc idxh.image sizeof_CHUNK_HDR
    let w2 := chanWrite w1.2 (idxImage (w1.2.avi.idx.getD [])) idx_size
    ({ w2.2 with avi := { w2.2.avi with avi_hdr := { w2.2.avi.avi_hdr with
          avih := { w2.2.avi.avi_hdr.avih with flags := PUT32LE 0x10 } } } },
     idx_size + sizeof_CHUNK_HDR)
  else
    ({ tuvc with avi := { tuvc.avi with avi_hdr := { tuvc.avi.avi_hdr with
          avih := { tuvc.avi.avi_hdr.avih with flags := PUT32LE 0 } } } }, 0)

/-- Second part of `WriteAVIHeader`: the header fields are brought up to
date (average frame rate for MJPG, sizes and frame counts). -/
def updateHeaderFields (avi : AVI) (mjpg : Bool) (idx_size : Int) : AVI :=
  let a2 : AVI :=
    if mjpg then
      let n : Int := toInt32 (avi.rate.tv_sec * 1000000 + avi.rate.tv_usec)
      { avi with
          avi_hdr := { avi.avi_hdr with
            avih := { avi.avi_hdr.avih with uspf := PUT32LE n } },
          avi_hdrv := { avi.avi_hdrv with
            strh := { avi.avi_hdrv.strh with scale := PUT32LE n } } }
    else avi
  let size_riff : Int := toInt32 (a2.hdrsize + a2.segsize0)
  let size_hdrl : Int := a2.hdrsize - 20
  let size_nframes0 : Int := toInt32 a2.nframes0
  let size_data : Int := toInt32 (a2.segsize0 + 4)
  let size_nframes : Int := toInt32 a2.nframes
  { a2 with
      avi_hdr := { a2.avi_hdr with
        riff_size := PUT32LE (size_riff + idx_size),
        hdrl_size := PUT32LE size_hdrl,
        avih := { a2.avi_hdr.avih with nframes := PUT32LE size_nframes0 } },
      avi_hdrv := { a2.avi_hdrv with
        strh := { a2.avi_hdrv.strh with length := PUT32LE size_nframes0 } },
      avi_data := { a2.avi_data with data_size := PUT32LE size_data },
      avi_hdro := { a2.avi_hdro with nframes := PUT32LE size_nframes } }

/-- Third part of `WriteAVIHeader`: the four header structures are written at
`pos0` and the channel is positioned back; only the last seek is checked. -/
def rewriteHeader (tuvc : TUVC) : TUVC :=
  let s1 := chanSeek tuvc 0 SEEK_CUR
  let pos := s1.1
  let s2 := chanSeek s1.2 s1.2.avi.pos0 SEEK_SET
  let w1 := chanWrite s2.2 s2.2.avi.avi_hdr.image sizeof_AVI_HDR
  let w2 := chanWrite w1.2 w1.2.avi.avi_hdrv.image sizeof_AVI_HDR_VIDEO
  let w3 := chanWrite w2.2 w2.2.avi.avi_hdro.image sizeof_AVI_HDR_ODML
  let w4 := chanWrite w3.2 w3.2.avi.avi_data.image sizeof_AVI_DATA
  let s3 := chanSeek w4.2 pos SEEK_SET
  if s3.1 = -1 then { s3.2 with rstate := REC_ERROR } else s3.2

/-- The function `WriteAVIHeader`: (re)write the AVI file header with the
current chunk sizes at the very begin of the AVI file. -/
def WriteAVIHeader (tuvc : TUVC) (end_ : Bool) : TUVC :=
  let s := writeIndexChunk tuvc end_
  let t3 : TUVC :=
    { s.1 with avi := updateHeaderFields s.1.avi (handlerIsMJPG s.1) s.2 }
  let t4 := rewriteHeader t3
  if end_ then
    { t4 with avi := { t4.avi with curr_idx := 0, num_idx := 0, idx := none } }
  else t4

/-- The constant `xhdr0` of `CloseAVISegment`. -/
def xhdr0 : AVIX_HDR :=
  { riff_id := ascii "RIFF", riff_size := 0, riff_type := ascii "AVIX",
    data_list_id := ascii "LIST", data_size := 0, data_type := ascii "movi" }

/-- The end of `CloseAVISegment`, after the closed segment was patched:
`segsize = 0; segstart = pos;`, the opener of the next segment unless `end`,
and the check `written != toWrite`. -/
def closeTail (tuvc : TUVC) (pos : Int) (end_ : Bool) (toWrite written : Int) : TUVC :=
  let t := { tuvc with avi := { tuvc.avi with segsize := 0, segstart := pos } }
  if !end_ && decide (written = toWrite) then
    let w := chanWrite t xhdr0.image sizeof_AVIX_HDR
    if w.1 ≠ (sizeof_AVIX_HDR : Int) then { w.2 with rstate := REC_ERROR } else w.2
  else if written ≠ toWrite then { t with rstate := REC_ERROR } else t

/-- The function `CloseAVISegment`: close the current and optionally start the
next 2G AVI segment in the output file. -/
def CloseAVISegment (tuvc : TUVC) (end_ : Bool) : TUVC :=
  let s0 := chanSeek tuvc 0 SEEK_CUR
  let pos := s0.1
  let t0 := s0.2
  if t0.avi.totsize > t0.avi.segsize then
    let s1 := chanSeek t0 t0.avi.segstart SEEK_SET
    let xhdr : AVIX_HDR :=
      { xhdr0 with riff_size := PUT32LE (s1.2.avi.segsize + 16),
                   data_size := PUT32LE (s1.2.avi.segsize + 4) }
    let w := chanWrite s1.2 xhdr.image sizeof_AVIX_HDR
    let s2 := chanSeek w.2 pos SEEK_SET
    closeTail s2.2 pos end_ (sizeof_AVIX_HDR : Int) w.1
  else
    let t1 := { t0 with avi := { t0.avi with nframes0 := t0.avi.nframes,
                                             segsize0 := t0.avi.segsize } }
    let t2 := WriteAVIHeader t1 false
    if t2.rstate = REC_ERROR then t2
    else closeTail t2 pos end_ 0 0

/-! ## Writing frames -/

/-- What `WriteFrame` obtains from its environment: the result of
`gettimeofday`, the JPEG data produced by the libuvc conversion chain of
`FrameToJPEG` (`none` when an allocation or a conversion fails), and
whether `attemptckrealloc` succeeds. -/
structure FrameEnv where
  now : timeval
  jpeg : Option (List Nat)
  reallocOk : Bool
  deriving DecidableEq, Repr

/-- The function `FrameToJPEG`: convert a frame to JPEG. The input frame must
not be JPEG yet; the result is the new frame or `none` (NULL) on error. -/
def FrameToJPEG (inp : uvc_frame) (jpeg : Option (List Nat)) : Option uvc_frame :=
  if inp.frame_format = UVC_FRAME_FORMAT_MJPEG then none
  else
    match jpeg with
    | none => none
    | some d => some { inp with data := d, frame_format := UVC_FRAME_FORMAT_MJPEG }

/-- The text `sprintf` produces for `%d`. -/
def fmt_d (i : Int) : List Nat :=
  if i < 0 then 45 :: ascii (Nat.repr (-i).toNat) else ascii (Nat.repr i.toNat)

/-- The end of `WriteFrame`:
`if (written != toWrite) tuvc->rstate = REC_ERROR;` and
`return (tuvc->rstate == REC_ERROR) ? -1 : 1;`. -/
def writeResult (tuvc : TUVC) (toWrite written : Int) : Int × TUVC :=
  let t := if written ≠ toWrite then { tuvc with rstate := REC_ERROR } else tuvc
  (if t.rstate = REC_ERROR then -1 else 1, t)

/-- Start of the streaming branch of `WriteFrame`: the frame that is written
(the given one if it is MJPEG, else its JPEG conversion); `none` when the
conversion fails. -/
def boundaryFrame (frame : uvc_frame) (env : FrameEnv) : Option uvc_frame :=
  if frame.frame_format ≠ UVC_FRAME_FORMAT_MJPEG then FrameToJPEG frame env.jpeg
  else some frame

/-- The part header of the streaming branch of `WriteFrame`: the boundary
string followed by the text `sprintf` puts into `buffer`. -/
def partHeader (rbdStr : List Nat) (fr : uvc_frame) : List Nat :=
  rbdStr ++ ([13, 10] ++ ascii "Content-type: image/jpeg" ++ [13, 10] ++
    ascii "Content-length: " ++ fmt_d (toInt32 fr.data_bytes) ++ [13, 10, 13, 10])

/-- The branch of `WriteFrame` for HTTP MJPEG streaming (a boundary string is
configured). The boundary string is extended by the part header for the write
and cut back to its length afterwards. -/
def writeBoundaryFrame (tuvc : TUVC) (frame : uvc_frame) (env : FrameEnv) : Int × TUVC :=
  match boundaryFrame frame env with
  | none => (-1, { tuvc with rstate := REC_ERROR })
  | some fr =>
    let toWrite : Int := (partHeader tuvc.rbdStr fr).length
    let w := chanWrite tuvc (partHeader tuvc.rbdStr fr) toWrite
    if w.1 = toWrite then
      let toWrite2 : Int := fr.data_bytes
      let w2 := chanWrite w.2 fr.data toWrite2
      writeResult w2.2 toWrite2 w2.1
    else writeResult w.2 toWrite w.1

/-- The constant `hdr0` of `WriteFrame`. -/
def hdr0 : CHUNK_HDR := { id := ascii "00db", size := 0 }

/-- The index update of `WriteFrame` ("Add index entry"). -/
def addIndexEntry (tuvc : TUVC) (sizea : Int) (env : FrameEnv) : TUVC :=
  let t1 : TUVC :=
    if tuvc.avi.curr_idx ≥ tuvc.avi.num_idx then
      let newsize : Int := tuvc.avi.num_idx + 512
      if env.reallocOk then
        { tuvc with avi := { tuvc.avi with
            num_idx := newsize,
            idx := some (List.takeD newsize.toNat (tuvc.avi.idx.getD []) AVI_IDX.zero) } }
      else
        { tuvc with avi := { tuvc.avi with curr_idx := 0, num_idx := 0, idx := none } }
    else tuvc
  match t1.avi.idx with
  | none => t1
  | some buf =>
    let entry : AVI_IDX :=
      { id := hdr0.id, flags := PUT32LE 0, offset := PUT32LE t1.avi.idx_off,
        size := PUT32LE sizea }
    { t1 with avi := { t1.avi with
        idx := some (buf.set t1.avi.curr_idx.toNat entry),
        curr_idx := t1.avi.curr_idx + 1,
        idx_off := toInt32 (t1.avi.idx_off + (sizea + sizeof_CHUNK_HDR)) } }

/-- Start of the AVI branch of `WriteFrame`: the frame that is written (the
given one or its JPEG conversion) and the local variable `size`; `none` when
the conversion fails. -/
def aviFrameSize (tuvc : TUVC) (frame : uvc_frame) (env : FrameEnv) :
    Option (uvc_frame × Int) :=
  if frame.frame_format = UVC_FRAME_FORMAT_MJPEG then
    some (frame, toInt32 frame.data_bytes)
  else if handlerIsMJPG tuvc then
    match FrameToJPEG frame env.jpeg with
    | none => none
    | some fr => some (fr, toInt32 fr.data_bytes)
  else some (frame, toInt32 (frame.height * frame.step))

/-- The three writes of the AVI branch of `WriteFrame`: chunk header, payload
and alignment to the next 32 bit boundary. The result holds the state and the
local variables `toWrite`, `written` and `fWritten`. -/
def writeChunk (tuvc : TUVC) (fr : uvc_frame) (size sizea : Int) : TUVC × Int × Int × Int :=
  let hdr : CHUNK_HDR := { hdr0 with size := PUT32LE sizea }
  let w1 := chanWrite tuvc hdr.image sizeof_CHUNK_HDR
  if w1.1 = (sizeof_CHUNK_HDR : Int) then
    let w2 := chanWrite w1.2 fr.data size
    if decide (w2.1 = size) && decide (sizea > size) then
      let w3 := chanWrite w2.2 [0, 0, 0, 0] (sizea - size)
      (w3.2, sizea - size, w3.1, w2.1)
    else (w2.2, size, w2.1, w2.1)
  else (w1.2, (sizeof_CHUNK_HDR : Int), w1.1, 0)

/-- The bookkeeping of the AVI branch of `WriteFrame` after the writes: the
frame count and the sizes are advanced; when the payload was written
completely the segment is rotated or an index entry is added. -/
def accountChunk (tuvc : TUVC) (size sizea fWritten : Int) (env : FrameEnv) : TUVC :=
  let t3 : TUVC :=
    { tuvc with avi := { tuvc.avi with
        nframes := tuvc.avi.nframes + 1,
        totsize := tuvc.avi.totsize + (sizea + sizeof_CHUNK_HDR),
        segsize := tuvc.avi.segsize + (sizea + sizeof_CHUNK_HDR) } }
  if fWritten = size then
    if t3.avi.segsize > 0x7F000000 then
      let c := CloseAVISegment t3 false
      { c with avi := { c.avi with curr_idx := 0, num_idx := 0, idx := none } }
    else if t3.avi.totsize = t3.avi.segsize then addIndexEntry t3 sizea env
    else t3
  else t3

/-- The block "Compute average frame rate" of `WriteFrame`. -/
def averageRate (avi : AVI) (diff : timeval) : AVI :=
  if avi.nframes = 0 then { avi with rate := diff }
  else
    { avi with rate :=
        { tv_sec := Int.tdiv (avi.rate.tv_sec + diff.tv_sec) 2,
          tv_usec := Int.tdiv (avi.rate.tv_usec + diff.tv_usec) 2 } }

/-- The branch of `WriteFrame` that writes a chunk of an AVI file. -/
def writeAVIFrame (tuvc : TUVC) (frame : uvc_frame) (diff : timeval) (env : FrameEnv) :
    Int × TUVC :=
  match aviFrameSize tuvc frame env with
  | none => (-1, { tuvc with rstate := REC_ERROR })
  | some (fr, size) =>
    let sizea : Int := toInt32 (size + 3) / 4 * 4
    let c := writeChunk tuvc fr size sizea
    let t4 := accountChunk c.1 size sizea c.2.2.2 env
    let t5 : TUVC := { t4 with avi := averageRate t4.avi diff }
    writeResult t5 c.2.1 c.2.2.1

/-- The time `WriteFrame` uses for its admission test: the value of `now`
after the comparison with the capture time of the frame (first timing block of
`WriteFrame`). -/
def effectiveNow (frame : uvc_frame) (env : FrameEnv) : timeval :=
  if tvPositive (tvDiff env.now frame.capture_time) then frame.capture_time
  else env.now

/-- The first statement of `WriteFrame`:
`if (tuvc->rchan == NULL) tuvc->rstate = REC_ERROR;`. -/
def noChannelCheck (tuvc : TUVC) : TUVC :=
  if tuvc.rchan.isNone then { tuvc with rstate := REC_ERROR } else tuvc

/-- The function `WriteFrame`: write the given frame onto the recording output
channel. The result is 1 if a frame was written, 0 if skipped due to timing
constraints, or -1 on write error. -/
def WriteFrame (tuvc : TUVC) (frame : uvc_frame) (env : FrameEnv) : Int × TUVC :=
  let t0 : TUVC := noChannelCheck tuvc
  let now : timeval := effectiveNow frame env
  if tvPositive (tvDiff t0.rtv now) then
    (if t0.rstate = REC_ERROR then -1 else 0, t0)
  else
    let diff := tvDiff now t0.ltv
    let t1 : TUVC := { t0 with rtv := tvAdvance now t0.rrate, ltv := now }
    if frame.data_bytes = 0 then (0, t1)
    else if t1.rstate = REC_ERROR then (-1, t1)
    else if t1.rbdStr.length > 0 then writeBoundaryFrame t1 frame env
    else writeAVIFrame t1 frame diff env

/-! ## Starting and finishing a recording -/

/-- The end of `FinishRecording`: a channel that is still set is closed, the
member is set to NULL and the writer state is zeroed. -/
def closeChannel (tuvc : TUVC) : TUVC :=
  match tuvc.rchan with
  | none => tuvc
  | some c => { tuvc with rchan := none, avi := AVI.zero, closed := c :: tuvc.closed }

/-- The function `FinishRecording`: close the recording channel and release
resources (the mutex operations selected by `lock` and `final` have no
effect on the data). -/
def FinishRecording (tuvc : TUVC) : TUVC :=
  let t1 : TUVC :=
    if tuvc.rchan.isSome && decide (tuvc.rbdStr.length = 0) then
      WriteAVIHeader (CloseAVISegment tuvc true) true
    else tuvc
  closeChannel { t1 with rbdStr := [] }

/-- The Tcl result code `TCL_OK`. -/
def TCL_OK : Int := 0

/-- The Tcl result code `TCL_ERROR`. -/
def TCL_ERROR : Int := 1

/-- The arguments of `record start` after option parsing, and the outcome of
the checks on the channel. `parseOk` says that the argument count and all
option values were accepted (including that the channel named by `-chan`
exists and is writable); `doMJPG` and `doUser` are the counters of the same
name; the value of `-fps`, a `double`, is the rational `rateNum / rateDen` (0
when the option is absent);
`rbdStr` is the value of `-boundary`; `chan` is the channel; `stacked` says
that the channel is part of a channel stack; `optionsOk` and `detachOk` give
the results of `Tcl_SetChannelOption` and `Tcl_DetachChannel`. -/
structure StartArgs where
  parseOk : Bool
  doMJPG : Nat
  doUser : Nat
  rateNum : Nat
  rateDen : Nat
  rbdStr : Option (List Nat)
  chan : Option Channel
  stacked : Bool
  optionsOk : Bool
  detachOk : Bool
  deriving DecidableEq, Repr

/-- The lookup `Tcl_FindHashEntry(&tuvc->fmts, usefmt)`. -/
def findFmt (fmts : List (Int × UFMT)) (k : Int) : Option UFMT :=
  match fmts.find? (fun e => decide (e.1 = k)) with
  | none => none
  | some e => some e.2

/-- Nearest integer to `a / b`, ties to the even integer: the rounding of IEEE
754 arithmetic in its default mode. -/
def roundHalfEven (a b : Nat) : Nat :=
  if 2 * (a % b) < b then a / b
  else if b < 2 * (a % b) then a / b + 1
  else if a / b % 2 = 0 then a / b else a / b + 1

/-- Position of the leading binary digit of `n` (0 for `n < 2`), by halving at
most `fuel` times; `fuel = n` suffices. -/
def log2Fuel : Nat → Nat → Nat
  | 0, _ => 0
  | fuel + 1, n => if n < 2 then 0 else log2Fuel fuel (n / 2) + 1

/-- The conversion to an integer type of the `double` quotient `x / y` of two
`double` values whose exact quotient is `p / q` (`q > 0`): the quotient is
rounded to 53 significant binary digits, ties to even, and the fraction is cut
off. Below 1 the only `double` that does not convert to 0 is 1.0 itself, the
result for `p / q ≥ 1 - 2^-54`. From `2^e ≤ p / q < 2^(e+1)` on, the `double`
values are the multiples of `2^(e-52)`. (For a quotient of `2^63` or more the
conversion to `long` is undefined in C; the value of the `double` stands for
it here.) -/
def doubleQuotTrunc (p q : Nat) : Nat :=
  if p < q then (if q * (2 ^ 54 - 1) ≤ p * 2 ^ 54 then 1 else 0)
  else
    let e := log2Fuel (p / q) (p / q)
    if e ≤ 52 then roundHalfEven (p * 2 ^ (52 - e)) q / 2 ^ (52 - e)
    else roundHalfEven p (q * 2 ^ (e - 52)) * 2 ^ (e - 52)

/-- The frame interval `StartRecording` computes from the requested rate and
the capture rate, before the 500 us are reserved. For a requested rate
`rate = rateNum / rateDen` with `0 < rate < fps` the members are the `double`
quotients `1.0 / rate` and `1000000.0 / rate`, converted to integers; else
they come from the integer divisions `1 / fps` and `1000000 / fps`. -/
def recordingInterval (fps : Int) (rateNum rateDen : Nat) : timeval :=
  if 0 < rateNum ∧ 0 < rateDen ∧ (rateNum : Int) < fps * rateDen then
    { tv_sec := ((doubleQuotTrunc rateDen rateNum : Nat) : Int),
      tv_usec := ((doubleQuotTrunc (1000000 * rateDen) rateNum : Nat) : Int) }
  else if fps ≤ 0 then { tv_sec := 1, tv_usec := 0 }
  else { tv_sec := Int.tdiv 1 fps, tv_usec := Int.tdiv 1000000 fps }

/-- The statements after "Reserve 500us for processing" in `StartRecording`. -/
def reserve500 (rrate : timeval) : timeval :=
  let usec := rrate.tv_usec - 500
  if usec < 0 then { tv_sec := rrate.tv_sec - 1, tv_usec := usec + 1000000 }
  else { tv_sec := rrate.tv_sec, tv_usec := usec }

/-- The block "Setup AVI writer" of `StartRecording`, up to and including the
reset of the index. -/
def setupAVI (tuvc : TUVC) (ufmt : UFMT) (doMJPG : Nat) (pos0 : Int) : TUVC :=
  let mjpg : Bool := ufmt.iscomp || decide (doMJPG ≠ 0)
  let n0 : Int := toInt32 (tuvc.rrate.tv_sec * 1000000 + tuvc.rrate.tv_usec)
  let n1 : Int :=
    if mjpg then Int.tdiv (toInt32 (24 * n0)) 1000
    else Int.tdiv (toInt32 (ufmt.bpp * n0)) 1000
  let n2 : Int := toInt32 (toInt32 (n1 * ufmt.width) * ufmt.height)
  let hdr : AVI_HDR :=
    { riff_id := ascii "RIFF", riff_size := 0, riff_type := ascii "AVI ",
      hdrl_list_id := ascii "LIST", hdrl_size := 0, hdrl_type := ascii "hdrl",
      avih_id := ascii "avih", avih_size := PUT32LE sizeof_RIFF_avih,
      avih := { RIFF_avih.zero with
        width := PUT32LE ufmt.width, height := PUT32LE ufmt.height,
        uspf := PUT32LE n0, bps := PUT32LE n2, nstreams := PUT32LE 1 } }
  let hdrv0 : AVI_HDR_VIDEO :=
    { strl_list_id := ascii "LIST",
      strl_size := PUT32LE (sizeof_RIFF_strh + sizeof_RIFF_strf_vids + 20),
      strl_type := ascii "strl", strh_id := ascii "strh",
      strh_size := PUT32LE sizeof_RIFF_strh,
      strh := { RIFF_strh.zero with type := ascii "vids" },
      strf_id := ascii "strf", strf_size := PUT32LE sizeof_RIFF_strf_vids,
      strf := RIFF_strf_vids.zero }
  let hdro : AVI_HDR_ODML :=
    { strl_list_id := ascii "LIST", strl_size := PUT32LE (4 + 12),
      strl_type := ascii "odml", strh_id := ascii "dmlh", strh_size := PUT32LE 4,
      nframes := 0 }
  let data : AVI_DATA :=
    { data_list_id := ascii "LIST", data_size := 0, data_type := ascii "movi" }
  let t1 : TUVC :=
    { tuvc with avi := { tuvc.avi with
        pos0 := pos0, avi_hdr := hdr, avi_hdrv := hdrv0, avi_hdro := hdro,
        avi_data := data } }
  let w1 := chanWrite t1 t1.avi.avi_hdr.image sizeof_AVI_HDR
  let t2 : TUVC := { w1.2 with avi := { w1.2.avi with hdrsize := toInt32 w1.1 } }
  let code : List Nat := if mjpg then ascii "MJPG" else fourcc ufmt.fourcc
  let hdrv : AVI_HDR_VIDEO :=
    { t2.avi.avi_hdrv with
      strh := { t2.avi.avi_hdrv.strh with
        handler := code, scale := PUT32LE n0, rate := PUT32LE 1000000 },
      strf := { t2.avi.avi_hdrv.strf with
        compr := code, size := PUT32LE sizeof_RIFF_strf_vids,
        width := PUT32LE ufmt.width, height := PUT32LE ufmt.height,
        planes := PUT16LE 1, bits := PUT16LE ufmt.bpp,
        image_size := PUT32LE (toInt32 (toInt32 (ufmt.bpp * ufmt.width) * ufmt.height)) } }
  let t3 : TUVC := { t2 with avi := { t2.avi with avi_hdrv := hdrv } }
  let w2 := chanWrite t3 t3.avi.avi_hdrv.image sizeof_AVI_HDR_VIDEO
  let t4 : TUVC :=
    { w2.2 with avi := { w2.2.avi with hdrsize := toInt32 (w2.2.avi.hdrsize + w2.1) } }
  let w3 := chanWrite t4 t4.avi.avi_hdro.image sizeof_AVI_HDR_ODML
  let t5 : TUVC :=
    { w3.2 with avi := { w3.2.avi with hdrsize := toInt32 (w3.2.avi.hdrsize + w3.1) } }
  let w4 := chanWrite t5 t5.avi.avi_data.image sizeof_AVI_DATA
  let t6 : TUVC := { w4.2 with avi := { w4.2.avi with segsize0 := 4 } }
  let t7 := WriteAVIHeader t6 false
  { t7 with avi := { t7.avi with curr_idx := 0, num_idx := 0, idx_off := 4, idx := none } }

/-- The end of `StartRecording`: the user flag and the recording state are
set from `doUser`, `running` and `conv`. -/
def startTarget (tuvc : TUVC) (doUser : Nat) : TUVC :=
  if doUser ≠ 0 then
    { tuvc with ruser := true,
                rstate := if tuvc.running then REC_RECORD else REC_PAUSE }
  else
    { tuvc with ruser := false,
                rstate :=
                  if tuvc.running then
                    (if tuvc.conv then REC_RECPRI else REC_RECORD)
                  else (if tuvc.conv then REC_PAUSEPRI else REC_PAUSE) }

/-- The part of `StartRecording` after the checks, from
`FinishRecording(tuvc, 0, 0)` to the end: `chan` is the detached channel,
`pos0` the position obtained for the header and `now` the result of
`gettimeofday`. -/
def beginRecording (tuvc : TUVC) (ufmt : UFMT) (args : StartArgs) (chan : Channel)
    (pos0 : Int) (now : timeval) : TUVC :=
  let t1 := FinishRecording tuvc
  let t2 : TUVC :=
    { t1 with rchan := some chan,
              rrate := recordingInterval t1.fps args.rateNum args.rateDen }
  let t3 : TUVC :=
    if (args.rbdStr.getD []).length > 0 then
      { t2 with rbdStr := t2.rbdStr ++ args.rbdStr.getD [] }
    else setupAVI t2 ufmt args.doMJPG pos0
  let t4 : TUVC := { t3 with rrate := reserve500 t3.rrate, ltv := now, rtv := now }
  startTarget t4 args.doUser

/-- The function `StartRecording`: prepare recording from the given parameters
(channel, mode, etc.); `now` is the result of `gettimeofday`. For an AVI file
(no boundary string) the position of the header is asked from the channel. -/
def StartRecording (tuvc : TUVC) (args : StartArgs) (now : timeval) : Int × TUVC :=
  if !args.parseOk then (TCL_ERROR, tuvc)
  else
    match findFmt tuvc.fmts tuvc.usefmt with
    | none => (TCL_ERROR, tuvc)
    | some ufmt =>
      match args.chan with
      | none => (TCL_ERROR, tuvc)
      | some chan0 =>
        if args.stacked then (TCL_ERROR, tuvc)
        else if !args.optionsOk then (TCL_ERROR, tuvc)
        else if (args.rbdStr.getD []).length = 0 then
          if (Tcl_Seek chan0 0 SEEK_CUR).1 = -1 then (TCL_ERROR, tuvc)
          else if !args.detachOk then (TCL_ERROR, tuvc)
          else
            (TCL_OK, beginRecording tuvc ufmt args (Tcl_Seek chan0 0 SEEK_CUR).2
              (Tcl_Seek chan0 0 SEEK_CUR).1 now)
        else if !args.detachOk then (TCL_ERROR, tuvc)
        else (TCL_OK, beginRecording tuvc ufmt args chan0 0 now)

/-- What `RecordFrameFromData` obtains from its caller and environment:
`parseOk` says that the argument count and the three integers were accepted;
`allocOk` that `uvc_allocate_frame` succeeds; `ctime` is the result of the
call of `gettimeofday` that stamps the frame. -/
structure FrameArgs where
  parseOk : Bool
  width : Int
  height : Int
  bpp : Int
  data : List Nat
  allocOk : Bool
  ctime : timeval
  deriving DecidableEq, Repr

/-- The function `RecordFrameFromData`: write a single frame from byte array
data. The second component is the value left as the Tcl result (the result of
`WriteFrame`) when the command succeeds. -/
def RecordFrameFromData (tuvc : TUVC) (args : FrameArgs) (env : FrameEnv) :
    Int × Option Int × TUVC :=
  if !args.parseOk then (TCL_ERROR, none, tuvc)
  else
    match findFmt tuvc.fmts tuvc.usefmt with
    | none => (TCL_ERROR, none, tuvc)
    | some ufmt =>
      if (args.data.length : Int) < toInt32 (toInt32 (args.width * args.height) * args.bpp) ∨
          args.width ≠ ufmt.width ∨ args.height ≠ ufmt.height then
        (TCL_ERROR, none, tuvc)
      else if !tuvc.ruser ∨ (tuvc.rstate ≠ REC_RECORD ∧ tuvc.rstate ≠ REC_PAUSE) then
        (TCL_ERROR, none, tuvc)
      else if !args.allocOk then (TCL_ERROR, none, tuvc)
      else
        let frame : uvc_frame :=
          { data := args.data,
            width := (args.width % 4294967296).toNat,
            height := (args.height % 4294967296).toNat,
            step := (toInt32 (args.width * args.bpp) % 18446744073709551616).toNat,
            frame_format :=
              if args.bpp = 1 then UVC_FRAME_FORMAT_GRAY8
              else if args.bpp = 2 then UVC_FRAME_FORMAT_GRAY16
              else UVC_FRAME_FORMAT_RGB,
            capture_time := args.ctime }
        let r := WriteFrame tuvc frame env
        (TCL_OK, some r.1, r.2)

/-! ## Capture: frame hand-off -/

/-- The critical section of `FrameCallback` that hands the frame over: the
frame is stored in `tuvc->frame`, a frame still held there is replaced (and
freed by the caller afterwards) and counted as dropped, the capture counter is
incremented, and an event is queued when none is outstanding. -/
def publish (tuvc : TUVC) (newFrame : uvc_frame) : TUVC :=
  let t1 : TUVC :=
    match tuvc.frame with
    | some _ => { tuvc with frame := some newFrame, counters2 := tuvc.counters2 + 1 }
    | none => { tuvc with frame := some newFrame }
  let t2 : TUVC := { t1 with counters0 := t1.counters0 + 1 }
  if t2.tid && decide (t2.numev = 0) then
    { t2 with evq := t2.evq ++ [true], numev := t2.numev + 1 }
  else t2

/-- What `FrameCallback` obtains from its environment: the environment of
`WriteFrame` and the data produced by the early conversion (`none` when the
allocation or the conversion fails). -/
structure CallbackEnv where
  wf : FrameEnv
  early : Option (List Nat)
  deriving DecidableEq, Repr

/-- First part of `FrameCallback`: in state `REC_RECPRI` the frame is written
on the capture thread (the result of `WriteFrame` is not used). -/
def recordInline (tuvc : TUVC) (frame : uvc_frame) (env : FrameEnv) : TUVC :=
  if tuvc.rstate = REC_RECPRI then (WriteFrame tuvc frame env).2 else tuvc

/-- Second part of `FrameCallback`: with early conversion a frame that is
neither GRAY8 nor RGB is converted (GRAY16 to GRAY8, everything else to RGB);
`none` when the allocation or the conversion fails. -/
def earlyFrame (conv : Bool) (frame : uvc_frame) (early : Option (List Nat)) :
    Option uvc_frame :=
  if conv ∧ frame.frame_format ≠ UVC_FRAME_FORMAT_GRAY8 ∧
      frame.frame_format ≠ UVC_FRAME_FORMAT_RGB then
    match early with
    | none => none
    | some d =>
      if frame.frame_format = UVC_FRAME_FORMAT_GRAY16 then
        some { frame with data := d, frame_format := UVC_FRAME_FORMAT_GRAY8,
                          step := frame.width }
      else
        some { frame with data := d, frame_format := UVC_FRAME_FORMAT_RGB,
                          step := frame.width * 3 }
  else some frame

/-- The function `FrameCallback`, invoked by the libuvc thread for every
captured frame: nothing happens without a thread id; the frame is recorded in
priority mode, converted if early conversion is on, and handed over. -/
def FrameCallback (tuvc : TUVC) (frame : uvc_frame) (env : CallbackEnv) : TUVC :=
  if !tuvc.tid then tuvc
  else
    match earlyFrame (recordInline tuvc frame env.wf).conv frame env.early with
    | none => recordInline tuvc frame env.wf
    | some newFrame => publish (recordInline tuvc frame env.wf) newFrame

/-- The function `StopCapture`: stop capture if running; events in flight are
invalidated. -/
def StopCapture (tuvc : TUVC) : Int × TUVC :=
  let t1 : TUVC :=
    if tuvc.running then
      let t := { tuvc with tid := false, idleCall := false, running := false }
      if t.rstate = REC_RECPRI then { t with rstate := REC_PAUSEPRI }
      else if t.rstate = REC_RECORD then { t with rstate := REC_PAUSE }
      else t
    else tuvc
  (TCL_OK, { t1 with evq := t1.evq.map (fun _ => false) })

/-- What `StartCapture` obtains from its environment: whether the format
negotiation and `uvc_start_streaming` succeed, and the result of
`gettimeofday`. -/
structure CaptureEnv where
  formatOk : Bool
  streamOk : Bool
  now : timeval
  deriving DecidableEq, Repr

/-- The function `StartCapture`: set up image acquisition and start UVC
streaming. -/
def StartCapture (tuvc : TUVC) (env : CaptureEnv) : Int × TUVC :=
  if tuvc.running then (TCL_OK, tuvc)
  else if !env.formatOk then (TCL_ERROR, tuvc)
  else
    let t1 : TUVC :=
      { tuvc with running := true, counters0 := 0, counters1 := 0, counters2 := 0,
                  tid := true, numev := 0 }
    if !env.streamOk then (TCL_ERROR, { t1 with running := false, tid := false })
    else if t1.rstate = REC_PAUSEPRI then
      (TCL_OK, { t1 with ltv := env.now, rtv := env.now, rstate := REC_RECPRI })
    else if t1.rstate = REC_PAUSE then
      (TCL_OK, { t1 with ltv := env.now, rtv := env.now, rstate := REC_RECORD })
    else (TCL_OK, t1)

/-- First part of `FrameReady`: in idle mode the count of outstanding events
is cleared. -/
def clearOutstanding (tuvc : TUVC) : TUVC :=
  if tuvc.idle then { tuvc with numev := 0 } else tuvc

/-- Second part of `FrameReady`: in deferred recording mode (not user mode,
state `REC_RECORD`) the held frame is taken out, written and put back when the
slot is still empty. -/
def deferredWrite (tuvc : TUVC) (env : FrameEnv) : TUVC :=
  if !tuvc.ruser ∧ tuvc.rstate = REC_RECORD then
    match tuvc.frame with
    | none => tuvc
    | some frame =>
      let w := (WriteFrame { tuvc with frame := none } frame env).2
      -- put back last frame
      match w.frame with
      | none => { w with frame := some frame }
      | some _ => w
  else tuvc

/-- Third part of `FrameReady`: unless the slot is empty the Tcl callback is
evaluated; when it fails the capture is stopped. -/
def runCallback (tuvc : TUVC) (script : TUVC → Int × TUVC) : TUVC :=
  match tuvc.frame with
  | none => tuvc
  | some _ =>
    if (script tuvc).1 ≠ TCL_OK then (StopCapture (script tuvc).2).2 else (script tuvc).2

/-- The function `FrameReady`: a frame became ready. In deferred recording
mode the held frame is written; then the Tcl callback is evaluated. The
callback is the function `script`, which yields the Tcl result code of the
script and the state its commands leave. -/
def FrameReady (tuvc : TUVC) (env : FrameEnv) (script : TUVC → Int × TUVC) : TUVC :=
  runCallback (deferredWrite (clearOutstanding tuvc) env) script

/-- The body of `FrameReady0` for an event whose `tuvc` pointer is still set. -/
def handleEvent (tuvc : TUVC) (env : FrameEnv) (script : TUVC → Int × TUVC) : TUVC :=
  if tuvc.tid then
    if tuvc.idle then { tuvc with idleCall := true }
    else FrameReady { tuvc with numev := tuvc.numev - 1 } env script
  else { tuvc with numev := 0 }

/-- The function `FrameReady0`, the handler of the event queued by
`FrameCallback`; it is applied to the oldest event of the queue. An event that
was invalidated is dropped. -/
def FrameReady0 (tuvc : TUVC) (env : FrameEnv) (script : TUVC → Int × TUVC) : TUVC :=
  match tuvc.evq with
  | [] => tuvc
  | valid :: rest =>
    if valid then handleEvent { tuvc with evq := rest } env script
    else { tuvc with evq := rest }

/-- The do-when-idle call of `FrameReady` scheduled by `FrameReady0`. -/
def idleFrameReady (tuvc : TUVC) (env : FrameEnv) (script : TUVC → Int × TUVC) : TUVC :=
  if tuvc.idleCall then FrameReady { tuvc with idleCall := false } env script
  else tuvc

/-- The handling of the parameter `update-mode` in `SetControls`. -/
def SetControls_update_mode (tuvc : TUVC) (flag : Bool) : TUVC :=
  if flag ≠ tuvc.idle then { tuvc with idleCall := false, numev := 0, idle := flag }
  else tuvc

/-- What `GetImage` obtains from its caller and environment: whether a photo
image name was given and the Tk checks on it succeed, the data produced by the
conversion to RGB or GRAY8 (`none` when allocation or conversion fails), and
the results of `Tk_PhotoExpand` and `Tk_PhotoPutBlock`. -/
structure ImageEnv where
  photo : Bool
  tkOk : Bool
  conv : Option (List Nat)
  expandOk : Bool
  putOk : Bool
  deriving DecidableEq, Repr

/-- The label `done` of `GetImage`: the frame is put back when the slot is
still empty and the delivery counter is incremented when an image was
delivered. The middle component is the delivered frame. -/
def getImageDone (tuvc : TUVC) (frame : Option uvc_frame) (done : Bool) (result : Int) :
    Int × Option uvc_frame × TUVC :=
  let t1 : TUVC :=
    match frame, tuvc.frame with
    | some f, none => { tuvc with frame := some f }
    | _, _ => tuvc
  let t2 : TUVC := if done then { t1 with counters1 := t1.counters1 + 1 } else t1
  (result, if done then frame else none, t2)

/-- The label `noImage` of `GetImage`. -/
def getImageNoImage (tuvc : TUVC) (frame : Option uvc_frame) (photo : Bool) :
    Int × Option uvc_frame × TUVC :=
  getImageDone tuvc frame false (if photo then TCL_OK else TCL_ERROR)

/-- The tail of `GetImage` from the test `if (photo != NULL)` on, for a frame
in RGB, GRAY8 or (byte array only) GRAY16 format. -/
def getImageDeliver (tuvc : TUVC) (frame : uvc_frame) (env : ImageEnv) :
    Int × Option uvc_frame × TUVC :=
  if env.photo then
    if !env.expandOk then getImageDone tuvc (some frame) false TCL_ERROR
    else if !env.putOk then getImageDone tuvc (some frame) false TCL_ERROR
    else getImageDone tuvc (some frame) true TCL_OK
  else getImageDone tuvc (some frame) true TCL_OK

/-- The function `GetImage`: retrieve the last captured frame as photo image or
byte array. The middle component of the result is the frame whose pixels were
delivered, if any. -/
def GetImage (tuvc : TUVC) (env : ImageEnv) : Int × Option uvc_frame × TUVC :=
  if env.photo && !env.tkOk then (TCL_ERROR, none, tuvc)
  else
    -- temporarily take out last frame
    let t0 : TUVC := { tuvc with frame := none }
    match tuvc.frame with
    | none => getImageNoImage t0 none env.photo
    | some frame =>
      if !env.photo ∧ frame.frame_format = UVC_FRAME_FORMAT_GRAY16 then
        getImageDone t0 (some frame) true TCL_OK
      else if frame.frame_format ≠ UVC_FRAME_FORMAT_RGB ∧
          frame.frame_format ≠ UVC_FRAME_FORMAT_GRAY8 then
        if frame.frame_format = UVC_FRAME_FORMAT_OTHER then
          getImageNoImage t0 (some frame) env.photo
        else
          match env.conv with
          | none => getImageNoImage t0 (some frame) env.photo
          | some d =>
            let newFrame : uvc_frame :=
              if frame.frame_format = UVC_FRAME_FORMAT_GRAY16 then
                { frame with data := d, frame_format := UVC_FRAME_FORMAT_GRAY8,
                             step := frame.width }
              else
                { frame with data := d, frame_format := UVC_FRAME_FORMAT_RGB,
                             step := frame.width * 3 }
            getImageDeliver t0 newFrame env
      else getImageDeliver t0 frame env

/-! ## The command surface -/

/-- The state of a freshly opened device (`CMD_open`): the structure is zeroed
and the members below are set; `fmts` is the format table `InitControls`
builds, whose entry 0 (if any) presets size, rate and compression. -/
def openDevice (fmts : List (Int × UFMT)) : TUVC :=
  let base : TUVC :=
    { running := false, frame := none, tid := false, evq := [], numev := 0,
      idle := false, idleCall := false, width := 640, height := 480, conv := true,
      fps := 30, usefmt := 0, iscomp := false, greyshift := 4, fmts := fmts,
      counters0 := 0, counters1 := 0, counters2 := 0,
      rstate := REC_STOP, ruser := false, rchan := none, rbdStr := [],
      rrate := { tv_sec := 0, tv_usec := 0 }, rtv := { tv_sec := 0, tv_usec := 0 },
      ltv := { tv_sec := 0, tv_usec := 0 }, avi := AVI.zero, closed := [] }
  match findFmt fmts 0 with
  | none => base
  | some ufmt0 =>
    { base with width := ufmt0.width, height := ufmt0.height, fps := ufmt0.fps,
                usefmt := 0, iscomp := ufmt0.iscomp }

/-- The commands of `UvcObjCmd` that act on the capture and recording state of
an open device, with their parsed arguments and the environment they use.
`CMD_convmode none` and `CMD_format none` are the queries. -/
inductive Command where
  | CMD_close
  | CMD_convmode (flag : Option Bool)
  | CMD_format (arg : Option (Int × Int))
  | CMD_image (env : ImageEnv)
  | CMD_parameters_update_mode (flag : Bool)
  | CMD_record_frame (args : FrameArgs) (env : FrameEnv)
  | CMD_record_pause
  | CMD_record_resume (now : timeval)
  | CMD_record_start (args : StartArgs) (now : timeval)
  | CMD_record_state
  | CMD_record_stop
  | CMD_start (env : CaptureEnv)
  | CMD_stop
  deriving DecidableEq, Repr

open Command

/-- The frame rate selection of the `format` command: the first entry of the
zero terminated `fpsList` that is not above the requested rate, or the last
entry before the terminator. -/
def selectFps (ufmt : UFMT) (fps : Int) : Int :=
  if fps > 0 ∧ ufmt.fpsList.getD 0 0 > 0 then
    let k := (ufmt.fpsList.takeWhile (fun r => decide (r > fps))).length
    if ufmt.fpsList.getD k 0 > 0 then ufmt.fpsList.getD k 0
    else if k ≥ 1 then ufmt.fpsList.getD (k - 1) 0
    else ufmt.fps
  else ufmt.fps

/-- The text the `record state` command leaves as result. -/
def recordStateName : RecState → String
  | REC_STOP => "stop"
  | REC_RECPRI => "recording"
  | REC_RECORD => "recording"
  | REC_PAUSEPRI => "pause"
  | REC_PAUSE => "pause"
  | REC_ERROR => "error"

/-- The function `UvcObjCmd` for a device that is found in the table of open
devices: the Tcl result code, the text left as result by the state query and
by failing `pause` / `resume`, and the new state. -/
def UvcObjCmd (tuvc : TUVC) : Command → Int × String × TUVC
  | CMD_close =>
    (TCL_OK, "", FinishRecording (StopCapture tuvc).2)
  | CMD_convmode none => (TCL_OK, "", tuvc)
  | CMD_convmode (some conv) =>
    let t1 : TUVC := if tuvc.conv ≠ conv then FinishRecording tuvc else tuvc
    (TCL_OK, "", { t1 with conv := conv })
  | CMD_format none => (TCL_OK, "", tuvc)
  | CMD_format (some (k, fps)) =>
    match findFmt tuvc.fmts k with
    | none => (TCL_ERROR, "", tuvc)
    | some ufmt =>
      if tuvc.running then (TCL_ERROR, "capture still running", tuvc)
      else
        -- stop recording due to format change
        let t1 : TUVC :=
          if tuvc.rstate.code > REC_STOP.code then { tuvc with rstate := REC_STOP }
          else tuvc
        let t2 := FinishRecording t1
        (TCL_OK, "",
          { t2 with width := ufmt.width, height := ufmt.height, usefmt := k,
                    fps := selectFps ufmt fps, iscomp := ufmt.iscomp })
  | CMD_image env =>
    let r := GetImage tuvc env
    (r.1, "", r.2.2)
  | CMD_parameters_update_mode flag =>
    (TCL_OK, "", SetControls_update_mode tuvc flag)
  | CMD_record_frame args env =>
    let r := RecordFrameFromData tuvc args env
    (r.1, "", r.2.2)
  | CMD_record_pause =>
    if tuvc.rstate = REC_RECPRI then (TCL_OK, "", { tuvc with rstate := REC_PAUSEPRI })
    else if tuvc.rstate = REC_RECORD then (TCL_OK, "", { tuvc with rstate := REC_PAUSE })
    else if tuvc.rstate ≠ REC_PAUSEPRI ∧ tuvc.rstate ≠ REC_PAUSE then
      (TCL_ERROR, "wrong recording state for pause", tuvc)
    else (TCL_OK, "", tuvc)
  | CMD_record_resume now =>
    if tuvc.rstate = REC_PAUSEPRI then
      if tuvc.running then
        (TCL_OK, "", { tuvc with ltv := now, rtv := now, rstate := REC_RECPRI })
      else (TCL_OK, "", tuvc)
    else if tuvc.rstate = REC_PAUSE then
      if tuvc.running then
        (TCL_OK, "", { tuvc with ltv := now, rtv := now, rstate := REC_RECORD })
      else (TCL_OK, "", tuvc)
    else if tuvc.rstate ≠ REC_RECPRI ∧ tuvc.rstate ≠ REC_RECORD then
      (TCL_ERROR, "wrong recording state for resume", tuvc)
    else (TCL_OK, "", tuvc)
  | CMD_record_start args now =>
    let r := StartRecording tuvc args now
    (r.1, "", r.2)
  | CMD_record_state => (TCL_OK, recordStateName tuvc.rstate, tuvc)
  | CMD_record_stop =>
    let t1 : TUVC :=
      if tuvc.rstate.code > REC_STOP.code then { tuvc with rstate := REC_STOP }
      else tuvc
    (TCL_OK, "", FinishRecording t1)
  | CMD_start env =>
    let r := StartCapture tuvc env
    (r.1, "", r.2)
  | CMD_stop =>
    let r := StopCapture tuvc
    (r.1, "", r.2)

/-- The members of the recording session other than the recording state and
the two governor timestamps: channel, user flag, interval, boundary string and
the writer state (sizes, frame counts, headers, index). -/
def sessionOf (t : TUVC) : Option Channel × Bool × timeval × List Nat × AVI :=
  (t.rchan, t.ruser, t.rrate, t.rbdStr, t.avi)

/-- Number of frames of a delivery sequence that `WriteFrame` writes (result
1); each frame comes with the environment of its call. -/
def admittedCount : TUVC → List (uvc_frame × FrameEnv) → Nat
  | _, [] => 0
  | s, fe :: rest =>
    (if (WriteFrame s fe.1 fe.2).1 = 1 then 1 else 0) +
      admittedCount (WriteFrame s fe.1 fe.2).2 rest

/-! ## Predicates used in the properties -/

/-- `ioStep a b`: `a` arises from `b` by a step of the writer: the structures
agree outside the AVI writer state, the channel and the recording state; the
channel is NULL in both or in none; the recording state is kept or becomes
`REC_ERROR`. -/
def ioStep (a b : TUVC) : Prop :=
  ∃ (avi : AVI) (rchan : Option Channel) (rstate : RecState),
    a = { b with avi := avi, rchan := rchan, rstate := rstate } ∧
    rchan.isSome = b.rchan.isSome ∧ (rstate = b.rstate ∨ rstate = REC_ERROR)

/-- `recStep a b`: `a` arises from `b` by a call of `WriteFrame`: as `ioStep`,
and the two governor timestamps may change as well. -/
def recStep (a b : TUVC) : Prop :=
  ∃ (avi : AVI) (rchan : Option Channel) (rstate : RecState) (rtv ltv : timeval),
    a = { b with avi := avi, rchan := rchan, rstate := rstate, rtv := rtv, ltv := ltv } ∧
    rchan.isSome = b.rchan.isSome ∧ (rstate = b.rstate ∨ rstate = REC_ERROR)

/-- The recording state `StartRecording` selects. -/
def startState (running conv : Bool) (doUser : Nat) : RecState :=
  if doUser ≠ 0 then (if running then REC_RECORD else REC_PAUSE)
  else if running then (if conv then REC_RECPRI else REC_RECORD)
  else (if conv then REC_PAUSEPRI else REC_PAUSE)

/-- The channel is set and both of its scripts are empty: every coming write
and seek succeeds. -/
def chanGood (c : Option Channel) : Prop :=
  ∃ ch, c = some ch ∧ ch.wscript = [] ∧ ch.sscript = []

/-- `ioOk t`: the session writes to a sink on which every call succeeds, the
header origin and the segment start are valid positions, and the recording
state is not `REC_ERROR`. -/
def ioOk (t : TUVC) : Prop :=
  chanGood t.rchan ∧ 0 ≤ t.avi.pos0 ∧ 0 ≤ t.avi.segstart ∧ t.rstate ≠ REC_ERROR

/-- The index counter is in the range in which the size of the index chunk is
a non-negative `int`. -/
def idxOk (t : TUVC) : Prop := 0 ≤ t.avi.curr_idx ∧ t.avi.curr_idx * 16 < 2147483648

/-- The frame can be written without conversion failure and its sizes fit the
`int` variables of `WriteFrame`. -/
def frameOk (f : uvc_frame) (env : FrameEnv) : Prop :=
  f.data_bytes ≠ 0 ∧ (f.data_bytes : Int) + 3 < 2147483648 ∧
  ((f.height * f.step : Nat) : Int) + 3 < 2147483648 ∧
  (f.frame_format = UVC_FRAME_FORMAT_MJPEG ∨
    ∃ d, env.jpeg = some d ∧ (d.length : Int) + 3 < 2147483648)

/-- The invariant of the data model: with a NULL channel the recording state is
`REC_STOP` or `REC_ERROR`. -/
def sinkInv (t : TUVC) : Prop :=
  t.rchan = none → (t.rstate = REC_STOP ∨ t.rstate = REC_ERROR)

/-! ## Sample data -/

/-- A successful capture start at time 0. -/
def captureOk : CaptureEnv :=
  { formatOk := true, streamOk := true, now := { tv_sec := 0, tv_usec := 0 } }

/-- A small RGB test frame, identified by its single data byte `tag`, captured
at `t` microseconds. -/
def sampleFrame (tag : Nat) (t : Int) : uvc_frame :=
  { data := [tag, 0, 0, 0], width := 1, height := 1,
    frame_format := UVC_FRAME_FORMAT_RGB, step := 4,
    capture_time := { tv_sec := t / 1000000, tv_usec := t % 1000000 } }

/-- A freshly opened device on which capture was started. -/
def capturing : TUVC := (StartCapture (openDevice []) captureOk).2

/-- A format table with one uncompressed 640x480 format at 25 frames per
second. -/
def sampleFmts : List (Int × UFMT) :=
  [(0, { width := 640, height := 480, fps := 25, iscomp := false, bpp := 16,
         fourcc := ascii "YUY2", fpsList := [25, 10] })]

/-- An empty random access channel on which every call succeeds. -/
def emptyChannel : Channel := { bytes := [], pos := 0, wscript := [], sscript := [] }

/-- The arguments of `record start -chan c -fps rate` for an AVI file. -/
def aviStart (c : Channel) (rate : Nat) : StartArgs :=
  { parseOk := true, doMJPG := 0, doUser := 0, rateNum := rate, rateDen := 1,
    rbdStr := none, chan := some c, stacked := false, optionsOk := true,
    detachOk := true }

/-- The time `t` microseconds as a `timeval`. -/
def atMicros (t : Int) : timeval := { tv_sec := t / 1000000, tv_usec := t % 1000000 }

/-- The state after `record start -chan c -fps 10` on a freshly opened device
at time 0: an AVI recording that waits for the capture to start. -/
def recordingPaused : TUVC :=
  (StartRecording (openDevice sampleFmts) (aviStart emptyChannel 10) (atMicros 0)).2

/-- A device with the sample format table on which capture was started. -/
def capturingFmt : TUVC := (StartCapture (openDevice sampleFmts) captureOk).2

/-- The state after `record start -chan c -fps 10` at time 0 while capture is
running: frames are recorded on the capture thread (`REC_RECPRI`). -/
def recordingRunning : TUVC :=
  (StartRecording capturingFmt (aviStart emptyChannel 10) (atMicros 0)).2

/-- The state after `record pause` while capture is running. -/
def pausedWhileRunning : TUVC := (UvcObjCmd recordingRunning CMD_record_pause).2.2

/-- A channel that accepts the header block of an AVI file (the eight writes
of `StartRecording`) and nothing afterwards. -/
def fullChannel : Channel :=
  { bytes := [], pos := 0, wscript := [88, 116, 24, 12, 88, 116, 24, 12, 0], sscript := [] }

/-- An environment of `FrameCallback` at `t` microseconds in which every
conversion and allocation succeeds. -/
def callbackAt (t : Int) : CallbackEnv :=
  { wf := { now := atMicros t, jpeg := some [255, 216, 255, 217], reallocOk := true },
    early := some [0, 0, 0] }

/-- The state after a frame was delivered to a recording on `fullChannel`: the
chunk header could not be written, the recording state is `REC_ERROR`. -/
def recordingFailed : TUVC :=
  FrameCallback (StartRecording capturingFmt (aviStart fullChannel 10) (atMicros 0)).2
    (sampleFrame 1 40000) (callbackAt 40000)

/-- The `i`-th frame of a live stream with period `p` microseconds that starts
at `t0`: captured at `t0 + i * p`, delivered at the same wall-clock time. -/
def liveFrame (t0 p : Int) (i : Nat) : uvc_frame × FrameEnv :=
  (sampleFrame i (t0 + i * p), (callbackAt (t0 + i * p)).wf)

/-- The state after the first frame of `recordingRunning` was delivered at
40 ms and written. -/
def afterFirstFrame : TUVC :=
  FrameCallback recordingRunning (sampleFrame 1 40000) (callbackAt 40000)

/-- A request for the last frame as byte array. -/
def byteArrayEnv : ImageEnv :=
  { photo := false, tkOk := true, conv := none, expandOk := true, putOk := true }

/-! ## Sink contents and parts of the writer -/

/-- The channel after a write that is accepted in full: the bytes `buf` are
stored at the access position, which moves behind them. -/
def Channel.put (c : Channel) (buf : List Nat) : Channel :=
  { c with bytes := storeAt c.bytes c.pos buf, pos := c.pos + buf.length }

/-- The header block of an AVI file as it lies in the sink: the images of the
four header structures in the order in which `StartRecording` and
`WriteAVIHeader` write them (240 bytes). -/
def headerBlock (avi : AVI) : List Nat :=
  avi.avi_hdr.image ++ avi.avi_hdrv.image ++ avi.avi_hdro.image ++ avi.avi_data.image

/-- The writer state after the field updates of `WriteAVIHeader`: the index
flag is `flags` and the sizes and frame counts are patched for an index chunk
of `idx_size` bytes. -/
def patchedAvi (t : TUVC) (flags : Nat) (idx_size : Int) : AVI :=
  updateHeaderFields
    { t.avi with avi_hdr := { t.avi.avi_hdr with
        avih := { t.avi.avi_hdr.avih with flags := flags } } }
    (handlerIsMJPG t) idx_size

/-- The index chunk `WriteAVIHeader` appends for the first `k` entries of the
index buffer `buf`: the id `idx1`, the size and the entries. -/
def indexChunk (buf : List AVI_IDX) (k : Nat) : List Nat :=
  ({ id := ascii "idx1", size := PUT32LE (16 * (k : Int)) } : CHUNK_HDR).image ++
    idxImage (buf.take k)

/-- The writer state with which `CloseAVISegment` rewrites the file header when
it closes the first segment: frame count and size of the segment are taken
over into `nframes0` and `segsize0` and the header fields are patched. -/
def firstClosed (t : TUVC) : AVI :=
  patchedAvi { t with avi := { t.avi with nframes0 := t.avi.nframes,
                                          segsize0 := t.avi.segsize } } (PUT32LE 0) 0

/-- The segment header with which `CloseAVISegment` patches the opener of a
later segment of `segsize` bytes. -/
def segmentHeader (segsize : Int) : AVIX_HDR :=
  { xhdr0 with riff_size := PUT32LE (segsize + 16), data_size := PUT32LE (segsize + 4) }

/-- The chunk of an AVI file that holds a frame: the chunk header `00db` with
the padded size `sizea`, the `size` payload bytes and the zero bytes that pad
the payload to `sizea` bytes. Where the data of the frame hold fewer than
`size` bytes, 0 stands for the bytes that `Tcl_WriteRaw` takes from behind
them. -/
def frameChunk (fr : uvc_frame) (size sizea : Int) : List Nat :=
  ({ hdr0 with size := PUT32LE sizea } : CHUNK_HDR).image ++
    List.takeD size.toNat fr.data 0 ++ List.replicate (sizea - size).toNat 0

/-- The part of a multipart stream that carries one JPEG image: the boundary
string, the two header lines with the length in decimal, an empty line. -/
def partText (boundary : List Nat) (n : Nat) : List Nat :=
  boundary ++ ([13, 10] ++ ascii "Content-type: image/jpeg" ++ [13, 10] ++
    ascii "Content-length: " ++ ascii (Nat.repr n) ++ [13, 10, 13, 10])

/-- A `timeval` in microseconds. -/
def micros (tv : timeval) : Int := tv.tv_sec * 1000000 + tv.tv_usec

/-- First step of the block "Setup AVI writer" of `StartRecording`: the
header structures are initialised from the constant templates, the frame size
and the frame interval. -/
def initHeaders (tuvc : TUVC) (ufmt : UFMT) (doMJPG : Nat) (pos0 : Int) : TUVC :=
  let mjpg : Bool := ufmt.iscomp || decide (doMJPG ≠ 0)
  let n0 : Int := toInt32 (tuvc.rrate.tv_sec * 1000000 + tuvc.rrate.tv_usec)
  let n1 : Int :=
    if mjpg then Int.tdiv (toInt32 (24 * n0)) 1000
    else Int.tdiv (toInt32 (ufmt.bpp * n0)) 1000
  let n2 : Int := toInt32 (toInt32 (n1 * ufmt.width) * ufmt.height)
  let hdr : AVI_HDR :=
    { riff_id := ascii "RIFF", riff_size := 0, riff_type := ascii "AVI ",
      hdrl_list_id := ascii "LIST", hdrl_size := 0, hdrl_type := ascii "hdrl",
      avih_id := ascii "avih", avih_size := PUT32LE sizeof_RIFF_avih,
      avih := { RIFF_avih.zero with
        width := PUT32LE ufmt.width, height := PUT32LE ufmt.height,
        uspf := PUT32LE n0, bps := PUT32LE n2, nstreams := PUT32LE 1 } }
  let hdrv0 : AVI_HDR_VIDEO :=
    { strl_list_id := ascii "LIST",
      strl_size := PUT32LE (sizeof_RIFF_strh + sizeof_RIFF_strf_vids + 20),
      strl_type := ascii "strl", strh_id := ascii "strh",
      strh_size := PUT32LE sizeof_RIFF_strh,
      strh := { RIFF_strh.zero with type := ascii "vids" },
      strf_id := ascii "strf", strf_size := PUT32LE sizeof_RIFF_strf_vids,
      strf := RIFF_strf_vids.zero }
  let hdro : AVI_HDR_ODML :=
    { strl_list_id := ascii "LIST", strl_size := PUT32LE (4 + 12),
      strl_type := ascii "odml", strh_id := ascii "dmlh", strh_size := PUT32LE 4,
      nframes := 0 }
  let data : AVI_DATA :=
    { data_list_id := ascii "LIST", data_size := 0, data_type := ascii "movi" }
  { tuvc with avi := { tuvc.avi with
      pos0 := pos0, avi_hdr := hdr, avi_hdrv := hdrv0, avi_hdro := hdro,
      avi_data := data } }

/-- Second step of "Setup AVI writer": the main header is written and the
result of the write becomes `hdrsize`. -/
def writeMainHeader (tuvc : TUVC) : TUVC :=
  let w1 := chanWrite tuvc tuvc.avi.avi_hdr.image sizeof_AVI_HDR
  { w1.2 with avi := { w1.2.avi with hdrsize := toInt32 w1.1 } }

/-- Third step of "Setup AVI writer": handler, compression and sizes of the
video stream header are filled in. -/
def initVideoHeader (tuvc : TUVC) (ufmt : UFMT) (doMJPG : Nat) (n0 : Int) : TUVC :=
  let mjpg : Bool := ufmt.iscomp || decide (doMJPG ≠ 0)
  let code : List Nat := if mjpg then ascii "MJPG" else fourcc ufmt.fourcc
  let hdrv : AVI_HDR_VIDEO :=
    { tuvc.avi.avi_hdrv with
      strh := { tuvc.avi.avi_hdrv.strh with
        handler := code, scale := PUT32LE n0, rate := PUT32LE 1000000 },
      strf := { tuvc.avi.avi_hdrv.strf with
        compr := code, size := PUT32LE sizeof_RIFF_strf_vids,
        width := PUT32LE ufmt.width, height := PUT32LE ufmt.height,
        planes := PUT16LE 1, bits := PUT16LE ufmt.bpp,
        image_size := PUT32LE (toInt32 (toInt32 (ufmt.bpp * ufmt.width) * ufmt.height)) } }
  { tuvc with avi := { tuvc.avi with avi_hdrv := hdrv } }

/-- Fourth step of "Setup AVI writer": the video and the OpenDML header are
written and their write results added to `hdrsize`; the opener of the data
list is written and `segsize0` set to 4. -/
def writeStreamHeaders (tuvc : TUVC) : TUVC :=
  let w2 := chanWrite tuvc tuvc.avi.avi_hdrv.image sizeof_AVI_HDR_VIDEO
  let t4 : TUVC :=
    { w2.2 with avi := { w2.2.avi with hdrsize := toInt32 (w2.2.avi.hdrsize + w2.1) } }
  let w3 := chanWrite t4 t4.avi.avi_hdro.image sizeof_AVI_HDR_ODML
  let t5 : TUVC :=
    { w3.2 with avi := { w3.2.avi with hdrsize := toInt32 (w3.2.avi.hdrsize + w3.1) } }
  let w4 := chanWrite t5 t5.avi.avi_data.image sizeof_AVI_DATA
  { w4.2 with avi := { w4.2.avi with segsize0 := 4 } }

/-- Last step of "Setup AVI writer": the index is reset. -/
def resetIndex (tuvc : TUVC) : TUVC :=
  { tuvc with avi := { tuvc.avi with curr_idx := 0, num_idx := 0, idx_off := 4, idx := none } }

/-- The state after the frames of a delivery sequence were handed to
`WriteFrame` one after the other, each with the environment of its call. -/
def recordAll : TUVC → List (uvc_frame × FrameEnv) → TUVC
  | s, [] => s
  | s, fe :: rest => recordAll (WriteFrame s fe.1 fe.2).2 rest

/-! ## Predicates on recording sessions -/

/-- `writesComplete t f env`: every write that `WriteFrame` issues for the
frame `f` on the channel of `t` is accepted in full. For an AVI file these are
the chunk header, the payload and, when the padded size is larger than the
payload, the padding; for a stream the part header and the payload. -/
def writesComplete (t : TUVC) (f : uvc_frame) (env : FrameEnv) : Prop :=
  if t.rbdStr.length > 0 then
    ∃ fr, boundaryFrame f env = some fr ∧
      (writeTo t.rchan (partHeader t.rbdStr fr) (partHeader t.rbdStr fr).length).1 =
        (partHeader t.rbdStr fr).length ∧
      (writeTo (writeTo t.rchan (partHeader t.rbdStr fr) (partHeader t.rbdStr fr).length).2
        fr.data fr.data_bytes).1 = fr.data_bytes
  else
    ∃ fr size, aviFrameSize t f env = some (fr, size) ∧
      (writeTo t.rchan ({ hdr0 with size := PUT32LE (toInt32 (size + 3) / 4 * 4) } :
        CHUNK_HDR).image sizeof_CHUNK_HDR).1 = sizeof_CHUNK_HDR ∧
      (writeTo (writeTo t.rchan ({ hdr0 with size := PUT32LE (toInt32 (size + 3) / 4 * 4) } :
        CHUNK_HDR).image sizeof_CHUNK_HDR).2 fr.data size).1 = size ∧
      (toInt32 (size + 3) / 4 * 4 > size →
        (writeTo (writeTo (writeTo t.rchan
          ({ hdr0 with size := PUT32LE (toInt32 (size + 3) / 4 * 4) } : CHUNK_HDR).image
          sizeof_CHUNK_HDR).2 fr.data size).2 [0, 0, 0, 0]
          (toInt32 (size + 3) / 4 * 4 - size)).1 = toInt32 (size + 3) / 4 * 4 - size)

/-- The counters of two writer states agree: frame counts, sizes, start of the
segment and average frame interval. -/
def countersEq (a b : AVI) : Prop :=
  a.nframes = b.nframes ∧ a.nframes0 = b.nframes0 ∧ a.totsize = b.totsize ∧
  a.segsize = b.segsize ∧ a.segstart = b.segstart ∧ a.rate = b.rate

/-- The members of the writer state that only `StartRecording`, the frame
accounting of `WriteFrame` and `CloseAVISegment` set: the frame counts, the
sizes, the positions and the header size agree. -/
def layoutEq (a b : AVI) : Prop :=
  a.nframes = b.nframes ∧ a.nframes0 = b.nframes0 ∧ a.totsize = b.totsize ∧
  a.segsize = b.segsize ∧ a.segsize0 = b.segsize0 ∧ a.segstart = b.segstart ∧
  a.hdrsize = b.hdrsize ∧ a.pos0 = b.pos0

/-- `newAviSession s args c0`: the command `record start` with the arguments
`args` is accepted on the state `s`, asks for an AVI file (no boundary string)
on the channel `c0`, on which every call succeeds, and no recording is open
in `s`. -/
def newAviSession (s : TUVC) (args : StartArgs) (c0 : Channel) : Prop :=
  args.parseOk = true ∧ (findFmt s.fmts s.usefmt).isSome = true ∧ args.chan = some c0 ∧
  args.stacked = false ∧ args.optionsOk = true ∧ args.detachOk = true ∧
  (args.rbdStr.getD []).length = 0 ∧ c0.wscript = [] ∧ c0.sscript = [] ∧
  s.rchan = none ∧ s.avi = AVI.zero

/-- `aviRecording t p0 n`: an AVI recording whose header block starts at `p0`
writes to a sink on which every call succeeds and has counted `n` frames; as
long as the chunks take at most 0x7F000000 bytes they are all in the first
segment. -/
def aviRecording (t : TUVC) (p0 : Nat) (n : Nat) : Prop :=
  ioOk t ∧ t.rbdStr = [] ∧ t.avi.pos0 = (p0 : Int) ∧ t.avi.nframes = (n : Int) ∧
  (t.avi.totsize ≤ 0x7F000000 → t.avi.totsize = t.avi.segsize)

/-- `laterSegment t p0 W n0 s0`: an AVI recording on a sink on which every call
succeeds has closed its first segment. The header block starts at `p0`; the
segment that is open starts behind the header block, and so does the sink
position; `W` is the content of the sink up to the end of the header block,
`n0` and `s0` are the frame count and the size recorded for the first
segment. -/
def laterSegment (t : TUVC) (p0 : Nat) (W : List Nat) (n0 s0 : Int) : Prop :=
  ∃ (c : Channel) (ss : Nat), t.rchan = some c ∧ c.wscript = [] ∧ c.sscript = [] ∧
    t.rstate ≠ REC_ERROR ∧ t.rbdStr = [] ∧ t.avi.pos0 = (p0 : Int) ∧
    t.avi.segstart = (ss : Int) ∧ t.avi.totsize > t.avi.segsize ∧ p0 + 240 ≤ ss ∧
    p0 + 240 ≤ c.pos ∧ p0 + 240 ≤ c.bytes.length ∧ c.bytes.take (p0 + 240) = W ∧
    t.avi.nframes0 = n0 ∧ t.avi.segsize0 = s0

/-! ## Sample data for the writer -/

/-- A running AVI recording whose open segment has reached the size limit
0x7F000000: the state after the first frame with the sizes of the segment set
to the limit (the chunks that make up this size are not materialised in the
sink). -/
def atSegmentLimit : TUVC :=
  { afterFirstFrame with avi := { afterFirstFrame.avi with
      totsize := 0x7F000000, segsize := 0x7F000000 } }

/-- The state `atSegmentLimit` on a sink with the given behaviour of the coming
writes and seeks. -/
def atSegmentLimitOn (w : List Int) (s : List Bool) : TUVC :=
  { atSegmentLimit with
    rchan := atSegmentLimit.rchan.map (fun c => { c with wscript := w, sscript := s }) }

/-- The state after `record start -chan c -fps 10` at time 0 while capture is
running and two frames, delivered at 100 ms and 200 ms, were written. -/
def afterTwoFrames : TUVC :=
  recordAll recordingRunning [liveFrame 100000 100000 0, liveFrame 100000 100000 1]

/-- An empty channel that accepts only 10 bytes of the first write and
everything afterwards. -/
def shortChannel : Channel := { bytes := [], pos := 0, wscript := [10], sscript := [] }

/-- The arguments of `record start -chan c -fps rate -boundary --frame` for a
multipart MJPEG stream. -/
def streamStart (c : Channel) (rate : Nat) : StartArgs :=
  { aviStart c rate with rbdStr := some (ascii "--frame") }

/-- The state after `record start -chan c -fps 10 -boundary --frame` at time 0
while capture is running. -/
def streamingRunning : TUVC :=
  (StartRecording capturingFmt (streamStart emptyChannel 10) (atMicros 0)).2

/-- An MJPEG frame with four payload bytes, captured at `t` microseconds. -/
def jpegFrame (t : Int) : uvc_frame :=
  { data := [255, 216, 255, 217], width := 1, height := 1,
    frame_format := UVC_FRAME_FORMAT_MJPEG, step := 0, capture_time := atMicros t }

/-- The arguments of `record start -chan c -fps rate -mjpeg` for an AVI file
with JPEG compressed frames. -/
def mjpegStart (c : Channel) (rate : Nat) : StartArgs :=
  { aviStart c rate with doMJPG := 1 }

/-! ## Sizes of the chunks and the index -/

/-- The sizes of the frame fit the `int` variables of `WriteFrame`: the
payload, the product `height * step` and the result of a JPEG conversion take
less than 2^31 - 3 bytes. -/
def sizesFit (f : uvc_frame) (env : FrameEnv) : Prop :=
  (f.data_bytes : Int) + 3 < 2147483648 ∧
  ((f.height * f.step : Nat) : Int) + 3 < 2147483648 ∧
  ∀ d, env.jpeg = some d → (d.length : Int) + 3 < 2147483648

/-- The value `sizea + sizeof(hdr)` that the AVI branch of `WriteFrame` adds
to the sizes for the frame: 8 bytes of chunk header and the payload size
rounded up to a multiple of 4; 0 when the frame cannot be converted. -/
def chunkSize (t : TUVC) (f : uvc_frame) (env : FrameEnv) : Int :=
  match aviFrameSize t f env with
  | none => 0
  | some p => toInt32 (p.2 + 3) / 4 * 4 + sizeof_CHUNK_HDR

/-- A payload size rounded up to the next multiple of 4. -/
def paddedSize (n : Nat) : Nat := (n + 3) / 4 * 4

/-- The payload size of the chunk that the AVI branch of `WriteFrame` writes
for a frame (the local variable `size`): the bytes of an MJPEG frame, the bytes
of the JPEG conversion when the handler is `MJPG`, else `height * step`; 0 when
the conversion fails. -/
def payloadSize (t : TUVC) (f : uvc_frame) (env : FrameEnv) : Nat :=
  match aviFrameSize t f env with
  | none => 0
  | some p => p.2.toNat

/-- The padded payload sizes of the frames of a delivery sequence that
`WriteFrame` writes (result 1), in the order of the calls. -/
def writtenPadded : TUVC → List (uvc_frame × FrameEnv) → List Nat
  | _, [] => []
  | s, fe :: rest =>
    (if (WriteFrame s fe.1 fe.2).1 = 1 then [paddedSize (payloadSize s fe.1 fe.2)] else []) ++
      writtenPadded (WriteFrame s fe.1 fe.2).2 rest

/-- Whether a call of `WriteFrame` of the delivery sequence returns -1. -/
def anyWriteError : TUVC → List (uvc_frame × FrameEnv) → Bool
  | _, [] => false
  | s, fe :: rest =>
    decide ((WriteFrame s fe.1 fe.2).1 = -1) || anyWriteError (WriteFrame s fe.1 fe.2).2 rest

/-- The bytes that chunks with the given padded payload sizes take: for each
chunk 8 bytes of chunk header and the padded payload. -/
def chunkBytes (ps : List Nat) : Nat := (ps.map (fun p => 8 + p)).sum

/-- The chunks of the open segment, when chunks with the padded payload sizes
`ps` are appended to a segment that holds the chunks `acc` and a segment is
closed after the chunk with which it exceeds 0x7F000000 bytes: the chunks
written since the last rotation. -/
def openSegment : List Nat → List Nat → List Nat
  | acc, [] => acc
  | acc, p :: ps =>
    if chunkBytes (acc ++ [p]) > 0x7F000000 then openSegment [] ps
    else openSegment (acc ++ [p]) ps

/-- The index of the writer state is within its bounds: the fill count is
between 0 and the allocated count, the allocated count is a multiple of 512,
the buffer is non-NULL exactly when the allocated count is positive, a buffer
has the allocated count as length, and the entries below the fill count were
stored by `WriteFrame` (they carry the chunk id). -/
def indexBounds (a : AVI) : Prop :=
  0 ≤ a.curr_idx ∧ a.curr_idx ≤ a.num_idx ∧ (512 : Int) ∣ a.num_idx ∧
  (a.idx.isSome = true ↔ 0 < a.num_idx) ∧
  ∀ buf, a.idx = some buf → (buf.length : Int) = a.num_idx ∧
    ∀ e ∈ buf.take a.curr_idx.toNat, e.id = ascii "00db"

/-- The index is empty: no entry, no allocated entry, no buffer. -/
def indexEmpty (a : AVI) : Prop := a.curr_idx = 0 ∧ a.num_idx = 0 ∧ a.idx = none

/-- The invariant of the index: it is within its bounds, and the writer state
is zeroed while no channel is set. -/
def indexInv (t : TUVC) : Prop :=
  indexBounds t.avi ∧ (t.rchan = none → t.avi = AVI.zero)

/-- The index entry of a chunk at offset `off` from the `movi` fourcc with the
padded payload size `p`. -/
def indexEntry (off p : Nat) : AVI_IDX :=
  { id := ascii "00db", flags := 0, offset := off, size := p }

/-- The index entries of consecutive chunks with the padded payload sizes `ps`,
the first chunk at offset `off` from the `movi` fourcc: each chunk follows the
8 bytes of chunk header and the padded payload of its predecessor. -/
def entriesFor : Nat → List Nat → List AVI_IDX
  | _, [] => []
  | off, p :: ps => indexEntry off p :: entriesFor (off + (8 + p)) ps

/-- What a call of `WriteFrame` may do to the index, from the writer state `a`
to `b`: the allocated count is kept, or the index is empty afterwards, or the
buffer was exhausted and the allocated count grew by exactly 512; and the fill
count and the buffer are kept, or the index is empty afterwards, or one entry
was stored at the position of the old fill count, inside the buffer. -/
def indexStep (a b : AVI) : Prop :=
  (b.num_idx = a.num_idx ∨ indexEmpty b ∨
    (b.num_idx = a.num_idx + 512 ∧ a.curr_idx = a.num_idx)) ∧
  ((b.curr_idx = a.curr_idx ∧ b.idx = a.idx) ∨ indexEmpty b ∨
    (b.curr_idx = a.curr_idx + 1 ∧
      ∃ buf, b.idx = some buf ∧ a.curr_idx < (buf.length : Int) ∧
        (buf.length : Int) = b.num_idx ∧ (buf.getD a.curr_idx.toNat AVI_IDX.zero).id = ascii "00db"))

/-- The state of the index of an AVI recording whose chunks, with the padded
payload sizes `ps`, are all in the first segment: no boundary string, the
index within its bounds, total size and segment size are the bytes of the
chunks, the next index offset is 4 plus these bytes, and the index holds one
entry per chunk, as `entriesFor` lists them from offset 4. -/
def indexedSession (u : TUVC) (ps : List Nat) : Prop :=
  u.rbdStr = [] ∧ indexBounds u.avi ∧ u.avi.totsize = (chunkBytes ps : Int) ∧
  u.avi.segsize = (chunkBytes ps : Int) ∧ u.avi.idx_off = ((4 + chunkBytes ps : Nat) : Int) ∧
  u.avi.curr_idx = (ps.length : Int) ∧
  (u.avi.idx.getD []).take ps.length = entriesFor 4 ps

/-- A callback script that issues the commands `cmds` on the device, one after
the other, and yields the Tcl result code `code`. -/
def runScript (cmds : List Command) (code : Int) : TUVC → Int × TUVC :=
  fun u => (code, cmds.foldl (fun s c => (UvcObjCmd s c).2.2) u)

/-- The states a device can reach: it is opened, and then commands are issued,
frames are delivered by the capture thread (`FrameCallback`), and queued events
and do-when-idle calls are processed (`FrameReady0`, `FrameReady`), with
callback scripts that issue commands on the device. -/
inductive Reachable : TUVC → Prop where
  | opened (fmts : List (Int × UFMT)) : Reachable (openDevice fmts)
  | command (t : TUVC) (cmd : Command) : Reachable t → Reachable (UvcObjCmd t cmd).2.2
  | frame (t : TUVC) (f : uvc_frame) (env : CallbackEnv) :
      Reachable t → Reachable (FrameCallback t f env)
  | event (t : TUVC) (env : FrameEnv) (cmds : List Command) (code : Int) :
      Reachable t → Reachable (FrameReady0 t env (runScript cmds code))
  | idleCall (t : TUVC) (env : FrameEnv) (cmds : List Command) (code : Int) :
      Reachable t → Reachable (idleFrameReady t env (runScript cmds code))

/-! ## Sample data for the governor and the hand-off -/

/-- A frame without payload bytes, captured at `t` microseconds. -/
def emptyFrame (t : Int) : uvc_frame := { sampleFrame 0 t with data := [] }

/-- The environment of a call of `WriteFrame` at wall-clock time `t`
microseconds in which every conversion and allocation succeeds. -/
def wallClock (t : Int) : FrameEnv := (callbackAt t).wf

/-- A callback script that succeeds and issues no command. -/
def keepState : TUVC → Int × TUVC := fun t => (TCL_OK, t)

/-- A capturing device after `parameters update-mode 1`: the callback runs as
do-when-idle handler. -/
def idleCapturing : TUVC := (UvcObjCmd capturing (CMD_parameters_update_mode true)).2.2

/-- The state after a frame was published in idle mode: one event is queued. -/
def eventQueued : TUVC := FrameCallback idleCapturing (sampleFrame 1 40000) (callbackAt 40000)

/-- The state after `parameters update-mode 0` while that event is queued. -/
def modeChanged : TUVC := (UvcObjCmd eventQueued (CMD_parameters_update_mode false)).2.2

/-- The state after the queued event was processed by `FrameReady0`. -/
def eventHandled : TUVC := FrameReady0 modeChanged (wallClock 50000) keepState

/-- The environment of a call of `WriteFrame` at wall-clock time `t`
microseconds in which `attemptckrealloc` fails. -/
def allocFails (t : Int) : FrameEnv := { wallClock t with reallocOk := false }

/-- The state after the first frame of `recordingRunning`, delivered at 100 ms,
was written while the allocation of the index buffer failed. -/
def indexDropped : TUVC :=
  (WriteFrame recordingRunning (sampleFrame 1 100000) (allocFails 100000)).2

/-- The state after `record start -chan c -fps 10 -mjpeg` at time 0 while
capture is running. -/
def mjpegRunning : TUVC :=
  (StartRecording capturingFmt (mjpegStart emptyChannel 10) (atMicros 0)).2

/-! ## Predicates for the finalizer and the segment size -/

/-- What the finalizer writes to the sink `c` of the AVI session `t` when every
call on the sink succeeds; `closed` is the list of the closed channels after
the finalizer. (1) The header block is rewritten at the header origin `p0`:
the closed sink holds the frame counter of the writer as total frame count
(offset 224), and as frame count and stream length (offsets 48 and 140) the
frame counter in the first segment, the frame count of the first segment in a
later one. (2) In the first segment with `k` entries in the index buffer, on a
sink positioned at its end behind the header block, the closed sink is the
sink with the header block replaced and the `idx1` chunk appended; the header
has the index flag set and holds the sizes and frame counts of the session.
(3) In a later segment, whose header lies at `ss` behind the header block, the
closed sink holds the RIFF size `segsize + 16` and the list size `segsize + 4`
in that header (offsets 4 and 16). -/
def finalizedSink (t : TUVC) (c : Channel) (closed : List Channel) : Prop :=
  c.wscript = [] → c.sscript = [] → t.rbdStr = [] →
  (∀ p0 ss : Nat, t.avi.pos0 = (p0 : Int) → t.avi.segstart = (ss : Int) →
    ∃ cF : Channel, closed = cF :: t.closed ∧
      (cF.bytes.drop (p0 + 224)).take 4 = le32 (PUT32LE (toInt32 t.avi.nframes)) ∧
      (¬ t.avi.totsize > t.avi.segsize →
        (cF.bytes.drop (p0 + 48)).take 4 = le32 (PUT32LE (toInt32 t.avi.nframes)) ∧
        (cF.bytes.drop (p0 + 140)).take 4 = le32 (PUT32LE (toInt32 t.avi.nframes))) ∧
      (t.avi.totsize > t.avi.segsize →
        (cF.bytes.drop (p0 + 48)).take 4 = le32 (PUT32LE (toInt32 t.avi.nframes0)) ∧
        (cF.bytes.drop (p0 + 140)).take 4 = le32 (PUT32LE (toInt32 t.avi.nframes0)))) ∧
  (∀ (p0 k : Nat) (buf : List AVI_IDX), t.avi.pos0 = (p0 : Int) →
    ¬ t.avi.totsize > t.avi.segsize → t.avi.idx = some buf → t.avi.curr_idx = (k : Int) →
    k ≤ buf.length → 16 * k < 2147483648 → c.pos = c.bytes.length →
    p0 + 240 ≤ c.bytes.length →
    ∃ A : AVI,
      closed = { c with bytes := storeAt c.bytes p0 (headerBlock A) ++ indexChunk buf k,
                        pos := c.pos + (8 + 16 * k) } :: t.closed ∧
      A.avi_hdr.avih.flags = PUT32LE 0x10 ∧
      A.avi_hdr.riff_size =
        PUT32LE (toInt32 ((t.avi.hdrsize : Int) + t.avi.segsize) + (16 * (k : Int) + 8)) ∧
      A.avi_data.data_size = PUT32LE (toInt32 (t.avi.segsize + 4)) ∧
      A.avi_hdr.avih.nframes = PUT32LE (toInt32 t.avi.nframes) ∧
      A.avi_hdrv.strh.length = PUT32LE (toInt32 t.avi.nframes) ∧
      A.avi_hdro.nframes = PUT32LE (toInt32 t.avi.nframes)) ∧
  (∀ p0 ss : Nat, t.avi.pos0 = (p0 : Int) → t.avi.segstart = (ss : Int) →
    t.avi.totsize > t.avi.segsize → t.avi.idx = none → p0 + 240 ≤ ss →
    ∃ cF : Channel, closed = cF :: t.closed ∧
      (cF.bytes.drop (ss + 4)).take 4 = le32 (PUT32LE (t.avi.segsize + 16)) ∧
      (cF.bytes.drop (ss + 16)).take 4 = le32 (PUT32LE (t.avi.segsize + 4)) ∧
      (cF.bytes.drop (p0 + 224)).take 4 = le32 (PUT32LE (toInt32 t.avi.nframes)))

/-- The invariant of the segment size: outside the state `REC_ERROR` the open
segment holds at most 0x7F000000 bytes, and the writer state is zeroed while no
channel is set. -/
def segInv (t : TUVC) : Prop :=
  (t.rstate ≠ REC_ERROR → t.avi.segsize ≤ 0x7F000000) ∧ (t.rchan = none → t.avi = AVI.zero)

/-! # Properties -/

/-! ## Frame mailbox -/

theorem publish_counters0 (tuvc : TUVC) (f : uvc_frame) :
    (publish tuvc f).counters0 = tuvc.counters0 + 1 := by
  unfold publish
  cases h : tuvc.frame <;> simp <;> split <;> simp

theorem publish_frame (tuvc : TUVC) (f : uvc_frame) :
    (publish tuvc f).frame = some f := by
  unfold publish
  cases h : tuvc.frame <;> simp <;> split <;> simp

theorem publish_counters2_some (tuvc : TUVC) (f g : uvc_frame) (h : tuvc.frame = some g) :
    (publish tuvc f).counters2 = tuvc.counters2 + 1 := by
  unfold publish
  simp [h]; split <;> simp

theorem publish_counters2_none (tuvc : TUVC) (f : uvc_frame) (h : tuvc.frame = none) :
    (publish tuvc f).counters2 = tuvc.counters2 := by
  unfold publish
  simp [h]; split <;> simp

theorem publish_foldl_held (frames : List uvc_frame) (tuvc : TUVC) (g : uvc_frame)
    (h : tuvc.frame = some g) :
    (frames.foldl publish tuvc).counters0 = tuvc.counters0 + frames.length ∧
    (frames.foldl publish tuvc).counters2 = tuvc.counters2 + frames.length ∧
    (frames.foldl publish tuvc).frame = some ((g :: frames).getLast (by simp)) := by
  induction frames generalizing tuvc g with
  | nil => simp [h]
  | cons f rest ih =>
    have hf := publish_frame tuvc f
    obtain ⟨h0, h2, h3⟩ := ih (publish tuvc f) f hf
    simp only [List.foldl_cons]
    refine ⟨?_, ?_, ?_⟩
    · rw [h0, publish_counters0]; simp; ring
    · rw [h2, publish_counters2_some tuvc f g h]; simp; ring
    · rw [h3]; simp [List.getLast_cons]

/-- C1. Mailbox publish accounting: from an empty mailbox with captured =
dropped = 0, any non-empty sequence of n publishes without a take between them
leaves captured = n, dropped = n - 1 (so dropped = captured - 1), and the
mailbox holds exactly the last frame published. -/
theorem C1_publish_accounting (tuvc : TUVC) (frames : List uvc_frame)
    (hempty : tuvc.frame = none) (hcap : tuvc.counters0 = 0) (hdrop : tuvc.counters2 = 0)
    (hne : frames ≠ []) :
    (frames.foldl publish tuvc).counters0 = frames.length ∧
    (frames.foldl publish tuvc).counters2 = (frames.length : Int) - 1 ∧
    (frames.foldl publish tuvc).counters2 = (frames.foldl publish tuvc).counters0 - 1 ∧
    (frames.foldl publish tuvc).frame = some (frames.getLast hne) := by
  cases frames with
  | nil => exact absurd rfl hne
  | cons f rest =>
    obtain ⟨h0, h2, h3⟩ := publish_foldl_held rest (publish tuvc f) f (publish_frame tuvc f)
    simp only [List.foldl_cons]
    rw [publish_counters0, hcap] at h0
    rw [publish_counters2_none tuvc f hempty, hdrop] at h2
    refine ⟨?_, ?_, ?_, h3⟩
    · rw [h0]; simp; ring
    · rw [h2]; simp
    · rw [h0, h2]; ring

/-- Witness of C1: three publishes after a capture start give captured = 3,
dropped = 2 and the third frame held. -/
theorem C1_publish_accounting_witness :
    (capturing.frame = none ∧ capturing.counters0 = 0 ∧ capturing.counters2 = 0) ∧
    ([sampleFrame 1 0, sampleFrame 2 40000, sampleFrame 3 80000].foldl publish
        capturing).counters0 = 3 ∧
    ([sampleFrame 1 0, sampleFrame 2 40000, sampleFrame 3 80000].foldl publish
        capturing).counters2 = 2 ∧
    ([sampleFrame 1 0, sampleFrame 2 40000, sampleFrame 3 80000].foldl publish
        capturing).counters2 =
      ([sampleFrame 1 0, sampleFrame 2 40000, sampleFrame 3 80000].foldl publish
        capturing).counters0 - 1 ∧
    ([sampleFrame 1 0, sampleFrame 2 40000, sampleFrame 3 80000].foldl publish
        capturing).frame = some (sampleFrame 3 80000) :=
  ⟨⟨by decide, by decide, by decide⟩,
   C1_publish_accounting capturing
     [sampleFrame 1 0, sampleFrame 2 40000, sampleFrame 3 80000]
     (by decide) (by decide) (by decide) (by simp)⟩

/-! ## Taking the held frame -/

theorem getImageDone_frame (tuvc : TUVC) (f : uvc_frame) (done : Bool) (r : Int)
    (h : tuvc.frame = none) :
    (getImageDone tuvc (some f) done r).2.2.frame = some f := by
  unfold getImageDone
  cases done <;> simp [h]

theorem getImageDone_delivered (tuvc : TUVC) (fr : Option uvc_frame) (r : Int) :
    (getImageDone tuvc fr false r).2.1 = none := by
  simp [getImageDone]

theorem getImageDone_delivered_true (tuvc : TUVC) (fr : Option uvc_frame) (r : Int) :
    (getImageDone tuvc fr true r).2.1 = fr := by
  simp [getImageDone]

theorem getImageDeliver_spec (tuvc : TUVC) (f g : uvc_frame) (env : ImageEnv)
    (h : tuvc.frame = none) (hd : (getImageDeliver tuvc f env).2.1 = some g) :
    g = f ∧ (getImageDeliver tuvc f env).2.2.frame = some f ∧
    (env.photo = true → env.expandOk = true ∧ env.putOk = true) := by
  unfold getImageDeliver at hd ⊢
  cases hp : env.photo <;> cases he : env.expandOk <;> cases hq : env.putOk <;>
    simp [hp, he, hq, getImageDone_delivered, getImageDone_delivered_true] at hd ⊢ <;>
    simp [hd, getImageDone_frame, h]

theorem GetImage_delivered (tuvc : TUVC) (env : ImageEnv) (f : uvc_frame)
    (hd : (GetImage tuvc env).2.1 = some f) :
    (GetImage tuvc env).2.2.frame = some f ∧
    (env.photo = true → env.tkOk = true ∧ env.expandOk = true ∧ env.putOk = true) ∧
    (f.frame_format = UVC_FRAME_FORMAT_RGB ∨ f.frame_format = UVC_FRAME_FORMAT_GRAY8 ∨
      (f.frame_format = UVC_FRAME_FORMAT_GRAY16 ∧ env.photo = false)) := by
  unfold GetImage at hd ⊢
  by_cases hpre : (env.photo && !env.tkOk) = true
  · simp [hpre] at hd
  · rw [if_neg hpre] at hd ⊢
    have htk : env.photo = true → env.tkOk = true := by
      intro hp; simpa [hp] using hpre
    cases hfr : tuvc.frame with
    | none => simp [hfr, getImageNoImage, getImageDone] at hd
    | some fr =>
      simp only [hfr] at hd ⊢
      have hnone : ({ tuvc with frame := none } : TUVC).frame = none := rfl
      by_cases h16 : (!env.photo) = true ∧ fr.frame_format = UVC_FRAME_FORMAT_GRAY16
      · rw [if_pos h16] at hd ⊢
        rw [getImageDone_delivered_true] at hd
        injection hd with hd
        subst hd
        refine ⟨getImageDone_frame _ _ _ _ hnone, ?_, ?_⟩
        · intro hp; simp [hp] at h16
        · right; right; exact ⟨h16.2, by simpa using h16.1⟩
      · rw [if_neg h16] at hd ⊢
        by_cases hrg : fr.frame_format ≠ UVC_FRAME_FORMAT_RGB ∧
            fr.frame_format ≠ UVC_FRAME_FORMAT_GRAY8
        · rw [if_pos hrg] at hd ⊢
          by_cases hoth : fr.frame_format = UVC_FRAME_FORMAT_OTHER
          · simp [hoth, getImageNoImage, getImageDone] at hd
          · rw [if_neg hoth] at hd ⊢
            cases hc : env.conv with
            | none => simp [hc, getImageNoImage, getImageDone] at hd
            | some d =>
              simp only [hc] at hd ⊢
              obtain ⟨hg, hfrm, hph⟩ := getImageDeliver_spec _ _ _ env hnone hd
              subst hg
              refine ⟨hfrm, fun hp => ⟨htk hp, hph hp⟩, ?_⟩
              by_cases hg16 : fr.frame_format = UVC_FRAME_FORMAT_GRAY16
              · simp [hg16]
              · simp [hg16]
        · rw [if_neg hrg] at hd ⊢
          obtain ⟨hg, hfrm, hph⟩ := getImageDeliver_spec _ _ _ env hnone hd
          subst hg
          refine ⟨hfrm, fun hp => ⟨htk hp, hph hp⟩, ?_⟩
          by_cases h1 : f.frame_format = UVC_FRAME_FORMAT_RGB
          · exact Or.inl h1
          · by_cases h2 : f.frame_format = UVC_FRAME_FORMAT_GRAY8
            · exact Or.inr (Or.inl h2)
            · exact absurd ⟨h1, h2⟩ hrg

theorem GetImage_again (tuvc : TUVC) (env : ImageEnv) (f : uvc_frame)
    (hfr : tuvc.frame = some f)
    (hph : env.photo = true → env.tkOk = true ∧ env.expandOk = true ∧ env.putOk = true)
    (hfmt : f.frame_format = UVC_FRAME_FORMAT_RGB ∨ f.frame_format = UVC_FRAME_FORMAT_GRAY8 ∨
      (f.frame_format = UVC_FRAME_FORMAT_GRAY16 ∧ env.photo = false)) :
    (GetImage tuvc env).2.1 = some f := by
  unfold GetImage
  cases hp : env.photo with
  | false =>
    simp only [hp, Bool.false_and, Bool.false_eq_true, if_false, hfr, Bool.not_false]
    rcases hfmt with h | h | h
    · simp [h, getImageDeliver, hp, getImageDone]
    · simp [h, getImageDeliver, hp, getImageDone]
    · simp [h.1, getImageDone]
  | true =>
    obtain ⟨h1, h2, h3⟩ := hph hp
    simp only [hp, h1, Bool.not_true, Bool.and_false, Bool.false_eq_true, if_false, hfr,
      false_and]
    rcases hfmt with h | h | h
    · simp [h, getImageDeliver, hp, h2, h3, getImageDone]
    · simp [h, getImageDeliver, hp, h2, h3, getImageDone]
    · simp [hp] at h

/-- C2 (amended). `GetImage` takes the held frame out only temporarily: when it
delivers a frame, with no publish in between, it puts that frame (the held
frame or its conversion) back into the mailbox, so an immediately following
`GetImage` delivers the same frame again instead of signalling "empty", and the
next publish replaces it and increments the dropped counter. -/
theorem C2_take_puts_frame_back (tuvc : TUVC) (env : ImageEnv) (f g : uvc_frame)
    (hd : (GetImage tuvc env).2.1 = some f) :
    (GetImage tuvc env).2.2.frame = some f ∧
    (GetImage (GetImage tuvc env).2.2 env).2.1 = some f ∧
    (publish (GetImage tuvc env).2.2 g).counters2 =
      (GetImage tuvc env).2.2.counters2 + 1 ∧
    (publish (GetImage tuvc env).2.2 g).frame = some g := by
  obtain ⟨h1, h2, h3⟩ := GetImage_delivered tuvc env f hd
  exact ⟨h1, GetImage_again _ env f h1 h2 h3, publish_counters2_some _ g f h1,
    publish_frame _ g⟩

/-- Witness of C2 (amended): a published frame is delivered twice in a row. -/
theorem C2_take_puts_frame_back_witness :
    (GetImage (publish capturing (sampleFrame 1 0)) byteArrayEnv).2.1 =
      some (sampleFrame 1 0) ∧
    (GetImage (publish capturing (sampleFrame 1 0)) byteArrayEnv).2.2.frame =
      some (sampleFrame 1 0) ∧
    (GetImage (GetImage (publish capturing (sampleFrame 1 0)) byteArrayEnv).2.2
      byteArrayEnv).2.1 = some (sampleFrame 1 0) ∧
    (publish (GetImage (publish capturing (sampleFrame 1 0)) byteArrayEnv).2.2
      (sampleFrame 2 40000)).counters2 =
      (GetImage (publish capturing (sampleFrame 1 0)) byteArrayEnv).2.2.counters2 + 1 ∧
    (publish (GetImage (publish capturing (sampleFrame 1 0)) byteArrayEnv).2.2
      (sampleFrame 2 40000)).frame = some (sampleFrame 2 40000) :=
  ⟨by decide,
   C2_take_puts_frame_back (publish capturing (sampleFrame 1 0)) byteArrayEnv
     (sampleFrame 1 0) (sampleFrame 2 40000) (by decide)⟩

/-- C2 (counterexample). After a `GetImage` that returns the held frame, with no
publish in between, the mailbox is not empty: the next `GetImage` succeeds and
delivers a frame, and the next publish increments the dropped counter (from 0
to 1). -/
theorem C2_counterexample :
    (GetImage (publish capturing (sampleFrame 1 0)) byteArrayEnv).2.1 =
      some (sampleFrame 1 0) ∧
    (GetImage (publish capturing (sampleFrame 1 0)) byteArrayEnv).2.2.frame ≠ none ∧
    (GetImage (GetImage (publish capturing (sampleFrame 1 0)) byteArrayEnv).2.2
      byteArrayEnv).1 = TCL_OK ∧
    (GetImage (GetImage (publish capturing (sampleFrame 1 0)) byteArrayEnv).2.2
      byteArrayEnv).2.1 = some (sampleFrame 1 0) ∧
    (GetImage (publish capturing (sampleFrame 1 0)) byteArrayEnv).2.2.counters2 = 0 ∧
    (publish (GetImage (publish capturing (sampleFrame 1 0)) byteArrayEnv).2.2
      (sampleFrame 2 40000)).counters2 = 1 := by
  decide

/-! ## Frame conditions of the writer -/

theorem ioStep_refl (a : TUVC) : ioStep a a :=
  ⟨a.avi, a.rchan, a.rstate, rfl, rfl, Or.inl rfl⟩

theorem ioStep_trans {a b c : TUVC} (h1 : ioStep a b) (h2 : ioStep b c) : ioStep a c := by
  obtain ⟨x1, y1, z1, rfl, hc1, hs1⟩ := h1
  obtain ⟨x2, y2, z2, rfl, hc2, hs2⟩ := h2
  refine ⟨x1, y1, z1, rfl, ?_, ?_⟩
  · simpa using hc1.trans hc2
  · rcases hs1 with h | h
    · rcases hs2 with h' | h'
      · left; simpa [h'] using h
      · right; simpa [h'] using h
    · right; exact h

theorem ioStep_avi (a : TUVC) (avi : AVI) : ioStep { a with avi := avi } a :=
  ⟨avi, a.rchan, a.rstate, rfl, rfl, Or.inl rfl⟩

theorem ioStep_error (a : TUVC) : ioStep { a with rstate := REC_ERROR } a :=
  ⟨a.avi, a.rchan, REC_ERROR, rfl, rfl, Or.inr rfl⟩

theorem writeTo_isSome (c : Option Channel) (buf : List Nat) (n : Int) :
    (writeTo c buf n).2.isSome = c.isSome := by
  unfold writeTo
  cases c with
  | none => rfl
  | some c => by_cases h : n < 0 <;> simp [h]

theorem seekTo_isSome (c : Option Channel) (o : Int) (m : SeekMode) :
    (seekTo c o m).2.isSome = c.isSome := by
  unfold seekTo
  cases c <;> rfl

theorem chanWrite_ioStep (t : TUVC) (buf : List Nat) (n : Int) :
    ioStep (chanWrite t buf n).2 t :=
  ⟨t.avi, _, t.rstate, rfl, writeTo_isSome _ _ _, Or.inl rfl⟩

theorem chanSeek_ioStep (t : TUVC) (o : Int) (m : SeekMode) :
    ioStep (chanSeek t o m).2 t :=
  ⟨t.avi, _, t.rstate, rfl, seekTo_isSome _ _ _, Or.inl rfl⟩

theorem writeIndexChunk_ioStep (t : TUVC) (e : Bool) : ioStep (writeIndexChunk t e).1 t := by
  unfold writeIndexChunk
  dsimp only
  split
  · exact ioStep_trans (ioStep_avi _ _)
      (ioStep_trans (chanWrite_ioStep _ _ _) (chanWrite_ioStep _ _ _))
  · exact ioStep_avi _ _

theorem rewriteHeader_ioStep (t : TUVC) : ioStep (rewriteHeader t) t := by
  unfold rewriteHeader
  dsimp only
  split
  · exact ioStep_trans (ioStep_error _) (ioStep_trans (chanSeek_ioStep _ _ _)
      (ioStep_trans (chanWrite_ioStep _ _ _)
      (ioStep_trans (chanWrite_ioStep _ _ _) (ioStep_trans (chanWrite_ioStep _ _ _)
      (ioStep_trans (chanWrite_ioStep _ _ _) (ioStep_trans (chanSeek_ioStep _ _ _)
      (chanSeek_ioStep _ _ _)))))))
  · exact ioStep_trans (chanSeek_ioStep _ _ _) (ioStep_trans (chanWrite_ioStep _ _ _)
      (ioStep_trans (chanWrite_ioStep _ _ _) (ioStep_trans (chanWrite_ioStep _ _ _)
      (ioStep_trans (chanWrite_ioStep _ _ _) (ioStep_trans (chanSeek_ioStep _ _ _)
      (chanSeek_ioStep _ _ _))))))

theorem WriteAVIHeader_ioStep (t : TUVC) (e : Bool) : ioStep (WriteAVIHeader t e) t := by
  unfold WriteAVIHeader
  dsimp only
  split
  · exact ioStep_trans (ioStep_avi _ _) (ioStep_trans (rewriteHeader_ioStep _)
      (ioStep_trans (ioStep_avi _ _) (writeIndexChunk_ioStep t e)))
  · exact ioStep_trans (rewriteHeader_ioStep _) (ioStep_trans (ioStep_avi _ _)
      (writeIndexChunk_ioStep t e))

theorem closeTail_ioStep (t : TUVC) (pos : Int) (e : Bool) (toWrite written : Int) :
    ioStep (closeTail t pos e toWrite written) t := by
  unfold closeTail chanWrite
  simp only []
  split_ifs <;> refine ⟨_, _, _, rfl, ?_, ?_⟩ <;> simp [writeTo_isSome]

theorem CloseAVISegment_ioStep (t : TUVC) (e : Bool) : ioStep (CloseAVISegment t e) t := by
  unfold CloseAVISegment
  dsimp only
  split
  · exact ioStep_trans (closeTail_ioStep _ _ _ _ _) (ioStep_trans (chanSeek_ioStep _ _ _)
      (ioStep_trans (chanWrite_ioStep _ _ _) (ioStep_trans (chanSeek_ioStep _ _ _)
      (chanSeek_ioStep _ _ _))))
  · split
    · exact ioStep_trans (WriteAVIHeader_ioStep _ _) (ioStep_trans (ioStep_avi _ _)
        (chanSeek_ioStep _ _ _))
    · exact ioStep_trans (closeTail_ioStep _ _ _ _ _)
        (ioStep_trans (WriteAVIHeader_ioStep _ _) (ioStep_trans (ioStep_avi _ _)
        (chanSeek_ioStep _ _ _)))

theorem addIndexEntry_ioStep (t : TUVC) (sizea : Int) (env : FrameEnv) :
    ioStep (addIndexEntry t sizea env) t := by
  unfold addIndexEntry
  simp only []
  split <;> split_ifs <;> refine ⟨_, _, _, rfl, ?_, ?_⟩ <;> simp

theorem writeResult_ioStep (t : TUVC) (toWrite written : Int) :
    ioStep (writeResult t toWrite written).2 t := by
  unfold writeResult
  simp only []
  split_ifs <;> refine ⟨_, _, _, rfl, ?_, ?_⟩ <;> simp

theorem writeBoundaryFrame_ioStep (t : TUVC) (f : uvc_frame) (env : FrameEnv) :
    ioStep (writeBoundaryFrame t f env).2 t := by
  unfold writeBoundaryFrame
  cases boundaryFrame f env with
  | none => exact ioStep_error t
  | some fr =>
    dsimp only
    split
    · exact ioStep_trans (writeResult_ioStep _ _ _) (ioStep_trans (chanWrite_ioStep _ _ _)
        (chanWrite_ioStep _ _ _))
    · exact ioStep_trans (writeResult_ioStep _ _ _) (chanWrite_ioStep _ _ _)

theorem writeChunk_ioStep (t : TUVC) (fr : uvc_frame) (size sizea : Int) :
    ioStep (writeChunk t fr size sizea).1 t := by
  unfold writeChunk
  dsimp only
  split
  · split
    · exact ioStep_trans (chanWrite_ioStep _ _ _) (ioStep_trans (chanWrite_ioStep _ _ _)
        (chanWrite_ioStep _ _ _))
    · exact ioStep_trans (chanWrite_ioStep _ _ _) (chanWrite_ioStep _ _ _)
  · exact chanWrite_ioStep _ _ _

theorem accountChunk_ioStep (t : TUVC) (size sizea fWritten : Int) (env : FrameEnv) :
    ioStep (accountChunk t size sizea fWritten env) t := by
  unfold accountChunk
  dsimp only
  split
  · split
    · exact ioStep_trans (ioStep_avi _ _) (ioStep_trans (CloseAVISegment_ioStep _ _)
        (ioStep_avi _ _))
    · split
      · exact ioStep_trans (addIndexEntry_ioStep _ _ _) (ioStep_avi _ _)
      · exact ioStep_avi _ _
  · exact ioStep_avi _ _

theorem writeAVIFrame_ioStep (t : TUVC) (f : uvc_frame) (diff : timeval) (env : FrameEnv) :
    ioStep (writeAVIFrame t f diff env).2 t := by
  unfold writeAVIFrame
  cases aviFrameSize t f env with
  | none => exact ioStep_error t
  | some p =>
    exact ioStep_trans (writeResult_ioStep _ _ _) (ioStep_trans (ioStep_avi _ _)
      (ioStep_trans (accountChunk_ioStep _ _ _ _ _) (writeChunk_ioStep _ _ _ _)))

theorem recStep_of_ioStep {a b : TUVC} (h : ioStep a b) : recStep a b := by
  obtain ⟨x, y, z, rfl, hc, hs⟩ := h
  exact ⟨x, y, z, b.rtv, b.ltv, rfl, hc, hs⟩

theorem recStep_trans {a b c : TUVC} (h1 : recStep a b) (h2 : recStep b c) : recStep a c := by
  obtain ⟨x1, y1, z1, u1, v1, rfl, hc1, hs1⟩ := h1
  obtain ⟨x2, y2, z2, u2, v2, rfl, hc2, hs2⟩ := h2
  refine ⟨x1, y1, z1, u1, v1, rfl, ?_, ?_⟩
  · simpa using hc1.trans hc2
  · rcases hs1 with h | h
    · rcases hs2 with h' | h'
      · left; simpa [h'] using h
      · right; simpa [h'] using h
    · right; exact h

theorem recStep_refl (a : TUVC) : recStep a a := recStep_of_ioStep (ioStep_refl a)

theorem recStep_times (a : TUVC) (rtv ltv : timeval) :
    recStep { a with rtv := rtv, ltv := ltv } a :=
  ⟨a.avi, a.rchan, a.rstate, rtv, ltv, rfl, rfl, Or.inl rfl⟩

theorem recStep_error (a : TUVC) : recStep { a with rstate := REC_ERROR } a :=
  recStep_of_ioStep (ioStep_error a)

theorem WriteFrame_recStep (t : TUVC) (f : uvc_frame) (env : FrameEnv) :
    recStep (WriteFrame t f env).2 t := by
  have h0 : recStep (noChannelCheck t) t := by
    unfold noChannelCheck
    split
    · exact recStep_error t
    · exact recStep_refl t
  unfold WriteFrame
  dsimp only
  split
  · exact h0
  · split
    · exact recStep_trans (recStep_times _ _ _) h0
    · split
      · exact recStep_trans (recStep_times _ _ _) h0
      · split
        · exact recStep_trans (recStep_of_ioStep (writeBoundaryFrame_ioStep _ _ _))
            (recStep_trans (recStep_times _ _ _) h0)
        · exact recStep_trans (recStep_of_ioStep (writeAVIFrame_ioStep _ _ _ _))
            (recStep_trans (recStep_times _ _ _) h0)

theorem WriteFrame_error (t : TUVC) (f : uvc_frame) (env : FrameEnv)
    (h : t.rstate = REC_ERROR) : (WriteFrame t f env).2.rstate = REC_ERROR := by
  obtain ⟨x, y, z, u, v, heq, _, hs⟩ := WriteFrame_recStep t f env
  rw [heq]
  rcases hs with hs | hs
  · simpa [h] using hs
  · exact hs

theorem closeChannel_spec (a : TUVC) :
    ∃ (avi : AVI) (closed : List Channel),
      closeChannel a = { a with avi := avi, rchan := none, closed := closed } := by
  unfold closeChannel
  cases h : a.rchan with
  | none =>
    refine ⟨a.avi, a.closed, ?_⟩
    cases a
    simp_all
  | some c => exact ⟨AVI.zero, c :: a.closed, rfl⟩

/-- After `FinishRecording` the channel is NULL, the boundary string is empty
and the writer state is zeroed or was not touched; the recording state is kept
or became `REC_ERROR`; nothing else changes but the list of closed channels. -/
theorem FinishRecording_spec (t : TUVC) :
    ∃ (avi : AVI) (rstate : RecState) (closed : List Channel),
      FinishRecording t =
        { t with avi := avi, rchan := none, rstate := rstate, rbdStr := [],
                 closed := closed } ∧
      (rstate = t.rstate ∨ rstate = REC_ERROR) := by
  have key : ∀ (a : TUVC), ioStep a t →
      ∃ (avi : AVI) (rstate : RecState) (closed : List Channel),
        closeChannel { a with rbdStr := [] } =
          { t with avi := avi, rchan := none, rstate := rstate, rbdStr := [],
                   closed := closed } ∧
        (rstate = t.rstate ∨ rstate = REC_ERROR) := by
    intro a ha
    obtain ⟨x, y, z, rfl, _, hs⟩ := ha
    obtain ⟨x', c', heq⟩ := closeChannel_spec
      { ({ t with avi := x, rchan := y, rstate := z } : TUVC) with rbdStr := [] }
    rw [heq]
    exact ⟨x', z, c', rfl, hs⟩
  unfold FinishRecording
  dsimp only
  split
  · exact key _ (ioStep_trans (WriteAVIHeader_ioStep _ _) (CloseAVISegment_ioStep _ _))
  · exact key _ (ioStep_refl t)

theorem FinishRecording_error (t : TUVC) (h : t.rstate = REC_ERROR) :
    (FinishRecording t).rstate = REC_ERROR := by
  obtain ⟨x, z, c, heq, hs⟩ := FinishRecording_spec t
  rw [heq]
  rcases hs with hs | hs
  · simpa [h] using hs
  · exact hs

theorem FinishRecording_rchan (t : TUVC) : (FinishRecording t).rchan = none := by
  obtain ⟨x, z, c, heq, _⟩ := FinishRecording_spec t
  rw [heq]

theorem setupAVI_ioStep (t : TUVC) (ufmt : UFMT) (doMJPG : Nat) (pos0 : Int) :
    ioStep (setupAVI t ufmt doMJPG pos0) t := by
  unfold setupAVI
  dsimp only
  exact ioStep_trans (ioStep_avi _ _) (ioStep_trans (WriteAVIHeader_ioStep _ _)
    (ioStep_trans (ioStep_avi _ _) (ioStep_trans (chanWrite_ioStep _ _ _)
    (ioStep_trans (ioStep_avi _ _) (ioStep_trans (chanWrite_ioStep _ _ _)
    (ioStep_trans (ioStep_avi _ _) (ioStep_trans (chanWrite_ioStep _ _ _)
    (ioStep_trans (ioStep_avi _ _)
    (ioStep_trans (chanWrite_ioStep _ _ _) (ioStep_avi _ _))))))))))

/-! ## Recording state machine -/

theorem startTarget_eq (t : TUVC) (doUser : Nat) :
    startTarget t doUser =
      { t with ruser := decide (doUser ≠ 0),
               rstate := startState t.running t.conv doUser } := by
  unfold startTarget startState
  by_cases h : doUser ≠ 0
  · simp [h]
  · simp [h]

theorem beginRecording_spec (t : TUVC) (ufmt : UFMT) (args : StartArgs) (chan : Channel)
    (pos0 : Int) (now : timeval) :
    ∃ (avi : AVI) (rchan : Channel) (rbdStr : List Nat) (rrate : timeval)
      (closed : List Channel),
      beginRecording t ufmt args chan pos0 now =
        { t with avi := avi, rchan := some rchan, rbdStr := rbdStr, rrate := rrate,
                 closed := closed, ltv := now, rtv := now,
                 ruser := decide (args.doUser ≠ 0),
                 rstate := startState t.running t.conv args.doUser } := by
  unfold beginRecording
  obtain ⟨x, z, c, heq, hs⟩ := FinishRecording_spec t
  rw [heq]
  dsimp only
  rw [startTarget_eq]
  split
  · exact ⟨_, _, _, _, _, rfl⟩
  · obtain ⟨x2, y2, z2, heq2, hc2, hs2⟩ := setupAVI_ioStep
      { running := t.running, frame := t.frame, tid := t.tid, evq := t.evq, numev := t.numev,
        idle := t.idle, idleCall := t.idleCall, width := t.width, height := t.height,
        conv := t.conv, fps := t.fps, usefmt := t.usefmt, iscomp := t.iscomp,
        greyshift := t.greyshift, fmts := t.fmts, counters0 := t.counters0,
        counters1 := t.counters1, counters2 := t.counters2, rstate := z, ruser := t.ruser,
        rchan := some chan, rbdStr := [],
        rrate := recordingInterval t.fps args.rateNum args.rateDen, rtv := t.rtv,
        ltv := t.ltv, avi := x, closed := c } ufmt args.doMJPG pos0
    rw [heq2]
    cases y2 with
    | none => simp at hc2
    | some ch => exact ⟨_, _, _, _, _, rfl⟩

theorem StartRecording_cases (t : TUVC) (args : StartArgs) (now : timeval) :
    StartRecording t args now = (TCL_ERROR, t) ∨
    ∃ (avi : AVI) (rchan : Channel) (rbdStr : List Nat) (rrate : timeval)
      (closed : List Channel),
      StartRecording t args now =
        (TCL_OK, { t with avi := avi, rchan := some rchan, rbdStr := rbdStr, rrate := rrate,
                          closed := closed, ltv := now, rtv := now,
                          ruser := decide (args.doUser ≠ 0),
                          rstate := startState t.running t.conv args.doUser }) := by
  unfold StartRecording
  split
  · exact Or.inl rfl
  · split
    · exact Or.inl rfl
    · split
      · exact Or.inl rfl
      · split
        · exact Or.inl rfl
        · split
          · exact Or.inl rfl
          · split
            · split
              · exact Or.inl rfl
              · split
                · exact Or.inl rfl
                · right
                  obtain ⟨a, b, c, d, e, h⟩ := beginRecording_spec t ‹UFMT› args
                    (Tcl_Seek ‹Channel› 0 SEEK_CUR).2 (Tcl_Seek ‹Channel› 0 SEEK_CUR).1 now
                  exact ⟨a, b, c, d, e, by rw [h]⟩
            · split
              · exact Or.inl rfl
              · right
                obtain ⟨a, b, c, d, e, h⟩ := beginRecording_spec t ‹UFMT› args ‹Channel› 0 now
                exact ⟨a, b, c, d, e, by rw [h]⟩

/-- C5. After every successful `StartRecording` the recording state is a
RECORD state if capture is running and a PAUSE state otherwise; it is the
deferred variant whenever `-user` was given and otherwise the priority variant
exactly when early conversion is enabled; `ruser` is set iff `-user` was given;
the last-frame time equals the next-target time (both are the current time). -/
theorem C5_start_target_state (t : TUVC) (args : StartArgs) (now : timeval) (t' : TUVC)
    (h : StartRecording t args now = (TCL_OK, t')) :
    (t.running = true → (t'.rstate = REC_RECPRI ∨ t'.rstate = REC_RECORD)) ∧
    (t.running = false → (t'.rstate = REC_PAUSEPRI ∨ t'.rstate = REC_PAUSE)) ∧
    (args.doUser ≠ 0 → (t'.rstate = REC_RECORD ∨ t'.rstate = REC_PAUSE)) ∧
    (args.doUser = 0 →
      ((t'.rstate = REC_RECPRI ∨ t'.rstate = REC_PAUSEPRI) ↔ t.conv = true)) ∧
    (t'.ruser = true ↔ args.doUser ≠ 0) ∧
    t'.ltv = t'.rtv ∧ t'.rtv = now ∧ t'.running = t.running := by
  rcases StartRecording_cases t args now with hf | ⟨a, b, c, d, e, hs⟩
  · rw [hf] at h
    injection h with h1 h2
    exact absurd h1 (by decide)
  · rw [hs] at h
    have h2 := (congrArg Prod.snd h).symm
    dsimp only at h2
    subst h2
    dsimp only
    unfold startState
    cases hr : t.running <;> cases hc : t.conv <;> by_cases hu : args.doUser = 0 <;>
      simp [hu]

/-- Witness of C5: `record start` on a freshly opened device (capture stopped,
early conversion on, no `-user`). -/
theorem C5_start_target_state_witness :
    StartRecording (openDevice sampleFmts) (aviStart emptyChannel 10) (atMicros 0) =
      (TCL_OK, recordingPaused) ∧
    (((openDevice sampleFmts).running = true →
        (recordingPaused.rstate = REC_RECPRI ∨ recordingPaused.rstate = REC_RECORD)) ∧
    ((openDevice sampleFmts).running = false →
        (recordingPaused.rstate = REC_PAUSEPRI ∨ recordingPaused.rstate = REC_PAUSE)) ∧
    ((aviStart emptyChannel 10).doUser ≠ 0 →
        (recordingPaused.rstate = REC_RECORD ∨ recordingPaused.rstate = REC_PAUSE)) ∧
    ((aviStart emptyChannel 10).doUser = 0 →
      ((recordingPaused.rstate = REC_RECPRI ∨ recordingPaused.rstate = REC_PAUSEPRI) ↔
        (openDevice sampleFmts).conv = true)) ∧
    (recordingPaused.ruser = true ↔ (aviStart emptyChannel 10).doUser ≠ 0) ∧
    recordingPaused.ltv = recordingPaused.rtv ∧ recordingPaused.rtv = atMicros 0 ∧
    recordingPaused.running = (openDevice sampleFmts).running) :=
  ⟨Prod.ext (by decide) rfl,
   C5_start_target_state (openDevice sampleFmts) (aviStart emptyChannel 10) (atMicros 0)
     recordingPaused (Prod.ext (by decide) rfl)⟩

/-- C6. `record pause` maps `REC_RECPRI` to `REC_PAUSEPRI` and `REC_RECORD` to
`REC_PAUSE` and succeeds; from a PAUSE state it succeeds and changes nothing;
from `REC_STOP` or `REC_ERROR` it fails and leaves the state unchanged. Hence
pausing twice leaves the same state as pausing once. -/
theorem C6_pause_transition (t : TUVC) :
    UvcObjCmd { t with rstate := REC_RECPRI } CMD_record_pause =
      (TCL_OK, "", { t with rstate := REC_PAUSEPRI }) ∧
    UvcObjCmd { t with rstate := REC_RECORD } CMD_record_pause =
      (TCL_OK, "", { t with rstate := REC_PAUSE }) ∧
    UvcObjCmd { t with rstate := REC_PAUSEPRI } CMD_record_pause =
      (TCL_OK, "", { t with rstate := REC_PAUSEPRI }) ∧
    UvcObjCmd { t with rstate := REC_PAUSE } CMD_record_pause =
      (TCL_OK, "", { t with rstate := REC_PAUSE }) ∧
    UvcObjCmd { t with rstate := REC_STOP } CMD_record_pause =
      (TCL_ERROR, "wrong recording state for pause", { t with rstate := REC_STOP }) ∧
    UvcObjCmd { t with rstate := REC_ERROR } CMD_record_pause =
      (TCL_ERROR, "wrong recording state for pause", { t with rstate := REC_ERROR }) ∧
    (UvcObjCmd (UvcObjCmd t CMD_record_pause).2.2 CMD_record_pause).2.2 =
      (UvcObjCmd t CMD_record_pause).2.2 := by
  refine ⟨rfl, rfl, rfl, rfl, rfl, rfl, ?_⟩
  unfold UvcObjCmd
  cases h : t.rstate <;> simp [h]

/-- C7. `record resume` from a PAUSE state moves to the matching RECORD state
and sets the last-frame and next-target times to the current time when capture
is running; when capture is not running it succeeds and changes nothing; from
a RECORD state it is a successful no-op; from `REC_STOP` or `REC_ERROR` it
fails and leaves the state unchanged. -/
theorem C7_resume_transition (t : TUVC) (now : timeval) :
    UvcObjCmd { t with rstate := REC_PAUSEPRI, running := true } (CMD_record_resume now) =
      (TCL_OK, "", { t with rstate := REC_RECPRI, running := true, ltv := now, rtv := now }) ∧
    UvcObjCmd { t with rstate := REC_PAUSE, running := true } (CMD_record_resume now) =
      (TCL_OK, "", { t with rstate := REC_RECORD, running := true, ltv := now, rtv := now }) ∧
    UvcObjCmd { t with rstate := REC_PAUSEPRI, running := false } (CMD_record_resume now) =
      (TCL_OK, "", { t with rstate := REC_PAUSEPRI, running := false }) ∧
    UvcObjCmd { t with rstate := REC_PAUSE, running := false } (CMD_record_resume now) =
      (TCL_OK, "", { t with rstate := REC_PAUSE, running := false }) ∧
    UvcObjCmd { t with rstate := REC_RECPRI } (CMD_record_resume now) =
      (TCL_OK, "", { t with rstate := REC_RECPRI }) ∧
    UvcObjCmd { t with rstate := REC_RECORD } (CMD_record_resume now) =
      (TCL_OK, "", { t with rstate := REC_RECORD }) ∧
    UvcObjCmd { t with rstate := REC_STOP } (CMD_record_resume now) =
      (TCL_ERROR, "wrong recording state for resume", { t with rstate := REC_STOP }) ∧
    UvcObjCmd { t with rstate := REC_ERROR } (CMD_record_resume now) =
      (TCL_ERROR, "wrong recording state for resume", { t with rstate := REC_ERROR }) :=
  ⟨rfl, rfl, rfl, rfl, rfl, rfl, rfl, rfl⟩

/-- C8 (amended). Capture start and stop toggle the recording state and, on a
start, re-base the governor. `StopCapture` on a running capture maps
`REC_RECPRI` to `REC_PAUSEPRI` and `REC_RECORD` to `REC_PAUSE`; a `StartCapture`
that starts a stopped capture maps `REC_PAUSEPRI` to `REC_RECPRI` and
`REC_PAUSE` to `REC_RECORD` and in these two cases sets the last-frame and
next-target times to the current time; a `StartCapture` while capture is
running changes nothing; `REC_STOP` and `REC_ERROR` are left unchanged together
with both timestamps; no other member of the recording session (channel, user
flag, interval, boundary string, writer state with its counters and index) is
changed by either function, and `StopCapture` never changes the timestamps. -/
theorem C8_capture_toggles_state (t : TUVC) (now : timeval) (env : CaptureEnv) :
    (StopCapture { t with running := true, rstate := REC_RECPRI }).2.rstate = REC_PAUSEPRI ∧
    (StopCapture { t with running := true, rstate := REC_RECORD }).2.rstate = REC_PAUSE ∧
    (StopCapture { t with rstate := REC_STOP }).2.rstate = REC_STOP ∧
    (StopCapture { t with rstate := REC_ERROR }).2.rstate = REC_ERROR ∧
    sessionOf (StopCapture t).2 = sessionOf t ∧
    (StopCapture t).2.ltv = t.ltv ∧ (StopCapture t).2.rtv = t.rtv ∧
    StartCapture { t with running := false, rstate := REC_PAUSEPRI }
        { formatOk := true, streamOk := true, now := now } =
      (TCL_OK, { t with running := true, counters0 := 0, counters1 := 0, counters2 := 0,
                        tid := true, numev := 0, ltv := now, rtv := now,
                        rstate := REC_RECPRI }) ∧
    StartCapture { t with running := false, rstate := REC_PAUSE }
        { formatOk := true, streamOk := true, now := now } =
      (TCL_OK, { t with running := true, counters0 := 0, counters1 := 0, counters2 := 0,
                        tid := true, numev := 0, ltv := now, rtv := now,
                        rstate := REC_RECORD }) ∧
    StartCapture { t with running := false, rstate := REC_STOP }
        { formatOk := true, streamOk := true, now := now } =
      (TCL_OK, { t with running := true, counters0 := 0, counters1 := 0, counters2 := 0,
                        tid := true, numev := 0, rstate := REC_STOP }) ∧
    StartCapture { t with running := false, rstate := REC_ERROR }
        { formatOk := true, streamOk := true, now := now } =
      (TCL_OK, { t with running := true, counters0 := 0, counters1 := 0, counters2 := 0,
                        tid := true, numev := 0, rstate := REC_ERROR }) ∧
    StartCapture { t with running := true } env = (TCL_OK, { t with running := true }) ∧
    sessionOf (StartCapture t env).2 = sessionOf t := by
  refine ⟨rfl, rfl, ?_, ?_, ?_, ?_, ?_, rfl, rfl, rfl, rfl, rfl, ?_⟩
  · unfold StopCapture; cases t.running <;> rfl
  · unfold StopCapture; cases t.running <;> rfl
  · unfold StopCapture sessionOf
    cases t.running <;> cases h : t.rstate <;> simp [h]
  · unfold StopCapture
    cases t.running <;> cases h : t.rstate <;> simp [h]
  · unfold StopCapture
    cases t.running <;> cases h : t.rstate <;> simp [h]
  · unfold StartCapture sessionOf
    cases t.running <;> cases env.formatOk <;> cases env.streamOk <;>
      cases h : t.rstate <;> simp [h]

/-- C8 (counterexample). A successful `StartCapture` from `REC_PAUSEPRI` changes
the last-frame and next-target timestamps of the recording session (here from
0 s to 5 s), and a successful `StartCapture` while capture is already running
leaves a paused recording paused. -/
theorem C8_counterexample :
    recordingPaused.rstate = REC_PAUSEPRI ∧
    recordingPaused.ltv = atMicros 0 ∧ recordingPaused.rtv = atMicros 0 ∧
    (StartCapture recordingPaused
      { formatOk := true, streamOk := true, now := atMicros 5000000 }).1 = TCL_OK ∧
    (StartCapture recordingPaused
      { formatOk := true, streamOk := true, now := atMicros 5000000 }).2.ltv =
        atMicros 5000000 ∧
    (StartCapture recordingPaused
      { formatOk := true, streamOk := true, now := atMicros 5000000 }).2.rtv =
        atMicros 5000000 ∧
    pausedWhileRunning.rstate = REC_PAUSEPRI ∧
    (StartCapture pausedWhileRunning
      { formatOk := true, streamOk := true, now := atMicros 5000000 }).1 = TCL_OK ∧
    (StartCapture pausedWhileRunning
      { formatOk := true, streamOk := true, now := atMicros 5000000 }).2.rstate =
        REC_PAUSEPRI := by
  decide

theorem ioStep_error_keep {a b : TUVC} (h : ioStep a b) (hb : b.rstate = REC_ERROR) :
    a.rstate = REC_ERROR := by
  obtain ⟨x, y, z, rfl, _, hs⟩ := h
  rcases hs with hs | hs
  · simpa [hb] using hs
  · exact hs

theorem StopCapture_error (t : TUVC) (h : t.rstate = REC_ERROR) :
    (StopCapture t).2.rstate = REC_ERROR := by
  unfold StopCapture
  cases t.running <;> simp [h]

theorem publish_rstate (t : TUVC) (f : uvc_frame) : (publish t f).rstate = t.rstate := by
  unfold publish
  cases t.frame <;> simp <;> split <;> rfl

theorem FrameCallback_error (t : TUVC) (f : uvc_frame) (env : CallbackEnv)
    (h : t.rstate = REC_ERROR) : (FrameCallback t f env).rstate = REC_ERROR := by
  have h1 : recordInline t f env.wf = t := by
    unfold recordInline
    rw [if_neg (by simp [h])]
  unfold FrameCallback
  rw [h1]
  split
  · exact h
  · split
    · exact h
    · rw [publish_rstate]; exact h

theorem deferredWrite_error (t : TUVC) (env : FrameEnv) (h : t.rstate = REC_ERROR) :
    deferredWrite t env = t := by
  unfold deferredWrite
  rw [if_neg (by simp [h])]

theorem runCallback_error (t : TUVC) (script : TUVC → Int × TUVC)
    (hscript : ∀ u, u.rstate = REC_ERROR → (script u).2.rstate = REC_ERROR)
    (h : t.rstate = REC_ERROR) : (runCallback t script).rstate = REC_ERROR := by
  unfold runCallback
  split
  · exact h
  · split
    · exact StopCapture_error _ (hscript _ h)
    · exact hscript _ h

theorem FrameReady_error (t : TUVC) (env : FrameEnv) (script : TUVC → Int × TUVC)
    (hscript : ∀ u, u.rstate = REC_ERROR → (script u).2.rstate = REC_ERROR)
    (h : t.rstate = REC_ERROR) : (FrameReady t env script).rstate = REC_ERROR := by
  have h1 : (clearOutstanding t).rstate = REC_ERROR := by
    unfold clearOutstanding
    split <;> exact h
  unfold FrameReady
  rw [deferredWrite_error _ env h1]
  exact runCallback_error _ script hscript h1

theorem handleEvent_error (t : TUVC) (env : FrameEnv) (script : TUVC → Int × TUVC)
    (hscript : ∀ u, u.rstate = REC_ERROR → (script u).2.rstate = REC_ERROR)
    (h : t.rstate = REC_ERROR) : (handleEvent t env script).rstate = REC_ERROR := by
  unfold handleEvent
  split
  · split
    · exact h
    · exact FrameReady_error _ env script hscript h
  · exact h

theorem FrameReady0_error (t : TUVC) (env : FrameEnv) (script : TUVC → Int × TUVC)
    (hscript : ∀ u, u.rstate = REC_ERROR → (script u).2.rstate = REC_ERROR)
    (h : t.rstate = REC_ERROR) : (FrameReady0 t env script).rstate = REC_ERROR := by
  unfold FrameReady0
  split
  · exact h
  · split
    · exact handleEvent_error _ env script hscript h
    · exact h

theorem RecordFrameFromData_error (t : TUVC) (args : FrameArgs) (env : FrameEnv)
    (h : t.rstate = REC_ERROR) : (RecordFrameFromData t args env).2.2 = t := by
  unfold RecordFrameFromData
  split
  · rfl
  · split
    · rfl
    · split
      · rfl
      · rw [if_pos (by simp [h])]

theorem getImageDone_rstate (t : TUVC) (fr : Option uvc_frame) (d : Bool) (r : Int) :
    (getImageDone t fr d r).2.2.rstate = t.rstate ∧
    (getImageDone t fr d r).2.2.rchan = t.rchan := by
  unfold getImageDone
  cases fr <;> cases t.frame <;> cases d <;> exact ⟨rfl, rfl⟩

theorem getImageDeliver_rstate (t : TUVC) (f : uvc_frame) (env : ImageEnv) :
    (getImageDeliver t f env).2.2.rstate = t.rstate ∧
    (getImageDeliver t f env).2.2.rchan = t.rchan := by
  unfold getImageDeliver
  split
  · split
    · exact getImageDone_rstate _ _ _ _
    · split <;> exact getImageDone_rstate _ _ _ _
  · exact getImageDone_rstate _ _ _ _

theorem GetImage_rstate_rchan (t : TUVC) (env : ImageEnv) :
    (GetImage t env).2.2.rstate = t.rstate ∧ (GetImage t env).2.2.rchan = t.rchan := by
  unfold GetImage
  split
  · exact ⟨rfl, rfl⟩
  · cases t.frame with
    | none => exact getImageDone_rstate _ _ _ _
    | some fr =>
      dsimp only
      split
      · exact getImageDone_rstate _ _ _ _
      · split
        · split
          · exact getImageDone_rstate _ _ _ _
          · cases env.conv with
            | none => exact getImageDone_rstate _ _ _ _
            | some d => exact getImageDeliver_rstate _ _ _
        · exact getImageDeliver_rstate _ _ _

theorem GetImage_rstate (t : TUVC) (env : ImageEnv) :
    (GetImage t env).2.2.rstate = t.rstate := (GetImage_rstate_rchan t env).1

/-- C9 (amended). Once the recording state is `REC_ERROR` it stays so under
`record pause`, `record resume`, capture start and stop, a conversion-mode
change, the state queries, `image`, `update-mode`, an external frame push, a
`record start` or `format` command that fails, frame delivery
(`FrameCallback`) and event processing (`FrameReady0`, `FrameReady`, with a
callback script that itself keeps the state); the state query reports "error". -/
theorem C9_error_persists (t : TUVC) (h : t.rstate = REC_ERROR) (cmd : Command)
    (hstop : cmd ≠ CMD_record_stop)
    (hstart : ∀ a n, cmd = CMD_record_start a n → (UvcObjCmd t cmd).1 ≠ TCL_OK)
    (hformat : ∀ k, cmd = CMD_format (some k) → (UvcObjCmd t cmd).1 ≠ TCL_OK)
    (frame : uvc_frame) (cenv : CallbackEnv) (fenv : FrameEnv)
    (script : TUVC → Int × TUVC)
    (hscript : ∀ u, u.rstate = REC_ERROR → (script u).2.rstate = REC_ERROR) :
    (UvcObjCmd t cmd).2.2.rstate = REC_ERROR ∧
    (UvcObjCmd t CMD_record_state).2.1 = "error" ∧
    (FrameCallback t frame cenv).rstate = REC_ERROR ∧
    (FrameReady0 t fenv script).rstate = REC_ERROR ∧
    (FrameReady t fenv script).rstate = REC_ERROR := by
  refine ⟨?_, ?_, FrameCallback_error t frame cenv h, FrameReady0_error t fenv script hscript h,
    FrameReady_error t fenv script hscript h⟩
  · cases cmd with
    | CMD_close =>
      exact FinishRecording_error _ (StopCapture_error t h)
    | CMD_convmode flag =>
      cases flag with
      | none => exact h
      | some c =>
        unfold UvcObjCmd
        dsimp only
        split
        · exact FinishRecording_error t h
        · exact h
    | CMD_format arg =>
      cases arg with
      | none => exact h
      | some k =>
        have hk := hformat k rfl
        obtain ⟨k1, k2⟩ := k
        unfold UvcObjCmd at hk ⊢
        cases hf : findFmt t.fmts k1 with
        | none => simpa [hf] using h
        | some u =>
          simp only [hf] at hk ⊢
          cases hr : t.running with
          | true => simpa [hr] using h
          | false => simp [hr] at hk
    | CMD_image env =>
      exact (GetImage_rstate t env).trans h
    | CMD_parameters_update_mode flag =>
      unfold UvcObjCmd SetControls_update_mode
      dsimp only
      split <;> exact h
    | CMD_record_frame args env =>
      unfold UvcObjCmd
      dsimp only
      rw [RecordFrameFromData_error t args env h]
      exact h
    | CMD_record_pause =>
      unfold UvcObjCmd
      simp [h]
    | CMD_record_resume now =>
      unfold UvcObjCmd
      simp [h]
    | CMD_record_start a n =>
      have hs := hstart a n rfl
      unfold UvcObjCmd at hs ⊢
      dsimp only at hs ⊢
      rcases StartRecording_cases t a n with hc | ⟨_, _, _, _, _, hc⟩
      · rw [hc]; exact h
      · rw [hc] at hs; exact absurd rfl hs
    | CMD_record_state => exact h
    | CMD_record_stop => exact absurd rfl hstop
    | CMD_start env =>
      unfold UvcObjCmd StartCapture
      dsimp only
      split_ifs <;> simp_all
    | CMD_stop => exact StopCapture_error t h
  · unfold UvcObjCmd
    simp [h, recordStateName]

/-- Witness of C9 (amended): in the error state reached by a failed frame write,
`record pause` fails and the state stays `REC_ERROR`. -/
theorem C9_error_persists_witness :
    recordingFailed.rstate = REC_ERROR ∧
    ((UvcObjCmd recordingFailed CMD_record_pause).2.2.rstate = REC_ERROR ∧
    (UvcObjCmd recordingFailed CMD_record_state).2.1 = "error" ∧
    (FrameCallback recordingFailed (sampleFrame 2 80000) (callbackAt 80000)).rstate =
      REC_ERROR ∧
    (FrameReady0 recordingFailed (callbackAt 80000).wf (fun u => (TCL_OK, u))).rstate =
      REC_ERROR ∧
    (FrameReady recordingFailed (callbackAt 80000).wf (fun u => (TCL_OK, u))).rstate =
      REC_ERROR) :=
  ⟨by decide,
   C9_error_persists recordingFailed (by decide) CMD_record_pause (by decide)
     (fun a n hc => by cases hc) (fun k hc => by cases hc)
     (sampleFrame 2 80000) (callbackAt 80000) (callbackAt 80000).wf
     (fun u => (TCL_OK, u)) (fun u hu => hu)⟩

/-- C9 (counterexample). In the error state reached by a failed frame write a
`record start` succeeds and leaves `REC_ERROR` (the new state is `REC_RECPRI`),
and, with capture stopped, a `format` command succeeds and leaves `REC_ERROR`
(the new state is `REC_STOP`). -/
theorem C9_counterexample :
    recordingFailed.rstate = REC_ERROR ∧
    (UvcObjCmd recordingFailed
      (CMD_record_start (aviStart emptyChannel 10) (atMicros 80000))).1 = TCL_OK ∧
    (UvcObjCmd recordingFailed
      (CMD_record_start (aviStart emptyChannel 10) (atMicros 80000))).2.2.rstate =
        REC_RECPRI ∧
    (UvcObjCmd recordingFailed CMD_stop).2.2.rstate = REC_ERROR ∧
    (UvcObjCmd (UvcObjCmd recordingFailed CMD_stop).2.2 (CMD_format (some (0, 0)))).1 =
      TCL_OK ∧
    (UvcObjCmd (UvcObjCmd recordingFailed CMD_stop).2.2
      (CMD_format (some (0, 0)))).2.2.rstate = REC_STOP := by
  decide

/-- C10 (failing input). `record start` on a freshly opened device followed by a
change of the conversion mode: the channel is NULL afterwards while the
recording state is still `REC_PAUSEPRI`; the state query reports "pause". The
sibling commands `record stop` and `format` reset the state to `REC_STOP`. -/
theorem C10_convmode_leaves_state :
    recordingPaused.rchan ≠ none ∧ recordingPaused.rstate = REC_PAUSEPRI ∧
    (UvcObjCmd recordingPaused (CMD_convmode (some false))).1 = TCL_OK ∧
    (UvcObjCmd recordingPaused (CMD_convmode (some false))).2.2.rchan = none ∧
    (UvcObjCmd recordingPaused (CMD_convmode (some false))).2.2.rstate = REC_PAUSEPRI ∧
    (UvcObjCmd (UvcObjCmd recordingPaused (CMD_convmode (some false))).2.2
      CMD_record_state).2.1 = "pause" ∧
    (UvcObjCmd recordingPaused CMD_record_stop).2.2.rchan = none ∧
    (UvcObjCmd recordingPaused CMD_record_stop).2.2.rstate = REC_STOP ∧
    (UvcObjCmd recordingPaused (CMD_format (some (0, 0)))).2.2.rchan = none ∧
    (UvcObjCmd recordingPaused (CMD_format (some (0, 0)))).2.2.rstate = REC_STOP := by
  decide

/-! ## A sink on which every call succeeds -/

theorem writeTo_good (c : Option Channel) (buf : List Nat) (n : Int)
    (h : chanGood c) (hn : 0 ≤ n) :
    (writeTo c buf n).1 = n ∧ chanGood (writeTo c buf n).2 := by
  obtain ⟨ch, rfl, hw, hs⟩ := h
  unfold writeTo Tcl_WriteRaw
  simp only [hw, if_neg (not_lt.mpr hn)]
  exact ⟨Int.toNat_of_nonneg hn, _, rfl, rfl, hs⟩

theorem seekTo_good_cur (c : Option Channel) (h : chanGood c) :
    0 ≤ (seekTo c 0 SEEK_CUR).1 ∧ chanGood (seekTo c 0 SEEK_CUR).2 := by
  obtain ⟨ch, rfl, hw, hs⟩ := h
  unfold seekTo Tcl_Seek
  simp only [hs, add_zero]
  have hp : ¬ ((ch.pos : Int) < 0) := by omega
  simp only [hp, if_false]
  exact ⟨by omega, _, rfl, hw, rfl⟩

theorem seekTo_good_set (c : Option Channel) (o : Int) (h : chanGood c) (ho : 0 ≤ o) :
    (seekTo c o SEEK_SET).1 = o ∧ chanGood (seekTo c o SEEK_SET).2 := by
  obtain ⟨ch, rfl, hw, hs⟩ := h
  unfold seekTo Tcl_Seek
  simp only [hs, if_neg (not_lt.mpr ho)]
  exact ⟨trivial, _, rfl, hw, rfl⟩

theorem chanWrite_ok (t : TUVC) (buf : List Nat) (n : Int) (h : ioOk t) (hn : 0 ≤ n) :
    (chanWrite t buf n).1 = n ∧ ioOk (chanWrite t buf n).2 := by
  obtain ⟨hc, h1, h2, h3⟩ := h
  obtain ⟨hr, hg⟩ := writeTo_good t.rchan buf n hc hn
  exact ⟨hr, hg, h1, h2, h3⟩

theorem chanSeek_cur_ok (t : TUVC) (h : ioOk t) :
    0 ≤ (chanSeek t 0 SEEK_CUR).1 ∧ ioOk (chanSeek t 0 SEEK_CUR).2 := by
  obtain ⟨hc, h1, h2, h3⟩ := h
  obtain ⟨hr, hg⟩ := seekTo_good_cur t.rchan hc
  exact ⟨hr, hg, h1, h2, h3⟩

theorem chanSeek_set_ok (t : TUVC) (o : Int) (h : ioOk t) (ho : 0 ≤ o) :
    (chanSeek t o SEEK_SET).1 = o ∧ ioOk (chanSeek t o SEEK_SET).2 := by
  obtain ⟨hc, h1, h2, h3⟩ := h
  obtain ⟨hr, hg⟩ := seekTo_good_set t.rchan o hc ho
  exact ⟨hr, hg, h1, h2, h3⟩

theorem ioOk_avi (t : TUVC) (avi : AVI) (h : ioOk t) (h1 : avi.pos0 = t.avi.pos0)
    (h2 : avi.segstart = t.avi.segstart) : ioOk { t with avi := avi } := by
  obtain ⟨hc, hp, hs, hr⟩ := h
  exact ⟨hc, by simpa [h1] using hp, by simpa [h2] using hs, hr⟩

theorem updateHeaderFields_pos0 (avi : AVI) (m : Bool) (i : Int) :
    (updateHeaderFields avi m i).pos0 = avi.pos0 ∧
    (updateHeaderFields avi m i).segstart = avi.segstart := by
  unfold updateHeaderFields
  cases m <;> exact ⟨rfl, rfl⟩

theorem toInt32_nonneg_of_nat (n : Nat) (h : (n : Int) < 2147483648) :
    toInt32 (n : Int) = n := by
  unfold toInt32
  omega

theorem writeIndexChunk_ok (t : TUVC) (e : Bool) (h : ioOk t)
    (hidx : 0 ≤ t.avi.curr_idx ∧ t.avi.curr_idx * 16 < 2147483648) :
    ioOk (writeIndexChunk t e).1 := by
  unfold writeIndexChunk
  dsimp only
  have hsz : toInt32 (t.avi.curr_idx * sizeof_AVI_IDX) = t.avi.curr_idx * 16 := by
    unfold toInt32 sizeof_AVI_IDX
    omega
  split
  · refine ioOk_avi _ _ (chanWrite_ok _ _ _ (chanWrite_ok _ _ _ h ?_).2 ?_).2 rfl rfl
    · decide
    · rw [hsz]; omega
  · exact ioOk_avi _ _ h rfl rfl

theorem chanSeek_set_ne (t : TUVC) (o : Int) (h : ioOk t) (ho : 0 ≤ o) :
    (chanSeek t o SEEK_SET).1 ≠ -1 := by
  rw [(chanSeek_set_ok t o h ho).1]
  omega

theorem rewriteHeader_ok (t : TUVC) (h : ioOk t) : ioOk (rewriteHeader t) := by
  unfold rewriteHeader
  dsimp only
  split
  · rename_i hneg
    exact absurd hneg (chanSeek_set_ne _ _
      (chanWrite_ok _ _ _ (chanWrite_ok _ _ _ (chanWrite_ok _ _ _ (chanWrite_ok _ _ _
        (chanSeek_set_ok _ _ (chanSeek_cur_ok t h).2 h.2.1).2 (by decide)).2
        (by decide)).2 (by decide)).2 (by decide)).2 (chanSeek_cur_ok t h).1)
  · exact (chanSeek_set_ok _ _
      (chanWrite_ok _ _ _ (chanWrite_ok _ _ _ (chanWrite_ok _ _ _ (chanWrite_ok _ _ _
        (chanSeek_set_ok _ _ (chanSeek_cur_ok t h).2 h.2.1).2 (by decide)).2
        (by decide)).2 (by decide)).2 (by decide)).2 (chanSeek_cur_ok t h).1).2

theorem WriteAVIHeader_ok (t : TUVC) (e : Bool) (h : ioOk t) (hidx : idxOk t) :
    ioOk (WriteAVIHeader t e) := by
  unfold WriteAVIHeader
  dsimp only
  have h1 := writeIndexChunk_ok t e h hidx
  have h2 : ioOk { (writeIndexChunk t e).1 with
      avi := updateHeaderFields (writeIndexChunk t e).1.avi
        (handlerIsMJPG (writeIndexChunk t e).1) (writeIndexChunk t e).2 } :=
    ioOk_avi _ _ h1 (updateHeaderFields_pos0 _ _ _).1 (updateHeaderFields_pos0 _ _ _).2
  have h3 := rewriteHeader_ok _ h2
  split
  · exact ioOk_avi _ _ h3 rfl rfl
  · exact h3

theorem closeTail_ok (t : TUVC) (pos : Int) (e : Bool) (w : Int) (h : ioOk t)
    (hpos : 0 ≤ pos) : ioOk (closeTail t pos e w w) := by
  have h0 : ioOk { t with avi := { t.avi with segsize := 0, segstart := pos } } :=
    ⟨h.1, h.2.1, hpos, h.2.2.2⟩
  unfold closeTail
  dsimp only
  split
  · have w1 := chanWrite_ok _ xhdr0.image sizeof_AVIX_HDR h0 (by decide)
    rw [if_neg (by rw [w1.1]; simp)]
    exact w1.2
  · rw [if_neg (by simp)]
    exact h0

theorem WriteAVIHeader_false_ok (t : TUVC) (h : ioOk t) : ioOk (WriteAVIHeader t false) := by
  unfold WriteAVIHeader
  dsimp only
  have h1 : ioOk (writeIndexChunk t false).1 := by
    unfold writeIndexChunk
    dsimp only
    rw [if_neg (by simp)]
    exact ioOk_avi _ _ h rfl rfl
  have h2 : ioOk { (writeIndexChunk t false).1 with
      avi := updateHeaderFields (writeIndexChunk t false).1.avi
        (handlerIsMJPG (writeIndexChunk t false).1) (writeIndexChunk t false).2 } :=
    ioOk_avi _ _ h1 (updateHeaderFields_pos0 _ _ _).1 (updateHeaderFields_pos0 _ _ _).2
  rw [if_neg (by simp)]
  exact rewriteHeader_ok _ h2

theorem CloseAVISegment_false_ok (t : TUVC) (h : ioOk t) :
    ioOk (CloseAVISegment t false) := by
  unfold CloseAVISegment
  dsimp only
  have s0 := chanSeek_cur_ok t h
  split
  · have s1 := chanSeek_set_ok _ (chanSeek t 0 SEEK_CUR).2.avi.segstart s0.2 h.2.2.1
    have w := chanWrite_ok _ ({ xhdr0 with
        riff_size := PUT32LE ((chanSeek (chanSeek t 0 SEEK_CUR).2
          (chanSeek t 0 SEEK_CUR).2.avi.segstart SEEK_SET).2.avi.segsize + 16),
        data_size := PUT32LE ((chanSeek (chanSeek t 0 SEEK_CUR).2
          (chanSeek t 0 SEEK_CUR).2.avi.segstart SEEK_SET).2.avi.segsize + 4) } :
        AVIX_HDR).image sizeof_AVIX_HDR s1.2 (by decide)
    have s2 := chanSeek_set_ok _ (chanSeek t 0 SEEK_CUR).1 w.2 s0.1
    rw [w.1]
    exact closeTail_ok _ _ _ _ s2.2 s0.1
  · have h1 : ioOk { (chanSeek t 0 SEEK_CUR).2 with
        avi := { (chanSeek t 0 SEEK_CUR).2.avi with
          nframes0 := (chanSeek t 0 SEEK_CUR).2.avi.nframes,
          segsize0 := (chanSeek t 0 SEEK_CUR).2.avi.segsize } } :=
      ioOk_avi _ _ s0.2 rfl rfl
    have h2 := WriteAVIHeader_false_ok _ h1
    rw [if_neg h2.2.2.2]
    exact closeTail_ok _ _ _ _ h2 s0.1

theorem addIndexEntry_ok (t : TUVC) (sizea : Int) (env : FrameEnv) (h : ioOk t) :
    ioOk (addIndexEntry t sizea env) := by
  obtain ⟨hc, hp, hs, hr⟩ := h
  unfold addIndexEntry
  dsimp only
  split <;> split_ifs at * <;> exact ⟨hc, hp, hs, hr⟩

theorem accountChunk_ok (t : TUVC) (size sizea fWritten : Int) (env : FrameEnv)
    (h : ioOk t) : ioOk (accountChunk t size sizea fWritten env) := by
  have h0 : ioOk { t with avi := { t.avi with
      nframes := t.avi.nframes + 1,
      totsize := t.avi.totsize + (sizea + sizeof_CHUNK_HDR),
      segsize := t.avi.segsize + (sizea + sizeof_CHUNK_HDR) } } :=
    ioOk_avi _ _ h rfl rfl
  unfold accountChunk
  dsimp only
  split
  · split
    · exact ioOk_avi _ _ (CloseAVISegment_false_ok _ h0) rfl rfl
    · split
      · exact addIndexEntry_ok _ _ _ h0
      · exact h0
  · exact h0

theorem writeChunk_ok (t : TUVC) (fr : uvc_frame) (size sizea : Int) (h : ioOk t)
    (hs : 0 ≤ size) (hsa : size ≤ sizea) :
    ioOk (writeChunk t fr size sizea).1 ∧
    (writeChunk t fr size sizea).2.2.1 = (writeChunk t fr size sizea).2.1 ∧
    (writeChunk t fr size sizea).2.2.2 = size := by
  unfold writeChunk
  dsimp only
  have w1 := chanWrite_ok t ({ hdr0 with size := PUT32LE sizea } : CHUNK_HDR).image
    sizeof_CHUNK_HDR h (by decide)
  rw [if_pos w1.1]
  have w2 := chanWrite_ok _ fr.data size w1.2 hs
  split
  · have w3 := chanWrite_ok _ [0, 0, 0, 0] (sizea - size) w2.2 (by omega)
    exact ⟨w3.2, w3.1, w2.1⟩
  · exact ⟨w2.2, w2.1, w2.1⟩

theorem writeResult_ok (t : TUVC) (w : Int) (h : ioOk t) :
    (writeResult t w w).1 = 1 ∧ (writeResult t w w).2 = t := by
  unfold writeResult
  simp [h.2.2.2]

theorem writeAVIFrame_ok (t : TUVC) (f fr : uvc_frame) (diff : timeval) (env : FrameEnv)
    (size : Int) (h : ioOk t) (hsel : aviFrameSize t f env = some (fr, size))
    (hs : 0 ≤ size) (hs3 : size + 3 < 2147483648) :
    (writeAVIFrame t f diff env).1 = 1 ∧ ioOk (writeAVIFrame t f diff env).2 := by
  unfold writeAVIFrame
  rw [hsel]
  dsimp only
  have hsa : size ≤ toInt32 (size + 3) / 4 * 4 := by
    unfold toInt32
    omega
  obtain ⟨c1, c2, c3⟩ := writeChunk_ok t fr size (toInt32 (size + 3) / 4 * 4) h hs hsa
  have a1 := accountChunk_ok _ size (toInt32 (size + 3) / 4 * 4)
    (writeChunk t fr size (toInt32 (size + 3) / 4 * 4)).2.2.2 env c1
  have a2 : ioOk { accountChunk (writeChunk t fr size (toInt32 (size + 3) / 4 * 4)).1 size
      (toInt32 (size + 3) / 4 * 4) (writeChunk t fr size (toInt32 (size + 3) / 4 * 4)).2.2.2
      env with avi := averageRate (accountChunk (writeChunk t fr size
        (toInt32 (size + 3) / 4 * 4)).1 size (toInt32 (size + 3) / 4 * 4)
        (writeChunk t fr size (toInt32 (size + 3) / 4 * 4)).2.2.2 env).avi diff } := by
    apply ioOk_avi _ _ a1
    · unfold averageRate; split <;> rfl
    · unfold averageRate; split <;> rfl
  rw [c2]
  obtain ⟨r1, r2⟩ := writeResult_ok _ (writeChunk t fr size (toInt32 (size + 3) / 4 * 4)).2.1 a2
  rw [r1, r2]
  exact ⟨rfl, a2⟩

theorem writeBoundaryFrame_ok (t : TUVC) (f fr : uvc_frame) (env : FrameEnv) (h : ioOk t)
    (hsel : boundaryFrame f env = some fr) :
    (writeBoundaryFrame t f env).1 = 1 ∧ ioOk (writeBoundaryFrame t f env).2 := by
  unfold writeBoundaryFrame
  rw [hsel]
  dsimp only
  have w1 := chanWrite_ok t (partHeader t.rbdStr fr) (partHeader t.rbdStr fr).length h
    (by omega)
  rw [if_pos w1.1]
  have w2 := chanWrite_ok _ fr.data fr.data_bytes w1.2 (by omega)
  rw [w2.1]
  obtain ⟨r1, r2⟩ := writeResult_ok _ (fr.data_bytes : Int) w2.2
  rw [r1, r2]
  exact ⟨rfl, w2.2⟩

/-! ## The timing gate -/

theorem tvPositive_tvDiff_iff (a b : timeval)
    (ha : 0 ≤ a.tv_usec ∧ a.tv_usec ≤ 1000000) (hb : 0 ≤ b.tv_usec ∧ b.tv_usec < 1000000) :
    tvPositive (tvDiff a b) = true ↔ b.micros < a.micros := by
  unfold tvPositive tvDiff timeval.micros
  dsimp only
  split <;> simp <;> omega

theorem tvAdvance_micros (t g : timeval) :
    (tvAdvance t g).micros = t.micros + g.micros := by
  unfold tvAdvance timeval.micros
  dsimp only
  split <;> simp <;> omega

theorem tvAdvance_usec (t g : timeval)
    (ht : 0 ≤ t.tv_usec ∧ t.tv_usec < 1000000) (hg : 0 ≤ g.tv_usec ∧ g.tv_usec < 1000000) :
    0 ≤ (tvAdvance t g).tv_usec ∧ (tvAdvance t g).tv_usec ≤ 1000000 := by
  unfold tvAdvance
  dsimp only
  split <;> simp <;> omega

theorem atMicros_micros (t : Int) : (atMicros t).micros = t := by
  unfold atMicros timeval.micros
  dsimp only
  omega

theorem atMicros_usec (t : Int) :
    0 ≤ (atMicros t).tv_usec ∧ (atMicros t).tv_usec < 1000000 := by
  unfold atMicros
  dsimp only
  omega

theorem effectiveNow_same (f : uvc_frame) (env : FrameEnv) (h : env.now = f.capture_time) :
    effectiveNow f env = f.capture_time := by
  unfold effectiveNow
  split
  · rfl
  · exact h

theorem noChannelCheck_ok (t : TUVC) (h : ioOk t) : noChannelCheck t = t := by
  obtain ⟨⟨c, hc, _⟩, _⟩ := h
  unfold noChannelCheck
  simp [hc]

theorem ioStep_times {a b : TUVC} (h : ioStep a b) :
    a.rtv = b.rtv ∧ a.ltv = b.ltv ∧ a.rrate = b.rrate := by
  obtain ⟨x, y, z, rfl, _, _⟩ := h
  exact ⟨rfl, rfl, rfl⟩

theorem aviFrameSize_ok (t : TUVC) (f : uvc_frame) (env : FrameEnv) (hf : frameOk f env) :
    ∃ fr size, aviFrameSize t f env = some (fr, size) ∧ 0 ≤ size ∧ size + 3 < 2147483648 := by
  obtain ⟨_, h1, h2, h3⟩ := hf
  unfold aviFrameSize
  split
  · exact ⟨f, _, rfl, by unfold toInt32; omega, by unfold toInt32; omega⟩
  · rename_i hm
    rcases h3 with h3 | ⟨d, hd, hlen⟩
    · exact absurd h3 hm
    · split
      · unfold FrameToJPEG
        rw [if_neg hm, hd]
        refine ⟨_, _, rfl, ?_, ?_⟩
        · unfold toInt32 uvc_frame.data_bytes; dsimp only; omega
        · unfold toInt32 uvc_frame.data_bytes; dsimp only; omega
      · exact ⟨f, _, rfl, by unfold toInt32; omega, by unfold toInt32; omega⟩

theorem boundaryFrame_ok (f : uvc_frame) (env : FrameEnv) (hf : frameOk f env) :
    ∃ fr, boundaryFrame f env = some fr := by
  obtain ⟨_, _, _, h3⟩ := hf
  unfold boundaryFrame
  split
  · rename_i hm
    rcases h3 with h3 | ⟨d, hd, _⟩
    · exact absurd h3 hm
    · unfold FrameToJPEG
      rw [if_neg hm, hd]
      exact ⟨_, rfl⟩
  · exact ⟨f, rfl⟩

/-- On a sink on which every call succeeds, `WriteFrame` returns 0 and changes
nothing when the timing gate is closed, and otherwise writes the frame,
returns 1 and re-bases the governor on the time of this frame. -/
theorem WriteFrame_ok (t : TUVC) (f : uvc_frame) (env : FrameEnv) (h : ioOk t)
    (hf : frameOk f env) :
    ioOk (WriteFrame t f env).2 ∧ (WriteFrame t f env).2.rrate = t.rrate ∧
    (tvPositive (tvDiff t.rtv (effectiveNow f env)) = true → WriteFrame t f env = (0, t)) ∧
    (tvPositive (tvDiff t.rtv (effectiveNow f env)) = false →
      (WriteFrame t f env).1 = 1 ∧
      (WriteFrame t f env).2.rtv = tvAdvance (effectiveNow f env) t.rrate ∧
      (WriteFrame t f env).2.ltv = effectiveNow f env) := by
  unfold WriteFrame
  rw [noChannelCheck_ok t h]
  dsimp only
  cases hg : tvPositive (tvDiff t.rtv (effectiveNow f env)) with
  | true =>
    rw [if_pos rfl, if_neg h.2.2.2]
    exact ⟨h, rfl, fun _ => rfl, fun hc => Bool.noConfusion hc⟩
  | false =>
    rw [if_neg (by decide), if_neg hf.1, if_neg h.2.2.2]
    have h1 : ioOk { t with rtv := tvAdvance (effectiveNow f env) t.rrate,
                            ltv := effectiveNow f env } := h
    split
    · obtain ⟨fr, hfr⟩ := boundaryFrame_ok f env hf
      obtain ⟨r1, r2⟩ := writeBoundaryFrame_ok _ f fr env h1 hfr
      obtain ⟨q1, q2, q3⟩ := ioStep_times (writeBoundaryFrame_ioStep
        { t with rtv := tvAdvance (effectiveNow f env) t.rrate,
                 ltv := effectiveNow f env } f env)
      exact ⟨r2, q3, fun hc => Bool.noConfusion hc, fun _ => ⟨r1, q1, q2⟩⟩
    · obtain ⟨fr, size, hsel, hs, hs3⟩ := aviFrameSize_ok
        { t with rtv := tvAdvance (effectiveNow f env) t.rrate,
                 ltv := effectiveNow f env } f env hf
      obtain ⟨r1, r2⟩ := writeAVIFrame_ok _ f fr (tvDiff (effectiveNow f env) t.ltv) env size
        h1 hsel hs hs3
      obtain ⟨q1, q2, q3⟩ := ioStep_times (writeAVIFrame_ioStep
        { t with rtv := tvAdvance (effectiveNow f env) t.rrate,
                 ltv := effectiveNow f env } f (tvDiff (effectiveNow f env) t.ltv) env)
      exact ⟨r2, q3, fun hc => Bool.noConfusion hc, fun _ => ⟨r1, q1, q2⟩⟩

theorem admitted_gen (fs : Nat → uvc_frame × FrameEnv) (T0 p : Int) (g : timeval) (m : Nat)
    (hp : 0 < p) (hg : 0 ≤ g.tv_usec ∧ g.tv_usec < 1000000)
    (hm1 : 1 ≤ m) (hmG : g.micros ≤ (m : Int) * p) (hmG' : ((m : Int) - 1) * p < g.micros)
    (hfs : ∀ i, (fs i).1.capture_time = atMicros (T0 + (i : Int) * p) ∧
      (fs i).2.now = atMicros (T0 + (i : Int) * p) ∧ frameOk (fs i).1 (fs i).2) :
    ∀ (n k d : Nat) (s : TUVC), ioOk s → s.rrate = g →
      (0 ≤ s.rtv.tv_usec ∧ s.rtv.tv_usec ≤ 1000000) →
      1 ≤ d → d ≤ m → s.rtv.micros ≤ T0 + ((k : Int) + d) * p →
      (2 ≤ d → T0 + ((k : Int) + d) * p - p < s.rtv.micros) →
      admittedCount s ((List.range' (k + 1) n).map fs) = (n + m - d) / m := by
  intro n
  induction n with
  | zero =>
    intro k d s _ _ _ hd1 hdm _ _
    simp only [List.range'_zero, List.map_nil, admittedCount]
    symm
    apply Nat.div_eq_of_lt
    omega
  | succ n ih =>
    intro k d s hio hrate husec hd1 hdm hle hlt
    obtain ⟨hcap, hnow, hok⟩ := hfs (k + 1)
    have heff : effectiveNow (fs (k + 1)).1 (fs (k + 1)).2 =
        atMicros (T0 + ((k + 1 : Nat) : Int) * p) := by
      rw [effectiveNow_same _ _ (hnow.trans hcap.symm), hcap]
    obtain ⟨w1, w2, w3, w4⟩ := WriteFrame_ok s (fs (k + 1)).1 (fs (k + 1)).2 hio hok
    have hgate := tvPositive_tvDiff_iff s.rtv (effectiveNow (fs (k + 1)).1 (fs (k + 1)).2)
      husec (by rw [heff]; exact atMicros_usec _)
    have hmic : (effectiveNow (fs (k + 1)).1 (fs (k + 1)).2).micros =
        T0 + ((k + 1 : Nat) : Int) * p := by rw [heff, atMicros_micros]
    rw [hmic] at hgate
    simp only [List.range'_succ, List.map_cons, admittedCount]
    by_cases hd : d = 1
    · -- the frame is due
      subst hd
      have hopen : tvPositive (tvDiff s.rtv (effectiveNow (fs (k + 1)).1 (fs (k + 1)).2)) =
          false := by
        cases hc : tvPositive (tvDiff s.rtv (effectiveNow (fs (k + 1)).1 (fs (k + 1)).2)) with
        | false => rfl
        | true =>
          have := hgate.mp hc
          push_cast at this hle
          exfalso
          linarith
      obtain ⟨r1, r2, r3⟩ := w4 hopen
      rw [r1, if_pos rfl]
      have hrtv' : (WriteFrame s (fs (k + 1)).1 (fs (k + 1)).2).2.rtv.micros =
          T0 + ((k + 1 : Nat) : Int) * p + g.micros := by
        rw [r2, tvAdvance_micros, heff, atMicros_micros, hrate]
      have husec' := tvAdvance_usec (effectiveNow (fs (k + 1)).1 (fs (k + 1)).2) s.rrate
        (by rw [heff]; exact atMicros_usec _) (by rw [hrate]; exact hg)
      rw [← r2] at husec'
      rw [ih (k + 1) m _ w1 (w2.trans hrate) husec' hm1 le_rfl
        (by rw [hrtv']; push_cast; linarith)
        (by intro _; rw [hrtv']; push_cast; linarith)]
      have hm0 : 0 < m := hm1
      rw [show n + 1 + m - 1 = n + m from by omega, show n + m - m = n from by omega,
        Nat.add_div_right n hm0]
      omega
    · -- the frame is skipped
      have hd2 : 2 ≤ d := by omega
      have hlt' := hlt hd2
      have hdp : 2 * p ≤ (d : Int) * p := by
        have : (2 : Int) ≤ d := by exact_mod_cast hd2
        nlinarith
      have hclosed : tvPositive (tvDiff s.rtv (effectiveNow (fs (k + 1)).1 (fs (k + 1)).2)) =
          true := by
        apply hgate.mpr
        push_cast
        linarith
      rw [w3 hclosed]
      dsimp only
      rw [if_neg (by decide),
        ih (k + 1) (d - 1) s hio hrate husec (by omega) (by omega)
          (by
            have : (((d - 1 : Nat) : Int)) = (d : Int) - 1 := by omega
            rw [this]; push_cast; linarith)
          (by
            intro _
            have : (((d - 1 : Nat) : Int)) = (d : Int) - 1 := by omega
            rw [this]; push_cast; linarith)]
      rw [show n + m - (d - 1) = n + 1 + m - d from by omega]
      omega

theorem ceil_div_spec (G p : Int) (hG : 0 < G) (hp : 0 < p) :
    1 ≤ ((G + p - 1) / p).toNat ∧ G ≤ (((G + p - 1) / p).toNat : Int) * p ∧
    ((((G + p - 1) / p).toNat : Int) - 1) * p < G := by
  have h1 : (G + p - 1) / p * p ≤ G + p - 1 := Int.ediv_mul_le _ (by omega)
  have h2 : G + p - 1 < ((G + p - 1) / p + 1) * p := Int.lt_ediv_add_one_mul_self _ hp
  have h3 : 1 ≤ (G + p - 1) / p := by
    by_contra hc
    have hq : (G + p - 1) / p + 1 ≤ 1 := by omega
    have : ((G + p - 1) / p + 1) * p ≤ 1 * p := by nlinarith
    linarith
  have h4 : (((G + p - 1) / p).toNat : Int) = (G + p - 1) / p := Int.toNat_of_nonneg (by omega)
  refine ⟨by omega, ?_, ?_⟩
  · rw [h4]; linarith
  · rw [h4]; linarith

/-- On a sink on which every call succeeds, frames with payload delivered with
period `p` after the time `T0` of the next target are admitted one in `m`,
where `m` is the interval of the governor divided by `p`, rounded up. -/
theorem admittedCount_periodic (s : TUVC) (fs : Nat → uvc_frame × FrameEnv) (T0 p : Int)
    (n : Nat) (hio : ioOk s) (hp : 0 < p) (hrtv : s.rtv = atMicros T0)
    (hg : 0 ≤ s.rrate.tv_usec ∧ s.rrate.tv_usec < 1000000 ∧ 0 < s.rrate.micros)
    (hfs : ∀ i, (fs i).1.capture_time = atMicros (T0 + (i : Int) * p) ∧
      (fs i).2.now = atMicros (T0 + (i : Int) * p) ∧ frameOk (fs i).1 (fs i).2) :
    admittedCount s ((List.range' 1 n).map fs) =
      (n + ((s.rrate.micros + p - 1) / p).toNat - 1) /
        ((s.rrate.micros + p - 1) / p).toNat := by
  obtain ⟨c1, c2, c3⟩ := ceil_div_spec s.rrate.micros p hg.2.2 hp
  have husec : 0 ≤ s.rtv.tv_usec ∧ s.rtv.tv_usec ≤ 1000000 := by
    rw [hrtv]
    have := atMicros_usec T0
    omega
  have := admitted_gen fs T0 p s.rrate _ hp ⟨hg.1, hg.2.1⟩ c1 c2 c3 hfs n 0 1 s hio rfl husec
    le_rfl c1 (by rw [hrtv, atMicros_micros]; push_cast; linarith) (by intro h; omega)
  simpa using this

theorem chanGood_iff (c : Option Channel) :
    chanGood c ↔ (c.map Channel.wscript = some [] ∧ c.map Channel.sscript = some []) := by
  unfold chanGood
  cases c with
  | none => simp
  | some ch => simp

theorem liveFrame_ok (t0 p : Int) (i : Nat) :
    (liveFrame t0 p i).1.capture_time = atMicros (t0 + (i : Int) * p) ∧
    (liveFrame t0 p i).2.now = atMicros (t0 + (i : Int) * p) ∧
    frameOk (liveFrame t0 p i).1 (liveFrame t0 p i).2 := by
  refine ⟨rfl, rfl, ?_, ?_, ?_, ?_⟩
  · show (4 : Nat) ≠ 0
    decide
  · show ((4 : Nat) : Int) + 3 < 2147483648
    decide
  · show ((1 * 4 : Nat) : Int) + 3 < 2147483648
    decide
  · right
    exact ⟨[255, 216, 255, 217], rfl, by decide⟩

theorem recordingRunning_ioOk : ioOk recordingRunning :=
  ⟨(chanGood_iff _).mpr (by decide), by decide, by decide, by decide⟩

/-- C3 (amended). `WriteFrame` re-bases the next target on the time of each
admitted frame: `next_target = effective_now + interval`. Hence, for a session
whose sink accepts every call, whose next target is the start time `T0` and
whose interval is positive, and for frames with payload delivered with period
`p` (capture times `T0 + i * p` for `i = 1..n`, wall clock equal to capture
time), exactly every `m`-th frame is admitted, `m = ceil(interval / p)`, so
that `ceil(n / m)` of the `n` frames are admitted. -/
theorem C3_rate_governance (s : TUVC) (fs : Nat → uvc_frame × FrameEnv) (T0 p : Int)
    (n : Nat) (hio : ioOk s) (hp : 0 < p) (hrtv : s.rtv = atMicros T0)
    (hg : 0 ≤ s.rrate.tv_usec ∧ s.rrate.tv_usec < 1000000 ∧ 0 < s.rrate.micros)
    (hfs : ∀ i, (fs i).1.capture_time = atMicros (T0 + (i : Int) * p) ∧
      (fs i).2.now = atMicros (T0 + (i : Int) * p) ∧ frameOk (fs i).1 (fs i).2) :
    admittedCount s ((List.range' 1 n).map fs) =
      (n + ((s.rrate.micros + p - 1) / p).toNat - 1) /
        ((s.rrate.micros + p - 1) / p).toNat :=
  admittedCount_periodic s fs T0 p n hio hp hrtv hg hfs

/-- Witness of C3 (amended): a recording started at 10 frames per second on a
capture running at 25 frames per second, 25 frames delivered. -/
theorem C3_rate_governance_witness :
    ioOk recordingRunning ∧ recordingRunning.rtv = atMicros 0 ∧
    recordingRunning.rrate.micros = 99500 ∧
    admittedCount recordingRunning ((List.range' 1 25).map (liveFrame 0 40000)) =
      (25 + ((recordingRunning.rrate.micros + 40000 - 1) / 40000).toNat - 1) /
        ((recordingRunning.rrate.micros + 40000 - 1) / 40000).toNat :=
  ⟨recordingRunning_ioOk, by decide, by decide,
   C3_rate_governance recordingRunning (liveFrame 0 40000) 0 40000 25 recordingRunning_ioOk
     (by decide) (by decide) (by decide) (liveFrame_ok 0 40000)⟩

/-- C3 (counterexample). A recording started with `-fps 10` on a capture running
at 25 frames per second: of 25 frames delivered at 25 frames per second over
one second, 9 are admitted, not 10; of 50 frames delivered over two seconds, 17
are admitted, which differs from floor(T * R) = 20 by more than one. -/
theorem C3_counterexample :
    recordingRunning.fps = 25 ∧ recordingRunning.rstate = REC_RECPRI ∧
    admittedCount recordingRunning ((List.range' 1 25).map (liveFrame 0 40000)) = 9 ∧
    admittedCount recordingRunning ((List.range' 1 50).map (liveFrame 0 40000)) = 17 := by
  have hr : recordingRunning.rrate.micros = 99500 := by decide
  refine ⟨by decide, by decide, ?_, ?_⟩
  · rw [admittedCount_periodic recordingRunning (liveFrame 0 40000) 0 40000 25
      recordingRunning_ioOk (by decide) (by decide) (by decide) (liveFrame_ok 0 40000), hr]
    decide
  · rw [admittedCount_periodic recordingRunning (liveFrame 0 40000) 0 40000 50
      recordingRunning_ioOk (by decide) (by decide) (by decide) (liveFrame_ok 0 40000), hr]
    decide

/-! ## Admission test -/

/-- C4. For a session with a channel and timestamps with microsecond fields in
[0, 1000000), `WriteFrame` passes its timing gate exactly when effective_now
is not before next_target (`rtv`). When effective_now is before next_target it
returns 0 and leaves the whole structure unchanged (next target, last-frame
time, counters, index, recording state, channel with its contents and
position). When the gate is passed the last-frame time becomes effective_now
and the next target effective_now plus the interval. The recording state is
not `REC_ERROR`: the callers invoke `WriteFrame` in the states `REC_RECPRI`
(`FrameCallback`), `REC_RECORD` (`FrameReady`, `RecordFrameFromData`) and
`REC_PAUSE` (`RecordFrameFromData`) only. -/
theorem C4_admission_test (t : TUVC) (f : uvc_frame) (env : FrameEnv)
    (hsink : t.rchan ≠ none) (hstate : t.rstate ≠ REC_ERROR)
    (hr : 0 ≤ t.rtv.tv_usec ∧ t.rtv.tv_usec < 1000000)
    (hn : 0 ≤ (effectiveNow f env).tv_usec ∧ (effectiveNow f env).tv_usec < 1000000) :
    (tvPositive (tvDiff t.rtv (effectiveNow f env)) = false ↔
      t.rtv.micros ≤ (effectiveNow f env).micros) ∧
    ((effectiveNow f env).micros < t.rtv.micros →
      WriteFrame t f env = (0, t)) ∧
    (t.rtv.micros ≤ (effectiveNow f env).micros →
      (WriteFrame t f env).2.ltv = effectiveNow f env ∧
      (WriteFrame t f env).2.rtv = tvAdvance (effectiveNow f env) t.rrate) := by
  have hgate := tvPositive_tvDiff_iff t.rtv (effectiveNow f env) ⟨hr.1, by omega⟩ hn
  have hnc : noChannelCheck t = t := by
    unfold noChannelCheck
    cases hc : t.rchan with
    | none => exact absurd hc hsink
    | some c => simp
  refine ⟨?_, ?_, ?_⟩
  · constructor
    · intro h
      by_contra hc
      have := hgate.mpr (by omega)
      rw [h] at this
      exact Bool.noConfusion this
    · intro h
      cases hc : tvPositive (tvDiff t.rtv (effectiveNow f env)) with
      | false => rfl
      | true =>
        have := hgate.mp hc
        omega
  · intro h
    unfold WriteFrame
    rw [hnc]
    dsimp only
    rw [if_pos (hgate.mpr h), if_neg hstate]
  · intro h
    clear hstate
    have hopen : ¬ (tvPositive (tvDiff t.rtv (effectiveNow f env)) = true) := by
      intro hc
      have := hgate.mp hc
      omega
    unfold WriteFrame
    rw [hnc]
    dsimp only
    rw [if_neg hopen]
    split
    · exact ⟨rfl, rfl⟩
    · split
      · exact ⟨rfl, rfl⟩
      · split
        · obtain ⟨q1, q2, _⟩ := ioStep_times (writeBoundaryFrame_ioStep
            { t with rtv := tvAdvance (effectiveNow f env) t.rrate,
                     ltv := effectiveNow f env } f env)
          exact ⟨q2, q1⟩
        · obtain ⟨q1, q2, _⟩ := ioStep_times (writeAVIFrame_ioStep
            { t with rtv := tvAdvance (effectiveNow f env) t.rrate,
                     ltv := effectiveNow f env } f (tvDiff (effectiveNow f env) t.ltv) env)
          exact ⟨q2, q1⟩

/-- Witness of C4: after the first frame of a running recording at 10
frames per second was admitted at 40 ms, the frame at 80 ms is skipped. -/
theorem C4_admission_test_witness :
    (afterFirstFrame.rchan ≠ none ∧ afterFirstFrame.rstate ≠ REC_ERROR ∧
      (0 ≤ afterFirstFrame.rtv.tv_usec ∧ afterFirstFrame.rtv.tv_usec < 1000000) ∧
      (0 ≤ (effectiveNow (sampleFrame 2 80000) (callbackAt 80000).wf).tv_usec ∧
        (effectiveNow (sampleFrame 2 80000) (callbackAt 80000).wf).tv_usec < 1000000)) ∧
    ((tvPositive (tvDiff afterFirstFrame.rtv
        (effectiveNow (sampleFrame 2 80000) (callbackAt 80000).wf)) = false ↔
      afterFirstFrame.rtv.micros ≤
        (effectiveNow (sampleFrame 2 80000) (callbackAt 80000).wf).micros) ∧
    ((effectiveNow (sampleFrame 2 80000) (callbackAt 80000).wf).micros <
        afterFirstFrame.rtv.micros →
      WriteFrame afterFirstFrame (sampleFrame 2 80000) (callbackAt 80000).wf =
        (0, afterFirstFrame)) ∧
    (afterFirstFrame.rtv.micros ≤
        (effectiveNow (sampleFrame 2 80000) (callbackAt 80000).wf).micros →
      (WriteFrame afterFirstFrame (sampleFrame 2 80000) (callbackAt 80000).wf).2.ltv =
        effectiveNow (sampleFrame 2 80000) (callbackAt 80000).wf ∧
      (WriteFrame afterFirstFrame (sampleFrame 2 80000) (callbackAt 80000).wf).2.rtv =
        tvAdvance (effectiveNow (sampleFrame 2 80000) (callbackAt 80000).wf)
          afterFirstFrame.rrate)) :=
  ⟨⟨by decide, by decide, by decide, by decide⟩,
   C4_admission_test afterFirstFrame (sampleFrame 2 80000) (callbackAt 80000).wf
     (by decide) (by decide) (by decide) (by decide)⟩

/-! ## The sink and the recording state -/

theorem sinkInv_recStep {a b : TUVC} (h : recStep a b) (hb : sinkInv b) : sinkInv a := by
  obtain ⟨x, y, z, u, v, rfl, hc, hs⟩ := h
  intro hn
  have hn' : y = none := hn
  subst hn'
  have hbn : b.rchan = none := by
    cases hbc : b.rchan with
    | none => rfl
    | some c => rw [hbc] at hc; simp at hc
  rcases hs with hs | hs
  · rcases hb hbn with h1 | h1
    · left; exact hs.trans h1
    · right; exact hs.trans h1
  · right; exact hs

theorem sinkInv_WriteFrame (t : TUVC) (f : uvc_frame) (env : FrameEnv) (h : sinkInv t) :
    sinkInv (WriteFrame t f env).2 :=
  sinkInv_recStep (WriteFrame_recStep t f env) h

theorem sinkInv_publish (t : TUVC) (f : uvc_frame) (h : sinkInv t) : sinkInv (publish t f) := by
  unfold publish
  cases t.frame <;> dsimp only <;> split <;> exact h

theorem sinkInv_FrameCallback (t : TUVC) (f : uvc_frame) (env : CallbackEnv)
    (h : sinkInv t) : sinkInv (FrameCallback t f env) := by
  have h1 : sinkInv (recordInline t f env.wf) := by
    unfold recordInline
    split
    · exact sinkInv_WriteFrame t f env.wf h
    · exact h
  unfold FrameCallback
  split
  · exact h
  · split
    · exact h1
    · exact sinkInv_publish _ _ h1

theorem RecordFrameFromData_cases (t : TUVC) (args : FrameArgs) (env : FrameEnv) :
    (RecordFrameFromData t args env).2.2 = t ∨
    ∃ f, (RecordFrameFromData t args env).2.2 = (WriteFrame t f env).2 := by
  unfold RecordFrameFromData
  split
  · exact Or.inl rfl
  · split
    · exact Or.inl rfl
    · split
      · exact Or.inl rfl
      · split
        · exact Or.inl rfl
        · split
          · exact Or.inl rfl
          · exact Or.inr ⟨_, rfl⟩

theorem sinkInv_StopCapture (t : TUVC) (h : sinkInv t) : sinkInv (StopCapture t).2 := by
  unfold StopCapture sinkInv at *
  cases t.running <;> cases hs : t.rstate <;> simp [hs] at h ⊢ <;> exact h

theorem sinkInv_StartCapture (t : TUVC) (env : CaptureEnv) (h : sinkInv t) :
    sinkInv (StartCapture t env).2 := by
  unfold StartCapture sinkInv at *
  cases t.running <;> cases env.formatOk <;> cases env.streamOk <;> cases hs : t.rstate <;>
    simp [hs] at h ⊢ <;> exact h

theorem sinkInv_FinishRecording (t : TUVC)
    (h : t.rstate = REC_STOP ∨ t.rstate = REC_ERROR) : sinkInv (FinishRecording t) := by
  obtain ⟨x, z, c, heq, hs⟩ := FinishRecording_spec t
  rw [heq]
  intro _
  rcases hs with hs | hs
  · rcases h with h | h
    · left; exact hs.trans h
    · right; exact hs.trans h
  · right; exact hs

theorem sinkInv_stopFirst (t : TUVC) :
    sinkInv (FinishRecording
      (if t.rstate.code > REC_STOP.code then { t with rstate := REC_STOP } else t)) := by
  apply sinkInv_FinishRecording
  split
  · left; rfl
  · rename_i hc
    left
    cases hs : t.rstate <;> simp [hs, RecState.code] at hc ⊢

/-- Every command other than a change of the conversion mode (and `close`,
which destroys the structure), and the delivery of a frame, keep the invariant
that a NULL channel comes with the state `REC_STOP` or `REC_ERROR`. -/
theorem sinkInv_UvcObjCmd (t : TUVC) (cmd : Command) (h : sinkInv t)
    (hconv : ∀ b, cmd ≠ CMD_convmode (some b)) (hclose : cmd ≠ CMD_close) :
    sinkInv (UvcObjCmd t cmd).2.2 := by
  cases cmd with
  | CMD_close => exact absurd rfl hclose
  | CMD_convmode flag =>
    cases flag with
    | none => exact h
    | some b => exact absurd rfl (hconv b)
  | CMD_format arg =>
    cases arg with
    | none => exact h
    | some k =>
      obtain ⟨k1, k2⟩ := k
      unfold UvcObjCmd
      dsimp only
      split
      · exact h
      · split
        · exact h
        · have := sinkInv_stopFirst t
          intro hn
          exact this hn
  | CMD_image env =>
    unfold UvcObjCmd sinkInv
    dsimp only
    rw [(GetImage_rstate_rchan t env).1, (GetImage_rstate_rchan t env).2]
    exact h
  | CMD_parameters_update_mode flag =>
    unfold UvcObjCmd SetControls_update_mode
    dsimp only
    split <;> exact h
  | CMD_record_frame args env =>
    unfold UvcObjCmd
    dsimp only
    rcases RecordFrameFromData_cases t args env with hc | ⟨f, hc⟩
    · rw [hc]; exact h
    · rw [hc]; exact sinkInv_WriteFrame t f env h
  | CMD_record_pause =>
    unfold UvcObjCmd sinkInv at *
    cases hs : t.rstate <;> simp [hs] at h ⊢ <;> exact h
  | CMD_record_resume now =>
    unfold UvcObjCmd sinkInv at *
    cases hs : t.rstate <;> cases t.running <;> simp [hs] at h ⊢ <;> exact h
  | CMD_record_start a n =>
    unfold UvcObjCmd
    dsimp only
    rcases StartRecording_cases t a n with hc | ⟨_, _, _, _, _, hc⟩
    · rw [hc]; exact h
    · rw [hc]; intro hn; cases hn
  | CMD_record_state => exact h
  | CMD_record_stop => exact sinkInv_stopFirst t
  | CMD_start env => exact sinkInv_StartCapture t env h
  | CMD_stop => exact sinkInv_StopCapture t h

set_option maxRecDepth 8000

theorem writeResult_spec (t : TUVC) (toWrite written : Int) :
    ((writeResult t toWrite written).1 = 1 ∨ (writeResult t toWrite written).1 = -1) ∧
    ((writeResult t toWrite written).1 = -1 ↔
      (writeResult t toWrite written).2.rstate = REC_ERROR) ∧
    ((writeResult t toWrite written).1 = 1 → written = toWrite) := by
  unfold writeResult
  dsimp only
  by_cases hw : written = toWrite
  · by_cases hs : t.rstate = REC_ERROR
    · simp [hw, hs]
    · simp [hw, hs]
  · simp [hw]

theorem writeChunk_complete (t : TUVC) (fr : uvc_frame) (size sizea : Int)
    (h : (writeChunk t fr size sizea).2.2.1 = (writeChunk t fr size sizea).2.1) :
    (writeTo t.rchan ({ hdr0 with size := PUT32LE sizea } : CHUNK_HDR).image
      sizeof_CHUNK_HDR).1 = sizeof_CHUNK_HDR ∧
    (writeTo (writeTo t.rchan ({ hdr0 with size := PUT32LE sizea } : CHUNK_HDR).image
      sizeof_CHUNK_HDR).2 fr.data size).1 = size ∧
    (sizea > size →
      (writeTo (writeTo (writeTo t.rchan ({ hdr0 with size := PUT32LE sizea } : CHUNK_HDR).image
        sizeof_CHUNK_HDR).2 fr.data size).2 [0, 0, 0, 0] (sizea - size)).1 = sizea - size) := by
  unfold writeChunk at h
  dsimp only at h
  split at h
  · rename_i h1
    split at h
    · rename_i h2
      simp only [Bool.and_eq_true, decide_eq_true_eq] at h2
      exact ⟨h1, h2.1, fun _ => h⟩
    · rename_i h2
      simp only [Bool.and_eq_true, decide_eq_true_eq, not_and] at h2
      exact ⟨h1, h, fun hgt => absurd hgt (h2 h)⟩
  · rename_i h1
    exact absurd h h1

theorem aviFrameSize_avi (t t2 : TUVC) (f : uvc_frame) (env : FrameEnv) (h : t2.avi = t.avi) :
    aviFrameSize t2 f env = aviFrameSize t f env := by
  unfold aviFrameSize handlerIsMJPG
  rw [h]

theorem writeAVIFrame_contract (t : TUVC) (f : uvc_frame) (diff : timeval) (env : FrameEnv)
    (hb : ¬ t.rbdStr.length > 0) :
    ((writeAVIFrame t f diff env).1 = 1 ∨ (writeAVIFrame t f diff env).1 = -1) ∧
    ((writeAVIFrame t f diff env).1 = -1 ↔ (writeAVIFrame t f diff env).2.rstate = REC_ERROR) ∧
    ((writeAVIFrame t f diff env).1 = 1 → writesComplete t f env) := by
  unfold writeAVIFrame writesComplete
  rw [if_neg hb]
  cases hsel : aviFrameSize t f env with
  | none =>
    dsimp only
    simp
  | some p =>
    obtain ⟨fr, size⟩ := p
    dsimp only
    obtain ⟨r1, r2, r3⟩ := writeResult_spec
      { accountChunk (writeChunk t fr size (toInt32 (size + 3) / 4 * 4)).1 size
          (toInt32 (size + 3) / 4 * 4)
          (writeChunk t fr size (toInt32 (size + 3) / 4 * 4)).2.2.2 env with
        avi := averageRate (accountChunk (writeChunk t fr size (toInt32 (size + 3) / 4 * 4)).1
          size (toInt32 (size + 3) / 4 * 4)
          (writeChunk t fr size (toInt32 (size + 3) / 4 * 4)).2.2.2 env).avi diff }
      (writeChunk t fr size (toInt32 (size + 3) / 4 * 4)).2.1
      (writeChunk t fr size (toInt32 (size + 3) / 4 * 4)).2.2.1
    refine ⟨r1, r2, fun h1 => ⟨fr, size, rfl, ?_⟩⟩
    exact writeChunk_complete t fr size _ (r3 h1)

theorem writeBoundaryFrame_contract (t : TUVC) (f : uvc_frame) (env : FrameEnv)
    (hb : t.rbdStr.length > 0) :
    ((writeBoundaryFrame t f env).1 = 1 ∨ (writeBoundaryFrame t f env).1 = -1) ∧
    ((writeBoundaryFrame t f env).1 = -1 ↔ (writeBoundaryFrame t f env).2.rstate = REC_ERROR) ∧
    ((writeBoundaryFrame t f env).1 = 1 → writesComplete t f env) := by
  unfold writeBoundaryFrame writesComplete
  rw [if_pos hb]
  cases hsel : boundaryFrame f env with
  | none =>
    dsimp only
    simp
  | some fr =>
    dsimp only
    split
    · rename_i h1
      obtain ⟨r1, r2, r3⟩ := writeResult_spec
        (chanWrite (chanWrite t (partHeader t.rbdStr fr) (partHeader t.rbdStr fr).length).2
          fr.data fr.data_bytes).2 (fr.data_bytes : Int)
        (chanWrite (chanWrite t (partHeader t.rbdStr fr) (partHeader t.rbdStr fr).length).2
          fr.data fr.data_bytes).1
      exact ⟨r1, r2, fun h => ⟨fr, rfl, h1, r3 h⟩⟩
    · rename_i h1
      obtain ⟨r1, r2, r3⟩ := writeResult_spec
        (chanWrite t (partHeader t.rbdStr fr) (partHeader t.rbdStr fr).length).2
        ((partHeader t.rbdStr fr).length : Int)
        (chanWrite t (partHeader t.rbdStr fr) (partHeader t.rbdStr fr).length).1
      exact ⟨r1, r2, fun h => absurd (r3 h) h1⟩

theorem writesComplete_times (t : TUVC) (rtv ltv : timeval) (f : uvc_frame) (env : FrameEnv)
    (h : writesComplete { t with rtv := rtv, ltv := ltv } f env) : writesComplete t f env := h

/-- C11. `WriteFrame`, called with a non-NULL sink and a recording state other
than `REC_ERROR`, returns 1, 0 or -1; it returns -1 if and only if the state
is `REC_ERROR` on return; and when it returns 1 every write it issued for the
frame (chunk header, payload and padding of an AVI chunk, or part header and
payload of a stream part) was accepted in full. -/
theorem C11_result_contract (t : TUVC) (f : uvc_frame) (env : FrameEnv)
    (hch : t.rchan.isSome = true) (hst : t.rstate ≠ REC_ERROR) :
    ((WriteFrame t f env).1 = 1 ∨ (WriteFrame t f env).1 = 0 ∨ (WriteFrame t f env).1 = -1) ∧
    ((WriteFrame t f env).1 = -1 ↔ (WriteFrame t f env).2.rstate = REC_ERROR) ∧
    ((WriteFrame t f env).1 = 1 → writesComplete t f env) := by
  have h0 : noChannelCheck t = t := by
    unfold noChannelCheck
    cases hc : t.rchan with
    | none => rw [hc] at hch; exact absurd hch (by decide)
    | some c => simp
  unfold WriteFrame
  rw [h0]
  dsimp only
  split
  · refine ⟨Or.inr (Or.inl rfl), ?_, ?_⟩
    · simp [hst]
    · intro h; simp at h
  · split
    · refine ⟨Or.inr (Or.inl rfl), ?_, ?_⟩
      · simp [hst]
      · intro h; simp at h
    · split
      · rename_i hb
        obtain ⟨r1, r2, r3⟩ := writeBoundaryFrame_contract
          { t with rtv := tvAdvance (effectiveNow f env) t.rrate, ltv := effectiveNow f env }
          f env hb
        refine ⟨?_, r2, fun h => writesComplete_times t _ _ f env (r3 h)⟩
        rcases r1 with r1 | r1
        · exact Or.inl r1
        · exact Or.inr (Or.inr r1)
      · rename_i hb
        obtain ⟨r1, r2, r3⟩ := writeAVIFrame_contract
          { t with rtv := tvAdvance (effectiveNow f env) t.rrate, ltv := effectiveNow f env }
          f (tvDiff (effectiveNow f env) t.ltv) env hb
        refine ⟨?_, r2, fun h => writesComplete_times t _ _ f env (r3 h)⟩
        rcases r1 with r1 | r1
        · exact Or.inl r1
        · exact Or.inr (Or.inr r1)

/-- Witness of C11: the first frame of a recording on an empty file. -/
theorem C11_result_contract_witness :
    ((WriteFrame recordingRunning (sampleFrame 1 100000) (callbackAt 100000).wf).1 = 1 ∨
      (WriteFrame recordingRunning (sampleFrame 1 100000) (callbackAt 100000).wf).1 = 0 ∨
      (WriteFrame recordingRunning (sampleFrame 1 100000) (callbackAt 100000).wf).1 = -1) ∧
    ((WriteFrame recordingRunning (sampleFrame 1 100000) (callbackAt 100000).wf).1 = -1 ↔
      (WriteFrame recordingRunning (sampleFrame 1 100000) (callbackAt 100000).wf).2.rstate =
        REC_ERROR) ∧
    ((WriteFrame recordingRunning (sampleFrame 1 100000) (callbackAt 100000).wf).1 = 1 →
      writesComplete recordingRunning (sampleFrame 1 100000) (callbackAt 100000).wf) :=
  C11_result_contract recordingRunning (sampleFrame 1 100000) (callbackAt 100000).wf
    (by decide) (by decide)

/-! ## Contents of the sink -/

theorem storeAt_length (b : List Nat) (p : Nat) (x : List Nat) :
    (storeAt b p x).length = max (p + x.length) b.length := by
  unfold storeAt
  simp only [List.length_append, List.takeD_length, List.length_drop]
  omega

theorem storeAt_append (b : List Nat) (p : Nat) (x y : List Nat) :
    storeAt (storeAt b p x) (p + x.length) y = storeAt b p (x ++ y) := by
  unfold storeAt
  have h1 : (List.takeD p b 0 ++ x).length = p + x.length := by
    simp [List.takeD_length]
  rw [List.takeD_left' h1]
  have h2 : List.drop (p + x.length + y.length)
      (List.takeD p b 0 ++ x ++ List.drop (p + x.length) b) =
      List.drop (p + (x ++ y).length) b := by
    rw [List.drop_append_eq_append_drop]
    have h3 : List.drop (p + x.length + y.length) (List.takeD p b 0 ++ x) = [] := by
      apply List.drop_eq_nil_of_le
      rw [h1]; omega
    rw [h3, h1, List.drop_drop, List.length_append, List.nil_append]
    congr 1
    omega
  rw [h2]
  simp [List.append_assoc]

theorem storeAt_end (b x : List Nat) : storeAt b b.length x = b ++ x := by
  unfold storeAt
  rw [List.takeD_eq_take 0 (le_refl _), List.take_length]
  rw [List.drop_eq_nil_of_le (by omega)]
  simp

theorem storeAt_mid (pre old post x : List Nat) (h : old.length = x.length) :
    storeAt (pre ++ old ++ post) pre.length x = pre ++ x ++ post := by
  unfold storeAt
  rw [List.append_assoc pre old post, List.takeD_left]
  congr 1
  rw [← List.append_assoc]
  have : (pre ++ old).length = pre.length + x.length := by simp [h]
  rw [← this, List.drop_left]

theorem storeAt_window (b : List Nat) (p : Nat) (x : List Nat) :
    ((storeAt b p x).drop p).take x.length = x := by
  unfold storeAt
  have h1 : (List.takeD p b 0).length = p := List.takeD_length _ _ _
  rw [List.append_assoc]
  conv => lhs; arg 2; arg 1; rw [← h1]
  rw [List.drop_left, List.take_left]

theorem put_put (c : Channel) (x y : List Nat) : (c.put x).put y = c.put (x ++ y) := by
  unfold Channel.put
  simp only [storeAt_append, List.length_append, Nat.add_assoc]

theorem put_scripts (c : Channel) (x : List Nat) :
    (c.put x).wscript = c.wscript ∧ (c.put x).sscript = c.sscript := ⟨rfl, rfl⟩

theorem writeTo_put (c : Channel) (buf : List Nat) (n : Int) (hw : c.wscript = [])
    (hn : 0 ≤ n) :
    writeTo (some c) buf n = (n, some (c.put (List.takeD n.toNat buf 0))) := by
  unfold writeTo Tcl_WriteRaw Channel.put
  simp only [hw, if_neg (not_lt.mpr hn), List.takeD_length]
  rw [Int.toNat_of_nonneg hn]

theorem writeTo_put_all (c : Channel) (buf : List Nat) (n : Nat) (hw : c.wscript = [])
    (hn : buf.length = n) :
    writeTo (some c) buf (n : Int) = ((n : Int), some (c.put buf)) := by
  rw [writeTo_put c buf n hw (by omega)]
  simp only [Int.toNat_ofNat]
  rw [List.takeD_eq_take 0 (by omega), ← hn, List.take_length]

theorem seekTo_cur (c : Channel) (hs : c.sscript = []) :
    seekTo (some c) 0 SEEK_CUR = ((c.pos : Int), some c) := by
  obtain ⟨b, p, w, s⟩ := c
  dsimp only at hs
  subst hs
  unfold seekTo Tcl_Seek
  have hp : ¬ ((p : Int) < 0) := by omega
  simp only [add_zero, if_neg hp, Int.toNat_ofNat]

theorem seekTo_set (c : Channel) (o : Nat) (hs : c.sscript = []) :
    seekTo (some c) (o : Int) SEEK_SET = ((o : Int), some { c with pos := o }) := by
  unfold seekTo Tcl_Seek
  simp only [hs]
  have hp : ¬ ((o : Int) < 0) := by omega
  simp only [hp, if_false, Int.toNat_ofNat]

theorem fourcc_length (l : List Nat) : (fourcc l).length = 4 := by
  unfold fourcc
  exact List.takeD_length _ _ _

theorem le32_length (v : Nat) : (le32 v).length = 4 := rfl

theorem le16_length (v : Nat) : (le16 v).length = 2 := rfl

theorem CHUNK_HDR_image_length (h : CHUNK_HDR) : h.image.length = 8 := by
  unfold CHUNK_HDR.image
  simp [fourcc_length, le32_length]

theorem AVIX_HDR_image_length (h : AVIX_HDR) : h.image.length = 24 := by
  unfold AVIX_HDR.image
  simp [fourcc_length, le32_length]

theorem AVI_IDX_image_length (h : AVI_IDX) : h.image.length = 16 := by
  unfold AVI_IDX.image
  simp [fourcc_length, le32_length]

theorem RIFF_avih_image_length (h : RIFF_avih) : h.image.length = 56 := by
  unfold RIFF_avih.image
  simp [le32_length]

theorem RIFF_strh_image_length (h : RIFF_strh) : h.image.length = 48 := by
  unfold RIFF_strh.image
  simp [fourcc_length, le32_length]

theorem RIFF_strf_vids_image_length (h : RIFF_strf_vids) : h.image.length = 40 := by
  unfold RIFF_strf_vids.image
  simp [fourcc_length, le32_length, le16_length]

theorem AVI_HDR_image_length (h : AVI_HDR) : h.image.length = 88 := by
  unfold AVI_HDR.image
  simp [fourcc_length, le32_length, RIFF_avih_image_length]

theorem AVI_HDR_VIDEO_image_length (h : AVI_HDR_VIDEO) : h.image.length = 116 := by
  unfold AVI_HDR_VIDEO.image
  simp [fourcc_length, le32_length, RIFF_strh_image_length, RIFF_strf_vids_image_length]

theorem AVI_HDR_ODML_image_length (h : AVI_HDR_ODML) : h.image.length = 24 := by
  unfold AVI_HDR_ODML.image
  simp [fourcc_length, le32_length]

theorem AVI_DATA_image_length (h : AVI_DATA) : h.image.length = 12 := by
  unfold AVI_DATA.image
  simp [fourcc_length, le32_length]

theorem takeD_zeros (k : Nat) (l : List Nat) (hl : ∀ x ∈ l, x = 0) :
    List.takeD k l 0 = List.replicate k 0 := by
  induction k generalizing l with
  | zero => rfl
  | succ k ih =>
    cases l with
    | nil => simp [List.replicate_succ]
    | cons a l =>
      have ha : a = 0 := hl a (List.mem_cons_self _ _)
      subst ha
      simp only [List.takeD_succ, List.head?_cons, Option.getD_some, List.tail_cons,
        List.replicate_succ]
      rw [ih l (fun x hx => hl x (List.mem_cons_of_mem _ hx))]

theorem writeChunk_good (t : TUVC) (fr : uvc_frame) (size sizea : Int) (c : Channel)
    (hc : t.rchan = some c) (hw : c.wscript = []) (hs : 0 ≤ size) (hsa : size ≤ sizea) :
    (writeChunk t fr size sizea).1 =
      { t with rchan := some (c.put
          (({ hdr0 with size := PUT32LE sizea } : CHUNK_HDR).image ++
            List.takeD size.toNat fr.data 0 ++ List.replicate (sizea - size).toNat 0)) } ∧
    (writeChunk t fr size sizea).2.2.1 = (writeChunk t fr size sizea).2.1 ∧
    (writeChunk t fr size sizea).2.2.2 = size := by
  have e1 : writeTo t.rchan ({ hdr0 with size := PUT32LE sizea } : CHUNK_HDR).image
      sizeof_CHUNK_HDR = ((8 : Int), some (c.put
        ({ hdr0 with size := PUT32LE sizea } : CHUNK_HDR).image)) := by
    rw [hc]
    exact writeTo_put_all c _ 8 hw (CHUNK_HDR_image_length _)
  have e2 : writeTo (some (c.put ({ hdr0 with size := PUT32LE sizea } : CHUNK_HDR).image))
      fr.data size = (size, some ((c.put ({ hdr0 with size := PUT32LE sizea } :
        CHUNK_HDR).image).put (List.takeD size.toNat fr.data 0))) :=
    writeTo_put _ _ _ hw hs
  unfold writeChunk
  dsimp only [chanWrite]
  rw [e1]
  dsimp only
  rw [if_pos (by rfl), e2]
  dsimp only
  by_cases hgt : sizea > size
  · have e3 : writeTo (some ((c.put ({ hdr0 with size := PUT32LE sizea } :
        CHUNK_HDR).image).put (List.takeD size.toNat fr.data 0))) [0, 0, 0, 0]
        (sizea - size) = (sizea - size, some (((c.put ({ hdr0 with size := PUT32LE sizea } :
        CHUNK_HDR).image).put (List.takeD size.toNat fr.data 0)).put
          (List.takeD (sizea - size).toNat [0, 0, 0, 0] 0))) :=
      writeTo_put _ _ _ hw (by omega)
    rw [if_pos (by simp [hgt]), e3]
    dsimp only
    rw [takeD_zeros (sizea - size).toNat [0, 0, 0, 0] (by decide), put_put, put_put]
    exact ⟨rfl, rfl, rfl⟩
  · rw [if_neg (by simp [hgt])]
    have hz : (sizea - size).toNat = 0 := by omega
    rw [hz, List.replicate_zero, List.append_nil, put_put]
    exact ⟨rfl, rfl, rfl⟩

theorem headerBlock_length (avi : AVI) : (headerBlock avi).length = 240 := by
  unfold headerBlock
  simp [AVI_HDR_image_length, AVI_HDR_VIDEO_image_length, AVI_HDR_ODML_image_length,
    AVI_DATA_image_length]

theorem rewriteHeader_good (t : TUVC) (c : Channel) (p0 : Nat) (hc : t.rchan = some c)
    (hw : c.wscript = []) (hs : c.sscript = []) (hp : t.avi.pos0 = (p0 : Int)) :
    rewriteHeader t =
      { t with rchan := some { c with bytes := storeAt c.bytes p0 (headerBlock t.avi) } } := by
  have e0 : seekTo (some c) (p0 : Int) SEEK_SET = ((p0 : Int), some { c with pos := p0 }) :=
    seekTo_set c p0 hs
  have w1 : writeTo (some ({ c with pos := p0 } : Channel)) t.avi.avi_hdr.image
      sizeof_AVI_HDR = ((88 : Int), some (({ c with pos := p0 } : Channel).put
        t.avi.avi_hdr.image)) :=
    writeTo_put_all _ _ 88 hw (AVI_HDR_image_length _)
  have w2 : writeTo (some (({ c with pos := p0 } : Channel).put t.avi.avi_hdr.image))
      t.avi.avi_hdrv.image sizeof_AVI_HDR_VIDEO =
      ((116 : Int), some ((({ c with pos := p0 } : Channel).put t.avi.avi_hdr.image).put
        t.avi.avi_hdrv.image)) :=
    writeTo_put_all _ _ 116 hw (AVI_HDR_VIDEO_image_length _)
  have w3 : writeTo (some ((({ c with pos := p0 } : Channel).put t.avi.avi_hdr.image).put
        t.avi.avi_hdrv.image)) t.avi.avi_hdro.image sizeof_AVI_HDR_ODML =
      ((24 : Int), some (((({ c with pos := p0 } : Channel).put t.avi.avi_hdr.image).put
        t.avi.avi_hdrv.image).put t.avi.avi_hdro.image)) :=
    writeTo_put_all _ _ 24 hw (AVI_HDR_ODML_image_length _)
  have w4 : writeTo (some (((({ c with pos := p0 } : Channel).put t.avi.avi_hdr.image).put
        t.avi.avi_hdrv.image).put t.avi.avi_hdro.image)) t.avi.avi_data.image
        sizeof_AVI_DATA =
      ((12 : Int), some ((((({ c with pos := p0 } : Channel).put t.avi.avi_hdr.image).put
        t.avi.avi_hdrv.image).put t.avi.avi_hdro.image).put t.avi.avi_data.image)) :=
    writeTo_put_all _ _ 12 hw (AVI_DATA_image_length _)
  have e5 := seekTo_set ((((({ c with pos := p0 } : Channel).put t.avi.avi_hdr.image).put
        t.avi.avi_hdrv.image).put t.avi.avi_hdro.image).put t.avi.avi_data.image) c.pos hs
  unfold rewriteHeader
  dsimp only [chanSeek, chanWrite]
  rw [hc, seekTo_cur c hs]
  dsimp only
  rw [hp, e0]
  dsimp only
  rw [w1]
  dsimp only
  rw [w2]
  dsimp only
  rw [w3]
  dsimp only
  rw [w4]
  dsimp only
  rw [e5]
  dsimp only
  rw [if_neg (by omega)]
  rw [put_put, put_put, put_put]
  simp only [Channel.put, headerBlock, List.append_assoc]

theorem updateHeaderFields_counts (a : AVI) (m : Bool) (i : Int) :
    (updateHeaderFields a m i).avi_hdr.avih.nframes = PUT32LE (toInt32 a.nframes0) ∧
    (updateHeaderFields a m i).avi_hdrv.strh.length = PUT32LE (toInt32 a.nframes0) ∧
    (updateHeaderFields a m i).avi_hdro.nframes = PUT32LE (toInt32 a.nframes) := by
  unfold updateHeaderFields
  cases m <;> exact ⟨rfl, rfl, rfl⟩

theorem updateHeaderFields_sizes (a : AVI) (m : Bool) (i : Int) :
    (updateHeaderFields a m i).avi_hdr.riff_size =
      PUT32LE (toInt32 (a.hdrsize + a.segsize0) + i) ∧
    (updateHeaderFields a m i).avi_data.data_size = PUT32LE (toInt32 (a.segsize0 + 4)) ∧
    (updateHeaderFields a m i).avi_hdr.avih.flags = a.avi_hdr.avih.flags := by
  unfold updateHeaderFields
  cases m <;> exact ⟨rfl, rfl, rfl⟩

theorem updateHeaderFields_state (a : AVI) (m : Bool) (i : Int) :
    (updateHeaderFields a m i).nframes = a.nframes ∧
    (updateHeaderFields a m i).nframes0 = a.nframes0 ∧
    (updateHeaderFields a m i).totsize = a.totsize ∧
    (updateHeaderFields a m i).segsize = a.segsize ∧
    (updateHeaderFields a m i).segsize0 = a.segsize0 ∧
    (updateHeaderFields a m i).segstart = a.segstart ∧
    (updateHeaderFields a m i).hdrsize = a.hdrsize ∧
    (updateHeaderFields a m i).pos0 = a.pos0 ∧
    (updateHeaderFields a m i).idx_off = a.idx_off ∧
    (updateHeaderFields a m i).curr_idx = a.curr_idx ∧
    (updateHeaderFields a m i).num_idx = a.num_idx ∧
    (updateHeaderFields a m i).idx = a.idx ∧
    (updateHeaderFields a m i).rate = a.rate ∧
    (updateHeaderFields a m i).avi_hdrv.strh.handler = a.avi_hdrv.strh.handler := by
  unfold updateHeaderFields
  cases m <;> exact ⟨rfl, rfl, rfl, rfl, rfl, rfl, rfl, rfl, rfl, rfl, rfl, rfl, rfl, rfl⟩

theorem writeIndexChunk_false (t : TUVC) :
    writeIndexChunk t false =
      ({ t with avi := { t.avi with avi_hdr := { t.avi.avi_hdr with
          avih := { t.avi.avi_hdr.avih with flags := PUT32LE 0 } } } }, 0) := by
  unfold writeIndexChunk
  rw [if_neg (by simp)]

theorem writeIndexChunk_none (t : TUVC) (e : Bool) (h : t.avi.idx = none) :
    writeIndexChunk t e =
      ({ t with avi := { t.avi with avi_hdr := { t.avi.avi_hdr with
          avih := { t.avi.avi_hdr.avih with flags := PUT32LE 0 } } } }, 0) := by
  unfold writeIndexChunk
  rw [if_neg (by simp [h])]

theorem patch_false (t : TUVC) :
    ({ (writeIndexChunk t false).1 with
        avi := updateHeaderFields (writeIndexChunk t false).1.avi
          (handlerIsMJPG (writeIndexChunk t false).1) (writeIndexChunk t false).2 } : TUVC) =
      { t with avi := patchedAvi t (PUT32LE 0) 0 } := by
  rw [writeIndexChunk_false]
  rfl

theorem patch_none (t : TUVC) (e : Bool) (h : t.avi.idx = none) :
    ({ (writeIndexChunk t e).1 with
        avi := updateHeaderFields (writeIndexChunk t e).1.avi
          (handlerIsMJPG (writeIndexChunk t e).1) (writeIndexChunk t e).2 } : TUVC) =
      { t with avi := patchedAvi t (PUT32LE 0) 0 } := by
  rw [writeIndexChunk_none t e h]
  rfl

theorem patchedAvi_pos0 (t : TUVC) (fl : Nat) (i : Int) :
    (patchedAvi t fl i).pos0 = t.avi.pos0 :=
  (updateHeaderFields_state _ _ _).2.2.2.2.2.2.2.1

theorem WriteAVIHeader_false_good (t : TUVC) (c : Channel) (p0 : Nat)
    (hc : t.rchan = some c) (hw : c.wscript = []) (hs : c.sscript = [])
    (hp : t.avi.pos0 = (p0 : Int)) :
    WriteAVIHeader t false =
      { t with avi := patchedAvi t (PUT32LE 0) 0,
               rchan := some { c with
                 bytes := storeAt c.bytes p0 (headerBlock (patchedAvi t (PUT32LE 0) 0)) } } := by
  have key := rewriteHeader_good { t with avi := patchedAvi t (PUT32LE 0) 0 } c p0 hc hw hs
    (by rw [← hp]; exact patchedAvi_pos0 t _ _)
  unfold WriteAVIHeader
  dsimp only
  rw [patch_false, key, if_neg (by simp)]

theorem WriteAVIHeader_none_good (t : TUVC) (c : Channel) (p0 : Nat)
    (hc : t.rchan = some c) (hw : c.wscript = []) (hs : c.sscript = [])
    (hp : t.avi.pos0 = (p0 : Int)) (hi : t.avi.idx = none) :
    WriteAVIHeader t true =
      { t with avi := { patchedAvi t (PUT32LE 0) 0 with
                 curr_idx := 0, num_idx := 0, idx := none },
               rchan := some { c with
                 bytes := storeAt c.bytes p0 (headerBlock (patchedAvi t (PUT32LE 0) 0)) } } := by
  have key := rewriteHeader_good { t with avi := patchedAvi t (PUT32LE 0) 0 } c p0 hc hw hs
    (by rw [← hp]; exact patchedAvi_pos0 t _ _)
  unfold WriteAVIHeader
  dsimp only
  rw [patch_none t true hi, key, if_pos rfl]

theorem idxImage_cons (e : AVI_IDX) (l : List AVI_IDX) :
    idxImage (e :: l) = e.image ++ idxImage l := by
  unfold idxImage
  simp

theorem idxImage_length (l : List AVI_IDX) : (idxImage l).length = 16 * l.length := by
  induction l with
  | nil => rfl
  | cons e l ih =>
    rw [idxImage_cons, List.length_append, ih, AVI_IDX_image_length, List.length_cons]
    omega

theorem idxImage_append (l m : List AVI_IDX) : idxImage (l ++ m) = idxImage l ++ idxImage m := by
  unfold idxImage
  simp

theorem idxImage_take (k : Nat) (buf : List AVI_IDX) (hk : k ≤ buf.length) :
    List.takeD (16 * k) (idxImage buf) 0 = idxImage (buf.take k) := by
  rw [List.takeD_eq_take 0 (by rw [idxImage_length]; omega)]
  conv => lhs; rw [← List.take_append_drop k buf]
  rw [idxImage_append]
  have hl : (idxImage (List.take k buf)).length = 16 * k := by
    rw [idxImage_length, List.length_take, Nat.min_eq_left hk]
  rw [← hl, List.take_left]

theorem indexChunk_length (buf : List AVI_IDX) (k : Nat) (hk : k ≤ buf.length) :
    (indexChunk buf k).length = 8 + 16 * k := by
  unfold indexChunk
  rw [List.length_append, CHUNK_HDR_image_length, idxImage_length, List.length_take,
    Nat.min_eq_left hk]

theorem writeIndexChunk_some (t : TUVC) (c : Channel) (buf : List AVI_IDX) (k : Nat)
    (hc : t.rchan = some c) (hw : c.wscript = []) (hi : t.avi.idx = some buf)
    (hk : t.avi.curr_idx = (k : Int)) (hkb : k ≤ buf.length) (hk2 : 16 * k < 2147483648) :
    writeIndexChunk t true =
      ({ t with avi := { t.avi with avi_hdr := { t.avi.avi_hdr with
            avih := { t.avi.avi_hdr.avih with flags := PUT32LE 0x10 } } },
                rchan := some (c.put (indexChunk buf k)) },
       16 * (k : Int) + 8) := by
  have hsz : toInt32 (t.avi.curr_idx * sizeof_AVI_IDX) = 16 * (k : Int) := by
    rw [hk]
    unfold toInt32 sizeof_AVI_IDX
    omega
  have e1 : writeTo t.rchan ({ id := ascii "idx1", size := PUT32LE (16 * (k : Int)) } :
      CHUNK_HDR).image sizeof_CHUNK_HDR = ((8 : Int), some (c.put
        ({ id := ascii "idx1", size := PUT32LE (16 * (k : Int)) } : CHUNK_HDR).image)) := by
    rw [hc]
    exact writeTo_put_all c _ 8 hw (CHUNK_HDR_image_length _)
  have e2 : writeTo (some (c.put ({ id := ascii "idx1", size := PUT32LE (16 * (k : Int)) } :
      CHUNK_HDR).image)) (idxImage buf) (16 * (k : Int)) =
      (16 * (k : Int), some ((c.put ({ id := ascii "idx1", size := PUT32LE (16 * (k : Int)) } :
      CHUNK_HDR).image).put (idxImage (buf.take k)))) := by
    rw [writeTo_put (c.put ({ id := ascii "idx1", size := PUT32LE (16 * (k : Int)) } :
      CHUNK_HDR).image) (idxImage buf) (16 * (k : Int)) hw (by omega)]
    have : (16 * (k : Int)).toNat = 16 * k := by omega
    rw [this, idxImage_take k buf hkb]
  unfold writeIndexChunk
  rw [if_pos (by simp [hi])]
  dsimp only [chanWrite]
  rw [hsz, e1]
  dsimp only
  rw [hi]
  dsimp only [Option.getD]
  rw [e2]
  dsimp only
  rw [put_put]
  rfl

theorem patch_some (t : TUVC) (c : Channel) (buf : List AVI_IDX) (k : Nat)
    (hc : t.rchan = some c) (hw : c.wscript = []) (hi : t.avi.idx = some buf)
    (hk : t.avi.curr_idx = (k : Int)) (hkb : k ≤ buf.length) (hk2 : 16 * k < 2147483648) :
    ({ (writeIndexChunk t true).1 with
        avi := updateHeaderFields (writeIndexChunk t true).1.avi
          (handlerIsMJPG (writeIndexChunk t true).1) (writeIndexChunk t true).2 } : TUVC) =
      { t with avi := patchedAvi t (PUT32LE 0x10) (16 * (k : Int) + 8),
               rchan := some (c.put (indexChunk buf k)) } := by
  rw [writeIndexChunk_some t c buf k hc hw hi hk hkb hk2]
  rfl

theorem WriteAVIHeader_some_good (t : TUVC) (c : Channel) (p0 : Nat) (buf : List AVI_IDX)
    (k : Nat) (hc : t.rchan = some c) (hw : c.wscript = []) (hs : c.sscript = [])
    (hp : t.avi.pos0 = (p0 : Int)) (hi : t.avi.idx = some buf)
    (hk : t.avi.curr_idx = (k : Int)) (hkb : k ≤ buf.length) (hk2 : 16 * k < 2147483648) :
    WriteAVIHeader t true =
      { t with avi := { patchedAvi t (PUT32LE 0x10) (16 * (k : Int) + 8) with
                 curr_idx := 0, num_idx := 0, idx := none },
               rchan := some { c.put (indexChunk buf k) with
                 bytes := storeAt (c.put (indexChunk buf k)).bytes p0
                   (headerBlock (patchedAvi t (PUT32LE 0x10) (16 * (k : Int) + 8))) } } := by
  have key := rewriteHeader_good
    { t with avi := patchedAvi t (PUT32LE 0x10) (16 * (k : Int) + 8),
             rchan := some (c.put (indexChunk buf k)) }
    (c.put (indexChunk buf k)) p0 rfl hw hs
    (by rw [← hp]; exact patchedAvi_pos0 t _ _)
  unfold WriteAVIHeader
  dsimp only
  rw [patch_some t c buf k hc hw hi hk hkb hk2, key, if_pos rfl]

theorem closeTail_end (t : TUVC) (pos w : Int) :
    closeTail t pos true w w =
      { t with avi := { t.avi with segsize := 0, segstart := pos } } := by
  unfold closeTail
  dsimp only
  rw [if_neg (by simp), if_neg (by simp)]

theorem closeTail_next (t : TUVC) (c : Channel) (pos w : Int) (hc : t.rchan = some c)
    (hw : c.wscript = []) :
    closeTail t pos false w w =
      { t with avi := { t.avi with segsize := 0, segstart := pos },
               rchan := some (c.put xhdr0.image) } := by
  have e1 : writeTo t.rchan xhdr0.image sizeof_AVIX_HDR =
      ((24 : Int), some (c.put xhdr0.image)) := by
    rw [hc]
    exact writeTo_put_all c _ 24 hw (AVIX_HDR_image_length _)
  unfold closeTail
  dsimp only [chanWrite]
  rw [if_pos (by simp), e1]
  dsimp only
  rw [if_neg (by decide)]

theorem chanSeek_cur_good (t : TUVC) (c : Channel) (hc : t.rchan = some c)
    (hs : c.sscript = []) : chanSeek t 0 SEEK_CUR = ((c.pos : Int), t) := by
  unfold chanSeek
  rw [hc, seekTo_cur c hs]
  dsimp only
  rw [← hc]

theorem chanSeek_set_good (t : TUVC) (c : Channel) (o : Nat) (hc : t.rchan = some c)
    (hs : c.sscript = []) :
    chanSeek t (o : Int) SEEK_SET = ((o : Int), { t with rchan := some { c with pos := o } }) := by
  unfold chanSeek
  rw [hc, seekTo_set c o hs]

theorem CloseAVISegment_first (t : TUVC) (c : Channel) (p0 : Nat) (e : Bool)
    (hc : t.rchan = some c) (hw : c.wscript = []) (hs : c.sscript = [])
    (hp : t.avi.pos0 = (p0 : Int)) (hr : t.rstate ≠ REC_ERROR)
    (hseg : ¬ t.avi.totsize > t.avi.segsize) :
    CloseAVISegment t e =
      closeTail { t with avi := firstClosed t,
                         rchan := some { c with
                           bytes := storeAt c.bytes p0 (headerBlock (firstClosed t)) } }
        (c.pos : Int) e 0 0 := by
  have key := WriteAVIHeader_false_good
    { t with avi := { t.avi with nframes0 := t.avi.nframes, segsize0 := t.avi.segsize } }
    c p0 hc hw hs hp
  unfold CloseAVISegment
  rw [chanSeek_cur_good t c hc hs]
  dsimp only
  rw [if_neg hseg, key]
  dsimp only
  rw [if_neg hr]
  rfl

theorem CloseAVISegment_later (t : TUVC) (c : Channel) (ss : Nat) (e : Bool)
    (hc : t.rchan = some c) (hw : c.wscript = []) (hs : c.sscript = [])
    (hss : t.avi.segstart = (ss : Int)) (hseg : t.avi.totsize > t.avi.segsize) :
    CloseAVISegment t e =
      closeTail { t with rchan := some { c with
                    bytes := storeAt c.bytes ss (segmentHeader t.avi.segsize).image } }
        (c.pos : Int) e (sizeof_AVIX_HDR : Int) (sizeof_AVIX_HDR : Int) := by
  have w1 : writeTo (some ({ c with pos := ss } : Channel)) (segmentHeader t.avi.segsize).image
      sizeof_AVIX_HDR = ((24 : Int), some (({ c with pos := ss } : Channel).put
        (segmentHeader t.avi.segsize).image)) :=
    writeTo_put_all _ _ 24 hw (AVIX_HDR_image_length _)
  have s2 := seekTo_set (({ c with pos := ss } : Channel).put
    (segmentHeader t.avi.segsize).image) c.pos hs
  unfold CloseAVISegment
  rw [chanSeek_cur_good t c hc hs]
  dsimp only
  rw [if_pos hseg, hss, chanSeek_set_good t c ss hc hs]
  dsimp only [chanWrite, chanSeek]
  unfold segmentHeader at w1 s2
  rw [w1]
  dsimp only
  rw [s2]
  rfl

theorem addIndexEntry_avi_only (t : TUVC) (sizea : Int) (env : FrameEnv) :
    ∃ avi, addIndexEntry t sizea env = { t with avi := avi } := by
  unfold addIndexEntry
  dsimp only
  split <;> split_ifs <;> exact ⟨_, rfl⟩

theorem writeResult_same (t : TUVC) (w : Int) (h : t.rstate ≠ REC_ERROR) :
    writeResult t w w = (1, t) := by
  unfold writeResult
  simp [h]

theorem accountChunk_norot (t : TUVC) (size sizea fw : Int) (env : FrameEnv)
    (h : ¬ t.avi.segsize + (sizea + sizeof_CHUNK_HDR) > 0x7F000000) :
    ∃ avi, accountChunk t size sizea fw env = { t with avi := avi } := by
  unfold accountChunk
  dsimp only
  split
  · split
    · obtain ⟨a, ha⟩ := addIndexEntry_avi_only
        { t with avi := { t.avi with
            nframes := t.avi.nframes + 1,
            totsize := t.avi.totsize + (sizea + sizeof_CHUNK_HDR),
            segsize := t.avi.segsize + (sizea + sizeof_CHUNK_HDR) } } sizea env
      exact ⟨a, ha⟩
    · exact ⟨_, rfl⟩
  · exact ⟨_, rfl⟩

theorem frameChunk_length (fr : uvc_frame) (size sizea : Int) (hs : 0 ≤ size)
    (hsa : size ≤ sizea) : ((frameChunk fr size sizea).length : Int) = 8 + sizea := by
  unfold frameChunk
  simp only [List.length_append, CHUNK_HDR_image_length, List.takeD_length,
    List.length_replicate]
  push_cast
  omega

theorem writeAVIFrame_norot (t : TUVC) (f fr : uvc_frame) (diff : timeval) (env : FrameEnv)
    (size : Int) (c : Channel) (hc : t.rchan = some c) (hw : c.wscript = [])
    (hr : t.rstate ≠ REC_ERROR) (hsel : aviFrameSize t f env = some (fr, size))
    (hs : 0 ≤ size) (hs3 : size + 3 < 2147483648)
    (hrot : ¬ t.avi.segsize + ((size + 3) / 4 * 4 + 8) > 0x7F000000) :
    ∃ avi, writeAVIFrame t f diff env =
      (1, { t with avi := avi,
                   rchan := some (c.put (frameChunk fr size ((size + 3) / 4 * 4))) }) := by
  have hsa : toInt32 (size + 3) / 4 * 4 = (size + 3) / 4 * 4 := by
    unfold toInt32
    omega
  have hle : size ≤ (size + 3) / 4 * 4 := by omega
  obtain ⟨g1, g2, g3⟩ := writeChunk_good t fr size ((size + 3) / 4 * 4) c hc hw hs hle
  obtain ⟨a, ha⟩ := accountChunk_norot
    { t with rchan := some (c.put (frameChunk fr size ((size + 3) / 4 * 4))) }
    size ((size + 3) / 4 * 4) size env hrot
  unfold frameChunk at ha
  unfold writeAVIFrame
  rw [hsel]
  dsimp only
  rw [hsa, g2, g3, g1, ha]
  exact ⟨averageRate a diff, writeResult_same _ _ hr⟩

/-! ## Layout of a chunk -/

theorem WriteFrame_avi_open (t : TUVC) (f : uvc_frame) (env : FrameEnv)
    (hc : t.rchan.isSome = true) (hr : t.rstate ≠ REC_ERROR) (havi : t.rbdStr = [])
    (hdata : f.data_bytes ≠ 0)
    (hgate : tvPositive (tvDiff t.rtv (effectiveNow f env)) = false) :
    WriteFrame t f env =
      writeAVIFrame { t with rtv := tvAdvance (effectiveNow f env) t.rrate,
                             ltv := effectiveNow f env }
        f (tvDiff (effectiveNow f env) t.ltv) env := by
  have h0 : noChannelCheck t = t := by
    unfold noChannelCheck
    cases hcc : t.rchan with
    | none => rw [hcc] at hc; exact absurd hc (by decide)
    | some c => simp
  unfold WriteFrame
  rw [h0]
  dsimp only
  rw [hgate, if_neg (by decide), if_neg hdata, if_neg hr, if_neg (by simp [havi])]

theorem chunk_header_image (p : Nat) (hp : p < 4294967296) :
    ({ hdr0 with size := PUT32LE (p : Int) } : CHUNK_HDR).image = [48, 48, 100, 98] ++ le32 p := by
  have h1 : PUT32LE (p : Int) = p := by
    unfold PUT32LE
    omega
  unfold CHUNK_HDR.image
  dsimp only
  rw [h1]
  rfl

/-- C13 (amended). A frame passes the timing gate of an AVI session whose sink
accepts every write; `s` is its payload size (`s + 3 < 2^31`), the data of
the frame hold at least `s` bytes, and the chunk does not make the open
segment exceed 0x7F000000. Then `WriteFrame` returns 1
and the sink got, at its position, exactly the bytes `00db`, the
little-endian 32-bit padded size `p = (s + 3) / 4 * 4`, the `s` payload
bytes and `p - s` zero bytes, and the position moved by `8 + p`; `p` is the
smallest multiple of 4 that is at least `s`. -/
theorem C13_chunk_layout (t : TUVC) (f fr : uvc_frame) (env : FrameEnv) (c : Channel)
    (s : Nat) (hc : t.rchan = some c) (hw : c.wscript = []) (hr : t.rstate ≠ REC_ERROR)
    (havi : t.rbdStr = []) (hdata : f.data_bytes ≠ 0)
    (hgate : tvPositive (tvDiff t.rtv (effectiveNow f env)) = false)
    (hsel : aviFrameSize t f env = some (fr, (s : Int))) (hs3 : s + 3 < 2147483648)
    (hfit : s ≤ fr.data.length)
    (hrot : t.avi.segsize + (((s + 3) / 4 * 4 + 8 : Nat) : Int) ≤ 0x7F000000) :
    (WriteFrame t f env).1 = 1 ∧
    (WriteFrame t f env).2.rchan = some { c with
        bytes := storeAt c.bytes c.pos
          ([48, 48, 100, 98] ++ le32 ((s + 3) / 4 * 4) ++ fr.data.take s ++
            List.replicate ((s + 3) / 4 * 4 - s) 0),
        pos := c.pos + (8 + (s + 3) / 4 * 4) } ∧
    (s + 3) / 4 * 4 % 4 = 0 ∧ s ≤ (s + 3) / 4 * 4 ∧ (s + 3) / 4 * 4 < s + 4 := by
  have hp : (((s : Int) + 3) / 4 * 4) = (((s + 3) / 4 * 4 : Nat) : Int) := by
    push_cast
    rfl
  rw [WriteFrame_avi_open t f env (by rw [hc]; rfl) hr havi hdata hgate]
  obtain ⟨a, ha⟩ := writeAVIFrame_norot
    { t with rtv := tvAdvance (effectiveNow f env) t.rrate, ltv := effectiveNow f env }
    f fr (tvDiff (effectiveNow f env) t.ltv) env (s : Int) c hc hw hr
    (by rw [← hsel]; exact aviFrameSize_avi t _ f env rfl) (by omega) (by omega)
    (by rw [hp]; push_cast at hrot ⊢; omega)
  rw [ha]
  refine ⟨rfl, ?_, by omega, by omega, by omega⟩
  dsimp only
  unfold Channel.put frameChunk
  rw [hp, chunk_header_image _ (by omega)]
  have h2 : ((((s + 3) / 4 * 4 : Nat) : Int) - (s : Int)).toNat = (s + 3) / 4 * 4 - s := by
    omega
  rw [h2, Int.toNat_ofNat, List.takeD_eq_take 0 hfit]
  congr 2
  simp only [List.length_append, List.length_cons, List.length_nil, le32_length,
    List.length_take, List.length_replicate]
  omega

/-- Witness of C13 (amended): the second frame of a recording on an empty file, a
chunk of 12 bytes is stored at position 252. -/
theorem C13_chunk_layout_witness :
    (afterFirstFrame.rchan = some (afterFirstFrame.rchan.getD emptyChannel) ∧
      (afterFirstFrame.rchan.getD emptyChannel).wscript = [] ∧
      afterFirstFrame.rstate ≠ REC_ERROR ∧ afterFirstFrame.rbdStr = [] ∧
      (sampleFrame 2 200000).data_bytes ≠ 0 ∧
      tvPositive (tvDiff afterFirstFrame.rtv
        (effectiveNow (sampleFrame 2 200000) (callbackAt 200000).wf)) = false ∧
      aviFrameSize afterFirstFrame (sampleFrame 2 200000) (callbackAt 200000).wf =
        some (sampleFrame 2 200000, ((4 : Nat) : Int)) ∧
      4 + 3 < 2147483648 ∧ 4 ≤ (sampleFrame 2 200000).data.length ∧
      afterFirstFrame.avi.segsize + (((4 + 3) / 4 * 4 + 8 : Nat) : Int) ≤ 0x7F000000) ∧
    (WriteFrame afterFirstFrame (sampleFrame 2 200000) (callbackAt 200000).wf).2.rchan =
      some { afterFirstFrame.rchan.getD emptyChannel with
        bytes := storeAt (afterFirstFrame.rchan.getD emptyChannel).bytes
          (afterFirstFrame.rchan.getD emptyChannel).pos
          ([48, 48, 100, 98] ++ le32 ((4 + 3) / 4 * 4) ++
            (sampleFrame 2 200000).data.take 4 ++
            List.replicate ((4 + 3) / 4 * 4 - 4) 0),
        pos := (afterFirstFrame.rchan.getD emptyChannel).pos + (8 + (4 + 3) / 4 * 4) } :=
  ⟨⟨by decide, by decide, by decide, by decide, by decide, by decide, by decide, by decide,
    by decide, by decide⟩,
   (C13_chunk_layout afterFirstFrame (sampleFrame 2 200000) (sampleFrame 2 200000)
     (callbackAt 200000).wf (afterFirstFrame.rchan.getD emptyChannel) 4
     (by decide) (by decide) (by decide) (by decide) (by decide) (by decide) (by decide)
     (by decide) (by decide) (by decide)).2.1⟩

/-- C13 (counterexample). When the chunk makes the segment exceed 0x7F000000 the frame is
written without error to a sink on which every call succeeds, with result 1,
but the call appends 36 bytes, the chunk of 12 bytes and the 24 bytes of the
opener of the next segment. -/
theorem C13_counterexample :
    atSegmentLimit.rchan.map Channel.wscript = some [] ∧
    atSegmentLimit.rchan.map Channel.sscript = some [] ∧
    atSegmentLimit.rstate ≠ REC_ERROR ∧ atSegmentLimit.rbdStr = [] ∧
    aviFrameSize atSegmentLimit (sampleFrame 2 200000) (callbackAt 200000).wf =
      some (sampleFrame 2 200000, 4) ∧
    (WriteFrame atSegmentLimit (sampleFrame 2 200000) (callbackAt 200000).wf).1 = 1 ∧
    atSegmentLimit.rchan.map Channel.pos = some 252 ∧
    (WriteFrame atSegmentLimit (sampleFrame 2 200000) (callbackAt 200000).wf).2.rchan.map
      Channel.pos = some 288 ∧
    (WriteFrame atSegmentLimit (sampleFrame 2 200000) (callbackAt 200000).wf).2.rchan.map
      (fun c => c.bytes.drop 252) =
      some ([48, 48, 100, 98, 4, 0, 0, 0, 2, 0, 0, 0] ++
        [82, 73, 70, 70, 0, 0, 0, 0, 65, 86, 73, 88, 76, 73, 83, 84, 0, 0, 0, 0,
         109, 111, 118, 105]) := by
  decide

/-! ## Sink failures that are not checked -/

/-- C12 (failing inputs). (1) `record start` on a channel that accepts only
10 of the 88 bytes of the first header write returns `TCL_OK` with the state
`REC_RECPRI`, and takes the short count into `hdrsize` (150 instead of 228).
(2) A frame that rotates the segment while the sink accepts the chunk but no
byte of the four header writes of `WriteAVIHeader`: `WriteFrame` returns 1,
the state stays `REC_RECPRI` and the frame count in the header of the sink is
still 0. (3) The same frame when the seek to the header origin in
`WriteAVIHeader` fails: result 1, state `REC_RECPRI`, and the header block is
written at the end of the sink (504 bytes instead of 288). (4) The same frame
when the position query of `CloseAVISegment` fails: result 1, state
`REC_RECPRI`, and the segment start is recorded as -1. On the sink on which
every call succeeds the header holds the frame count 2 after this frame. -/
theorem C12_unchecked_failures :
    ((StartRecording capturingFmt (aviStart shortChannel 10) (atMicros 0)).1 = TCL_OK ∧
      (StartRecording capturingFmt (aviStart shortChannel 10) (atMicros 0)).2.rstate =
        REC_RECPRI ∧
      (StartRecording capturingFmt (aviStart shortChannel 10) (atMicros 0)).2.avi.hdrsize =
        150) ∧
    ((WriteFrame (atSegmentLimitOn [8, 4, 0, 0, 0, 0] []) (sampleFrame 2 200000)
        (callbackAt 200000).wf).1 = 1 ∧
      (WriteFrame (atSegmentLimitOn [8, 4, 0, 0, 0, 0] []) (sampleFrame 2 200000)
        (callbackAt 200000).wf).2.rstate = REC_RECPRI ∧
      (WriteFrame (atSegmentLimitOn [8, 4, 0, 0, 0, 0] []) (sampleFrame 2 200000)
        (callbackAt 200000).wf).2.rchan.map (fun c => (c.bytes.drop 48).take 4) =
          some [0, 0, 0, 0]) ∧
    ((WriteFrame (atSegmentLimitOn [] [false, false, true]) (sampleFrame 2 200000)
        (callbackAt 200000).wf).1 = 1 ∧
      (WriteFrame (atSegmentLimitOn [] [false, false, true]) (sampleFrame 2 200000)
        (callbackAt 200000).wf).2.rstate = REC_RECPRI ∧
      (WriteFrame (atSegmentLimitOn [] [false, false, true]) (sampleFrame 2 200000)
        (callbackAt 200000).wf).2.rchan.map (fun c => c.bytes.length) = some 504) ∧
    ((WriteFrame (atSegmentLimitOn [] [true]) (sampleFrame 2 200000)
        (callbackAt 200000).wf).1 = 1 ∧
      (WriteFrame (atSegmentLimitOn [] [true]) (sampleFrame 2 200000)
        (callbackAt 200000).wf).2.rstate = REC_RECPRI ∧
      (WriteFrame (atSegmentLimitOn [] [true]) (sampleFrame 2 200000)
        (callbackAt 200000).wf).2.avi.segstart = -1) ∧
    ((WriteFrame (atSegmentLimitOn [] []) (sampleFrame 2 200000)
        (callbackAt 200000).wf).2.rchan.map
          (fun c => (c.bytes.length, (c.bytes.drop 48).take 4)) = some (288, [2, 0, 0, 0])) := by
  decide

theorem setupAVI_steps (t : TUVC) (ufmt : UFMT) (doMJPG : Nat) (pos0 : Int) :
    setupAVI t ufmt doMJPG pos0 =
      resetIndex (WriteAVIHeader (writeStreamHeaders (initVideoHeader
        (writeMainHeader (initHeaders t ufmt doMJPG pos0)) ufmt doMJPG
        (toInt32 (t.rrate.tv_sec * 1000000 + t.rrate.tv_usec)))) false) := rfl

theorem chanWrite_put (t : TUVC) (c : Channel) (buf : List Nat) (n : Nat)
    (hc : t.rchan = some c) (hw : c.wscript = []) (hn : buf.length = n) :
    chanWrite t buf (n : Int) = ((n : Int), { t with rchan := some (c.put buf) }) := by
  unfold chanWrite
  rw [hc, writeTo_put_all c buf n hw hn]

theorem storeAt_overwrite (b : List Nat) (p : Nat) (x y : List Nat) (h : x.length = y.length) :
    storeAt (storeAt b p x) p y = storeAt b p y := by
  unfold storeAt
  have h1 : (List.takeD p b 0).length = p := List.takeD_length _ _ _
  have h2 : (List.takeD p b 0 ++ x).length = p + y.length := by
    rw [List.length_append, h1, h]
  rw [List.append_assoc (List.takeD p b 0) x, List.takeD_left' h1]
  rw [← List.append_assoc (List.takeD p b 0) x, ← h2, List.drop_left, h2, h]

theorem writeMainHeader_good (u : TUVC) (c : Channel) (hc : u.rchan = some c)
    (hw : c.wscript = []) :
    writeMainHeader u =
      { u with avi := { u.avi with hdrsize := 88 },
               rchan := some (c.put u.avi.avi_hdr.image) } := by
  unfold writeMainHeader
  rw [chanWrite_put u c _ sizeof_AVI_HDR hc hw (AVI_HDR_image_length _)]
  rfl

theorem writeStreamHeaders_good (u : TUVC) (c : Channel) (hc : u.rchan = some c)
    (hw : c.wscript = []) (hh : u.avi.hdrsize = 88) :
    writeStreamHeaders u =
      { u with avi := { u.avi with hdrsize := 228, segsize0 := 4 },
               rchan := some (c.put (u.avi.avi_hdrv.image ++ u.avi.avi_hdro.image ++
                 u.avi.avi_data.image)) } := by
  have e2 := chanWrite_put u c u.avi.avi_hdrv.image sizeof_AVI_HDR_VIDEO hc hw
    (AVI_HDR_VIDEO_image_length _)
  have e3 := chanWrite_put
    { u with avi := { u.avi with hdrsize := toInt32 (u.avi.hdrsize + (sizeof_AVI_HDR_VIDEO : Int)) },
             rchan := some (c.put u.avi.avi_hdrv.image) }
    (c.put u.avi.avi_hdrv.image) u.avi.avi_hdro.image sizeof_AVI_HDR_ODML rfl hw
    (AVI_HDR_ODML_image_length _)
  have e4 := chanWrite_put
    { u with avi := { u.avi with
               hdrsize := toInt32 (toInt32 (u.avi.hdrsize + (sizeof_AVI_HDR_VIDEO : Int)) +
                 (sizeof_AVI_HDR_ODML : Int)) },
             rchan := some ((c.put u.avi.avi_hdrv.image).put u.avi.avi_hdro.image) }
    ((c.put u.avi.avi_hdrv.image).put u.avi.avi_hdro.image) u.avi.avi_data.image
    sizeof_AVI_DATA rfl hw (AVI_DATA_image_length _)
  dsimp only at e3 e4
  unfold writeStreamHeaders
  dsimp only
  rw [e2]
  dsimp only
  rw [e3]
  dsimp only
  rw [e4]
  dsimp only
  rw [put_put, put_put, hh, List.append_assoc]
  rfl

theorem headerBlock_resetIndex (u : TUVC) : headerBlock (resetIndex u).avi = headerBlock u.avi :=
  rfl

theorem put_header (c : Channel) (x hb : List Nat) (hx : x.length = hb.length) :
    ({ c.put x with bytes := storeAt (c.put x).bytes c.pos hb } : Channel) =
      { c with bytes := storeAt c.bytes c.pos hb, pos := c.pos + hb.length } := by
  unfold Channel.put
  dsimp only
  rw [storeAt_overwrite _ _ _ _ hx, hx]

theorem updateHeaderFields_uspf (a : AVI) (m : Bool) (i : Int) :
    (updateHeaderFields a m i).avi_hdr.avih.uspf =
      (if m = true then PUT32LE (toInt32 (a.rate.tv_sec * 1000000 + a.rate.tv_usec))
       else a.avi_hdr.avih.uspf) := by
  unfold updateHeaderFields
  cases m <;> rfl

theorem patchedAvi_counters (t : TUVC) (fl : Nat) (i : Int) :
    countersEq (patchedAvi t fl i) t.avi := by
  obtain ⟨h1, h2, h3, h4, _, h6, _, _, _, _, _, _, h13, _⟩ :=
    updateHeaderFields_state
      { t.avi with avi_hdr := { t.avi.avi_hdr with
          avih := { t.avi.avi_hdr.avih with flags := fl } } } (handlerIsMJPG t) i
  exact ⟨h1, h2, h3, h4, h6, h13⟩

theorem patchedAvi_index (t : TUVC) (fl : Nat) (i : Int) :
    (patchedAvi t fl i).hdrsize = t.avi.hdrsize ∧ (patchedAvi t fl i).pos0 = t.avi.pos0 ∧
    (patchedAvi t fl i).segsize0 = t.avi.segsize0 ∧
    (patchedAvi t fl i).idx_off = t.avi.idx_off ∧
    (patchedAvi t fl i).curr_idx = t.avi.curr_idx ∧
    (patchedAvi t fl i).num_idx = t.avi.num_idx ∧ (patchedAvi t fl i).idx = t.avi.idx ∧
    (patchedAvi t fl i).avi_hdrv.strh.handler = t.avi.avi_hdrv.strh.handler := by
  obtain ⟨_, _, _, _, h5, _, h7, h8, h9, h10, h11, h12, _, h14⟩ :=
    updateHeaderFields_state
      { t.avi with avi_hdr := { t.avi.avi_hdr with
          avih := { t.avi.avi_hdr.avih with flags := fl } } } (handlerIsMJPG t) i
  exact ⟨h7, h8, h5, h9, h10, h11, h12, h14⟩

theorem writeMainHeader_put (u : TUVC) (c : Channel) (hc : u.rchan = some c)
    (hw : c.wscript = []) :
    ∃ H : List Nat, H.length = 88 ∧
      writeMainHeader u = { u with avi := { u.avi with hdrsize := 88 },
                                   rchan := some (c.put H) } :=
  ⟨_, AVI_HDR_image_length _, writeMainHeader_good u c hc hw⟩

theorem writeStreamHeaders_put (u : TUVC) (c : Channel) (hc : u.rchan = some c)
    (hw : c.wscript = []) (hh : u.avi.hdrsize = 88) :
    ∃ H : List Nat, H.length = 152 ∧
      writeStreamHeaders u = { u with avi := { u.avi with hdrsize := 228, segsize0 := 4 },
                                      rchan := some (c.put H) } := by
  refine ⟨_, ?_, writeStreamHeaders_good u c hc hw hh⟩
  simp [AVI_HDR_VIDEO_image_length, AVI_HDR_ODML_image_length, AVI_DATA_image_length]

/-- On a sink on which every call succeeds the block "Setup AVI writer" leaves
the header block of the new writer state at the header origin and the access
position behind it. The recording state and the counters of the writer are as
before, the header size is 228 and the index is empty. -/
theorem setupAVI_good (t : TUVC) (ufmt : UFMT) (doMJPG : Nat) (c : Channel)
    (hc : t.rchan = some c) (hw : c.wscript = []) (hs : c.sscript = []) :
    (setupAVI t ufmt doMJPG (c.pos : Int)).rchan =
      some { c with bytes := storeAt c.bytes c.pos
                      (headerBlock (setupAVI t ufmt doMJPG (c.pos : Int)).avi),
                    pos := c.pos + 240 } ∧
    (setupAVI t ufmt doMJPG (c.pos : Int)).rstate = t.rstate ∧
    countersEq (setupAVI t ufmt doMJPG (c.pos : Int)).avi t.avi ∧
    (setupAVI t ufmt doMJPG (c.pos : Int)).avi.hdrsize = 228 ∧
    (setupAVI t ufmt doMJPG (c.pos : Int)).avi.pos0 = (c.pos : Int) ∧
    (setupAVI t ufmt doMJPG (c.pos : Int)).avi.curr_idx = 0 ∧
    (setupAVI t ufmt doMJPG (c.pos : Int)).avi.num_idx = 0 ∧
    (setupAVI t ufmt doMJPG (c.pos : Int)).avi.idx = none ∧
    (setupAVI t ufmt doMJPG (c.pos : Int)).avi.idx_off = 4 := by
  rw [setupAVI_steps, headerBlock_resetIndex]
  obtain ⟨u0, hu0, r0, q0, s0, n0⟩ : ∃ u0, initHeaders t ufmt doMJPG (c.pos : Int) = u0 ∧
      u0.rchan = some c ∧ u0.avi.pos0 = (c.pos : Int) ∧ u0.rstate = t.rstate ∧
      countersEq u0.avi t.avi :=
    ⟨_, rfl, hc, rfl, rfl, rfl, rfl, rfl, rfl, rfl, rfl⟩
  rw [hu0]
  obtain ⟨H1, l1, e1⟩ := writeMainHeader_put u0 c r0 hw
  obtain ⟨u1, hu1, r1, h1, q1, s1, n1⟩ : ∃ u1, writeMainHeader u0 = u1 ∧
      u1.rchan = some (c.put H1) ∧ u1.avi.hdrsize = 88 ∧ u1.avi.pos0 = (c.pos : Int) ∧
      u1.rstate = t.rstate ∧ countersEq u1.avi t.avi :=
    ⟨_, rfl, by rw [e1], by rw [e1], by rw [e1]; exact q0, by rw [e1]; exact s0,
      by rw [e1]; exact n0⟩
  rw [hu1]
  obtain ⟨u2, hu2, r2, h2, q2, s2, n2⟩ : ∃ u2, initVideoHeader u1 ufmt doMJPG
        (toInt32 (t.rrate.tv_sec * 1000000 + t.rrate.tv_usec)) = u2 ∧
      u2.rchan = some (c.put H1) ∧ u2.avi.hdrsize = 88 ∧ u2.avi.pos0 = (c.pos : Int) ∧
      u2.rstate = t.rstate ∧ countersEq u2.avi t.avi :=
    ⟨_, rfl, r1, h1, q1, s1, n1⟩
  rw [hu2]
  obtain ⟨H2, l2, e2⟩ := writeStreamHeaders_put u2 (c.put H1) r2 hw h2
  obtain ⟨u3, hu3, r3, h3, q3, s3, n3⟩ : ∃ u3, writeStreamHeaders u2 = u3 ∧
      u3.rchan = some ((c.put H1).put H2) ∧ u3.avi.hdrsize = 228 ∧
      u3.avi.pos0 = (c.pos : Int) ∧ u3.rstate = t.rstate ∧ countersEq u3.avi t.avi :=
    ⟨_, rfl, by rw [e2], by rw [e2], by rw [e2]; exact q2, by rw [e2]; exact s2,
      by rw [e2]; exact n2⟩
  rw [hu3]
  rw [WriteAVIHeader_false_good u3 _ c.pos r3 hw hs q3]
  obtain ⟨g1, g2, _, _, _, _, _, _⟩ := patchedAvi_index u3 (PUT32LE 0) 0
  obtain ⟨m1, m2, m3, m4, m5, m6⟩ := patchedAvi_counters u3 (PUT32LE 0) 0
  obtain ⟨k1, k2, k3, k4, k5, k6⟩ := n3
  refine ⟨?_, s3, ⟨m1.trans k1, m2.trans k2, m3.trans k3, m4.trans k4, m5.trans k5,
    m6.trans k6⟩, g1.trans h3, g2.trans q3, rfl, rfl, rfl, rfl⟩
  show some _ = some _
  rw [put_put, put_header c (H1 ++ H2) _ (by rw [headerBlock_length, List.length_append, l1, l2]),
    headerBlock_length]

theorem Tcl_Seek_cur (c : Channel) (hs : c.sscript = []) :
    Tcl_Seek c 0 SEEK_CUR = ((c.pos : Int), c) := by
  have h := seekTo_cur c hs
  unfold seekTo at h
  dsimp only at h
  injection h with h1 h2
  exact Prod.ext h1 (Option.some.inj h2)

theorem FinishRecording_idle (s : TUVC) (h : s.rchan = none) :
    FinishRecording s = { s with rbdStr := [] } := by
  unfold FinishRecording
  dsimp only
  rw [if_neg (by simp [h])]
  unfold closeChannel
  dsimp only
  rw [h]

theorem setupAVI_eq (t : TUVC) (ufmt : UFMT) (doMJPG : Nat) (c : Channel)
    (hc : t.rchan = some c) (hw : c.wscript = []) (hs : c.sscript = []) :
    ∃ A : AVI, setupAVI t ufmt doMJPG (c.pos : Int) =
      { t with avi := A,
               rchan := some { c with bytes := storeAt c.bytes c.pos (headerBlock A),
                                      pos := c.pos + 240 } } ∧
      countersEq A t.avi ∧ A.hdrsize = 228 ∧ A.pos0 = (c.pos : Int) ∧ A.curr_idx = 0 ∧
      A.num_idx = 0 ∧ A.idx = none ∧ A.idx_off = 4 := by
  obtain ⟨g1, g2, g3, g4, g5, g6, g7, g8, g9⟩ := setupAVI_good t ufmt doMJPG c hc hw hs
  obtain ⟨x, y, z, heq, _, _⟩ := setupAVI_ioStep t ufmt doMJPG (c.pos : Int)
  generalize setupAVI t ufmt doMJPG (c.pos : Int) = U at *
  subst heq
  dsimp only at g1 g2 g3 g4 g5 g6 g7 g8 g9
  subst g1 g2
  exact ⟨x, rfl, g3, g4, g5, g6, g7, g8, g9⟩

/-- A `record start` for an AVI file on a sink on which every call succeeds,
while no recording is open: the header block of the new writer state lies at
the position the sink had, the sink is positioned behind it, the counters are
those of the old writer state and the index is empty. -/
theorem StartRecording_avi_good (s : TUVC) (args : StartArgs) (c0 : Channel) (now : timeval)
    (h : newAviSession s args c0) :
    ∃ A : AVI, StartRecording s args now =
      (TCL_OK,
        { s with avi := A,
                 rchan := some { c0 with bytes := storeAt c0.bytes c0.pos (headerBlock A),
                                         pos := c0.pos + 240 },
                 rbdStr := [],
                 rrate := reserve500 (recordingInterval s.fps args.rateNum args.rateDen),
                 ltv := now, rtv := now, ruser := decide (args.doUser ≠ 0),
                 rstate := startState s.running s.conv args.doUser }) ∧
      countersEq A AVI.zero ∧ A.hdrsize = 228 ∧ A.pos0 = (c0.pos : Int) ∧ A.curr_idx = 0 ∧
      A.num_idx = 0 ∧ A.idx = none ∧ A.idx_off = 4 := by
  obtain ⟨h1, h2, h3, h4, h5, h6, h7, h8, h9, h10, h11⟩ := h
  obtain ⟨ufmt, hu⟩ := Option.isSome_iff_exists.mp h2
  obtain ⟨A, e, k1, k2, k3, k4, k5, k6, k7⟩ := setupAVI_eq
    { s with rbdStr := [], rchan := some c0,
             rrate := recordingInterval s.fps args.rateNum args.rateDen }
    ufmt args.doMJPG c0 rfl h8 h9
  refine ⟨A, ?_, by rw [← h11]; exact k1, k2, k3, k4, k5, k6, k7⟩
  unfold StartRecording
  rw [h1, hu, h3]
  dsimp only
  rw [h4, h5, h6, Tcl_Seek_cur c0 h9]
  dsimp only
  rw [if_neg (by decide), if_neg (by decide), if_neg (by decide), if_pos h7,
    if_neg (by omega), if_neg (by decide)]
  unfold beginRecording
  rw [FinishRecording_idle s h10]
  dsimp only
  rw [if_neg (by omega), e, startTarget_eq]

theorem storeAt_length_le (b : List Nat) (p : Nat) (x : List Nat) (h : p + x.length ≤ b.length) :
    (storeAt b p x).length = b.length := by
  rw [storeAt_length]
  omega

theorem storeAt_append_right (b z : List Nat) (p : Nat) (y : List Nat)
    (h : p + y.length ≤ b.length) : storeAt (b ++ z) p y = storeAt b p y ++ z := by
  unfold storeAt
  rw [List.takeD_eq_take 0 (by rw [List.length_append]; omega),
    List.takeD_eq_take 0 (by omega), List.take_append_of_le_length (by omega),
    List.drop_append_of_le_length (by omega)]
  simp [List.append_assoc]

theorem closeChannel_some (t : TUVC) (c : Channel) (h : t.rchan = some c) :
    closeChannel t = { t with rchan := none, avi := AVI.zero, closed := c :: t.closed } := by
  unfold closeChannel
  rw [h]

theorem finish_bytes (c : Channel) (p0 : Nat) (H1 HF IC : List Nat) (h1 : H1.length = 240)
    (hF : HF.length = 240) (hend : c.pos = c.bytes.length) (hhdr : p0 + 240 ≤ c.bytes.length) :
    ({ ({ c with bytes := storeAt c.bytes p0 H1 } : Channel).put IC with
        bytes := storeAt (({ c with bytes := storeAt c.bytes p0 H1 } : Channel).put IC).bytes
          p0 HF } : Channel) =
      { c with bytes := storeAt c.bytes p0 HF ++ IC, pos := c.pos + IC.length } := by
  unfold Channel.put
  dsimp only
  have hl : (storeAt c.bytes p0 H1).length = c.bytes.length :=
    storeAt_length_le _ _ _ (by omega)
  rw [hend]
  conv => lhs; arg 1; arg 1; arg 2; rw [← hl]
  rw [storeAt_end, storeAt_append_right _ _ _ _ (by rw [hl]; omega),
    storeAt_overwrite _ _ _ _ (by omega)]

/-- Finalisation of an AVI recording in its first segment that holds `k` index
entries, on a sink on which every call succeeds and which is positioned at its
end behind the header block: the header block is rewritten in place with the
index flag set and the index chunk is appended. -/
theorem FinishRecording_first_indexed (t : TUVC) (c : Channel) (p0 k : Nat)
    (buf : List AVI_IDX) (hc : t.rchan = some c) (hw : c.wscript = []) (hs : c.sscript = [])
    (hb : t.rbdStr = []) (hr : t.rstate ≠ REC_ERROR) (hp : t.avi.pos0 = (p0 : Int))
    (hseg : ¬ t.avi.totsize > t.avi.segsize) (hi : t.avi.idx = some buf)
    (hk : t.avi.curr_idx = (k : Int)) (hkb : k ≤ buf.length) (hk2 : 16 * k < 2147483648)
    (hend : c.pos = c.bytes.length) (hhdr : p0 + 240 ≤ c.bytes.length) :
    ∃ A : AVI, FinishRecording t =
      { t with rchan := none, avi := AVI.zero, rbdStr := [],
               closed := { c with bytes := storeAt c.bytes p0 (headerBlock A) ++ indexChunk buf k,
                                  pos := c.pos + (8 + 16 * k) } :: t.closed } ∧
      A.avi_hdr.avih.flags = PUT32LE 0x10 ∧
      A.avi_hdr.riff_size =
        PUT32LE (toInt32 ((t.avi.hdrsize : Int) + t.avi.segsize) + (16 * (k : Int) + 8)) ∧
      A.avi_data.data_size = PUT32LE (toInt32 (t.avi.segsize + 4)) ∧
      A.avi_hdr.avih.nframes = PUT32LE (toInt32 t.avi.nframes) ∧
      A.avi_hdrv.strh.length = PUT32LE (toInt32 t.avi.nframes) ∧
      A.avi_hdro.nframes = PUT32LE (toInt32 t.avi.nframes) := by
  have e1 := CloseAVISegment_first t c p0 true hc hw hs hp hr hseg
  rw [closeTail_end] at e1
  dsimp only at e1
  obtain ⟨f1, f2, f3, f4, f5, f6, f7, f8⟩ := patchedAvi_index
    { t with avi := { t.avi with nframes0 := t.avi.nframes, segsize0 := t.avi.segsize } }
    (PUT32LE 0) 0
  obtain ⟨m1, m2, m3, m4, m5, m6⟩ := patchedAvi_counters
    { t with avi := { t.avi with nframes0 := t.avi.nframes, segsize0 := t.avi.segsize } }
    (PUT32LE 0) 0
  obtain ⟨xs, ys, zs, heq, hsome, _⟩ := CloseAVISegment_ioStep t true
  obtain ⟨u, hu, ru, pu, iu, ku, su, x1, x2, x3, x4⟩ : ∃ u : TUVC,
      CloseAVISegment t true = u ∧
      u.rchan = some { c with bytes := storeAt c.bytes p0 (headerBlock (firstClosed t)) } ∧
      u.avi.pos0 = (p0 : Int) ∧ u.avi.idx = some buf ∧ u.avi.curr_idx = (k : Int) ∧
      u.rstate = t.rstate ∧ u.avi.hdrsize = t.avi.hdrsize ∧
      u.avi.segsize0 = t.avi.segsize ∧ u.avi.nframes0 = t.avi.nframes ∧
      u.avi.nframes = t.avi.nframes := by
    refine ⟨_, rfl, by rw [e1], ?_, ?_, ?_, by rw [e1], ?_, ?_, ?_, ?_⟩
    · rw [e1]; exact f2.trans hp
    · rw [e1]; exact f7.trans hi
    · rw [e1]; exact f5.trans hk
    · rw [e1]; exact f1
    · rw [e1]; exact f3
    · rw [e1]; exact m2
    · rw [e1]; exact m1
  rw [hu] at heq
  have e2 := WriteAVIHeader_some_good u _ p0 buf k ru hw hs pu iu ku hkb hk2
  obtain ⟨g1, g2, g3⟩ := updateHeaderFields_counts
    { u.avi with avi_hdr := { u.avi.avi_hdr with
        avih := { u.avi.avi_hdr.avih with flags := PUT32LE 0x10 } } } (handlerIsMJPG u)
    (16 * (k : Int) + 8)
  obtain ⟨g4, g5, g6⟩ := updateHeaderFields_sizes
    { u.avi with avi_hdr := { u.avi.avi_hdr with
        avih := { u.avi.avi_hdr.avih with flags := PUT32LE 0x10 } } } (handlerIsMJPG u)
    (16 * (k : Int) + 8)
  refine ⟨patchedAvi u (PUT32LE 0x10) (16 * (k : Int) + 8), ?_, g6,
    g4.trans (congrArg₂ (fun v w => PUT32LE (toInt32 (v + w) + (16 * (k : Int) + 8))) x1 x2),
    g5.trans (congrArg (fun v => PUT32LE (toInt32 (v + 4))) x2),
    g1.trans (congrArg (fun v => PUT32LE (toInt32 v)) x3),
    g2.trans (congrArg (fun v => PUT32LE (toInt32 v)) x3),
    g3.trans (congrArg (fun v => PUT32LE (toInt32 v)) x4)⟩
  unfold FinishRecording
  dsimp only
  rw [if_pos (by simp [hc, hb]), hu, e2, closeChannel_some _ _ rfl]
  dsimp only
  rw [finish_bytes c p0 _ _ _ (headerBlock_length _) (headerBlock_length _) hend hhdr,
    indexChunk_length buf k hkb]
  subst heq
  dsimp only at su
  subst su
  rfl

theorem writeTo_total (c : Channel) (buf : List Nat) (n : Int) (hw : c.wscript = []) :
    ∃ c', (writeTo (some c) buf n).2 = some c' ∧ c'.wscript = [] ∧ c'.sscript = c.sscript := by
  by_cases hn : n < 0
  · refine ⟨c, ?_, hw, rfl⟩
    unfold writeTo
    simp [hn]
  · rw [writeTo_put c buf n hw (by omega)]
    exact ⟨_, rfl, hw, rfl⟩

theorem writeIndexChunk_gen (t : TUVC) (c : Channel) (e : Bool) (hc : t.rchan = some c)
    (hw : c.wscript = []) :
    ∃ (c' : Channel) (fl : Nat) (i : Int), c'.wscript = [] ∧ c'.sscript = c.sscript ∧
      writeIndexChunk t e =
        ({ t with avi := { t.avi with avi_hdr := { t.avi.avi_hdr with
              avih := { t.avi.avi_hdr.avih with flags := fl } } },
                  rchan := some c' }, i) := by
  unfold writeIndexChunk
  split
  · dsimp only [chanWrite]
    rw [hc]
    obtain ⟨c1, q1, q2, q3⟩ := writeTo_total c
      (CHUNK_HDR.image { id := ascii "idx1", size := PUT32LE (toInt32 (t.avi.curr_idx * sizeof_AVI_IDX)) })
      sizeof_CHUNK_HDR hw
    rw [q1]
    obtain ⟨c2, r1, r2, r3⟩ := writeTo_total c1 (idxImage (t.avi.idx.getD []))
      (toInt32 (t.avi.curr_idx * sizeof_AVI_IDX)) q2
    rw [r1]
    exact ⟨c2, _, _, r2, r3.trans q3, rfl⟩
  · refine ⟨c, PUT32LE 0, 0, hw, rfl, ?_⟩
    rw [← hc]

theorem WriteAVIHeader_gen (t : TUVC) (c : Channel) (p0 : Nat) (e : Bool)
    (hc : t.rchan = some c) (hw : c.wscript = []) (hs : c.sscript = [])
    (hp : t.avi.pos0 = (p0 : Int)) :
    ∃ (c' : Channel) (fl : Nat) (i : Int) (A : AVI),
      WriteAVIHeader t e =
        { t with avi := A,
                 rchan := some { c' with
                   bytes := storeAt c'.bytes p0 (headerBlock (patchedAvi t fl i)) } } ∧
      c'.wscript = [] ∧ c'.sscript = [] := by
  obtain ⟨c', fl, i, h1, h2, h3⟩ := writeIndexChunk_gen t c e hc hw
  have hpatch : ({ (writeIndexChunk t e).1 with
        avi := updateHeaderFields (writeIndexChunk t e).1.avi
          (handlerIsMJPG (writeIndexChunk t e).1) (writeIndexChunk t e).2 } : TUVC) =
      { t with avi := patchedAvi t fl i, rchan := some c' } := by
    rw [h3]
    rfl
  have key := rewriteHeader_good { t with avi := patchedAvi t fl i, rchan := some c' }
    c' p0 rfl h1 (h2.trans hs) (by rw [← hp]; exact patchedAvi_pos0 t _ _)
  unfold WriteAVIHeader
  dsimp only
  rw [hpatch, key]
  cases e
  · exact ⟨c', fl, i, _, rfl, h1, h2.trans hs⟩
  · exact ⟨c', fl, i, _, rfl, h1, h2.trans hs⟩

theorem patchedAvi_counts (t : TUVC) (fl : Nat) (i : Int) :
    (patchedAvi t fl i).avi_hdr.avih.nframes = PUT32LE (toInt32 t.avi.nframes0) ∧
    (patchedAvi t fl i).avi_hdrv.strh.length = PUT32LE (toInt32 t.avi.nframes0) ∧
    (patchedAvi t fl i).avi_hdro.nframes = PUT32LE (toInt32 t.avi.nframes) :=
  updateHeaderFields_counts _ _ _

theorem finish_from (t : TUVC) (Au : AVI) (cu : Channel) (p0 : Nat)
    (hu : CloseAVISegment t true = { t with avi := Au, rchan := some cu })
    (hw : cu.wscript = []) (hs : cu.sscript = []) (hp : Au.pos0 = (p0 : Int))
    (hb : t.rbdStr = []) (hc : t.rchan.isSome = true) :
    ∃ (cF : Channel) (fl : Nat) (i : Int),
      FinishRecording t =
        { t with rchan := none, avi := AVI.zero, rbdStr := [], closed := cF :: t.closed } ∧
      (cF.bytes.drop p0).take 240 =
        headerBlock (patchedAvi { t with avi := Au, rchan := some cu } fl i) := by
  obtain ⟨c', fl, i, A, e2, w2, s2⟩ := WriteAVIHeader_gen
    { t with avi := Au, rchan := some cu } cu p0 true rfl hw hs hp
  dsimp only at e2
  refine ⟨{ c' with
    bytes := storeAt c'.bytes p0
      (headerBlock (patchedAvi { t with avi := Au, rchan := some cu } fl i)) }, fl, i, ?_, ?_⟩
  · unfold FinishRecording
    dsimp only
    rw [if_pos (by simp [hc, hb]), hu, e2, closeChannel_some _ _ rfl]
  · dsimp only
    have h := storeAt_window c'.bytes p0
      (headerBlock (patchedAvi { t with avi := Au, rchan := some cu } fl i))
    rw [headerBlock_length] at h
    exact h

/-- Finalisation of an AVI recording on a sink on which every call succeeds:
the sink is closed with the rewritten header block at the header origin. The
total frame count of the header is the frame counter of the writer; in the
first segment the frame count and the stream length are the frame counter as
well, in a later segment they are the frame count of the first segment. -/
theorem FinishRecording_header (t : TUVC) (c : Channel) (p0 ss : Nat)
    (hc : t.rchan = some c) (hw : c.wscript = []) (hs : c.sscript = [])
    (hb : t.rbdStr = []) (hr : t.rstate ≠ REC_ERROR) (hp : t.avi.pos0 = (p0 : Int))
    (hss : t.avi.segstart = (ss : Int)) :
    ∃ (cF : Channel) (A : AVI),
      FinishRecording t =
        { t with rchan := none, avi := AVI.zero, rbdStr := [], closed := cF :: t.closed } ∧
      (cF.bytes.drop p0).take 240 = headerBlock A ∧
      A.avi_hdro.nframes = PUT32LE (toInt32 t.avi.nframes) ∧
      A.avi_hdr.avih.nframes = A.avi_hdrv.strh.length ∧
      (¬ t.avi.totsize > t.avi.segsize →
        A.avi_hdr.avih.nframes = PUT32LE (toInt32 t.avi.nframes)) ∧
      (t.avi.totsize > t.avi.segsize →
        A.avi_hdr.avih.nframes = PUT32LE (toInt32 t.avi.nframes0)) := by
  by_cases hseg : t.avi.totsize > t.avi.segsize
  · have e1 := CloseAVISegment_later t c ss true hc hw hs hss hseg
    rw [closeTail_end] at e1
    obtain ⟨cF, fl, i, h1, h2⟩ := finish_from t _ _ p0 e1 hw hs hp hb (by rw [hc]; rfl)
    obtain ⟨g1, g2, g3⟩ := patchedAvi_counts
      { t with avi := { t.avi with segsize := 0, segstart := (c.pos : Int) },
               rchan := some { c with
                 bytes := storeAt c.bytes ss (segmentHeader t.avi.segsize).image } } fl i
    exact ⟨cF, _, h1, h2, g3, g1.trans g2.symm, fun h => absurd hseg h, fun _ => g1⟩
  · have e1 := CloseAVISegment_first t c p0 true hc hw hs hp hr hseg
    rw [closeTail_end] at e1
    obtain ⟨f1, f2, f3, f4, f5, f6, f7, f8⟩ := patchedAvi_index
      { t with avi := { t.avi with nframes0 := t.avi.nframes, segsize0 := t.avi.segsize } }
      (PUT32LE 0) 0
    obtain ⟨m1, m2, m3, m4, m5, m6⟩ := patchedAvi_counters
      { t with avi := { t.avi with nframes0 := t.avi.nframes, segsize0 := t.avi.segsize } }
      (PUT32LE 0) 0
    obtain ⟨cF, fl, i, h1, h2⟩ := finish_from t _ _ p0 e1 hw hs (f2.trans hp) hb
      (by rw [hc]; rfl)
    obtain ⟨g1, g2, g3⟩ := patchedAvi_counts
      { t with avi := { firstClosed t with segsize := 0, segstart := (c.pos : Int) },
               rchan := some { c with
                 bytes := storeAt c.bytes p0 (headerBlock (firstClosed t)) } } fl i
    refine ⟨cF, _, h1, h2, g3.trans ?_, g1.trans g2.symm, fun _ => g1.trans ?_,
      fun h => absurd h hseg⟩
    · exact congrArg (fun v => PUT32LE (toInt32 v)) m1
    · exact congrArg (fun v => PUT32LE (toInt32 v)) m2

theorem layoutEq_refl (a : AVI) : layoutEq a a := ⟨rfl, rfl, rfl, rfl, rfl, rfl, rfl, rfl⟩

theorem layoutEq_trans {a b c : AVI} (h1 : layoutEq a b) (h2 : layoutEq b c) : layoutEq a c := by
  obtain ⟨a1, a2, a3, a4, a5, a6, a7, a8⟩ := h1
  obtain ⟨b1, b2, b3, b4, b5, b6, b7, b8⟩ := h2
  exact ⟨a1.trans b1, a2.trans b2, a3.trans b3, a4.trans b4, a5.trans b5, a6.trans b6,
    a7.trans b7, a8.trans b8⟩

theorem addIndexEntry_layout (t : TUVC) (sizea : Int) (env : FrameEnv) :
    ∃ A, addIndexEntry t sizea env = { t with avi := A } ∧ layoutEq A t.avi := by
  unfold addIndexEntry
  dsimp only
  split <;> split_ifs <;> exact ⟨_, rfl, layoutEq_refl _⟩

theorem averageRate_layout (a : AVI) (d : timeval) : layoutEq (averageRate a d) a := by
  unfold averageRate
  split <;> exact layoutEq_refl _

theorem patchedAvi_layout (t : TUVC) (fl : Nat) (i : Int) :
    layoutEq (patchedAvi t fl i) t.avi := by
  obtain ⟨h1, h2, h3, h4, h5, h6, h7, h8, _⟩ :=
    updateHeaderFields_state
      { t.avi with avi_hdr := { t.avi.avi_hdr with
          avih := { t.avi.avi_hdr.avih with flags := fl } } } (handlerIsMJPG t) i
  exact ⟨h1, h2, h3, h4, h5, h6, h7, h8⟩

/-- A segment rotation on a sink on which every call succeeds: the sink stays
such a sink; the frame counter, the total size, the header size and the header
origin are kept, the segment size is 0 and the segment starts at the position
the sink had. -/
theorem CloseAVISegment_rotate (t : TUVC) (c : Channel) (p0 ss : Nat)
    (hc : t.rchan = some c) (hw : c.wscript = []) (hs : c.sscript = [])
    (hr : t.rstate ≠ REC_ERROR) (hp : t.avi.pos0 = (p0 : Int))
    (hss : t.avi.segstart = (ss : Int)) :
    ∃ (c' : Channel) (A : AVI),
      CloseAVISegment t false = { t with avi := A, rchan := some c' } ∧
      c'.wscript = [] ∧ c'.sscript = [] ∧ A.nframes = t.avi.nframes ∧
      A.totsize = t.avi.totsize ∧ A.hdrsize = t.avi.hdrsize ∧ A.pos0 = t.avi.pos0 ∧
      A.segsize = 0 ∧ A.segstart = (c.pos : Int) := by
  by_cases hseg : t.avi.totsize > t.avi.segsize
  · have e1 := CloseAVISegment_later t c ss false hc hw hs hss hseg
    rw [closeTail_next _ { c with bytes := storeAt c.bytes ss (segmentHeader t.avi.segsize).image }
      _ _ rfl hw] at e1
    exact ⟨_, _, e1, hw, hs, rfl, rfl, rfl, rfl, rfl, rfl⟩
  · have e1 := CloseAVISegment_first t c p0 false hc hw hs hp hr hseg
    rw [closeTail_next _ { c with bytes := storeAt c.bytes p0 (headerBlock (firstClosed t)) }
      _ _ rfl hw] at e1
    obtain ⟨m1, m2, m3, m4, m5, m6, m7, m8⟩ := patchedAvi_layout
      { t with avi := { t.avi with nframes0 := t.avi.nframes, segsize0 := t.avi.segsize } }
      (PUT32LE 0) 0
    exact ⟨_, _, e1, hw, hs, m1, m3, m7, m8, rfl, rfl⟩

/-- The frame accounting of `WriteFrame` after a chunk was written in full, on
a sink on which every call succeeds: the frame counter grows by one and the
total size by the size of the chunk; the segment size grows by the size of the
chunk, or is 0 when the segment was rotated. -/
theorem accountChunk_good (u : TUVC) (c : Channel) (p0 ss : Nat) (size sizea : Int)
    (env : FrameEnv) (hc : u.rchan = some c) (hw : c.wscript = []) (hs : c.sscript = [])
    (hr : u.rstate ≠ REC_ERROR) (hp : u.avi.pos0 = (p0 : Int))
    (hss : u.avi.segstart = (ss : Int)) :
    ∃ (c' : Channel) (A : AVI),
      accountChunk u size sizea size env = { u with avi := A, rchan := some c' } ∧
      c'.wscript = [] ∧ c'.sscript = [] ∧ A.nframes = u.avi.nframes + 1 ∧
      A.totsize = u.avi.totsize + (sizea + 8) ∧ A.hdrsize = u.avi.hdrsize ∧
      A.pos0 = u.avi.pos0 ∧ 0 ≤ A.segstart ∧
      (¬ u.avi.segsize + (sizea + 8) > 0x7F000000 →
        A.segsize = u.avi.segsize + (sizea + 8)) ∧
      (u.avi.segsize + (sizea + 8) > 0x7F000000 → A.segsize = 0) := by
  unfold accountChunk
  dsimp only
  rw [if_pos rfl]
  by_cases hrot : u.avi.segsize + (sizea + 8) > 0x7F000000
  · have hrot' : u.avi.segsize + (sizea + (sizeof_CHUNK_HDR : Int)) > 0x7F000000 := hrot
    rw [if_pos hrot']
    obtain ⟨c', A, e, w', s', a1, a2, a3, a4, a5, a6⟩ := CloseAVISegment_rotate
      { u with avi := { u.avi with
          nframes := u.avi.nframes + 1,
          totsize := u.avi.totsize + (sizea + sizeof_CHUNK_HDR),
          segsize := u.avi.segsize + (sizea + sizeof_CHUNK_HDR) } }
      c p0 ss hc hw hs hr hp hss
    rw [e]
    exact ⟨c', _, rfl, w', s', a1, a2, a3, a4, by rw [show _ = A.segstart from rfl, a6]; omega,
      fun h => absurd hrot h, fun _ => a5⟩
  · have hrot' : ¬ u.avi.segsize + (sizea + (sizeof_CHUNK_HDR : Int)) > 0x7F000000 := hrot
    rw [if_neg hrot']
    split
    · obtain ⟨A, e, l1, l2, l3, l4, l5, l6, l7, l8⟩ := addIndexEntry_layout
        { u with avi := { u.avi with
            nframes := u.avi.nframes + 1,
            totsize := u.avi.totsize + (sizea + sizeof_CHUNK_HDR),
            segsize := u.avi.segsize + (sizea + sizeof_CHUNK_HDR) } } sizea env
      rw [e]
      refine ⟨c, A, ?_, hw, hs, l1, l3, l7, l8, by rw [l6, hss]; omega, fun _ => l4,
        fun h => absurd h hrot⟩
      rw [← hc]
    · refine ⟨c, { u.avi with
          nframes := u.avi.nframes + 1,
          totsize := u.avi.totsize + (sizea + sizeof_CHUNK_HDR),
          segsize := u.avi.segsize + (sizea + sizeof_CHUNK_HDR) }, ?_, hw, hs, rfl, rfl, rfl, rfl,
        ?_, fun _ => rfl, fun h => absurd h hrot⟩
      · rw [← hc]
      · show 0 ≤ u.avi.segstart
        rw [hss]; omega

/-! ## Counting the frames of a recording -/

theorem writeAVIFrame_good (t : TUVC) (f fr : uvc_frame) (diff : timeval) (env : FrameEnv)
    (size : Int) (c : Channel) (p0 ss : Nat) (hc : t.rchan = some c) (hw : c.wscript = [])
    (hs : c.sscript = []) (hr : t.rstate ≠ REC_ERROR) (hp : t.avi.pos0 = (p0 : Int))
    (hss : t.avi.segstart = (ss : Int)) (hsel : aviFrameSize t f env = some (fr, size))
    (h0 : 0 ≤ size) (h3 : size + 3 < 2147483648) :
    ∃ (c' : Channel) (A : AVI),
      writeAVIFrame t f diff env = (1, { t with avi := A, rchan := some c' }) ∧
      c'.wscript = [] ∧ c'.sscript = [] ∧ A.nframes = t.avi.nframes + 1 ∧
      A.totsize = t.avi.totsize + ((size + 3) / 4 * 4 + 8) ∧ A.hdrsize = t.avi.hdrsize ∧
      A.pos0 = t.avi.pos0 ∧ 0 ≤ A.segstart ∧
      (¬ t.avi.segsize + ((size + 3) / 4 * 4 + 8) > 0x7F000000 →
        A.segsize = t.avi.segsize + ((size + 3) / 4 * 4 + 8)) ∧
      (t.avi.segsize + ((size + 3) / 4 * 4 + 8) > 0x7F000000 → A.segsize = 0) := by
  have hsa : toInt32 (size + 3) / 4 * 4 = (size + 3) / 4 * 4 := by
    unfold toInt32
    omega
  have hle : size ≤ (size + 3) / 4 * 4 := by omega
  obtain ⟨g1, g2, g3⟩ := writeChunk_good t fr size ((size + 3) / 4 * 4) c hc hw h0 hle
  obtain ⟨c', A, e, w', s', a1, a2, a3, a4, a5, a6, a7⟩ := accountChunk_good
    { t with rchan := some (c.put (frameChunk fr size ((size + 3) / 4 * 4))) }
    (c.put (frameChunk fr size ((size + 3) / 4 * 4))) p0 ss size ((size + 3) / 4 * 4) env
    rfl hw hs hr hp hss
  obtain ⟨l1, l2, l3, l4, l5, l6, l7, l8⟩ := averageRate_layout A diff
  unfold frameChunk at e
  unfold writeAVIFrame
  rw [hsel]
  dsimp only
  rw [hsa, g2, g3, g1, e]
  refine ⟨c', averageRate A diff, writeResult_same _ _ hr, w', s', l1.trans a1, l3.trans a2,
    l7.trans a3, l8.trans a4, by rw [l6]; exact a5, fun h => l4.trans (a6 h),
    fun h => l4.trans (a7 h)⟩

theorem ioOk_nat (t : TUVC) (h : ioOk t) :
    ∃ (c : Channel) (p0 ss : Nat), t.rchan = some c ∧ c.wscript = [] ∧ c.sscript = [] ∧
      t.avi.pos0 = (p0 : Int) ∧ t.avi.segstart = (ss : Int) ∧ t.rstate ≠ REC_ERROR := by
  obtain ⟨⟨c, hc, hw, hs⟩, h1, h2, h3⟩ := h
  exact ⟨c, t.avi.pos0.toNat, t.avi.segstart.toNat, hc, hw, hs, by omega, by omega, h3⟩

/-- One call of `WriteFrame` in an AVI recording on a sink on which every call
succeeds: the frame counter grows by one exactly when the result is 1. -/
theorem aviRecording_step (t : TUVC) (p0 n : Nat) (f : uvc_frame) (env : FrameEnv)
    (h : aviRecording t p0 n) (hf : frameOk f env) :
    aviRecording (WriteFrame t f env).2 p0
      (n + (if (WriteFrame t f env).1 = 1 then 1 else 0)) ∧
    (WriteFrame t f env).2.closed = t.closed := by
  obtain ⟨hio, hb, hp, hn, hfirst⟩ := h
  obtain ⟨k1, k2, k3, k4⟩ := WriteFrame_ok t f env hio hf
  cases hg : tvPositive (tvDiff t.rtv (effectiveNow f env)) with
  | true =>
    rw [k3 hg]
    dsimp only
    rw [if_neg (by decide)]
    exact ⟨⟨hio, hb, hp, by simpa using hn, hfirst⟩, rfl⟩
  | false =>
    obtain ⟨c, q0, ss, hc, hw, hs, hp', hss, hr⟩ := ioOk_nat t hio
    obtain ⟨fr, size, hsel, h0, h3⟩ := aviFrameSize_ok t f env hf
    have hopen := WriteFrame_avi_open t f env (by rw [hc]; rfl) hr hb hf.1 hg
    obtain ⟨c', A, e, w', s', a1, a2, a3, a4, a5, a6, a7⟩ := writeAVIFrame_good
      { t with rtv := tvAdvance (effectiveNow f env) t.rrate, ltv := effectiveNow f env }
      f fr (tvDiff (effectiveNow f env) t.ltv) env size c q0 ss hc hw hs hr hp' hss
      (by rw [← hsel]; exact aviFrameSize_avi t _ f env rfl) h0 h3
    rw [hopen, e]
    dsimp only
    rw [if_pos rfl]
    dsimp only at a1 a2 a3 a4 a6 a7
    refine ⟨⟨⟨⟨c', rfl, w', s'⟩, ?_, a5, hr⟩, hb, a4.trans hp, ?_, ?_⟩, rfl⟩
    · show 0 ≤ A.pos0
      rw [a4, hp]; omega
    · show A.nframes = ((n + 1 : Nat) : Int)
      rw [a1, hn]; push_cast; rfl
    · show A.totsize ≤ 0x7F000000 → A.totsize = A.segsize
      intro hle
      rw [a2] at hle ⊢
      have h1 := hfirst (by omega)
      rw [a6 (by omega), h1]

theorem aviRecording_all (fs : List (uvc_frame × FrameEnv)) (t : TUVC) (p0 n : Nat)
    (h : aviRecording t p0 n) (hfs : ∀ fe ∈ fs, frameOk fe.1 fe.2) :
    aviRecording (recordAll t fs) p0 (n + admittedCount t fs) ∧
    (recordAll t fs).closed = t.closed := by
  induction fs generalizing t n with
  | nil => exact ⟨h, rfl⟩
  | cons fe rest ih =>
    obtain ⟨s1, s2⟩ := aviRecording_step t p0 n fe.1 fe.2 h (hfs fe (List.mem_cons_self _ _))
    obtain ⟨r1, r2⟩ := ih (WriteFrame t fe.1 fe.2).2 _ s1
      (fun x hx => hfs x (List.mem_cons_of_mem _ hx))
    unfold recordAll admittedCount
    rw [← Nat.add_assoc]
    exact ⟨r1, r2.trans s2⟩

/-! ## Fields of the header block -/

theorem drop_four (x r : List Nat) (n : Nat) (hx : x.length = 4) (hn : 4 ≤ n) :
    (x ++ r).drop n = r.drop (n - 4) := by
  rw [List.drop_append_eq_append_drop, List.drop_of_length_le (by omega), hx]
  rfl

theorem take_four (x r : List Nat) (hx : x.length = 4) : (x ++ r).take 4 = x := by
  rw [List.take_append_eq_append_take, List.take_of_length_le (by omega), hx]
  simp

/-- Offsets of the 32-bit fields of the header block that `WriteAVIHeader`
patches: RIFF size (4), microseconds per frame (32), flags (44), frame count
(48), stream length (140), total frame count (224) and `movi` list size
(232). -/
theorem headerBlock_fields (A : AVI) :
    ((headerBlock A).drop 4).take 4 = le32 A.avi_hdr.riff_size ∧
    ((headerBlock A).drop 32).take 4 = le32 A.avi_hdr.avih.uspf ∧
    ((headerBlock A).drop 44).take 4 = le32 A.avi_hdr.avih.flags ∧
    ((headerBlock A).drop 48).take 4 = le32 A.avi_hdr.avih.nframes ∧
    ((headerBlock A).drop 140).take 4 = le32 A.avi_hdrv.strh.length ∧
    ((headerBlock A).drop 224).take 4 = le32 A.avi_hdro.nframes ∧
    ((headerBlock A).drop 232).take 4 = le32 A.avi_data.data_size := by
  have d (x r : List Nat) (n : Nat) (hx : x.length = 4) (hn : 4 ≤ n) :
      (x ++ r).drop n = r.drop (n - 4) := drop_four x r n hx hn
  simp only [headerBlock, AVI_HDR.image, RIFF_avih.image, AVI_HDR_VIDEO.image,
    RIFF_strh.image, RIFF_strf_vids.image, AVI_HDR_ODML.image, AVI_DATA.image,
    List.append_assoc]
  refine ⟨?_, ?_, ?_, ?_, ?_, ?_, ?_⟩
  all_goals
    repeat rw [d _ _ _ (by first | exact fourcc_length _ | exact le32_length _) (by decide)]
    try rw [List.drop_zero]
    exact take_four _ _ (le32_length _)

theorem window_field (l H : List Nat) (p0 k m w : Nat) (h : (l.drop p0).take w = H)
    (hk : k + m ≤ w) : (l.drop (p0 + k)).take m = (H.drop k).take m := by
  rw [← h, List.drop_take, List.take_take, List.drop_drop, Nat.min_eq_left (by omega)]

theorem PUT32LE_toInt32_nat (n : Nat) (h : n < 4294967296) : PUT32LE (toInt32 (n : Int)) = n := by
  unfold PUT32LE toInt32
  omega

/-- The command `record stop` sets the state to `REC_STOP`, whatever it was,
and then finalizes the recording. -/
theorem record_stop_finish (t : TUVC) :
    UvcObjCmd t CMD_record_stop = (TCL_OK, "", FinishRecording { t with rstate := REC_STOP }) := by
  unfold UvcObjCmd
  dsimp only
  by_cases h : t.rstate.code > REC_STOP.code
  · rw [if_pos h]
  · rw [if_neg h]
    have hs : t.rstate = REC_STOP := by
      cases hr : t.rstate <;> rw [hr] at h <;> first | rfl | exact absurd (by decide) h
    obtain ⟨⟩ := t
    dsimp only at hs
    subst hs
    rfl

theorem startState_ne_error (r c : Bool) (u : Nat) : startState r c u ≠ REC_ERROR := by
  unfold startState
  split
  · split <;> decide
  · split
    · split <;> decide
    · split <;> decide

/-! ## Frame counts of a finalized AVI file -/

/-- The state of an AVI session after `record start` and a sequence of frames:
the frame counter is the number of frames written, and the sink still accepts
every call. -/
theorem session_recording (s : TUVC) (args : StartArgs) (c0 : Channel) (now : timeval)
    (fs : List (uvc_frame × FrameEnv)) (h : newAviSession s args c0)
    (hfs : ∀ fe ∈ fs, frameOk fe.1 fe.2) :
    aviRecording (recordAll (StartRecording s args now).2 fs) c0.pos
      (admittedCount (StartRecording s args now).2 fs) ∧
    (recordAll (StartRecording s args now).2 fs).closed = s.closed := by
  obtain ⟨A, e, k1, k2, k3, k4, k5, k6, k7⟩ := StartRecording_avi_good s args c0 now h
  obtain ⟨q1, q2, q3, q4, q5, q6⟩ := k1
  have h0 : aviRecording (StartRecording s args now).2 c0.pos 0 := by
    rw [e]
    refine ⟨⟨⟨_, rfl, h.2.2.2.2.2.2.2.1, h.2.2.2.2.2.2.2.2.1⟩, ?_, ?_, startState_ne_error _ _ _⟩,
      rfl, k3, q1, fun _ => ?_⟩
    · show 0 ≤ A.pos0
      rw [k3]; omega
    · show 0 ≤ A.segstart
      rw [q5]; decide
    · show A.totsize = A.segsize
      rw [q3, q4]; rfl
  obtain ⟨r1, r2⟩ := aviRecording_all fs _ c0.pos 0 h0 hfs
  rw [Nat.zero_add] at r1
  refine ⟨r1, r2.trans ?_⟩
  rw [e]

/-- C14. An AVI session is started on a sink on which every call succeeds,
frames are delivered, `WriteFrame` writes `n` of them (result 1), and
`record stop` finalizes the file. Then the header block at the header origin
of the closed sink holds `n` as total frame count of the odml header (offset
224), whether or not segments were rotated; and when all chunks are in the
first segment (no rotation: `totsize = segsize`, which holds as long as the
chunks take at most 0x7F000000 bytes), it holds `n` as frame count of the main
header (offset 48) and as stream length (offset 140) too. The frame counts are
32-bit fields, so `n < 2^32` is assumed. -/
theorem C14_frame_counts (s : TUVC) (args : StartArgs) (c0 : Channel) (now : timeval)
    (fs : List (uvc_frame × FrameEnv)) (h : newAviSession s args c0)
    (hfs : ∀ fe ∈ fs, frameOk fe.1 fe.2)
    (hn : admittedCount (StartRecording s args now).2 fs < 4294967296) :
    ∃ cF : Channel,
      (UvcObjCmd (recordAll (StartRecording s args now).2 fs) CMD_record_stop).2.2.closed =
        cF :: s.closed ∧
      (UvcObjCmd (recordAll (StartRecording s args now).2 fs) CMD_record_stop).2.2.rchan = none ∧
      (cF.bytes.drop (c0.pos + 224)).take 4 =
        le32 (admittedCount (StartRecording s args now).2 fs) ∧
      ((recordAll (StartRecording s args now).2 fs).avi.totsize ≤ 0x7F000000 →
        (recordAll (StartRecording s args now).2 fs).avi.totsize =
          (recordAll (StartRecording s args now).2 fs).avi.segsize) ∧
      ((recordAll (StartRecording s args now).2 fs).avi.totsize =
          (recordAll (StartRecording s args now).2 fs).avi.segsize →
        (cF.bytes.drop (c0.pos + 48)).take 4 =
          le32 (admittedCount (StartRecording s args now).2 fs) ∧
        (cF.bytes.drop (c0.pos + 140)).take 4 =
          le32 (admittedCount (StartRecording s args now).2 fs)) := by
  obtain ⟨⟨hio, hb, hp, hnf, hfirst⟩, hcl⟩ := session_recording s args c0 now fs h hfs
  obtain ⟨c, q0, ss, hc, hw, hs, _, hss, hr⟩ := ioOk_nat _ hio
  obtain ⟨cF, A, e, hwin, g1, g2, g3, g4⟩ := FinishRecording_header
    { recordAll (StartRecording s args now).2 fs with rstate := REC_STOP } c c0.pos ss
    hc hw hs hb (fun h => RecState.noConfusion h) hp hss
  obtain ⟨f1, f2, f3, f4, f5, f6, f7⟩ := headerBlock_fields A
  have hcount : PUT32LE (toInt32 (recordAll (StartRecording s args now).2 fs).avi.nframes) =
      admittedCount (StartRecording s args now).2 fs := by
    rw [hnf]
    exact PUT32LE_toInt32_nat _ hn
  rw [record_stop_finish, e]
  refine ⟨cF, by rw [← hcl], rfl, ?_, hfirst, fun heq => ⟨?_, ?_⟩⟩
  · rw [window_field _ _ _ 224 4 240 hwin (by omega), f6, g1, hcount]
  · rw [window_field _ _ _ 48 4 240 hwin (by omega), f4, g3 (by dsimp only; omega), hcount]
  · rw [window_field _ _ _ 140 4 240 hwin (by omega), f5, ← g2,
      g3 (by dsimp only; omega), hcount]

/-- Witness of C14: `record start -chan c -fps 10` at time 0 while
capture runs, two frames at 100 ms and 200 ms, `record stop`. Both frames are
written and the three frame counts of the closed file are 2. -/
theorem C14_frame_counts_witness :
    newAviSession capturingFmt (aviStart emptyChannel 10) emptyChannel ∧
    admittedCount (StartRecording capturingFmt (aviStart emptyChannel 10) (atMicros 0)).2
      [liveFrame 100000 100000 0, liveFrame 100000 100000 1] = 2 ∧
    ∃ cF : Channel,
      (UvcObjCmd (recordAll (StartRecording capturingFmt (aviStart emptyChannel 10)
          (atMicros 0)).2 [liveFrame 100000 100000 0, liveFrame 100000 100000 1])
        CMD_record_stop).2.2.closed = cF :: capturingFmt.closed ∧
      (UvcObjCmd (recordAll (StartRecording capturingFmt (aviStart emptyChannel 10)
          (atMicros 0)).2 [liveFrame 100000 100000 0, liveFrame 100000 100000 1])
        CMD_record_stop).2.2.rchan = none ∧
      (cF.bytes.drop (emptyChannel.pos + 224)).take 4 =
        le32 (admittedCount (StartRecording capturingFmt (aviStart emptyChannel 10)
          (atMicros 0)).2 [liveFrame 100000 100000 0, liveFrame 100000 100000 1]) ∧
      ((recordAll (StartRecording capturingFmt (aviStart emptyChannel 10) (atMicros 0)).2
          [liveFrame 100000 100000 0, liveFrame 100000 100000 1]).avi.totsize ≤ 0x7F000000 →
        (recordAll (StartRecording capturingFmt (aviStart emptyChannel 10) (atMicros 0)).2
          [liveFrame 100000 100000 0, liveFrame 100000 100000 1]).avi.totsize =
        (recordAll (StartRecording capturingFmt (aviStart emptyChannel 10) (atMicros 0)).2
          [liveFrame 100000 100000 0, liveFrame 100000 100000 1]).avi.segsize) ∧
      ((recordAll (StartRecording capturingFmt (aviStart emptyChannel 10) (atMicros 0)).2
          [liveFrame 100000 100000 0, liveFrame 100000 100000 1]).avi.totsize =
        (recordAll (StartRecording capturingFmt (aviStart emptyChannel 10) (atMicros 0)).2
          [liveFrame 100000 100000 0, liveFrame 100000 100000 1]).avi.segsize →
        (cF.bytes.drop (emptyChannel.pos + 48)).take 4 =
          le32 (admittedCount (StartRecording capturingFmt (aviStart emptyChannel 10)
            (atMicros 0)).2 [liveFrame 100000 100000 0, liveFrame 100000 100000 1]) ∧
        (cF.bytes.drop (emptyChannel.pos + 140)).take 4 =
          le32 (admittedCount (StartRecording capturingFmt (aviStart emptyChannel 10)
            (atMicros 0)).2 [liveFrame 100000 100000 0, liveFrame 100000 100000 1])) :=
  ⟨⟨rfl, rfl, rfl, rfl, rfl, rfl, rfl, rfl, rfl, rfl, rfl⟩, by decide,
    C14_frame_counts capturingFmt (aviStart emptyChannel 10) emptyChannel (atMicros 0)
      [liveFrame 100000 100000 0, liveFrame 100000 100000 1]
      ⟨rfl, rfl, rfl, rfl, rfl, rfl, rfl, rfl, rfl, rfl, rfl⟩
      (by
        intro fe hfe
        simp only [List.mem_cons, List.mem_singleton, List.not_mem_nil, or_false] at hfe
        rcases hfe with rfl | rfl <;> exact (liveFrame_ok _ _ _).2.2)
      (by decide)⟩

/-! ## Sizes of a finalized AVI file -/

theorem riff_size_value (D k : Nat) (hbound : 240 + D + 8 + 16 * k < 2147483648) :
    PUT32LE (toInt32 ((228 : Int) + (D : Int)) + (16 * (k : Int) + 8)) =
      228 + D + (8 + 16 * k) := by
  unfold PUT32LE toInt32
  omega

theorem list_size_value (D k : Nat) (hbound : 240 + D + 8 + 16 * k < 2147483648) :
    PUT32LE (toInt32 ((D : Int) + 4)) = D + 4 := by
  unfold PUT32LE toInt32
  omega

/-- The sizes `FinishRecording` leaves in a file whose chunks are all in the
first segment and take `D` bytes, with `k` index entries, when the header
block is the first thing in the sink: the file has `240 + D + 8 + 16 k` bytes,
the `movi` list size is `D + 4`, and the RIFF size is `228 + D + 8 + 16 k`,
which is the file size minus 12. -/
theorem finalized_sizes (t : TUVC) (c : Channel) (p0 k D : Nat) (buf : List AVI_IDX)
    (hc : t.rchan = some c) (hw : c.wscript = []) (hs : c.sscript = [])
    (hb : t.rbdStr = []) (hr : t.rstate ≠ REC_ERROR) (hp : t.avi.pos0 = (p0 : Int))
    (hh : t.avi.hdrsize = 228) (hD : t.avi.segsize = (D : Int)) (hT : t.avi.totsize = (D : Int))
    (hi : t.avi.idx = some buf) (hk : t.avi.curr_idx = (k : Int)) (hkb : k ≤ buf.length)
    (hend : c.pos = c.bytes.length) (hlen : c.bytes.length = p0 + 240 + D)
    (hbound : 240 + D + 8 + 16 * k < 2147483648) :
    ∃ cF : Channel, (FinishRecording t).closed = cF :: t.closed ∧
      cF.bytes.length = p0 + (240 + D + (8 + 16 * k)) ∧
      (cF.bytes.drop (p0 + 4)).take 4 = le32 (228 + D + (8 + 16 * k)) ∧
      (cF.bytes.drop (p0 + 232)).take 4 = le32 (D + 4) := by
  obtain ⟨A, e, g1, g2, g3, g4, g5, g6⟩ := FinishRecording_first_indexed t c p0 k buf hc hw hs
    hb hr hp (by omega) hi hk hkb (by omega) hend (by omega)
  obtain ⟨f1, f2, f3, f4, f5, f6, f7⟩ := headerBlock_fields A
  have hl : (storeAt c.bytes p0 (headerBlock A)).length = c.bytes.length :=
    storeAt_length_le _ _ _ (by rw [headerBlock_length]; omega)
  have hwin : ((storeAt c.bytes p0 (headerBlock A) ++ indexChunk buf k).drop p0).take 240 =
      headerBlock A := by
    rw [List.drop_append_of_le_length (by omega), List.take_append_of_le_length
      (by rw [List.length_drop]; omega)]
    have := storeAt_window c.bytes p0 (headerBlock A)
    rw [headerBlock_length] at this
    exact this
  rw [e]
  refine ⟨_, rfl, ?_, ?_, ?_⟩
  · show (storeAt c.bytes p0 (headerBlock A) ++ indexChunk buf k).length = _
    rw [List.length_append, hl, indexChunk_length _ _ hkb, hlen]
    omega
  · dsimp only
    have a1 := riff_size_value D k hbound
    rw [window_field _ _ _ 4 4 240 hwin (by omega), f1, g2, hh, hD, a1]
  · dsimp only
    have a2 := list_size_value D k hbound
    rw [window_field _ _ _ 232 4 240 hwin (by omega), f7, g3, hD, a2]

/-- C15 (failing input). `record start -chan c -fps 10` on an empty file,
two frames of 4 payload bytes, `record stop`. The closed file has
240 + 2 * 12 + (8 + 16 * 2) = 304 bytes and begins with the header block, the
`movi` list size field (offset 232) is 4 + 2 * 12 = 28, but the RIFF size
field (offset 4) is 292 = 304 - 12 instead of 304 - 8 = 296. -/
theorem C15_riff_size_short :
    afterTwoFrames.avi.nframes = 2 ∧ afterTwoFrames.rstate = REC_RECPRI ∧
    ((UvcObjCmd afterTwoFrames CMD_record_stop).2.2.closed.map
      (fun c => c.bytes.length)) = [304] ∧
    ((UvcObjCmd afterTwoFrames CMD_record_stop).2.2.closed.map
      (fun c => (c.bytes.drop 232).take 4)) = [le32 28] ∧
    ((UvcObjCmd afterTwoFrames CMD_record_stop).2.2.closed.map
      (fun c => (c.bytes.drop 4).take 4)) = [le32 292] ∧
    ((UvcObjCmd afterTwoFrames CMD_record_stop).2.2.closed.map
      (fun c => (c.bytes.drop 240).take 12)) = [[48, 48, 100, 98, 4, 0, 0, 0, 0, 0, 0, 0]] ∧
    ((UvcObjCmd afterTwoFrames CMD_record_stop).2.2.closed.map
      (fun c => (c.bytes.drop 264).take 8)) = [[105, 100, 120, 49, 32, 0, 0, 0]] := by
  decide

/-! ## The index chunk -/

theorem indexChunk_bytes (buf : List AVI_IDX) (k : Nat) (hk : 16 * k < 2147483648) :
    indexChunk buf k = [105, 100, 120, 49] ++ le32 (16 * k) ++ idxImage (buf.take k) := by
  have h1 : PUT32LE (16 * (k : Int)) = 16 * k := by
    unfold PUT32LE
    omega
  unfold indexChunk CHUNK_HDR.image
  dsimp only
  rw [h1]
  rfl

/-- C16 (amended). `FinishRecording` on an AVI session that holds an index
(buffer `buf` with `k` filled entries, all chunks in the first segment), with
a recording state other than `REC_ERROR` and a sink on which every call
succeeds and which is positioned at its end: the closed sink has the old
length plus `8 + 16 k`; the appended bytes are `idx1`, the little-endian size
`16 k` and the images of the first `k` entries of the buffer; and the flags
field of the rewritten header (offset 44 from the header origin) is 0x10. -/
theorem C16_index_chunk (t : TUVC) (c : Channel) (p0 k : Nat) (buf : List AVI_IDX)
    (hc : t.rchan = some c) (hw : c.wscript = []) (hs : c.sscript = [])
    (hb : t.rbdStr = []) (hr : t.rstate ≠ REC_ERROR) (hp : t.avi.pos0 = (p0 : Int))
    (hseg : ¬ t.avi.totsize > t.avi.segsize) (hi : t.avi.idx = some buf)
    (hk : t.avi.curr_idx = (k : Int)) (hkb : k ≤ buf.length) (hk2 : 16 * k < 2147483648)
    (hend : c.pos = c.bytes.length) (hhdr : p0 + 240 ≤ c.bytes.length) :
    ∃ cF : Channel, (FinishRecording t).closed = cF :: t.closed ∧
      (FinishRecording t).rchan = none ∧
      cF.bytes.length = c.bytes.length + (8 + 16 * k) ∧
      cF.bytes.drop c.bytes.length =
        [105, 100, 120, 49] ++ le32 (16 * k) ++ idxImage (buf.take k) ∧
      (idxImage (buf.take k)).length = 16 * k ∧
      (cF.bytes.drop (p0 + 44)).take 4 = le32 0x10 := by
  obtain ⟨A, e, g1, g2, g3, g4, g5, g6⟩ := FinishRecording_first_indexed t c p0 k buf hc hw hs
    hb hr hp hseg hi hk hkb hk2 hend hhdr
  obtain ⟨f1, f2, f3, f4, f5, f6, f7⟩ := headerBlock_fields A
  have hl : (storeAt c.bytes p0 (headerBlock A)).length = c.bytes.length :=
    storeAt_length_le _ _ _ (by rw [headerBlock_length]; omega)
  have hwin : ((storeAt c.bytes p0 (headerBlock A) ++ indexChunk buf k).drop p0).take 240 =
      headerBlock A := by
    rw [List.drop_append_of_le_length (by omega), List.take_append_of_le_length
      (by rw [List.length_drop]; omega)]
    have := storeAt_window c.bytes p0 (headerBlock A)
    rw [headerBlock_length] at this
    exact this
  rw [e]
  refine ⟨_, rfl, rfl, ?_, ?_, ?_, ?_⟩
  · show (storeAt c.bytes p0 (headerBlock A) ++ indexChunk buf k).length = _
    rw [List.length_append, hl, indexChunk_length _ _ hkb]
  · show (storeAt c.bytes p0 (headerBlock A) ++ indexChunk buf k).drop c.bytes.length = _
    rw [← hl, List.drop_left, indexChunk_bytes _ _ hk2]
  · rw [idxImage_length, List.length_take, Nat.min_eq_left hkb]
  · show ((storeAt c.bytes p0 (headerBlock A) ++ indexChunk buf k).drop (p0 + 44)).take 4 = _
    rw [window_field _ _ _ 44 4 240 hwin (by omega), f3, g1]
    rfl

/-- Witness of C16 (amended): the state after the first frame of a recording on an empty
file: the index holds one entry. -/
theorem C16_index_chunk_witness :
    ∃ cF : Channel, (FinishRecording afterFirstFrame).closed = cF :: afterFirstFrame.closed ∧
      (FinishRecording afterFirstFrame).rchan = none ∧
      cF.bytes.length = (afterFirstFrame.rchan.getD emptyChannel).bytes.length + (8 + 16 * 1) ∧
      cF.bytes.drop (afterFirstFrame.rchan.getD emptyChannel).bytes.length =
        [105, 100, 120, 49] ++ le32 (16 * 1) ++
          idxImage ((afterFirstFrame.avi.idx.getD []).take 1) ∧
      (idxImage ((afterFirstFrame.avi.idx.getD []).take 1)).length = 16 * 1 ∧
      (cF.bytes.drop (0 + 44)).take 4 = le32 0x10 :=
  C16_index_chunk afterFirstFrame (afterFirstFrame.rchan.getD emptyChannel) 0 1
    (afterFirstFrame.avi.idx.getD []) (by decide) (by decide) (by decide) (by decide)
    (by decide) (by decide) (by decide) (by decide) (by decide) (by decide) (by decide)
    (by decide) (by decide)

/-- C16 (counterexample). A session without frames: `record start` on an empty file
followed by `record stop`, with no error, leaves a file of 240 bytes (the
header block only, no `idx1` chunk) whose flags field is 0. -/
theorem C16_counterexample :
    recordingRunning.rstate = REC_RECPRI ∧
    (UvcObjCmd recordingRunning CMD_record_stop).1 = TCL_OK ∧
    (UvcObjCmd recordingRunning CMD_record_stop).2.2.rstate = REC_STOP ∧
    (UvcObjCmd recordingRunning CMD_record_stop).2.2.rchan = none ∧
    (UvcObjCmd recordingRunning CMD_record_stop).2.2.closed.map
      (fun c => (c.bytes.length, (c.bytes.drop 44).take 4)) = [(240, [0, 0, 0, 0])] := by
  decide

/-! ## Releasing the sink -/

/-- `FinishRecording` on a session with a sink releases the sink: the channel
is closed and the member is NULL. In boundary mode the channel is closed as it
is and the recording state is kept. -/
theorem FinishRecording_release (t : TUVC) (c : Channel) (hc : t.rchan = some c) :
    ∃ (cF : Channel) (r : RecState),
      FinishRecording t =
        { t with avi := AVI.zero, rchan := none, rstate := r, rbdStr := [],
                 closed := cF :: t.closed } ∧
      (r = t.rstate ∨ r = REC_ERROR) ∧ (t.rbdStr ≠ [] → cF = c ∧ r = t.rstate) := by
  have key : ∀ (a : TUVC), ioStep a t → (t.rbdStr ≠ [] → a = t) →
      ∃ (cF : Channel) (r : RecState),
        closeChannel { a with rbdStr := [] } =
          { t with avi := AVI.zero, rchan := none, rstate := r, rbdStr := [],
                   closed := cF :: t.closed } ∧
        (r = t.rstate ∨ r = REC_ERROR) ∧ (t.rbdStr ≠ [] → cF = c ∧ r = t.rstate) := by
    intro a ha hb
    obtain ⟨x, y, z, rfl, hy, hz⟩ := ha
    rw [hc] at hy
    obtain ⟨c', rfl⟩ := Option.isSome_iff_exists.mp hy
    refine ⟨c', z, rfl, hz, fun h => ?_⟩
    have e := hb h
    have e1 := congrArg TUVC.rchan e
    have e2 := congrArg TUVC.rstate e
    dsimp only at e1 e2
    rw [hc] at e1
    exact ⟨Option.some.inj e1, e2⟩
  unfold FinishRecording
  dsimp only
  split
  · rename_i h
    refine key _ (ioStep_trans (WriteAVIHeader_ioStep _ _) (CloseAVISegment_ioStep _ _))
      (fun hb => ?_)
    simp only [Bool.and_eq_true, decide_eq_true_eq, List.length_eq_zero] at h
    exact absurd h.2 hb
  · exact key _ (ioStep_refl t) (fun _ => rfl)

/-- On a sink on which every call succeeds `FinishRecording` keeps the
recording state. -/
theorem FinishRecording_keeps_state (t : TUVC) (c : Channel) (hc : t.rchan = some c)
    (hw : c.wscript = []) (hs : c.sscript = []) (hr : t.rstate ≠ REC_ERROR)
    (hp : 0 ≤ t.avi.pos0) (hss : 0 ≤ t.avi.segstart) :
    (FinishRecording t).rstate = t.rstate := by
  by_cases hb : t.rbdStr = []
  · obtain ⟨cF, A, e, _⟩ := FinishRecording_header t c t.avi.pos0.toNat t.avi.segstart.toNat
      hc hw hs hb hr (by omega) (by omega)
    rw [e]
  · obtain ⟨cF, r, e, _, h2⟩ := FinishRecording_release t c hc
    rw [e]
    exact (h2 hb).2

/-! ## Segment rotation -/

theorem segmentHeader_fields (s : Int) :
    (segmentHeader s).image.length = 24 ∧
    ((segmentHeader s).image.drop 4).take 4 = le32 (PUT32LE (s + 16)) ∧
    ((segmentHeader s).image.drop 16).take 4 = le32 (PUT32LE (s + 4)) := by
  have d (x r : List Nat) (n : Nat) (hx : x.length = 4) (hn : 4 ≤ n) :
      (x ++ r).drop n = r.drop (n - 4) := drop_four x r n hx hn
  refine ⟨AVIX_HDR_image_length _, ?_, ?_⟩
  all_goals
    simp only [segmentHeader, AVIX_HDR.image, List.append_assoc]
    repeat rw [d _ _ _ (by first | exact fourcc_length _ | exact le32_length _) (by decide)]
    try rw [List.drop_zero]
    exact take_four _ _ (le32_length _)

/-- The segment rotation `CloseAVISegment(tuvc, 0)` on a sink on which every
call succeeds: a block `P` is stored at position `q` (the header block at the
header origin when the first segment is closed, the segment header at the
segment start when a later segment is closed) and the opener of the next
segment is written at the current position. -/
theorem CloseAVISegment_next (t : TUVC) (c : Channel) (p0 ss : Nat)
    (hc : t.rchan = some c) (hw : c.wscript = []) (hs : c.sscript = [])
    (hr : t.rstate ≠ REC_ERROR) (hp : t.avi.pos0 = (p0 : Int))
    (hss : t.avi.segstart = (ss : Int)) :
    ∃ (q : Nat) (P : List Nat) (A : AVI),
      CloseAVISegment t false =
        { t with avi := A,
                 rchan := some (Channel.put { c with bytes := storeAt c.bytes q P }
                   xhdr0.image) } ∧
      A.nframes = t.avi.nframes ∧ A.totsize = t.avi.totsize ∧ A.pos0 = t.avi.pos0 ∧
      A.segsize = 0 ∧ A.segstart = (c.pos : Int) ∧
      (¬ t.avi.totsize > t.avi.segsize →
        q = p0 ∧ P.length = 240 ∧
        (P.drop 232).take 4 = le32 (PUT32LE (toInt32 (t.avi.segsize + 4))) ∧
        (P.drop 48).take 4 = le32 (PUT32LE (toInt32 t.avi.nframes)) ∧
        (P.drop 140).take 4 = le32 (PUT32LE (toInt32 t.avi.nframes)) ∧
        A.nframes0 = t.avi.nframes ∧ A.segsize0 = t.avi.segsize) ∧
      (t.avi.totsize > t.avi.segsize →
        q = ss ∧ P.length = 24 ∧
        (P.drop 4).take 4 = le32 (PUT32LE (t.avi.segsize + 16)) ∧
        (P.drop 16).take 4 = le32 (PUT32LE (t.avi.segsize + 4)) ∧
        A.nframes0 = t.avi.nframes0 ∧ A.segsize0 = t.avi.segsize0) := by
  by_cases hseg : t.avi.totsize > t.avi.segsize
  · have e1 := CloseAVISegment_later t c ss false hc hw hs hss hseg
    rw [closeTail_next _ { c with bytes := storeAt c.bytes ss (segmentHeader t.avi.segsize).image }
      _ _ rfl hw] at e1
    obtain ⟨s1, s2, s3⟩ := segmentHeader_fields t.avi.segsize
    exact ⟨ss, _, _, e1, rfl, rfl, rfl, rfl, rfl, fun h => absurd hseg h,
      fun _ => ⟨rfl, s1, s2, s3, rfl, rfl⟩⟩
  · have e1 := CloseAVISegment_first t c p0 false hc hw hs hp hr hseg
    rw [closeTail_next _ { c with bytes := storeAt c.bytes p0 (headerBlock (firstClosed t)) }
      _ _ rfl hw] at e1
    obtain ⟨m1, m2, m3, m4, m5, m6, m7, m8⟩ := patchedAvi_layout
      { t with avi := { t.avi with nframes0 := t.avi.nframes, segsize0 := t.avi.segsize } }
      (PUT32LE 0) 0
    obtain ⟨f1, f2, f3, f4, f5, f6, f7⟩ := headerBlock_fields (firstClosed t)
    obtain ⟨n1, n2, n3⟩ := patchedAvi_counts
      { t with avi := { t.avi with nframes0 := t.avi.nframes, segsize0 := t.avi.segsize } }
      (PUT32LE 0) 0
    obtain ⟨z1, z2, z3⟩ := updateHeaderFields_sizes
      { ({ t with avi := { t.avi with nframes0 := t.avi.nframes,
                                      segsize0 := t.avi.segsize } } : TUVC).avi with
        avi_hdr := { t.avi.avi_hdr with
          avih := { t.avi.avi_hdr.avih with flags := PUT32LE 0 } } }
      (handlerIsMJPG { t with avi := { t.avi with nframes0 := t.avi.nframes,
                                                  segsize0 := t.avi.segsize } }) 0
    refine ⟨p0, _, _, e1, m1, m3, m8, rfl, rfl, fun _ => ⟨rfl, headerBlock_length _, ?_, ?_, ?_,
      m2, m5⟩, fun h => absurd h hseg⟩
    · rw [f7]
      exact congrArg le32 z2
    · rw [f4]
      exact congrArg le32 n1
    · rw [f5]
      exact congrArg le32 n2

/-- The bookkeeping of a chunk that makes the segment exceed the limit, on a
sink on which every call succeeds. -/
theorem accountChunk_rotate (u : TUVC) (c : Channel) (p0 ss : Nat) (size sizea : Int)
    (env : FrameEnv) (hc : u.rchan = some c) (hw : c.wscript = []) (hs : c.sscript = [])
    (hr : u.rstate ≠ REC_ERROR) (hp : u.avi.pos0 = (p0 : Int))
    (hss : u.avi.segstart = (ss : Int))
    (hrot : u.avi.segsize + (sizea + 8) > 0x7F000000) :
    ∃ (q : Nat) (P : List Nat) (A : AVI),
      accountChunk u size sizea size env =
        { u with avi := A,
                 rchan := some (Channel.put { c with bytes := storeAt c.bytes q P }
                   xhdr0.image) } ∧
      A.nframes = u.avi.nframes + 1 ∧ A.totsize = u.avi.totsize + (sizea + 8) ∧
      A.pos0 = u.avi.pos0 ∧ A.segsize = 0 ∧ A.segstart = (c.pos : Int) ∧
      (¬ u.avi.totsize > u.avi.segsize →
        q = p0 ∧ P.length = 240 ∧
        (P.drop 232).take 4 = le32 (PUT32LE (toInt32 (u.avi.segsize + (sizea + 8) + 4))) ∧
        (P.drop 48).take 4 = le32 (PUT32LE (toInt32 (u.avi.nframes + 1))) ∧
        (P.drop 140).take 4 = le32 (PUT32LE (toInt32 (u.avi.nframes + 1))) ∧
        A.nframes0 = u.avi.nframes + 1 ∧ A.segsize0 = u.avi.segsize + (sizea + 8)) ∧
      (u.avi.totsize > u.avi.segsize →
        q = ss ∧ P.length = 24 ∧
        (P.drop 4).take 4 = le32 (PUT32LE (u.avi.segsize + (sizea + 8) + 16)) ∧
        (P.drop 16).take 4 = le32 (PUT32LE (u.avi.segsize + (sizea + 8) + 4)) ∧
        A.nframes0 = u.avi.nframes0 ∧ A.segsize0 = u.avi.segsize0) := by
  have hrot' : u.avi.segsize + (sizea + (sizeof_CHUNK_HDR : Int)) > 0x7F000000 := hrot
  obtain ⟨q, P, A, e, a1, a2, a3, a4, a5, a6, a7⟩ := CloseAVISegment_next
    { u with avi := { u.avi with
        nframes := u.avi.nframes + 1,
        totsize := u.avi.totsize + (sizea + sizeof_CHUNK_HDR),
        segsize := u.avi.segsize + (sizea + sizeof_CHUNK_HDR) } }
    c p0 ss hc hw hs hr hp hss
  unfold accountChunk
  dsimp only
  rw [if_pos rfl, if_pos hrot', e]
  dsimp only at a6 a7
  refine ⟨q, P, { A with curr_idx := 0, num_idx := 0, idx := none }, rfl, a1, a2, a3, a4, a5,
    fun h => a6 (fun h' => h ?_), fun h => a7 ?_⟩
  · have : (sizeof_CHUNK_HDR : Int) = 8 := rfl
    omega
  · have : (sizeof_CHUNK_HDR : Int) = 8 := rfl
    omega

/-- The AVI branch of `WriteFrame` in terms of the bookkeeping, on a sink that
accepts the chunk. -/
theorem writeAVIFrame_via (t : TUVC) (f fr : uvc_frame) (diff : timeval) (env : FrameEnv)
    (size : Int) (c c' : Channel) (A : AVI) (hc : t.rchan = some c) (hw : c.wscript = [])
    (hr : t.rstate ≠ REC_ERROR) (hsel : aviFrameSize t f env = some (fr, size))
    (h0 : 0 ≤ size) (h3 : size + 3 < 2147483648)
    (e : accountChunk { t with rchan := some (c.put (frameChunk fr size ((size + 3) / 4 * 4))) }
        size ((size + 3) / 4 * 4) size env = { t with avi := A, rchan := some c' }) :
    writeAVIFrame t f diff env = (1, { t with avi := averageRate A diff, rchan := some c' }) := by
  have hsa : toInt32 (size + 3) / 4 * 4 = (size + 3) / 4 * 4 := by
    unfold toInt32
    omega
  have hle : size ≤ (size + 3) / 4 * 4 := by omega
  obtain ⟨g1, g2, g3⟩ := writeChunk_good t fr size ((size + 3) / 4 * 4) c hc hw h0 hle
  unfold frameChunk at e
  unfold writeAVIFrame
  rw [hsel]
  dsimp only
  rw [hsa, g2, g3, g1, e]
  exact writeResult_same _ _ hr

/-! ## Frames after the first segment was closed -/

theorem takeD_take_keep (n : Nat) : ∀ (p : Nat) (b : List Nat), n ≤ p → n ≤ b.length →
    (List.takeD p b 0).take n = b.take n := by
  induction n with
  | zero => intro p b _ _; rfl
  | succ n ih =>
    intro p b hp hb
    cases p with
    | zero => omega
    | succ p =>
      cases b with
      | nil => simp at hb
      | cons a b =>
        show List.take (n + 1) (a :: List.takeD p b 0) = List.take (n + 1) (a :: b)
        rw [List.take_succ_cons, List.take_succ_cons, ih p b (by omega) (by simpa using hb)]

theorem storeAt_take_keep (b : List Nat) (p : Nat) (x : List Nat) (n : Nat) (h1 : n ≤ p)
    (h2 : n ≤ b.length) : (storeAt b p x).take n = b.take n := by
  unfold storeAt
  rw [List.append_assoc, List.take_append_of_le_length (by rw [List.takeD_length]; exact h1)]
  exact takeD_take_keep n p b h1 h2

theorem storeAt_length_ge (b : List Nat) (p : Nat) (x : List Nat) :
    b.length ≤ (storeAt b p x).length := by
  rw [storeAt_length]
  omega

theorem put_take_keep (c : Channel) (x : List Nat) (n : Nat) (h1 : n ≤ c.pos)
    (h2 : n ≤ c.bytes.length) :
    (c.put x).bytes.take n = c.bytes.take n ∧ n ≤ (c.put x).pos ∧
    n ≤ (c.put x).bytes.length ∧ (c.put x).wscript = c.wscript ∧
    (c.put x).sscript = c.sscript := by
  refine ⟨storeAt_take_keep _ _ _ _ h1 h2, ?_, ?_, rfl, rfl⟩
  · show n ≤ c.pos + x.length
    omega
  · exact le_trans h2 (storeAt_length_ge _ _ _)

/-- The bookkeeping of a chunk in a later segment: the content of the sink up
to the end of the header block and the values recorded for the first segment
are kept, with or without a rotation. -/
theorem accountChunk_later (u : TUVC) (c : Channel) (p0 ss : Nat) (size sizea : Int)
    (env : FrameEnv) (hc : u.rchan = some c) (hw : c.wscript = []) (hs : c.sscript = [])
    (hr : u.rstate ≠ REC_ERROR) (hp : u.avi.pos0 = (p0 : Int))
    (hss : u.avi.segstart = (ss : Int)) (hlater : u.avi.totsize > u.avi.segsize)
    (h1 : p0 + 240 ≤ ss) (h2 : p0 + 240 ≤ c.pos) (h3 : p0 + 240 ≤ c.bytes.length) :
    ∃ (c' : Channel) (ss' : Nat) (A : AVI),
      accountChunk u size sizea size env = { u with avi := A, rchan := some c' } ∧
      c'.wscript = [] ∧ c'.sscript = [] ∧ A.pos0 = (p0 : Int) ∧ A.segstart = (ss' : Int) ∧
      A.totsize > A.segsize ∧ p0 + 240 ≤ ss' ∧ p0 + 240 ≤ c'.pos ∧
      p0 + 240 ≤ c'.bytes.length ∧ c'.bytes.take (p0 + 240) = c.bytes.take (p0 + 240) ∧
      A.nframes0 = u.avi.nframes0 ∧ A.segsize0 = u.avi.segsize0 := by
  by_cases hrot : u.avi.segsize + (sizea + 8) > 0x7F000000
  · obtain ⟨q, P, A, e, a1, a2, a3, a4, a5, _, a7⟩ := accountChunk_rotate u c p0 ss size sizea
      env hc hw hs hr hp hss hrot
    obtain ⟨rfl, b2, _, _, b5, b6⟩ := a7 hlater
    obtain ⟨k1, k2, k3, k4, k5⟩ := put_take_keep
      { c with bytes := storeAt c.bytes q P } xhdr0.image (p0 + 240) h2
      (le_trans h3 (storeAt_length_ge _ _ _))
    refine ⟨_, c.pos, A, e, k4.trans hw, k5.trans hs, a3.trans hp, a5, ?_, h2, k2, k3, ?_,
      b5, b6⟩
    · rw [a2, a4]
      omega
    · rw [k1]
      exact storeAt_take_keep _ _ _ _ h1 h3
  · have hrot' : ¬ u.avi.segsize + (sizea + (sizeof_CHUNK_HDR : Int)) > 0x7F000000 := hrot
    have hne : ¬ u.avi.totsize + (sizea + (sizeof_CHUNK_HDR : Int)) =
        u.avi.segsize + (sizea + (sizeof_CHUNK_HDR : Int)) := by omega
    unfold accountChunk
    dsimp only
    rw [if_pos rfl, if_neg hrot', if_neg hne]
    refine ⟨c, ss, { u.avi with
        nframes := u.avi.nframes + 1,
        totsize := u.avi.totsize + (sizea + sizeof_CHUNK_HDR),
        segsize := u.avi.segsize + (sizea + sizeof_CHUNK_HDR) },
      ?_, hw, hs, hp, hss, ?_, h1, h2, h3, rfl, rfl, rfl⟩
    · rw [← hc]
    · show u.avi.totsize + (sizea + (sizeof_CHUNK_HDR : Int)) >
        u.avi.segsize + (sizea + (sizeof_CHUNK_HDR : Int))
      omega

/-- One call of `WriteFrame` after the first segment was closed keeps the
content of the sink up to the end of the header block and the values recorded
for the first segment. -/
theorem laterSegment_step (t : TUVC) (p0 : Nat) (W : List Nat) (n0 s0 : Int) (f : uvc_frame)
    (env : FrameEnv) (h : laterSegment t p0 W n0 s0) (hf : frameOk f env) :
    laterSegment (WriteFrame t f env).2 p0 W n0 s0 := by
  obtain ⟨c, ss, hc, hw, hs, hr, hb, hp, hss, hlater, h1, h2, h3, hW, hn0, hs0⟩ := h
  have hio : ioOk t := ⟨⟨c, hc, hw, hs⟩, by rw [hp]; omega, by rw [hss]; omega, hr⟩
  obtain ⟨_, _, k3, _⟩ := WriteFrame_ok t f env hio hf
  cases hg : tvPositive (tvDiff t.rtv (effectiveNow f env)) with
  | true =>
    rw [k3 hg]
    exact ⟨c, ss, hc, hw, hs, hr, hb, hp, hss, hlater, h1, h2, h3, hW, hn0, hs0⟩
  | false =>
    obtain ⟨fr, size, hsel, hz, hz3⟩ := aviFrameSize_ok t f env hf
    have hopen := WriteFrame_avi_open t f env (by rw [hc]; rfl) hr hb hf.1 hg
    obtain ⟨k1, k2, k3, k4, k5⟩ := put_take_keep c (frameChunk fr size ((size + 3) / 4 * 4))
      (p0 + 240) h2 h3
    obtain ⟨c', ss', A, e, w', s', a1, a2, a3, a4, a5, a6, a7, a8, a9⟩ := accountChunk_later
      { t with rtv := tvAdvance (effectiveNow f env) t.rrate, ltv := effectiveNow f env,
               rchan := some (c.put (frameChunk fr size ((size + 3) / 4 * 4))) }
      (c.put (frameChunk fr size ((size + 3) / 4 * 4))) p0 ss size ((size + 3) / 4 * 4) env
      rfl (k4.trans hw) (k5.trans hs) hr hp hss hlater h1 k2 k3
    have hv := writeAVIFrame_via
      { t with rtv := tvAdvance (effectiveNow f env) t.rrate, ltv := effectiveNow f env }
      f fr (tvDiff (effectiveNow f env) t.ltv) env size c c' A hc hw hr
      (by rw [← hsel]; exact aviFrameSize_avi t _ f env rfl) hz hz3 e
    obtain ⟨l1, l2, l3, l4, l5, l6, l7, l8⟩ := averageRate_layout A
      (tvDiff (effectiveNow f env) t.ltv)
    rw [hopen, hv]
    refine ⟨c', ss', rfl, w', s', hr, hb, l8.trans a1, l6.trans a2, ?_, a4, a5, a6,
      (a7.trans k1).trans hW, l2.trans (a8.trans hn0), l5.trans (a9.trans hs0)⟩
    show (averageRate A _).totsize > (averageRate A _).segsize
    rw [l3, l4]
    exact a3

theorem laterSegment_all (fs : List (uvc_frame × FrameEnv)) (t : TUVC) (p0 : Nat)
    (W : List Nat) (n0 s0 : Int) (h : laterSegment t p0 W n0 s0)
    (hfs : ∀ fe ∈ fs, frameOk fe.1 fe.2) : laterSegment (recordAll t fs) p0 W n0 s0 := by
  induction fs generalizing t with
  | nil => exact h
  | cons fe rest ih =>
    exact ih _ (laterSegment_step t p0 W n0 s0 fe.1 fe.2 h (hfs fe (List.mem_cons_self _ _)))
      (fun x hx => hfs x (List.mem_cons_of_mem _ hx))

/-! ## Segment rotation -/

/-- The sink after a chunk `X` was appended, a block `P` was stored at `q`
inside the old content, and an opener `Y` was appended. -/
theorem rotated_sink (c : Channel) (X P Y : List Nat) (q : Nat)
    (hend : c.pos = c.bytes.length) (hq : q + P.length ≤ c.bytes.length) :
    (Channel.put { c.put X with bytes := storeAt (c.put X).bytes q P } Y).bytes =
      storeAt c.bytes q P ++ X ++ Y ∧
    (Channel.put { c.put X with bytes := storeAt (c.put X).bytes q P } Y).pos =
      c.bytes.length + X.length + Y.length ∧
    (storeAt c.bytes q P).length = c.bytes.length := by
  have hl := storeAt_length_le c.bytes q P hq
  have e1 : (c.put X).bytes = c.bytes ++ X := by
    show storeAt c.bytes c.pos X = _
    rw [hend, storeAt_end]
  have e2 : (c.put X).pos = c.bytes.length + X.length := by
    show c.pos + X.length = _
    rw [hend]
  refine ⟨?_, ?_, hl⟩
  · show storeAt (storeAt (c.put X).bytes q P) (c.put X).pos Y = _
    rw [e1, e2, storeAt_append_right _ _ _ _ hq]
    have h : c.bytes.length + X.length = (storeAt c.bytes q P ++ X).length := by
      rw [List.length_append, hl]
    rw [h, storeAt_end]
  · show (c.put X).pos + Y.length = _
    rw [e2]

theorem rotated_sink_parts (b X P Y : List Nat) (q : Nat) (hq : q + P.length ≤ b.length) :
    (storeAt b q P ++ X ++ Y).length = b.length + X.length + Y.length ∧
    (storeAt b q P ++ X ++ Y).drop (b.length + X.length) = Y ∧
    ((storeAt b q P ++ X ++ Y).drop b.length).take X.length = X ∧
    ((storeAt b q P ++ X ++ Y).drop q).take P.length = P ∧
    (∀ n, n ≤ q → (storeAt b q P ++ X ++ Y).take n = b.take n) := by
  have hl := storeAt_length_le b q P hq
  refine ⟨?_, ?_, ?_, ?_, ?_⟩
  · rw [List.length_append, List.length_append, hl]
  · have h : b.length + X.length = (storeAt b q P ++ X).length := by
      rw [List.length_append, hl]
    rw [h, List.drop_left]
  · rw [List.append_assoc, ← hl, List.drop_left, List.take_left]
  · rw [List.append_assoc, List.drop_append_of_le_length (by omega),
      List.take_append_of_le_length (by rw [List.length_drop]; omega)]
    exact storeAt_window b q P
  · intro n hn
    rw [List.append_assoc, List.take_append_of_le_length (by omega)]
    exact storeAt_take_keep b q P n hn (by omega)

theorem opener_bytes : xhdr0.image =
    [82, 73, 70, 70, 0, 0, 0, 0, 65, 86, 73, 88, 76, 73, 83, 84, 0, 0, 0, 0, 109, 111, 118, 105] := by
  decide

theorem frameChunk_bytes (fr : uvc_frame) (s : Nat) (hs3 : s + 3 < 2147483648) :
    frameChunk fr (s : Int) (((s : Int) + 3) / 4 * 4) =
      [48, 48, 100, 98] ++ le32 ((s + 3) / 4 * 4) ++ List.takeD s fr.data 0 ++
        List.replicate ((s + 3) / 4 * 4 - s) 0 ∧
    (frameChunk fr (s : Int) (((s : Int) + 3) / 4 * 4)).length = 8 + (s + 3) / 4 * 4 := by
  have hp : ((s : Int) + 3) / 4 * 4 = (((s + 3) / 4 * 4 : Nat) : Int) := by
    push_cast
    rfl
  have h2 : ((((s + 3) / 4 * 4 : Nat) : Int) - (s : Int)).toNat = (s + 3) / 4 * 4 - s := by
    omega
  have e : frameChunk fr (s : Int) (((s : Int) + 3) / 4 * 4) =
      [48, 48, 100, 98] ++ le32 ((s + 3) / 4 * 4) ++ List.takeD s fr.data 0 ++
        List.replicate ((s + 3) / 4 * 4 - s) 0 := by
    unfold frameChunk
    rw [hp, chunk_header_image _ (by omega), h2, Int.toNat_ofNat]
  refine ⟨e, ?_⟩
  rw [e]
  simp only [List.length_append, List.length_cons, List.length_nil, le32_length,
    List.takeD_length, List.length_replicate]
  omega

theorem rotation_values (S p n : Nat) (hb : S + (p + 8) + 16 < 4294967296)
    (hn : n + 1 < 4294967296) :
    PUT32LE (toInt32 ((S : Int) + ((p : Int) + 8) + 4)) = S + (p + 8) + 4 ∧
    PUT32LE (toInt32 ((n : Int) + 1)) = n + 1 ∧
    PUT32LE ((S : Int) + ((p : Int) + 8) + 16) = S + (p + 8) + 16 ∧
    PUT32LE ((S : Int) + ((p : Int) + 8) + 4) = S + (p + 8) + 4 := by
  unfold PUT32LE toInt32
  omega

/-- The call of `WriteFrame` that rotates the segment, on a sink on which every
call succeeds and which is positioned at its end. -/
theorem WriteFrame_rotate (t : TUVC) (f fr : uvc_frame) (env : FrameEnv) (c : Channel)
    (s p0 ss : Nat) (hc : t.rchan = some c) (hw : c.wscript = []) (hsk : c.sscript = [])
    (hr : t.rstate ≠ REC_ERROR) (havi : t.rbdStr = []) (hdata : f.data_bytes ≠ 0)
    (hgate : tvPositive (tvDiff t.rtv (effectiveNow f env)) = false)
    (hsel : aviFrameSize t f env = some (fr, (s : Int))) (hs3 : s + 3 < 2147483648)
    (hp : t.avi.pos0 = (p0 : Int)) (hss : t.avi.segstart = (ss : Int))
    (hrot : t.avi.segsize + ((((s + 3) / 4 * 4 : Nat) : Int) + 8) > 0x7F000000)
    (hend : c.pos = c.bytes.length) (hhdr : p0 + 240 ≤ c.bytes.length)
    (hlater : t.avi.totsize > t.avi.segsize → ss + 24 ≤ c.bytes.length) :
    ∃ (q : Nat) (P : List Nat) (A : AVI) (c' : Channel),
      WriteFrame t f env =
        (1, { t with rtv := tvAdvance (effectiveNow f env) t.rrate,
                     ltv := effectiveNow f env, avi := A, rchan := some c' }) ∧
      c'.wscript = [] ∧ c'.sscript = [] ∧
      c'.bytes = storeAt c.bytes q P ++
        ([48, 48, 100, 98] ++ le32 ((s + 3) / 4 * 4) ++ List.takeD s fr.data 0 ++
          List.replicate ((s + 3) / 4 * 4 - s) 0) ++ xhdr0.image ∧
      c'.pos = c.bytes.length + (8 + (s + 3) / 4 * 4) + 24 ∧
      q + P.length ≤ c.bytes.length ∧
      A.nframes = t.avi.nframes + 1 ∧
      A.totsize = t.avi.totsize + ((((s + 3) / 4 * 4 : Nat) : Int) + 8) ∧
      A.pos0 = (p0 : Int) ∧ A.segsize = 0 ∧
      A.segstart = ((c.bytes.length + (8 + (s + 3) / 4 * 4) : Nat) : Int) ∧
      (¬ t.avi.totsize > t.avi.segsize →
        q = p0 ∧ P.length = 240 ∧
        (P.drop 232).take 4 = le32 (PUT32LE (toInt32
          (t.avi.segsize + ((((s + 3) / 4 * 4 : Nat) : Int) + 8) + 4))) ∧
        (P.drop 48).take 4 = le32 (PUT32LE (toInt32 (t.avi.nframes + 1))) ∧
        (P.drop 140).take 4 = le32 (PUT32LE (toInt32 (t.avi.nframes + 1))) ∧
        A.nframes0 = t.avi.nframes + 1 ∧
        A.segsize0 = t.avi.segsize + ((((s + 3) / 4 * 4 : Nat) : Int) + 8)) ∧
      (t.avi.totsize > t.avi.segsize →
        q = ss ∧ P.length = 24 ∧
        (P.drop 4).take 4 = le32 (PUT32LE
          (t.avi.segsize + ((((s + 3) / 4 * 4 : Nat) : Int) + 8) + 16)) ∧
        (P.drop 16).take 4 = le32 (PUT32LE
          (t.avi.segsize + ((((s + 3) / 4 * 4 : Nat) : Int) + 8) + 4)) ∧
        A.nframes0 = t.avi.nframes0 ∧ A.segsize0 = t.avi.segsize0) := by
  have hpI : ((s : Int) + 3) / 4 * 4 = (((s + 3) / 4 * 4 : Nat) : Int) := by
    push_cast
    rfl
  obtain ⟨x1, x2⟩ := frameChunk_bytes fr s hs3
  have hopen := WriteFrame_avi_open t f env (by rw [hc]; rfl) hr havi hdata hgate
  obtain ⟨q, P, A, e, a1, a2, a3, a4, a5, a6, a7⟩ := accountChunk_rotate
    { t with rtv := tvAdvance (effectiveNow f env) t.rrate, ltv := effectiveNow f env,
             rchan := some (c.put (frameChunk fr (s : Int) (((s : Int) + 3) / 4 * 4))) }
    (c.put (frameChunk fr (s : Int) (((s : Int) + 3) / 4 * 4))) p0 ss (s : Int)
    (((s : Int) + 3) / 4 * 4) env rfl hw hsk hr hp hss (by rw [hpI]; exact hrot)
  have hq : q + P.length ≤ c.bytes.length := by
    by_cases hl : t.avi.totsize > t.avi.segsize
    · obtain ⟨b1, b2, _⟩ := a7 hl
      rw [b1, b2]
      exact hlater hl
    · obtain ⟨b1, b2, _⟩ := a6 hl
      rw [b1, b2]
      exact hhdr
  obtain ⟨r1, r2, r3⟩ := rotated_sink c (frameChunk fr (s : Int) (((s : Int) + 3) / 4 * 4)) P
    xhdr0.image q hend hq
  have hv := writeAVIFrame_via
    { t with rtv := tvAdvance (effectiveNow f env) t.rrate, ltv := effectiveNow f env }
    f fr (tvDiff (effectiveNow f env) t.ltv) env (s : Int) c _ A hc hw hr
    (by rw [← hsel]; exact aviFrameSize_avi t _ f env rfl) (by omega) (by omega) e
  obtain ⟨l1, l2, l3, l4, l5, l6, l7, l8⟩ := averageRate_layout A
    (tvDiff (effectiveNow f env) t.ltv)
  rw [x2, AVIX_HDR_image_length] at r2
  rw [hpI] at a2 a5 a6 a7
  dsimp only at a1 a2 a3 a6 a7
  have a5' : A.segstart = ((c.bytes.length + (8 + (s + 3) / 4 * 4) : Nat) : Int) := by
    rw [a5]
    show ((c.pos + (frameChunk fr (s : Int) (((s : Int) + 3) / 4 * 4)).length : Nat) : Int) = _
    rw [x2, hend]
  refine ⟨q, P, averageRate A (tvDiff (effectiveNow f env) t.ltv), _, hopen.trans hv, hw, hsk,
    r1.trans (by rw [x1]), r2, hq, l1.trans a1, l3.trans a2, l8.trans (a3.trans hp), l4.trans a4, l6.trans a5',
    fun h => ?_, fun h => ?_⟩
  · obtain ⟨b1, b2, b3, b4, b5, b6, b7⟩ := a6 h
    exact ⟨b1, b2, b3, b4, b5, l2.trans b6, l5.trans b7⟩
  · obtain ⟨b1, b2, b3, b4, b5, b6⟩ := a7 h
    exact ⟨b1, b2, b3, b4, l2.trans b5, l5.trans b6⟩

/-- C18. A call of `WriteFrame` in an AVI recording writes a chunk with `s`
payload bytes (padded size `p = (s + 3) / 4 * 4`) that makes the size of the
open segment, `S` before the call, exceed 0x7F000000; every call on the sink
succeeds and the sink is positioned at its end `L`. Then the call returns 1,
the sink holds the chunk at `L` (its header `00db` with the padded size, and,
when the data of the frame hold the `s` bytes, the payload and the padding of
zero bytes), behind it exactly the 24 bytes of one opener
`RIFF 0 AVIX LIST 0 movi`, and ends there, with the position behind the
opener; the new segment starts at the opener and has size 0. When the first
segment is closed, the header block holds the list size `S + (p + 8) + 4`
(offset 232) and the frame count `n + 1` (offsets 48 and 140), `n` being the
frame count before the call, and these two values are recorded as `segsize0`
and `nframes0`. When a later segment is closed, its segment header at `ss`
holds the RIFF size `S + (p + 8) + 16` and the list size `S + (p + 8) + 4`,
and the header block and the recorded values of the first segment are kept.
Whatever frames are written afterwards, the sink content up to the end of
the header block, `nframes0` and `segsize0` stay as they are after this
call. -/
theorem C18_segment_rotation (t : TUVC) (f fr : uvc_frame) (env : FrameEnv) (c : Channel)
    (s p0 ss S n : Nat) (hc : t.rchan = some c) (hw : c.wscript = []) (hsk : c.sscript = [])
    (hr : t.rstate ≠ REC_ERROR) (havi : t.rbdStr = []) (hdata : f.data_bytes ≠ 0)
    (hgate : tvPositive (tvDiff t.rtv (effectiveNow f env)) = false)
    (hsel : aviFrameSize t f env = some (fr, (s : Int))) (hs3 : s + 3 < 2147483648)
    (hp : t.avi.pos0 = (p0 : Int)) (hss : t.avi.segstart = (ss : Int))
    (hS : t.avi.segsize = (S : Int)) (hn : t.avi.nframes = (n : Int))
    (hrot : S + ((s + 3) / 4 * 4 + 8) > 0x7F000000)
    (hbound : S + ((s + 3) / 4 * 4 + 8) + 16 < 4294967296) (hnb : n + 1 < 4294967296)
    (hts : t.avi.segsize ≤ t.avi.totsize)
    (hend : c.pos = c.bytes.length) (hhdr : p0 + 240 ≤ c.bytes.length)
    (hlater : t.avi.totsize > t.avi.segsize → p0 + 240 ≤ ss ∧ ss + 24 ≤ c.bytes.length) :
    (WriteFrame t f env).1 = 1 ∧
    ∃ c' : Channel, (WriteFrame t f env).2.rchan = some c' ∧
      c'.bytes.length = c.bytes.length + (8 + (s + 3) / 4 * 4) + 24 ∧
      c'.pos = c.bytes.length + (8 + (s + 3) / 4 * 4) + 24 ∧
      (c'.bytes.drop c.bytes.length).take 8 = [48, 48, 100, 98] ++ le32 ((s + 3) / 4 * 4) ∧
      (s ≤ fr.data.length →
        (c'.bytes.drop c.bytes.length).take (8 + (s + 3) / 4 * 4) =
          [48, 48, 100, 98] ++ le32 ((s + 3) / 4 * 4) ++ fr.data.take s ++
            List.replicate ((s + 3) / 4 * 4 - s) 0) ∧
      c'.bytes.drop (c.bytes.length + (8 + (s + 3) / 4 * 4)) =
        [82, 73, 70, 70, 0, 0, 0, 0, 65, 86, 73, 88, 76, 73, 83, 84, 0, 0, 0, 0,
          109, 111, 118, 105] ∧
      (WriteFrame t f env).2.avi.segsize = 0 ∧
      (WriteFrame t f env).2.avi.segstart =
        ((c.bytes.length + (8 + (s + 3) / 4 * 4) : Nat) : Int) ∧
      (WriteFrame t f env).2.avi.nframes = ((n + 1 : Nat) : Int) ∧
      (¬ t.avi.totsize > t.avi.segsize →
        (c'.bytes.drop (p0 + 232)).take 4 = le32 (S + ((s + 3) / 4 * 4 + 8) + 4) ∧
        (c'.bytes.drop (p0 + 48)).take 4 = le32 (n + 1) ∧
        (c'.bytes.drop (p0 + 140)).take 4 = le32 (n + 1) ∧
        (WriteFrame t f env).2.avi.nframes0 = ((n + 1 : Nat) : Int) ∧
        (WriteFrame t f env).2.avi.segsize0 = ((S + ((s + 3) / 4 * 4 + 8) : Nat) : Int)) ∧
      (t.avi.totsize > t.avi.segsize →
        (c'.bytes.drop (ss + 4)).take 4 = le32 (S + ((s + 3) / 4 * 4 + 8) + 16) ∧
        (c'.bytes.drop (ss + 16)).take 4 = le32 (S + ((s + 3) / 4 * 4 + 8) + 4) ∧
        c'.bytes.take (p0 + 240) = c.bytes.take (p0 + 240) ∧
        (WriteFrame t f env).2.avi.nframes0 = t.avi.nframes0 ∧
        (WriteFrame t f env).2.avi.segsize0 = t.avi.segsize0) ∧
      (∀ fs : List (uvc_frame × FrameEnv), (∀ fe ∈ fs, frameOk fe.1 fe.2) →
        ∃ cN : Channel, (recordAll (WriteFrame t f env).2 fs).rchan = some cN ∧
          cN.bytes.take (p0 + 240) = c'.bytes.take (p0 + 240) ∧
          (recordAll (WriteFrame t f env).2 fs).avi.nframes0 =
            (WriteFrame t f env).2.avi.nframes0 ∧
          (recordAll (WriteFrame t f env).2 fs).avi.segsize0 =
            (WriteFrame t f env).2.avi.segsize0) := by
  obtain ⟨v1, v2, v3, v4⟩ := rotation_values S ((s + 3) / 4 * 4) n hbound hnb
  obtain ⟨q, P, A, c', e, w', s', hb, hpos, hq, a1, a2, a3, a4, a5, a6, a7⟩ :=
    WriteFrame_rotate t f fr env c s p0 ss hc hw hsk hr havi hdata hgate hsel hs3 hp hss
      (by rw [hS]; omega) hend hhdr (fun h => (hlater h).2)
  obtain ⟨k1, k2, k3, k4, k5⟩ := rotated_sink_parts c.bytes
    ([48, 48, 100, 98] ++ le32 ((s + 3) / 4 * 4) ++ List.takeD s fr.data 0 ++
      List.replicate ((s + 3) / 4 * 4 - s) 0) P xhdr0.image q hq
  have hX : ([48, 48, 100, 98] ++ le32 ((s + 3) / 4 * 4) ++ List.takeD s fr.data 0 ++
      List.replicate ((s + 3) / 4 * 4 - s) 0).length = 8 + (s + 3) / 4 * 4 := by
    simp only [List.length_append, List.length_cons, List.length_nil, le32_length,
      List.takeD_length, List.length_replicate]
    omega
  rw [← hb, hX] at k1 k2 k3
  rw [← hb] at k4 k5
  rw [AVIX_HDR_image_length] at k1
  rw [hS, hn] at a6
  rw [hS] at a7
  rw [hn] at a1
  have hlat : laterSegment (WriteFrame t f env).2 p0 (c'.bytes.take (p0 + 240)) A.nframes0
      A.segsize0 := by
    rw [e]
    refine ⟨c', c.bytes.length + (8 + (s + 3) / 4 * 4), rfl, w', s', hr, havi, a3, a5, ?_, ?_,
      ?_, ?_, rfl, rfl, rfl⟩
    · show A.totsize > A.segsize
      rw [a2, a4]
      omega
    · omega
    · omega
    · omega
  have kh : (c'.bytes.drop c.bytes.length).take 8 =
      [48, 48, 100, 98] ++ le32 ((s + 3) / 4 * 4) := by
    have h8 := congrArg (List.take 8) k3
    rw [List.take_take, Nat.min_eq_left (by omega), List.append_assoc] at h8
    rw [h8]
    exact List.take_left' (by rw [List.length_append, le32_length]; rfl)
  rw [e]
  refine ⟨rfl, c', rfl, k1, hpos, kh, fun hfit => ?_, k2.trans opener_bytes, a4, a5, ?_,
    fun h => ?_, fun h => ?_, fun fs hfs => ?_⟩
  · rw [← List.takeD_eq_take 0 hfit]
    exact k3
  · show A.nframes = _
    rw [a1]
    push_cast
    rfl
  · obtain ⟨b1, b2, b3, b4, b5, b6, b7⟩ := a6 (by rw [← hS]; exact h)
    rw [b2] at k4
    rw [b1] at k4
    refine ⟨?_, ?_, ?_, ?_, ?_⟩
    · rw [window_field _ _ _ 232 4 240 k4 (by omega), b3, v1]
    · rw [window_field _ _ _ 48 4 240 k4 (by omega), b4, v2]
    · rw [window_field _ _ _ 140 4 240 k4 (by omega), b5, v2]
    · show A.nframes0 = _
      rw [b6]
      push_cast
      rfl
    · show A.segsize0 = _
      rw [b7]
      push_cast
      rfl
  · obtain ⟨b1, b2, b3, b4, b5, b6⟩ := a7 (by rw [← hS]; exact h)
    rw [b2] at k4
    rw [b1] at k4 k5
    refine ⟨?_, ?_, k5 _ (hlater h).1, b5, b6⟩
    · rw [window_field _ _ _ 4 4 24 k4 (by omega), b3, v3]
    · rw [window_field _ _ _ 16 4 24 k4 (by omega), b4, v4]
  · rw [e] at hlat
    obtain ⟨cN, _, g1, _, _, _, _, _, _, _, _, _, _, g2, g3, g4⟩ :=
      laterSegment_all fs _ p0 _ _ _ hlat hfs
    exact ⟨cN, g1, g2, g3, g4⟩

/-- Witness of C18: the state whose first segment has reached the limit; the frame
delivered at 200 ms is written with a rotation. -/
theorem C18_segment_rotation_witness :
    (WriteFrame atSegmentLimit (sampleFrame 2 200000) (callbackAt 200000).wf).1 = 1 ∧
    ∃ c' : Channel,
      (WriteFrame atSegmentLimit (sampleFrame 2 200000) (callbackAt 200000).wf).2.rchan =
        some c' ∧
      c'.bytes.length =
        (afterFirstFrame.rchan.getD emptyChannel).bytes.length + (8 + (4 + 3) / 4 * 4) + 24 ∧
      c'.pos =
        (afterFirstFrame.rchan.getD emptyChannel).bytes.length + (8 + (4 + 3) / 4 * 4) + 24 ∧
      (c'.bytes.drop (afterFirstFrame.rchan.getD emptyChannel).bytes.length).take 8 =
        [48, 48, 100, 98] ++ le32 ((4 + 3) / 4 * 4) ∧
      (4 ≤ (sampleFrame 2 200000).data.length →
        (c'.bytes.drop (afterFirstFrame.rchan.getD emptyChannel).bytes.length).take
            (8 + (4 + 3) / 4 * 4) =
          [48, 48, 100, 98] ++ le32 ((4 + 3) / 4 * 4) ++
            (sampleFrame 2 200000).data.take 4 ++
            List.replicate ((4 + 3) / 4 * 4 - 4) 0) ∧
      c'.bytes.drop
          ((afterFirstFrame.rchan.getD emptyChannel).bytes.length + (8 + (4 + 3) / 4 * 4)) =
        [82, 73, 70, 70, 0, 0, 0, 0, 65, 86, 73, 88, 76, 73, 83, 84, 0, 0, 0, 0,
          109, 111, 118, 105] ∧
      (WriteFrame atSegmentLimit (sampleFrame 2 200000) (callbackAt 200000).wf).2.avi.segsize =
        0 ∧
      (WriteFrame atSegmentLimit (sampleFrame 2 200000) (callbackAt 200000).wf).2.avi.segstart =
        (((afterFirstFrame.rchan.getD emptyChannel).bytes.length + (8 + (4 + 3) / 4 * 4) : Nat) :
          Int) ∧
      (WriteFrame atSegmentLimit (sampleFrame 2 200000) (callbackAt 200000).wf).2.avi.nframes =
        ((1 + 1 : Nat) : Int) ∧
      (¬ atSegmentLimit.avi.totsize > atSegmentLimit.avi.segsize →
        (c'.bytes.drop (0 + 232)).take 4 = le32 (0x7F000000 + ((4 + 3) / 4 * 4 + 8) + 4) ∧
        (c'.bytes.drop (0 + 48)).take 4 = le32 (1 + 1) ∧
        (c'.bytes.drop (0 + 140)).take 4 = le32 (1 + 1) ∧
        (WriteFrame atSegmentLimit (sampleFrame 2 200000)
          (callbackAt 200000).wf).2.avi.nframes0 = ((1 + 1 : Nat) : Int) ∧
        (WriteFrame atSegmentLimit (sampleFrame 2 200000)
          (callbackAt 200000).wf).2.avi.segsize0 =
            ((0x7F000000 + ((4 + 3) / 4 * 4 + 8) : Nat) : Int)) ∧
      (atSegmentLimit.avi.totsize > atSegmentLimit.avi.segsize →
        (c'.bytes.drop (0 + 4)).take 4 = le32 (0x7F000000 + ((4 + 3) / 4 * 4 + 8) + 16) ∧
        (c'.bytes.drop (0 + 16)).take 4 = le32 (0x7F000000 + ((4 + 3) / 4 * 4 + 8) + 4) ∧
        c'.bytes.take (0 + 240) = (afterFirstFrame.rchan.getD emptyChannel).bytes.take (0 + 240) ∧
        (WriteFrame atSegmentLimit (sampleFrame 2 200000)
          (callbackAt 200000).wf).2.avi.nframes0 = atSegmentLimit.avi.nframes0 ∧
        (WriteFrame atSegmentLimit (sampleFrame 2 200000)
          (callbackAt 200000).wf).2.avi.segsize0 = atSegmentLimit.avi.segsize0) ∧
      (∀ fs : List (uvc_frame × FrameEnv), (∀ fe ∈ fs, frameOk fe.1 fe.2) →
        ∃ cN : Channel,
          (recordAll (WriteFrame atSegmentLimit (sampleFrame 2 200000)
            (callbackAt 200000).wf).2 fs).rchan = some cN ∧
          cN.bytes.take (0 + 240) = c'.bytes.take (0 + 240) ∧
          (recordAll (WriteFrame atSegmentLimit (sampleFrame 2 200000)
            (callbackAt 200000).wf).2 fs).avi.nframes0 =
            (WriteFrame atSegmentLimit (sampleFrame 2 200000)
              (callbackAt 200000).wf).2.avi.nframes0 ∧
          (recordAll (WriteFrame atSegmentLimit (sampleFrame 2 200000)
            (callbackAt 200000).wf).2 fs).avi.segsize0 =
            (WriteFrame atSegmentLimit (sampleFrame 2 200000)
              (callbackAt 200000).wf).2.avi.segsize0) :=
  C18_segment_rotation atSegmentLimit (sampleFrame 2 200000) (sampleFrame 2 200000)
    (callbackAt 200000).wf (afterFirstFrame.rchan.getD emptyChannel) 4 0 0 0x7F000000 1
    (by decide) (by decide) (by decide) (by decide) (by decide) (by decide) (by decide)
    (by decide) (by decide) (by decide) (by decide) (by decide) (by decide) (by decide)
    (by decide) (by decide) (by decide) (by decide) (by decide) (by decide)

/-! ## The parts of a multipart stream -/

theorem WriteFrame_boundary_open (t : TUVC) (f : uvc_frame) (env : FrameEnv)
    (hc : t.rchan.isSome = true) (hr : t.rstate ≠ REC_ERROR) (hb : t.rbdStr ≠ [])
    (hdata : f.data_bytes ≠ 0)
    (hgate : tvPositive (tvDiff t.rtv (effectiveNow f env)) = false) :
    WriteFrame t f env =
      writeBoundaryFrame { t with rtv := tvAdvance (effectiveNow f env) t.rrate,
                                  ltv := effectiveNow f env } f env := by
  have h0 : noChannelCheck t = t := by
    unfold noChannelCheck
    cases hcc : t.rchan with
    | none => rw [hcc] at hc; exact absurd hc (by decide)
    | some c => simp
  have hl : t.rbdStr.length > 0 := List.length_pos.mpr hb
  unfold WriteFrame
  rw [h0]
  dsimp only
  rw [hgate, if_neg (by decide), if_neg hdata, if_neg hr, if_pos hl]

theorem partHeader_text (b : List Nat) (f : uvc_frame) (hn : f.data_bytes < 2147483648) :
    partHeader b f = partText b f.data_bytes := by
  have h1 : toInt32 (f.data_bytes : Int) = (f.data_bytes : Int) := by
    unfold toInt32
    omega
  unfold partHeader partText fmt_d
  rw [h1, if_neg (by omega), Int.toNat_ofNat]

theorem writeResult_short (t : TUVC) (w n : Int) (h : w ≠ n) :
    (writeResult t n w).1 = -1 ∧ (writeResult t n w).2.rstate = REC_ERROR := by
  unfold writeResult
  dsimp only
  rw [if_pos h]
  exact ⟨rfl, rfl⟩

theorem writeResult_fields (t : TUVC) (w n : Int) :
    (writeResult t n w).2.rbdStr = t.rbdStr ∧ (writeResult t n w).2.avi = t.avi ∧
    (writeResult t n w).2.rchan = t.rchan := by
  unfold writeResult
  dsimp only
  split <;> exact ⟨rfl, rfl, rfl⟩

/-- C19. A session in boundary mode (a boundary string is configured) with a
sink and a state other than `REC_ERROR` gets an MJPEG frame with `n > 0`
payload bytes (`n < 2^31`) that passes the timing gate. The boundary string
and the AVI writer state (counters and index) are the same after the call as
before. On a sink that accepts every write the result is 1 and the sink got,
at its position, the boundary string, the text
CR LF `Content-type: image/jpeg` CR LF `Content-length: n` CR LF CR LF and the
`n` payload bytes, nothing else. When the sink accepts the part header only
in part, or the header completely and the payload only in part, the result
is -1 and the state is `REC_ERROR`. -/
theorem C19_multipart_part (t : TUVC) (f : uvc_frame) (env : FrameEnv) (c : Channel)
    (hc : t.rchan = some c) (hr : t.rstate ≠ REC_ERROR) (hb : t.rbdStr ≠ [])
    (hm : f.frame_format = UVC_FRAME_FORMAT_MJPEG) (hdata : f.data_bytes ≠ 0)
    (hn : f.data_bytes < 2147483648)
    (hgate : tvPositive (tvDiff t.rtv (effectiveNow f env)) = false) :
    (WriteFrame t f env).2.rbdStr = t.rbdStr ∧ (WriteFrame t f env).2.avi = t.avi ∧
    (c.wscript = [] →
      (WriteFrame t f env).1 = 1 ∧ (WriteFrame t f env).2.rstate = t.rstate ∧
      (WriteFrame t f env).2.rchan = some { c with
        bytes := storeAt c.bytes c.pos (partText t.rbdStr f.data_bytes ++ f.data),
        pos := c.pos + ((partText t.rbdStr f.data_bytes).length + f.data_bytes) }) ∧
    ((writeTo (some c) (partText t.rbdStr f.data_bytes)
        (partText t.rbdStr f.data_bytes).length).1 ≠
          ((partText t.rbdStr f.data_bytes).length : Int) →
      (WriteFrame t f env).1 = -1 ∧ (WriteFrame t f env).2.rstate = REC_ERROR) ∧
    ((writeTo (some c) (partText t.rbdStr f.data_bytes)
        (partText t.rbdStr f.data_bytes).length).1 =
          ((partText t.rbdStr f.data_bytes).length : Int) →
      (writeTo (writeTo (some c) (partText t.rbdStr f.data_bytes)
        (partText t.rbdStr f.data_bytes).length).2 f.data f.data_bytes).1 ≠
          (f.data_bytes : Int) →
      (WriteFrame t f env).1 = -1 ∧ (WriteFrame t f env).2.rstate = REC_ERROR) := by
  have hopen := WriteFrame_boundary_open t f env (by rw [hc]; rfl) hr hb hdata hgate
  have hsel : boundaryFrame f env = some f := by
    unfold boundaryFrame
    rw [if_neg (by simp [hm])]
  have hpt := partHeader_text t.rbdStr f hn
  rw [hopen]
  unfold writeBoundaryFrame
  rw [hsel]
  dsimp only [chanWrite]
  rw [hpt, hc]
  by_cases h1 : (writeTo (some c) (partText t.rbdStr f.data_bytes)
      (partText t.rbdStr f.data_bytes).length).1 = ((partText t.rbdStr f.data_bytes).length : Int)
  · rw [if_pos h1]
    obtain ⟨q1, q2, q3⟩ := writeResult_fields
      { t with rtv := tvAdvance (effectiveNow f env) t.rrate, ltv := effectiveNow f env,
               rchan := (writeTo (writeTo (some c) (partText t.rbdStr f.data_bytes)
                 (partText t.rbdStr f.data_bytes).length).2 f.data f.data_bytes).2 }
      (writeTo (writeTo (some c) (partText t.rbdStr f.data_bytes)
        (partText t.rbdStr f.data_bytes).length).2 f.data f.data_bytes).1 (f.data_bytes : Int)
    refine ⟨q1, q2, fun hw => ?_, fun h => absurd h1 h, fun _ h2 => writeResult_short _ _ _ h2⟩
    have e1 := writeTo_put_all c (partText t.rbdStr f.data_bytes) _ hw rfl
    have e2 := writeTo_put_all (c.put (partText t.rbdStr f.data_bytes)) f.data f.data_bytes hw rfl
    rw [e1]
    dsimp only
    rw [e2]
    dsimp only
    rw [writeResult_same]
    · refine ⟨rfl, rfl, ?_⟩
      dsimp only
      rw [put_put]
      unfold Channel.put
      rw [List.length_append]
      rfl
    · exact hr
  · rw [if_neg h1]
    obtain ⟨q1, q2, q3⟩ := writeResult_fields
      { t with rtv := tvAdvance (effectiveNow f env) t.rrate, ltv := effectiveNow f env,
               rchan := (writeTo (some c) (partText t.rbdStr f.data_bytes)
                 (partText t.rbdStr f.data_bytes).length).2 }
      (writeTo (some c) (partText t.rbdStr f.data_bytes)
        (partText t.rbdStr f.data_bytes).length).1 ((partText t.rbdStr f.data_bytes).length : Int)
    refine ⟨q1, q2, fun hw => ?_, fun _ => writeResult_short _ _ _ h1, fun h => absurd h h1⟩
    have e1 := writeTo_put_all c (partText t.rbdStr f.data_bytes) _ hw rfl
    rw [e1] at h1
    exact absurd rfl h1

/-- Witness of C19: a stream with the boundary string `--frame`; the MJPEG frame
delivered at 100 ms is written as one part of 60 bytes. -/
theorem C19_multipart_part_witness :
    (WriteFrame streamingRunning (jpegFrame 100000) (callbackAt 100000).wf).2.rbdStr =
      ascii "--frame" ∧
    (WriteFrame streamingRunning (jpegFrame 100000) (callbackAt 100000).wf).2.avi =
      streamingRunning.avi ∧
    (WriteFrame streamingRunning (jpegFrame 100000) (callbackAt 100000).wf).1 = 1 ∧
    (WriteFrame streamingRunning (jpegFrame 100000) (callbackAt 100000).wf).2.rchan =
      some { emptyChannel with
        bytes := storeAt [] 0 (partText (ascii "--frame") 4 ++ [255, 216, 255, 217]),
        pos := 0 + ((partText (ascii "--frame") 4).length + 4) } :=
  ⟨(C19_multipart_part streamingRunning (jpegFrame 100000) (callbackAt 100000).wf emptyChannel
      (by decide) (by decide) (by decide) (by decide) (by decide) (by decide) (by decide)).1,
    (C19_multipart_part streamingRunning (jpegFrame 100000) (callbackAt 100000).wf emptyChannel
      (by decide) (by decide) (by decide) (by decide) (by decide) (by decide) (by decide)).2.1,
    ((C19_multipart_part streamingRunning (jpegFrame 100000) (callbackAt 100000).wf emptyChannel
      (by decide) (by decide) (by decide) (by decide) (by decide) (by decide)
      (by decide)).2.2.1 rfl).1,
    ((C19_multipart_part streamingRunning (jpegFrame 100000) (callbackAt 100000).wf emptyChannel
      (by decide) (by decide) (by decide) (by decide) (by decide) (by decide)
      (by decide)).2.2.1 rfl).2.2⟩

/-! ## The recording interval -/

theorem beginRecording_rrate (t : TUVC) (ufmt : UFMT) (args : StartArgs) (chan : Channel)
    (pos0 : Int) (now : timeval) :
    (beginRecording t ufmt args chan pos0 now).rrate =
      reserve500 (recordingInterval t.fps args.rateNum args.rateDen) := by
  unfold beginRecording
  obtain ⟨x, z, c, heq, hs⟩ := FinishRecording_spec t
  rw [heq]
  dsimp only
  rw [startTarget_eq]
  split
  · rfl
  · obtain ⟨x2, y2, z2, heq2, hc2, hs2⟩ := setupAVI_ioStep
      { running := t.running, frame := t.frame, tid := t.tid, evq := t.evq, numev := t.numev,
        idle := t.idle, idleCall := t.idleCall, width := t.width, height := t.height,
        conv := t.conv, fps := t.fps, usefmt := t.usefmt, iscomp := t.iscomp,
        greyshift := t.greyshift, fmts := t.fmts, counters0 := t.counters0,
        counters1 := t.counters1, counters2 := t.counters2, rstate := z, ruser := t.ruser,
        rchan := some chan, rbdStr := [],
        rrate := recordingInterval t.fps args.rateNum args.rateDen, rtv := t.rtv,
        ltv := t.ltv, avi := x, closed := c } ufmt args.doMJPG pos0
    rw [heq2]

/-- Every successful `StartRecording` leaves the interval computed from the
requested rate and the capture rate, less the 500 us reserve, in `rrate`. -/
theorem StartRecording_rrate (t : TUVC) (args : StartArgs) (now : timeval) (t' : TUVC)
    (h : StartRecording t args now = (TCL_OK, t')) :
    t'.rrate = reserve500 (recordingInterval t.fps args.rateNum args.rateDen) := by
  have hne : ∀ u : TUVC, ((TCL_ERROR, u) : Int × TUVC) ≠ (TCL_OK, t') := by
    intro u hu
    injection hu with h1 _
    exact absurd h1 (by decide)
  unfold StartRecording at h
  split at h
  · exact absurd h (hne _)
  · split at h
    · exact absurd h (hne _)
    · split at h
      · exact absurd h (hne _)
      · split at h
        · exact absurd h (hne _)
        · split at h
          · exact absurd h (hne _)
          · split at h
            · split at h
              · exact absurd h (hne _)
              · split at h
                · exact absurd h (hne _)
                · injection h with _ h2
                  rw [← h2]
                  exact beginRecording_rrate _ _ _ _ _ _
            · split at h
              · exact absurd h (hne _)
              · injection h with _ h2
                rw [← h2]
                exact beginRecording_rrate _ _ _ _ _ _

theorem reserve500_micros (tv : timeval) : micros (reserve500 tv) = micros tv - 500 := by
  unfold reserve500 micros
  dsimp only
  split
  · dsimp only
    omega
  · dsimp only
    omega

theorem log2Fuel_spec : ∀ (fuel n : Nat), n ≤ fuel → 0 < n →
    2 ^ log2Fuel fuel n ≤ n ∧ n < 2 ^ (log2Fuel fuel n + 1) := by
  intro fuel
  induction fuel with
  | zero => intro n h1 h2; omega
  | succ k ih =>
    intro n h1 h2
    unfold log2Fuel
    split
    · constructor
      · simpa using h2
      · simpa using (by omega : n < 2)
    · obtain ⟨a, b⟩ := ih (n / 2) (by omega) (by omega)
      rw [pow_succ, pow_succ]
      rw [pow_succ] at b
      constructor <;> omega

theorem roundHalfEven_bounds (a b : Nat) :
    a / b ≤ roundHalfEven a b ∧ roundHalfEven a b ≤ a / b + 1 ∧
    (roundHalfEven a b = a / b + 1 → b ≤ 2 * (a % b)) := by
  unfold roundHalfEven
  split_ifs <;> refine ⟨?_, ?_, ?_⟩ <;> omega

theorem scaled_div (p q K : Nat) (hK : 0 < K) : p * K / q / K = p / q := by
  rw [Nat.div_div_eq_div_mul, Nat.mul_div_mul_right _ _ hK]

/-- The truncated `double` quotient is the floor of the exact quotient or one
more. -/
theorem doubleQuotTrunc_bounds (p q : Nat) (hq : 0 < q) (hn : p / q < 2 ^ 53) :
    p / q ≤ doubleQuotTrunc p q ∧ doubleQuotTrunc p q ≤ p / q + 1 := by
  unfold doubleQuotTrunc
  split
  · rename_i hlt
    rw [Nat.div_eq_of_lt hlt]
    split <;> omega
  · rename_i hge
    have hn1 : 0 < p / q := Nat.div_pos (by omega) hq
    obtain ⟨l1, l2⟩ := log2Fuel_spec (p / q) (p / q) (le_refl _) hn1
    have he : log2Fuel (p / q) (p / q) ≤ 52 := by
      have : 2 ^ log2Fuel (p / q) (p / q) < 2 ^ 53 := lt_of_le_of_lt l1 hn
      have := (Nat.pow_lt_pow_iff_right (by decide : 1 < 2)).mp this
      omega
    dsimp only
    rw [if_pos he]
    generalize log2Fuel (p / q) (p / q) = e at *
    have hK : 0 < 2 ^ (52 - e) := Nat.pow_pos (by decide)
    generalize 2 ^ (52 - e) = K at *
    obtain ⟨r1, r2, _⟩ := roundHalfEven_bounds (p * K) q
    have hf := scaled_div p q K hK
    constructor
    · rw [← hf]
      exact Nat.div_le_div_right r1
    · have h1 : roundHalfEven (p * K) q / K ≤ (p * K / q + 1) / K := Nat.div_le_div_right r2
      have h2 : (p * K / q + 1) / K ≤ (p * K / q + K) / K := Nat.div_le_div_right (by omega)
      have h3 : (p * K / q + K) / K = p * K / q / K + 1 := Nat.add_div_right _ hK
      rw [hf] at h3
      omega

/-- For a dividend below 2^53 the truncated `double` quotient is the floor of
the exact quotient: the quotient is too far from the next integer to be rounded
up to it. -/
theorem doubleQuotTrunc_exact (p q : Nat) (hq : 0 < q) (hp : p < 2 ^ 53) :
    doubleQuotTrunc p q = p / q := by
  have hn : p / q < 2 ^ 53 := lt_of_le_of_lt (Nat.div_le_self p q) hp
  obtain ⟨b1, b2⟩ := doubleQuotTrunc_bounds p q hq hn
  by_contra hne
  have hup : doubleQuotTrunc p q = p / q + 1 := by omega
  unfold doubleQuotTrunc at hup
  split at hup
  · rename_i hlt
    rw [Nat.div_eq_of_lt hlt] at hup
    split at hup
    · rename_i hc
      omega
    · omega
  · rename_i hge
    have hn1 : 0 < p / q := Nat.div_pos (by omega) hq
    obtain ⟨l1, l2⟩ := log2Fuel_spec (p / q) (p / q) (le_refl _) hn1
    have he : log2Fuel (p / q) (p / q) ≤ 52 := by
      have : 2 ^ log2Fuel (p / q) (p / q) < 2 ^ 53 := lt_of_le_of_lt l1 hn
      have := (Nat.pow_lt_pow_iff_right (by decide : 1 < 2)).mp this
      omega
    dsimp only at hup
    rw [if_pos he] at hup
    have hpow : 2 ^ log2Fuel (p / q) (p / q) * 2 ^ (52 - log2Fuel (p / q) (p / q)) = 2 ^ 52 := by
      rw [← pow_add]
      congr 1
      omega
    generalize log2Fuel (p / q) (p / q) = e at *
    have hK : 0 < 2 ^ (52 - e) := Nat.pow_pos (by decide)
    generalize 2 ^ (52 - e) = K at *
    have hE : 0 < 2 ^ e := Nat.pow_pos (by decide)
    generalize 2 ^ e = E at *
    obtain ⟨r1, r2, r3⟩ := roundHalfEven_bounds (p * K) q
    have hf := scaled_div p q K hK
    have hfl : p * K / q < (p / q + 1) * K := by
      have := Nat.lt_succ_iff.mpr (le_of_eq hf)
      exact (Nat.div_lt_iff_lt_mul hK).mp this
    have hN : (p / q + 1) * K ≤ roundHalfEven (p * K) q :=
      (Nat.le_div_iff_mul_le hK).mp (le_of_eq hup.symm)
    have hNf : roundHalfEven (p * K) q = p * K / q + 1 := by omega
    have hfe : p * K / q + 1 = (p / q + 1) * K := by omega
    have hr := r3 hNf
    have hdm := Nat.div_add_mod (p * K) q
    have hps : p + 1 ≤ q * (p / q + 1) := Nat.lt_mul_div_succ p hq
    have hpK : (p + 1) * K ≤ q * (p / q + 1) * K := Nat.mul_le_mul_right K hps
    have hY : q * (p * K / q) + q = q * (p / q + 1) * K := by
      rw [Nat.mul_assoc, ← hfe, Nat.mul_add, Nat.mul_one]
    have hqe : q * E ≤ p := le_trans (Nat.mul_le_mul_left q l1) (Nat.mul_div_le p q)
    have hpk : (p + 1) * K = p * K + K := by ring
    rw [hpk] at hpK
    have h2K : 2 * K ≤ q := by
      generalize q * (p / q + 1) * K = Y at *
      generalize q * (p * K / q) = Z at *
      generalize p * K % q = R at *
      generalize p * K = A at *
      omega
    have hlt : q * E < 2 * K * E := by
      have : 2 * K * E = 2 ^ 53 := by
        rw [Nat.mul_assoc, Nat.mul_comm K E, hpow]
        rfl
      omega
    have := Nat.lt_of_mul_lt_mul_right hlt
    omega

/-- A quotient of at most `1 / (1 + 2^-52)`, the inverse of the least `double`
above 1, converts to 0. -/
theorem doubleQuotTrunc_zero (p q : Nat) (hq : 0 < q) (h : p * (2 ^ 52 + 1) ≤ q * 2 ^ 52) :
    doubleQuotTrunc p q = 0 := by
  unfold doubleQuotTrunc
  rw [if_pos (by omega), if_neg (by omega)]

/-- The interval for a target rate above one frame per second is the frame
period in microseconds. For a requested rate `R = rateNum / rateDen` with
`1 + 2^-52 ≤ R < fps` (the least `double` above 1 is `1 + 2^-52`) it is the
`double` quotient `1000000.0 / R` without its fraction; when the capture rate
`fps > 1` is the target it is `floor(1000000 / fps)`. -/
theorem recordingInterval_micros (fps : Int) (rateNum rateDen P : Nat)
    (hP : (0 < rateNum ∧ 0 < rateDen ∧ (rateNum : Int) < fps * rateDen ∧
            rateDen * (2 ^ 52 + 1) ≤ rateNum * 2 ^ 52 ∧
            P = doubleQuotTrunc (1000000 * rateDen) rateNum) ∨
          (¬ (0 < rateNum ∧ 0 < rateDen ∧ (rateNum : Int) < fps * rateDen) ∧ 1 < fps ∧
            (P : Int) = 1000000 / fps)) :
    micros (recordingInterval fps rateNum rateDen) = (P : Int) ∧ P ≤ 1000000 := by
  unfold recordingInterval micros
  rcases hP with ⟨h1, h2, h3, h4, h5⟩ | ⟨h1, h2, h3⟩
  · rw [if_pos ⟨h1, h2, h3⟩]
    dsimp only
    have hz : doubleQuotTrunc rateDen rateNum = 0 := doubleQuotTrunc_zero _ _ h1 h4
    have hlt : 1000000 * rateDen / rateNum < 1000000 := by
      rw [Nat.div_lt_iff_lt_mul h1]
      omega
    obtain ⟨_, b2⟩ := doubleQuotTrunc_bounds (1000000 * rateDen) rateNum h1
      (lt_trans hlt (by decide))
    rw [hz, ← h5]
    constructor
    · simp
    · omega
  · rw [if_neg h1, if_neg (by omega)]
    dsimp only
    have e1 : Int.tdiv 1 fps = 0 := by
      rw [Int.tdiv_eq_ediv (by decide) (by omega)]
      exact Int.ediv_eq_zero_of_lt (by decide) h2
    have e2 : Int.tdiv 1000000 fps = 1000000 / fps :=
      Int.tdiv_eq_ediv (by decide) (by omega)
    have hlt : (1000000 : Int) / fps < 1000000 := by
      apply Int.ediv_lt_of_lt_mul (by omega)
      nlinarith
    rw [e1, e2, ← h3]
    constructor
    · simp
    · omega

theorem period_value (P : Nat) (h : P ≤ 1000000) : PUT32LE (toInt32 (P : Int)) = P := by
  unfold PUT32LE toInt32
  omega

theorem chanWrite_avi (t : TUVC) (b : List Nat) (n : Int) : (chanWrite t b n).2.avi = t.avi :=
  rfl

theorem chanSeek_avi (t : TUVC) (o : Int) (m : SeekMode) : (chanSeek t o m).2.avi = t.avi :=
  rfl

theorem rewriteHeader_avi (t : TUVC) : (rewriteHeader t).avi = t.avi := by
  unfold rewriteHeader
  dsimp only
  split
  · dsimp only
    simp only [chanSeek_avi, chanWrite_avi]
  · simp only [chanSeek_avi, chanWrite_avi]

theorem WriteAVIHeader_false_avi (t : TUVC) :
    (WriteAVIHeader t false).avi = patchedAvi t (PUT32LE 0) 0 := by
  unfold WriteAVIHeader
  dsimp only
  rw [patch_false, if_neg (by simp), rewriteHeader_avi]

/-- The microseconds-per-frame field after the block "Setup AVI writer": for
the handler `MJPG` the average frame interval of the writer state, else the
interval in `rrate`. -/
theorem setupAVI_uspf (t : TUVC) (ufmt : UFMT) (doMJPG : Nat) (pos0 : Int) :
    (setupAVI t ufmt doMJPG pos0).avi.avi_hdr.avih.uspf =
      (if decide (fourcc (if (ufmt.iscomp || decide (doMJPG ≠ 0)) = true then ascii "MJPG"
            else fourcc ufmt.fourcc) = ascii "MJPG") = true then
        PUT32LE (toInt32 (t.avi.rate.tv_sec * 1000000 + t.avi.rate.tv_usec))
       else PUT32LE (toInt32 (t.rrate.tv_sec * 1000000 + t.rrate.tv_usec))) := by
  rw [setupAVI_steps]
  show (WriteAVIHeader _ false).avi.avi_hdr.avih.uspf = _
  rw [WriteAVIHeader_false_avi]
  unfold patchedAvi
  rw [updateHeaderFields_uspf]
  rfl

/-! ## The governor interval -/

theorem fourcc_fourcc (l : List Nat) : fourcc (fourcc l) = fourcc l := by
  unfold fourcc
  rw [List.takeD_eq_take 0 (by rw [List.takeD_length]), List.take_of_length_le
    (by rw [List.takeD_length])]

theorem setupAVI_eq_uspf (t : TUVC) (ufmt : UFMT) (doMJPG : Nat) (c : Channel)
    (hc : t.rchan = some c) (hw : c.wscript = []) (hs : c.sscript = []) :
    ∃ A : AVI, setupAVI t ufmt doMJPG (c.pos : Int) =
      { t with avi := A,
               rchan := some { c with bytes := storeAt c.bytes c.pos (headerBlock A),
                                      pos := c.pos + 240 } } ∧
      A.avi_hdr.avih.uspf =
        (if decide (fourcc (if (ufmt.iscomp || decide (doMJPG ≠ 0)) = true then ascii "MJPG"
              else fourcc ufmt.fourcc) = ascii "MJPG") = true then
          PUT32LE (toInt32 (t.avi.rate.tv_sec * 1000000 + t.avi.rate.tv_usec))
         else PUT32LE (toInt32 (t.rrate.tv_sec * 1000000 + t.rrate.tv_usec))) := by
  obtain ⟨g1, g2, _⟩ := setupAVI_good t ufmt doMJPG c hc hw hs
  have g3 := setupAVI_uspf t ufmt doMJPG (c.pos : Int)
  obtain ⟨x, y, z, heq, _, _⟩ := setupAVI_ioStep t ufmt doMJPG (c.pos : Int)
  generalize setupAVI t ufmt doMJPG (c.pos : Int) = U at *
  subst heq
  dsimp only at g1 g2 g3
  subst g1 g2
  exact ⟨x, rfl, g3⟩

/-- The header block a `record start` for an AVI file leaves in a sink on which
every call succeeds, with its microseconds-per-frame field. -/
theorem StartRecording_avi_header (s : TUVC) (args : StartArgs) (c0 : Channel) (now : timeval)
    (ufmt : UFMT) (h : newAviSession s args c0) (hu : findFmt s.fmts s.usefmt = some ufmt) :
    ∃ A : AVI,
      (StartRecording s args now).2.rchan =
        some { c0 with bytes := storeAt c0.bytes c0.pos (headerBlock A), pos := c0.pos + 240 } ∧
      A.avi_hdr.avih.uspf =
        (if decide (fourcc (if (ufmt.iscomp || decide (args.doMJPG ≠ 0)) = true then
              ascii "MJPG" else fourcc ufmt.fourcc) = ascii "MJPG") = true then
          PUT32LE (toInt32 (s.avi.rate.tv_sec * 1000000 + s.avi.rate.tv_usec))
         else PUT32LE (toInt32
          (micros (recordingInterval s.fps args.rateNum args.rateDen)))) := by
  obtain ⟨h1, h2, h3, h4, h5, h6, h7, h8, h9, h10, h11⟩ := h
  obtain ⟨A, e, k1⟩ := setupAVI_eq_uspf
    { s with rbdStr := [], rchan := some c0,
             rrate := recordingInterval s.fps args.rateNum args.rateDen }
    ufmt args.doMJPG c0 rfl h8 h9
  refine ⟨A, ?_, k1⟩
  unfold StartRecording
  rw [h1, hu, h3]
  dsimp only
  rw [h4, h5, h6, Tcl_Seek_cur c0 h9]
  dsimp only
  rw [if_neg (by decide), if_neg (by decide), if_neg (by decide), if_pos h7,
    if_neg (by omega), if_neg (by decide)]
  unfold beginRecording
  rw [FinishRecording_idle s h10]
  dsimp only
  rw [if_neg (by omega), e, startTarget_eq]

/-- C20 (amended). `record start` succeeds with a target rate above one frame
per second: the requested rate `R = rateNum / rateDen` when `1 < R < fps`
(as `double`, so `1 + 2^-52 ≤ R`), or the capture rate `fps > 1` when `R` is
not positive or not below `fps`. `P` is the frame period in microseconds as the
code computes it: `floor(1000000 / fps)` for the capture rate, and for a
requested rate the `double` quotient `1000000.0 / R` without its fraction. Then
the governor interval `rrate` is `P - 500` microseconds. For an AVI file on a
sink on which every call succeeds the microseconds-per-frame field of the
header (offset 32 from the header origin) holds `P` when the stream handler
is not `MJPG` (uncompressed format, no `-mjpeg`), and the average frame
interval of the writer, 0 after the start, when the handler is `MJPG`. For a
requested rate, `P` is `floor(1000000 / R)` or one more, and it is
`floor(1000000 / R)` whenever `1000000 * rateDen < 2^53`, which holds for
every whole-number rate. -/
theorem C20_governor_interval (s : TUVC) (args : StartArgs) (now : timeval) (t' : TUVC)
    (P : Nat) (h : StartRecording s args now = (TCL_OK, t'))
    (hP : (0 < args.rateNum ∧ 0 < args.rateDen ∧
            (args.rateNum : Int) < s.fps * args.rateDen ∧
            args.rateDen * (2 ^ 52 + 1) ≤ args.rateNum * 2 ^ 52 ∧
            P = doubleQuotTrunc (1000000 * args.rateDen) args.rateNum) ∨
          (¬ (0 < args.rateNum ∧ 0 < args.rateDen ∧
              (args.rateNum : Int) < s.fps * args.rateDen) ∧ 1 < s.fps ∧
            (P : Int) = 1000000 / s.fps)) :
    micros t'.rrate = (P : Int) - 500 ∧
    (∀ (c0 : Channel) (ufmt : UFMT), newAviSession s args c0 →
      findFmt s.fmts s.usefmt = some ufmt →
      ∃ c' : Channel, t'.rchan = some c' ∧
        (ufmt.iscomp = false → args.doMJPG = 0 → fourcc ufmt.fourcc ≠ ascii "MJPG" →
          (c'.bytes.drop (c0.pos + 32)).take 4 = le32 P) ∧
        (ufmt.iscomp = true ∨ args.doMJPG ≠ 0 →
          (c'.bytes.drop (c0.pos + 32)).take 4 = le32 0)) ∧
    (0 < args.rateNum → 0 < args.rateDen → (args.rateNum : Int) < s.fps * args.rateDen →
      1000000 * args.rateDen / args.rateNum ≤ P ∧
      P ≤ 1000000 * args.rateDen / args.rateNum + 1 ∧
      (1000000 * args.rateDen < 2 ^ 53 → P = 1000000 * args.rateDen / args.rateNum)) := by
  obtain ⟨m1, m2⟩ := recordingInterval_micros s.fps args.rateNum args.rateDen P hP
  have hr := StartRecording_rrate s args now t' h
  have ht : t' = (StartRecording s args now).2 := by rw [h]
  refine ⟨?_, fun c0 ufmt hs hu => ?_, fun r1 r2 r3 => ?_⟩
  · rw [hr, reserve500_micros, m1]
  · obtain ⟨A, e, k⟩ := StartRecording_avi_header s args c0 now ufmt hs hu
    obtain ⟨f1, f2, f3, f4, f5, f6, f7⟩ := headerBlock_fields A
    have hwin : ((storeAt c0.bytes c0.pos (headerBlock A)).drop c0.pos).take 240 =
        headerBlock A := by
      have := storeAt_window c0.bytes c0.pos (headerBlock A)
      rw [headerBlock_length] at this
      exact this
    rw [ht, e]
    refine ⟨_, rfl, fun h1 h2 h3 => ?_, fun h1 => ?_⟩
    · dsimp only
      rw [window_field _ _ _ 32 4 240 hwin (by omega), f2, k, h1, h2]
      have hc : (if (false || decide (0 ≠ 0)) = true then ascii "MJPG"
          else fourcc ufmt.fourcc) = fourcc ufmt.fourcc := rfl
      rw [hc, fourcc_fourcc, if_neg (by simpa using h3), m1, period_value P m2]
    · dsimp only
      have hc : (if (ufmt.iscomp || decide (args.doMJPG ≠ 0)) = true then ascii "MJPG"
          else fourcc ufmt.fourcc) = ascii "MJPG" := by
        rw [if_pos]
        rcases h1 with h1 | h1
        · rw [h1]; rfl
        · simp [h1]
      have hz : s.avi.rate.tv_sec * 1000000 + s.avi.rate.tv_usec = 0 := by
        rw [hs.2.2.2.2.2.2.2.2.2.2]
        rfl
      rw [window_field _ _ _ 32 4 240 hwin (by omega), f2, k, hc, if_pos (by decide), hz]
      rfl
  · rcases hP with ⟨_, _, _, h4, h5⟩ | ⟨hn, _, _⟩
    · have hlt : 1000000 * args.rateDen / args.rateNum < 1000000 := by
        rw [Nat.div_lt_iff_lt_mul r1]
        omega
      obtain ⟨b1, b2⟩ := doubleQuotTrunc_bounds (1000000 * args.rateDen) args.rateNum r1
        (lt_trans hlt (by decide))
      rw [h5]
      exact ⟨b1, b2, fun hx => doubleQuotTrunc_exact _ _ r1 hx⟩
    · exact absurd ⟨r1, r2, r3⟩ hn

/-- Witness of C20 (amended): `record start -chan c -fps 10` on a device that captures
25 frames per second in an uncompressed format: the period is 100000 us. -/
theorem C20_governor_interval_witness :
    micros recordingRunning.rrate = ((100000 : Nat) : Int) - 500 ∧
    (∀ (c0 : Channel) (ufmt : UFMT),
      newAviSession capturingFmt (aviStart emptyChannel 10) c0 →
      findFmt capturingFmt.fmts capturingFmt.usefmt = some ufmt →
      ∃ c' : Channel, recordingRunning.rchan = some c' ∧
        (ufmt.iscomp = false → (aviStart emptyChannel 10).doMJPG = 0 →
          fourcc ufmt.fourcc ≠ ascii "MJPG" →
          (c'.bytes.drop (c0.pos + 32)).take 4 = le32 100000) ∧
        (ufmt.iscomp = true ∨ (aviStart emptyChannel 10).doMJPG ≠ 0 →
          (c'.bytes.drop (c0.pos + 32)).take 4 = le32 0)) ∧
    (0 < (aviStart emptyChannel 10).rateNum → 0 < (aviStart emptyChannel 10).rateDen →
      ((aviStart emptyChannel 10).rateNum : Int) <
        capturingFmt.fps * (aviStart emptyChannel 10).rateDen →
      1000000 * (aviStart emptyChannel 10).rateDen / (aviStart emptyChannel 10).rateNum ≤
        100000 ∧
      100000 ≤
        1000000 * (aviStart emptyChannel 10).rateDen / (aviStart emptyChannel 10).rateNum + 1 ∧
      (1000000 * (aviStart emptyChannel 10).rateDen < 2 ^ 53 →
        100000 =
          1000000 * (aviStart emptyChannel 10).rateDen / (aviStart emptyChannel 10).rateNum)) :=
  C20_governor_interval capturingFmt (aviStart emptyChannel 10) (atMicros 0) recordingRunning
    100000 (by decide) (Or.inl ⟨by decide, by decide, by decide, by decide, by decide⟩)

/-- C20 (counterexample). (1) An AVI file with JPEG compressed frames:
`record start -chan c -fps 10 -mjpeg` succeeds with the governor interval
99500 us, but the microseconds-per-frame field of the header is 0, not
100000. (2) `record start -chan c -fps 3.3333333333333335` on a device that
captures 25 frames per second: the rate is the `double`
7505999378950827 / 2^51, and floor(1000000 / rate) is 299999; the `double`
quotient `1000000.0 / rate` is 300000.0, so the governor interval is
299500 us and the header holds 300000. -/
theorem C20_counterexample :
    (StartRecording capturingFmt (mjpegStart emptyChannel 10) (atMicros 0)).1 = TCL_OK ∧
    capturingFmt.fps = 25 ∧
    micros (StartRecording capturingFmt (mjpegStart emptyChannel 10) (atMicros 0)).2.rrate =
      99500 ∧
    (StartRecording capturingFmt (mjpegStart emptyChannel 10) (atMicros 0)).2.rchan.map
      (fun c => (c.bytes.drop 32).take 4) = some [0, 0, 0, 0] ∧
    le32 100000 = [160, 134, 1, 0] ∧
    (StartRecording capturingFmt
      { aviStart emptyChannel 7505999378950827 with rateDen := 2251799813685248 }
      (atMicros 0)).1 = TCL_OK ∧
    1000000 * 2251799813685248 / 7505999378950827 = 299999 ∧
    micros (StartRecording capturingFmt
      { aviStart emptyChannel 7505999378950827 with rateDen := 2251799813685248 }
      (atMicros 0)).2.rrate = 299500 ∧
    (StartRecording capturingFmt
      { aviStart emptyChannel 7505999378950827 with rateDen := 2251799813685248 }
      (atMicros 0)).2.rchan.map (fun c => (c.bytes.drop 32).take 4) = some (le32 300000) :=
  ⟨by decide, by decide, by decide, by decide, by decide, by decide, by decide, by decide,
    by decide⟩

/-! ## The time used by the governor -/

theorem noChannelCheck_times (t : TUVC) :
    (noChannelCheck t).rtv = t.rtv ∧ (noChannelCheck t).ltv = t.ltv ∧
    (noChannelCheck t).rrate = t.rrate ∧ (noChannelCheck t).avi = t.avi ∧
    (noChannelCheck t).rchan = t.rchan ∧ (noChannelCheck t).rbdStr = t.rbdStr := by
  unfold noChannelCheck
  split <;> exact ⟨rfl, rfl, rfl, rfl, rfl, rfl⟩

theorem noChannelCheck_some (t : TUVC) (h : t.rchan ≠ none) : noChannelCheck t = t := by
  unfold noChannelCheck
  cases hc : t.rchan with
  | none => exact absurd hc h
  | some c => simp

/-- With the timing gate closed `WriteFrame` returns after the check of the
channel: nothing else happens. -/
theorem WriteFrame_closed (t : TUVC) (f : uvc_frame) (env : FrameEnv)
    (hg : tvPositive (tvDiff t.rtv (effectiveNow f env)) = true) :
    WriteFrame t f env =
      (if (noChannelCheck t).rstate = REC_ERROR then -1 else 0, noChannelCheck t) := by
  unfold WriteFrame
  dsimp only
  rw [(noChannelCheck_times t).1, if_pos hg]

/-- With the timing gate open `WriteFrame` sets the last-frame time to the time
it used for the test and the next target to that time plus the interval,
whatever happens afterwards. -/
theorem WriteFrame_open_times (t : TUVC) (f : uvc_frame) (env : FrameEnv)
    (hg : tvPositive (tvDiff t.rtv (effectiveNow f env)) = false) :
    (WriteFrame t f env).2.rtv = tvAdvance (effectiveNow f env) t.rrate ∧
    (WriteFrame t f env).2.ltv = effectiveNow f env ∧
    (WriteFrame t f env).2.rrate = t.rrate := by
  obtain ⟨n1, n2, n3, _⟩ := noChannelCheck_times t
  have key : ∀ u : TUVC, ioStep u
      { noChannelCheck t with rtv := tvAdvance (effectiveNow f env) (noChannelCheck t).rrate,
                              ltv := effectiveNow f env } →
      u.rtv = tvAdvance (effectiveNow f env) t.rrate ∧ u.ltv = effectiveNow f env ∧
      u.rrate = t.rrate := by
    intro u hu
    obtain ⟨q1, q2, q3⟩ := ioStep_times hu
    exact ⟨q1.trans (by rw [n3]), q2, q3.trans n3⟩
  unfold WriteFrame
  dsimp only
  rw [n1, hg, if_neg (by decide)]
  split
  · exact key _ (ioStep_refl _)
  · split
    · exact key _ (ioStep_refl _)
    · split
      · exact key _ (writeBoundaryFrame_ioStep _ f env)
      · exact key _ (writeAVIFrame_ioStep _ f _ env)

/-- A frame without payload that passes the timing gate: `WriteFrame` returns 0
after it has set the two timestamps. -/
theorem WriteFrame_zero_open (t : TUVC) (f : uvc_frame) (env : FrameEnv)
    (hz : f.data_bytes = 0)
    (hg : tvPositive (tvDiff t.rtv (effectiveNow f env)) = false) :
    WriteFrame t f env =
      (0, { noChannelCheck t with rtv := tvAdvance (effectiveNow f env) t.rrate,
                                  ltv := effectiveNow f env }) := by
  obtain ⟨n1, n2, n3, _⟩ := noChannelCheck_times t
  unfold WriteFrame
  dsimp only
  rw [n1, hg, if_neg (by decide), if_pos hz, n3]

theorem effectiveNow_cases (f : uvc_frame) (env : FrameEnv)
    (hn : 0 ≤ env.now.tv_usec ∧ env.now.tv_usec < 1000000)
    (hc : 0 ≤ f.capture_time.tv_usec ∧ f.capture_time.tv_usec < 1000000) :
    (f.capture_time.micros < env.now.micros → effectiveNow f env = f.capture_time) ∧
    (env.now.micros ≤ f.capture_time.micros → effectiveNow f env = env.now) := by
  have h := tvPositive_tvDiff_iff env.now f.capture_time ⟨hn.1, by omega⟩ hc
  unfold effectiveNow
  constructor
  · intro hlt
    rw [if_pos (h.mpr hlt)]
  · intro hle
    rw [if_neg]
    intro hp
    have := h.mp hp
    omega

/-- C22 (amended). The time `WriteFrame` uses for the admission test is the
earlier of the wall-clock time and the capture time of the frame: when the
wall clock is later than the capture time the capture time is used, and
otherwise (equal times, or a wall clock that went back) the wall-clock time.
Both times have microsecond fields in [0, 1000000). This time is compared
with the next target: while the gate is closed the timestamps are kept and no
frame is written, and when the gate is open it becomes the last-frame time
and the base of the next target. -/
theorem C22_effective_now (t : TUVC) (f : uvc_frame) (env : FrameEnv)
    (hn : 0 ≤ env.now.tv_usec ∧ env.now.tv_usec < 1000000)
    (hc : 0 ≤ f.capture_time.tv_usec ∧ f.capture_time.tv_usec < 1000000) :
    (f.capture_time.micros < env.now.micros → effectiveNow f env = f.capture_time) ∧
    (env.now.micros ≤ f.capture_time.micros → effectiveNow f env = env.now) ∧
    (effectiveNow f env).micros = min env.now.micros f.capture_time.micros ∧
    (tvPositive (tvDiff t.rtv (effectiveNow f env)) = true →
      (WriteFrame t f env).1 ≠ 1 ∧ (WriteFrame t f env).2.rtv = t.rtv ∧
      (WriteFrame t f env).2.ltv = t.ltv) ∧
    (tvPositive (tvDiff t.rtv (effectiveNow f env)) = false →
      (WriteFrame t f env).2.ltv = effectiveNow f env ∧
      (WriteFrame t f env).2.rtv = tvAdvance (effectiveNow f env) t.rrate) := by
  obtain ⟨e1, e2⟩ := effectiveNow_cases f env hn hc
  refine ⟨e1, e2, ?_, fun hg => ?_, fun hg => ?_⟩
  · by_cases h : f.capture_time.micros < env.now.micros
    · rw [e1 h, min_eq_right (le_of_lt h)]
    · rw [e2 (by omega), min_eq_left (by omega)]
  · obtain ⟨n1, n2, _⟩ := noChannelCheck_times t
    rw [WriteFrame_closed t f env hg]
    refine ⟨?_, n1, n2⟩
    dsimp only
    split <;> decide
  · obtain ⟨q1, q2, _⟩ := WriteFrame_open_times t f env hg
    exact ⟨q2, q1⟩

/-- Witness of C22 (amended): a frame captured at 100 ms that is delivered at
200 ms to the recording whose next target is 139.5 ms. -/
theorem C22_effective_now_witness :
    ((sampleFrame 2 100000).capture_time.micros < (wallClock 200000).now.micros →
      effectiveNow (sampleFrame 2 100000) (wallClock 200000) =
        (sampleFrame 2 100000).capture_time) ∧
    ((wallClock 200000).now.micros ≤ (sampleFrame 2 100000).capture_time.micros →
      effectiveNow (sampleFrame 2 100000) (wallClock 200000) = (wallClock 200000).now) ∧
    (effectiveNow (sampleFrame 2 100000) (wallClock 200000)).micros =
      min (wallClock 200000).now.micros (sampleFrame 2 100000).capture_time.micros ∧
    (tvPositive (tvDiff afterFirstFrame.rtv
        (effectiveNow (sampleFrame 2 100000) (wallClock 200000))) = true →
      (WriteFrame afterFirstFrame (sampleFrame 2 100000) (wallClock 200000)).1 ≠ 1 ∧
      (WriteFrame afterFirstFrame (sampleFrame 2 100000) (wallClock 200000)).2.rtv =
        afterFirstFrame.rtv ∧
      (WriteFrame afterFirstFrame (sampleFrame 2 100000) (wallClock 200000)).2.ltv =
        afterFirstFrame.ltv) ∧
    (tvPositive (tvDiff afterFirstFrame.rtv
        (effectiveNow (sampleFrame 2 100000) (wallClock 200000))) = false →
      (WriteFrame afterFirstFrame (sampleFrame 2 100000) (wallClock 200000)).2.ltv =
        effectiveNow (sampleFrame 2 100000) (wallClock 200000) ∧
      (WriteFrame afterFirstFrame (sampleFrame 2 100000) (wallClock 200000)).2.rtv =
        tvAdvance (effectiveNow (sampleFrame 2 100000) (wallClock 200000))
          afterFirstFrame.rrate) :=
  C22_effective_now afterFirstFrame (sampleFrame 2 100000) (wallClock 200000)
    (by decide) (by decide)

/-- C22 (counterexample). The next target of the recording is 139.5 ms. A frame
captured at 100 ms and delivered at wall-clock time 200 ms is tested with the
earlier time, 100 ms, and skipped (result 0, state unchanged); with the later
of the two times it would be due. A frame with capture time 200 ms delivered
at wall-clock time 100 ms is tested with the wall-clock time, not with its
capture time, and skipped as well. -/
theorem C22_counterexample :
    afterFirstFrame.rtv.micros = 139500 ∧
    effectiveNow (sampleFrame 2 100000) (wallClock 200000) = atMicros 100000 ∧
    WriteFrame afterFirstFrame (sampleFrame 2 100000) (wallClock 200000) =
      (0, afterFirstFrame) ∧
    effectiveNow (sampleFrame 2 200000) (wallClock 100000) = atMicros 100000 ∧
    WriteFrame afterFirstFrame (sampleFrame 2 200000) (wallClock 100000) =
      (0, afterFirstFrame) ∧
    (WriteFrame afterFirstFrame (sampleFrame 2 200000) (wallClock 200000)).1 = 1 := by
  decide

/-- C23 (amended). On every admission `WriteFrame` sets the new next target to
the time used for the admission test plus exactly the configured interval:
the target is reset relative to that time, and the last-frame time is that
time. The new target is the old target plus the interval only for a frame
that comes exactly at the old target. -/
theorem C23_target_rebased (t : TUVC) (f : uvc_frame) (env : FrameEnv)
    (hg : tvPositive (tvDiff t.rtv (effectiveNow f env)) = false) :
    (WriteFrame t f env).2.rtv = tvAdvance (effectiveNow f env) t.rrate ∧
    (WriteFrame t f env).2.rtv.micros = (effectiveNow f env).micros + t.rrate.micros ∧
    (WriteFrame t f env).2.ltv = effectiveNow f env ∧
    (WriteFrame t f env).2.rrate = t.rrate ∧
    ((WriteFrame t f env).2.rtv.micros = t.rtv.micros + t.rrate.micros ↔
      (effectiveNow f env).micros = t.rtv.micros) := by
  obtain ⟨q1, q2, q3⟩ := WriteFrame_open_times t f env hg
  have hm : (WriteFrame t f env).2.rtv.micros = (effectiveNow f env).micros + t.rrate.micros := by
    rw [q1, tvAdvance_micros]
  refine ⟨q1, hm, q2, q3, ?_⟩
  rw [hm]
  constructor <;> intro h <;> omega

/-- Witness of C23 (amended): the frame that comes at 250 ms while the next
target is 139.5 ms. -/
theorem C23_target_rebased_witness :
    (WriteFrame afterFirstFrame (sampleFrame 2 250000) (wallClock 250000)).2.rtv =
      tvAdvance (effectiveNow (sampleFrame 2 250000) (wallClock 250000))
        afterFirstFrame.rrate ∧
    (WriteFrame afterFirstFrame (sampleFrame 2 250000) (wallClock 250000)).2.rtv.micros =
      (effectiveNow (sampleFrame 2 250000) (wallClock 250000)).micros +
        afterFirstFrame.rrate.micros ∧
    (WriteFrame afterFirstFrame (sampleFrame 2 250000) (wallClock 250000)).2.ltv =
      effectiveNow (sampleFrame 2 250000) (wallClock 250000) ∧
    (WriteFrame afterFirstFrame (sampleFrame 2 250000) (wallClock 250000)).2.rrate =
      afterFirstFrame.rrate ∧
    ((WriteFrame afterFirstFrame (sampleFrame 2 250000) (wallClock 250000)).2.rtv.micros =
        afterFirstFrame.rtv.micros + afterFirstFrame.rrate.micros ↔
      (effectiveNow (sampleFrame 2 250000) (wallClock 250000)).micros =
        afterFirstFrame.rtv.micros) :=
  C23_target_rebased afterFirstFrame (sampleFrame 2 250000) (wallClock 250000) (by decide)

/-- C23 (counterexample). The next target is 139.5 ms and the interval 99.5 ms.
The frame that comes at 250 ms is admitted and the new target is
250 + 99.5 = 349.5 ms, not 139.5 + 99.5 = 239 ms. -/
theorem C23_counterexample :
    afterFirstFrame.rtv.micros = 139500 ∧ afterFirstFrame.rrate.micros = 99500 ∧
    (WriteFrame afterFirstFrame (sampleFrame 2 250000) (wallClock 250000)).1 = 1 ∧
    (WriteFrame afterFirstFrame (sampleFrame 2 250000) (wallClock 250000)).2.rtv.micros =
      349500 := by
  decide

/-- C24 (amended). A frame with zero payload bytes is given to `WriteFrame` in
a session with a sink. While the timing gate is closed the state is unchanged
and the result is 0, or -1 when the recording state is `REC_ERROR`. When the
frame passes the gate the result is 0 and only the two timestamps of the
governor change: the last-frame time becomes the time used for the test and
the next target that time plus the interval. In both cases the sink, the
writer state and the recording state are as before. -/
theorem C24_zero_payload (t : TUVC) (f : uvc_frame) (env : FrameEnv)
    (hs : t.rchan ≠ none) (hz : f.data_bytes = 0) :
    (tvPositive (tvDiff t.rtv (effectiveNow f env)) = true →
      WriteFrame t f env = (if t.rstate = REC_ERROR then -1 else 0, t)) ∧
    (tvPositive (tvDiff t.rtv (effectiveNow f env)) = false →
      WriteFrame t f env =
        (0, { t with rtv := tvAdvance (effectiveNow f env) t.rrate,
                     ltv := effectiveNow f env })) ∧
    (WriteFrame t f env).2.rchan = t.rchan ∧ (WriteFrame t f env).2.avi = t.avi ∧
    (WriteFrame t f env).2.rstate = t.rstate := by
  have h0 := noChannelCheck_some t hs
  have c1 : tvPositive (tvDiff t.rtv (effectiveNow f env)) = true →
      WriteFrame t f env = (if t.rstate = REC_ERROR then -1 else 0, t) := by
    intro hg
    rw [WriteFrame_closed t f env hg, h0]
  have c2 : tvPositive (tvDiff t.rtv (effectiveNow f env)) = false →
      WriteFrame t f env =
        (0, { t with rtv := tvAdvance (effectiveNow f env) t.rrate,
                     ltv := effectiveNow f env }) := by
    intro hg
    rw [WriteFrame_zero_open t f env hz hg, h0]
  refine ⟨c1, c2, ?_⟩
  cases hg : tvPositive (tvDiff t.rtv (effectiveNow f env)) with
  | true => rw [c1 hg]; exact ⟨rfl, rfl, rfl⟩
  | false => rw [c2 hg]; exact ⟨rfl, rfl, rfl⟩

/-- Witness of C24 (amended): a frame without payload at 200 ms. -/
theorem C24_zero_payload_witness :
    (tvPositive (tvDiff afterFirstFrame.rtv
        (effectiveNow (emptyFrame 200000) (wallClock 200000))) = true →
      WriteFrame afterFirstFrame (emptyFrame 200000) (wallClock 200000) =
        (if afterFirstFrame.rstate = REC_ERROR then -1 else 0, afterFirstFrame)) ∧
    (tvPositive (tvDiff afterFirstFrame.rtv
        (effectiveNow (emptyFrame 200000) (wallClock 200000))) = false →
      WriteFrame afterFirstFrame (emptyFrame 200000) (wallClock 200000) =
        (0, { afterFirstFrame with
              rtv := tvAdvance (effectiveNow (emptyFrame 200000) (wallClock 200000))
                afterFirstFrame.rrate,
              ltv := effectiveNow (emptyFrame 200000) (wallClock 200000) })) ∧
    (WriteFrame afterFirstFrame (emptyFrame 200000) (wallClock 200000)).2.rchan =
      afterFirstFrame.rchan ∧
    (WriteFrame afterFirstFrame (emptyFrame 200000) (wallClock 200000)).2.avi =
      afterFirstFrame.avi ∧
    (WriteFrame afterFirstFrame (emptyFrame 200000) (wallClock 200000)).2.rstate =
      afterFirstFrame.rstate :=
  C24_zero_payload afterFirstFrame (emptyFrame 200000) (wallClock 200000)
    (by decide) (by decide)

/-- C24 (counterexample). A frame without payload that comes at 200 ms, after
the next target 139.5 ms, gives the result 0 and writes nothing, but moves the
next target to 299.5 ms and the last-frame time from 40 ms to 200 ms; the
frame with payload that comes at 250 ms is then skipped, while without the
empty frame it is written. -/
theorem C24_counterexample :
    (emptyFrame 200000).data_bytes = 0 ∧
    afterFirstFrame.rtv.micros = 139500 ∧ afterFirstFrame.ltv.micros = 40000 ∧
    (WriteFrame afterFirstFrame (emptyFrame 200000) (wallClock 200000)).1 = 0 ∧
    (WriteFrame afterFirstFrame (emptyFrame 200000) (wallClock 200000)).2.rtv.micros =
      299500 ∧
    (WriteFrame afterFirstFrame (emptyFrame 200000) (wallClock 200000)).2.ltv.micros =
      200000 ∧
    (WriteFrame (WriteFrame afterFirstFrame (emptyFrame 200000) (wallClock 200000)).2
      (sampleFrame 2 250000) (wallClock 250000)).1 = 0 ∧
    (WriteFrame afterFirstFrame (sampleFrame 2 250000) (wallClock 250000)).1 = 1 := by
  decide

/-! ## Outstanding frame events -/

/-- C21 (failing inputs). (1) Capture start, `parameters update-mode 1`, a
publish (one event queued, `numev = 1`), `parameters update-mode 0` (the event
stays queued, `numev = 0`), processing of the event by `FrameReady0`: `numev`
is -1, and the next publish queues no event although none is queued and no
idle call is pending, nor does any later one. (2) Capture start, a publish,
`parameters update-mode 1`, a second publish: two valid events are queued. -/
theorem C21_update_mode_breaks_count :
    (capturing.numev = 0 ∧ capturing.evq = [] ∧ capturing.tid = true) ∧
    (eventQueued.numev = 1 ∧ eventQueued.evq = [true]) ∧
    (modeChanged.numev = 0 ∧ modeChanged.evq = [true] ∧ modeChanged.idle = false) ∧
    (eventHandled.numev = -1 ∧ eventHandled.evq = [] ∧ eventHandled.idleCall = false ∧
      eventHandled.tid = true) ∧
    ((FrameCallback eventHandled (sampleFrame 2 80000) (callbackAt 80000)).evq = [] ∧
      (FrameCallback eventHandled (sampleFrame 2 80000) (callbackAt 80000)).numev = -1 ∧
      (FrameCallback eventHandled (sampleFrame 2 80000) (callbackAt 80000)).idleCall = false ∧
      (FrameCallback eventHandled (sampleFrame 2 80000) (callbackAt 80000)).counters0 = 2) ∧
    ((FrameCallback (FrameCallback eventHandled (sampleFrame 2 80000) (callbackAt 80000))
        (sampleFrame 3 120000) (callbackAt 120000)).evq = []) ∧
    ((FrameCallback
        (UvcObjCmd (FrameCallback capturing (sampleFrame 1 40000) (callbackAt 40000))
          (CMD_parameters_update_mode true)).2.2
        (sampleFrame 2 80000) (callbackAt 80000)).evq = [true, true]) := by
  decide

/-! ## The index after a failed allocation -/

/-- C28 (failing input). The first frame of a recording is written while the
allocation of the index buffer fails: result 1, state `REC_RECPRI`, the index
is dropped and `idx_off` stays 4. For the second frame the allocation
succeeds: an index entry is recorded again, with offset 4 although the chunk
of this frame lies at offset 16 of the data list. `record stop` then writes
an `idx1` chunk with this one entry and sets the index flag 0x10; the file
has 240 + 2 * 12 + 24 = 288 bytes. -/
theorem C28_index_restarts :
    ((WriteFrame recordingRunning (sampleFrame 1 100000) (allocFails 100000)).1 = 1 ∧
      indexDropped.rstate = REC_RECPRI ∧ indexDropped.avi.idx = none ∧
      indexDropped.avi.curr_idx = 0 ∧ indexDropped.avi.num_idx = 0 ∧
      indexDropped.avi.idx_off = 4 ∧ indexDropped.avi.totsize = 12) ∧
    ((WriteFrame indexDropped (sampleFrame 2 200000) (wallClock 200000)).1 = 1 ∧
      (WriteFrame indexDropped (sampleFrame 2 200000) (wallClock 200000)).2.avi.curr_idx = 1 ∧
      (WriteFrame indexDropped (sampleFrame 2 200000) (wallClock 200000)).2.avi.num_idx =
        512 ∧
      ((WriteFrame indexDropped (sampleFrame 2 200000)
          (wallClock 200000)).2.avi.idx.getD []).take 1 =
        [{ id := [48, 48, 100, 98], flags := 0, offset := 4, size := 4 }]) ∧
    ((UvcObjCmd (WriteFrame indexDropped (sampleFrame 2 200000) (wallClock 200000)).2
        CMD_record_stop).2.2.closed.map
      (fun c => (c.bytes.length, (c.bytes.drop 44).take 4, c.bytes.drop 264)) =
        [(288, [16, 0, 0, 0],
          [105, 100, 120, 49, 16, 0, 0, 0,
            48, 48, 100, 98, 0, 0, 0, 0, 4, 0, 0, 0, 4, 0, 0, 0])]) := by
  decide

/-! ## The average frame interval -/

/-- C29 (failing input). An AVI recording with JPEG compressed frames is
started at time 0 at 10 frames per second; frames come at 100 ms and 200 ms,
so both inter-frame deltas are 100000 us. After the first frame the average
is 50000 us, not the delta 100000 us (the frame counter is 1 when it is
tested for 0); after the second frame it is 75000 us. `record stop` puts
75000 into the microseconds-per-frame field (offset 32) and the stream scale
field (offset 128) of the header. -/
theorem C29_average_not_seeded :
    (mjpegRunning.avi.rate.micros = 0 ∧ mjpegRunning.ltv.micros = 0 ∧
      mjpegRunning.avi.nframes = 0) ∧
    ((WriteFrame mjpegRunning (sampleFrame 1 100000) (wallClock 100000)).1 = 1 ∧
      (WriteFrame mjpegRunning (sampleFrame 1 100000) (wallClock 100000)).2.avi.rate.micros =
        50000) ∧
    ((WriteFrame (WriteFrame mjpegRunning (sampleFrame 1 100000) (wallClock 100000)).2
        (sampleFrame 2 200000) (wallClock 200000)).1 = 1 ∧
      (WriteFrame (WriteFrame mjpegRunning (sampleFrame 1 100000) (wallClock 100000)).2
        (sampleFrame 2 200000) (wallClock 200000)).2.avi.rate.micros = 75000) ∧
    ((UvcObjCmd (WriteFrame (WriteFrame mjpegRunning (sampleFrame 1 100000)
          (wallClock 100000)).2 (sampleFrame 2 200000) (wallClock 200000)).2
        CMD_record_stop).2.2.closed.map
      (fun c => ((c.bytes.drop 32).take 4, (c.bytes.drop 128).take 4)) =
        [(le32 75000, le32 75000)]) := by
  decide

/-! ## The writer state on an arbitrary sink -/

theorem closeTail_avi (t : TUVC) (pos : Int) (e : Bool) (tw w : Int) :
    (closeTail t pos e tw w).avi = { t.avi with segsize := 0, segstart := pos } := by
  unfold closeTail
  dsimp only
  split
  · split <;> rfl
  · split <;> rfl

theorem WriteAVIHeader_false_fields (t : TUVC) :
    (WriteAVIHeader t false).avi.nframes = t.avi.nframes ∧
    (WriteAVIHeader t false).avi.totsize = t.avi.totsize ∧
    (WriteAVIHeader t false).avi.segsize = t.avi.segsize ∧
    (WriteAVIHeader t false).avi.idx_off = t.avi.idx_off ∧
    (WriteAVIHeader t false).avi.curr_idx = t.avi.curr_idx ∧
    (WriteAVIHeader t false).avi.num_idx = t.avi.num_idx ∧
    (WriteAVIHeader t false).avi.idx = t.avi.idx ∧
    (WriteAVIHeader t false).avi.avi_hdrv.strh.handler = t.avi.avi_hdrv.strh.handler := by
  rw [WriteAVIHeader_false_avi]
  obtain ⟨c1, _, c3, c4, _, _⟩ := patchedAvi_counters t (PUT32LE 0) 0
  obtain ⟨_, _, _, i4, i5, i6, i7, i8⟩ := patchedAvi_index t (PUT32LE 0) 0
  exact ⟨c1, c3, c4, i4, i5, i6, i7, i8⟩

/-- What `CloseAVISegment` does to the writer state on any sink: unless it
leaves the state `REC_ERROR` the segment size is 0 on return; the frame count,
the total size and the index are kept. -/
theorem CloseAVISegment_fields (t : TUVC) (e : Bool) :
    ((CloseAVISegment t e).rstate = REC_ERROR ∨ (CloseAVISegment t e).avi.segsize = 0) ∧
    (CloseAVISegment t e).avi.nframes = t.avi.nframes ∧
    (CloseAVISegment t e).avi.totsize = t.avi.totsize ∧
    (CloseAVISegment t e).avi.idx_off = t.avi.idx_off ∧
    (CloseAVISegment t e).avi.curr_idx = t.avi.curr_idx ∧
    (CloseAVISegment t e).avi.num_idx = t.avi.num_idx ∧
    (CloseAVISegment t e).avi.idx = t.avi.idx ∧
    (CloseAVISegment t e).avi.avi_hdrv.strh.handler = t.avi.avi_hdrv.strh.handler := by
  unfold CloseAVISegment
  dsimp only
  split
  · rw [closeTail_avi]
    exact ⟨Or.inr rfl, rfl, rfl, rfl, rfl, rfl, rfl, rfl⟩
  · obtain ⟨u, hu, a1, a2, a3, a4, a5, a6, a7, a8⟩ : ∃ u,
        WriteAVIHeader { (chanSeek t 0 SEEK_CUR).2 with
          avi := { (chanSeek t 0 SEEK_CUR).2.avi with
            nframes0 := (chanSeek t 0 SEEK_CUR).2.avi.nframes,
            segsize0 := (chanSeek t 0 SEEK_CUR).2.avi.segsize } } false = u ∧
        u.avi.nframes = t.avi.nframes ∧ u.avi.totsize = t.avi.totsize ∧
        u.avi.segsize = t.avi.segsize ∧ u.avi.idx_off = t.avi.idx_off ∧
        u.avi.curr_idx = t.avi.curr_idx ∧ u.avi.num_idx = t.avi.num_idx ∧
        u.avi.idx = t.avi.idx ∧
        u.avi.avi_hdrv.strh.handler = t.avi.avi_hdrv.strh.handler :=
      ⟨_, rfl, WriteAVIHeader_false_fields _⟩
    rw [hu]
    split
    · rename_i hr
      exact ⟨Or.inl hr, a1, a2, a4, a5, a6, a7, a8⟩
    · rw [closeTail_avi]
      exact ⟨Or.inr rfl, a1, a2, a4, a5, a6, a7, a8⟩

theorem addIndexEntry_fields (t : TUVC) (sizea : Int) (env : FrameEnv) :
    (addIndexEntry t sizea env).rstate = t.rstate ∧
    (addIndexEntry t sizea env).avi.nframes = t.avi.nframes ∧
    (addIndexEntry t sizea env).avi.totsize = t.avi.totsize ∧
    (addIndexEntry t sizea env).avi.segsize = t.avi.segsize ∧
    (addIndexEntry t sizea env).avi.avi_hdrv.strh.handler = t.avi.avi_hdrv.strh.handler := by
  unfold addIndexEntry
  dsimp only
  split <;> split_ifs <;> exact ⟨rfl, rfl, rfl, rfl, rfl⟩

/-- The bookkeeping of `WriteFrame` after a chunk whose payload was accepted in
full (`fWritten == size`), on any sink: the frame count and the total size
advance; when the segment size exceeds 0x7F000000 the segment is closed, after
which the segment size is 0 unless the state is `REC_ERROR`, and the index is
empty; otherwise the segment size advances and the state is kept. -/
theorem accountChunk_written (t : TUVC) (size sizea : Int) (env : FrameEnv) :
    (accountChunk t size sizea size env).avi.nframes = t.avi.nframes + 1 ∧
    (accountChunk t size sizea size env).avi.totsize = t.avi.totsize + (sizea + 8) ∧
    (accountChunk t size sizea size env).avi.avi_hdrv.strh.handler =
      t.avi.avi_hdrv.strh.handler ∧
    (t.avi.segsize + (sizea + 8) > 0x7F000000 →
      ((accountChunk t size sizea size env).rstate = REC_ERROR ∨
        (accountChunk t size sizea size env).avi.segsize = 0) ∧
      (accountChunk t size sizea size env).avi.curr_idx = 0 ∧
      (accountChunk t size sizea size env).avi.num_idx = 0 ∧
      (accountChunk t size sizea size env).avi.idx = none ∧
      (accountChunk t size sizea size env).avi.idx_off = t.avi.idx_off) ∧
    (¬ t.avi.segsize + (sizea + 8) > 0x7F000000 →
      (accountChunk t size sizea size env).avi.segsize = t.avi.segsize + (sizea + 8) ∧
      (accountChunk t size sizea size env).rstate = t.rstate) := by
  unfold accountChunk
  dsimp only
  rw [if_pos rfl]
  have e8 : ((sizeof_CHUNK_HDR : Nat) : Int) = 8 := rfl
  rw [e8]
  split
  · rename_i hgt
    obtain ⟨c1, c2, c3, c4, c5, c6, c7, c8⟩ := CloseAVISegment_fields
      { t with avi := { t.avi with
          nframes := t.avi.nframes + 1,
          totsize := t.avi.totsize + (sizea + 8),
          segsize := t.avi.segsize + (sizea + 8) } } false
    exact ⟨c2, c3, c8, fun _ => ⟨c1, rfl, rfl, rfl, c4⟩, fun h => absurd hgt h⟩
  · rename_i hle
    split
    · obtain ⟨a1, a2, a3, a4, a5⟩ := addIndexEntry_fields
        { t with avi := { t.avi with
            nframes := t.avi.nframes + 1,
            totsize := t.avi.totsize + (sizea + 8),
            segsize := t.avi.segsize + (sizea + 8) } } sizea env
      exact ⟨a2, a3, a5, fun h => absurd h hle, fun _ => ⟨a4, a1⟩⟩
    · exact ⟨rfl, rfl, rfl, fun h => absurd h hle, fun _ => ⟨rfl, rfl⟩⟩

theorem averageRate_fields (a : AVI) (d : timeval) :
    averageRate a d = { a with rate := (averageRate a d).rate } := by
  unfold averageRate
  split <;> rfl

theorem writeResult_avi (t : TUVC) (a b : Int) : (writeResult t a b).2.avi = t.avi := by
  unfold writeResult
  dsimp only
  split <;> rfl

theorem writeResult_one (t : TUVC) (a b : Int) :
    (writeResult t a b).1 = 1 → b = a ∧ t.rstate ≠ REC_ERROR := by
  unfold writeResult
  dsimp only
  by_cases hw : b = a
  · by_cases hs : t.rstate = REC_ERROR
    · simp [hw, hs]
    · simp [hw, hs]
  · simp [hw]

theorem writeResult_nonzero (t : TUVC) (a b : Int) : (writeResult t a b).1 ≠ 0 := by
  unfold writeResult
  dsimp only
  by_cases hw : b = a
  · by_cases hs : t.rstate = REC_ERROR
    · simp [hw, hs]
    · simp [hw, hs]
  · simp [hw]

theorem writeChunk_keeps (t : TUVC) (fr : uvc_frame) (size sizea : Int) :
    (writeChunk t fr size sizea).1.avi = t.avi ∧
    (writeChunk t fr size sizea).1.rstate = t.rstate ∧
    ((writeChunk t fr size sizea).2.2.1 = (writeChunk t fr size sizea).2.1 →
      (writeChunk t fr size sizea).2.2.2 = size) := by
  unfold writeChunk
  dsimp only
  split
  · split
    · rename_i h1 h2
      simp only [Bool.and_eq_true, decide_eq_true_eq] at h2
      exact ⟨rfl, rfl, fun _ => h2.1⟩
    · exact ⟨rfl, rfl, fun h => h⟩
  · rename_i h1
    exact ⟨rfl, rfl, fun h => absurd h h1⟩

theorem writeBoundaryFrame_avi (t : TUVC) (f : uvc_frame) (env : FrameEnv) :
    (writeBoundaryFrame t f env).2.avi = t.avi := by
  unfold writeBoundaryFrame
  split
  · rfl
  · dsimp only
    split <;> rw [writeResult_avi] <;> rfl

theorem writeAVIFrame_shape (t : TUVC) (f : uvc_frame) (diff : timeval) (env : FrameEnv) :
    ((writeAVIFrame t f diff env).2.avi = t.avi ∧ (writeAVIFrame t f diff env).1 = -1) ∨
    ∃ (fr : uvc_frame) (size : Int) (w : TUVC) (fw : Int),
      aviFrameSize t f env = some (fr, size) ∧ w.avi = t.avi ∧ w.rstate = t.rstate ∧
      (writeAVIFrame t f diff env).2.avi =
        averageRate (accountChunk w size (toInt32 (size + 3) / 4 * 4) fw env).avi diff ∧
      ((writeAVIFrame t f diff env).1 = 1 → fw = size ∧
        (accountChunk w size (toInt32 (size + 3) / 4 * 4) fw env).rstate ≠ REC_ERROR) ∧
      ((writeAVIFrame t f diff env).1 = 1 ∨ (writeAVIFrame t f diff env).1 = -1) := by
  unfold writeAVIFrame
  cases hsel : aviFrameSize t f env with
  | none => exact Or.inl ⟨rfl, rfl⟩
  | some p =>
    obtain ⟨fr, size⟩ := p
    dsimp only
    obtain ⟨k1, k2, k3⟩ := writeChunk_keeps t fr size (toInt32 (size + 3) / 4 * 4)
    refine Or.inr ⟨fr, size, (writeChunk t fr size (toInt32 (size + 3) / 4 * 4)).1,
      (writeChunk t fr size (toInt32 (size + 3) / 4 * 4)).2.2.2, rfl, k1, k2, ?_, ?_, ?_⟩
    · rw [writeResult_avi]
    · intro h1
      obtain ⟨r1, r2⟩ := writeResult_one _ _ _ h1
      exact ⟨k3 r1, r2⟩
    · exact (writeResult_spec _ _ _).1

/-- What a call of `WriteFrame` does to the writer state, on any sink: either
the writer state is kept (and a result 1 then belongs to a stream part), or the
AVI branch was taken: the frame has a size, the chunk was accounted for, and
with result 1 the payload had been accepted in full and the state is not
`REC_ERROR`. -/
theorem WriteFrame_shape (t : TUVC) (f : uvc_frame) (env : FrameEnv) :
    ((WriteFrame t f env).2.avi = t.avi ∧ ((WriteFrame t f env).1 = 1 → t.rbdStr ≠ [])) ∨
    ∃ (fr : uvc_frame) (size : Int) (w : TUVC) (fw : Int) (d : timeval),
      t.rbdStr = [] ∧ t.rchan ≠ none ∧ aviFrameSize t f env = some (fr, size) ∧
      w.avi = t.avi ∧ w.rstate = t.rstate ∧ t.rstate ≠ REC_ERROR ∧
      (WriteFrame t f env).2.avi =
        averageRate (accountChunk w size (toInt32 (size + 3) / 4 * 4) fw env).avi d ∧
      ((WriteFrame t f env).1 = 1 → fw = size ∧
        (accountChunk w size (toInt32 (size + 3) / 4 * 4) fw env).rstate ≠ REC_ERROR) ∧
      ((WriteFrame t f env).1 = 1 ∨ (WriteFrame t f env).1 = -1) := by
  by_cases hc : t.rchan = none
  · left
    have hn : noChannelCheck t = { t with rstate := REC_ERROR } := by
      unfold noChannelCheck
      rw [hc]
      rfl
    unfold WriteFrame
    dsimp only
    rw [hn]
    dsimp only
    split
    · exact ⟨rfl, fun h => by simp at h⟩
    · split
      · exact ⟨rfl, fun h => by simp at h⟩
      · rw [if_pos rfl]
        exact ⟨rfl, fun h => by simp at h⟩
  · have hn : noChannelCheck t = t := noChannelCheck_some t hc
    unfold WriteFrame
    dsimp only
    rw [hn]
    split
    · left
      refine ⟨rfl, ?_⟩
      split <;> exact fun h => by simp at h
    · split
      · exact Or.inl ⟨rfl, fun h => by simp at h⟩
      · split
        · exact Or.inl ⟨rfl, fun h => by simp at h⟩
        · rename_i hr
          split
          · rename_i hb
            left
            refine ⟨?_, fun _ hb2 => ?_⟩
            · rw [writeBoundaryFrame_avi]
            · have hb3 : t.rbdStr.length > 0 := hb
              rw [hb2] at hb3
              exact absurd hb3 (by decide)
          · rename_i hb
            have hb2 : t.rbdStr = [] := by
              cases hl : t.rbdStr with
              | nil => rfl
              | cons x xs =>
                have hb3 : ¬ t.rbdStr.length > 0 := hb
                rw [hl] at hb3
                exact absurd (Nat.succ_pos _) hb3
            have hr2 : t.rstate ≠ REC_ERROR := hr
            rcases writeAVIFrame_shape
              { t with rtv := tvAdvance (effectiveNow f env) t.rrate,
                       ltv := effectiveNow f env } f
              (tvDiff (effectiveNow f env) t.ltv) env with ⟨s1, s2⟩ | ⟨fr, size, w, fw, s1, s2, s3, s4, s5, s6⟩
            · exact Or.inl ⟨s1, fun h => by rw [s2] at h; exact absurd h (by decide)⟩
            · exact Or.inr ⟨fr, size, w, fw, _, hb2, hc, s1, s2, s3, hr2, s4, s5, s6⟩

theorem aviFrameSize_fit (t : TUVC) (f fr : uvc_frame) (env : FrameEnv) (size : Int)
    (hfit : sizesFit f env) (h : aviFrameSize t f env = some (fr, size)) :
    0 ≤ size ∧ size + 3 < 2147483648 := by
  obtain ⟨h1, h2, h3⟩ := hfit
  unfold aviFrameSize at h
  split at h
  · cases h
    unfold toInt32
    omega
  · rename_i hm
    split at h
    · cases hj : env.jpeg with
      | none =>
        have e : FrameToJPEG f env.jpeg = none := by
          unfold FrameToJPEG
          rw [if_neg hm, hj]
        rw [e] at h
        cases h
      | some d =>
        have e : FrameToJPEG f env.jpeg =
            some { f with data := d, frame_format := UVC_FRAME_FORMAT_MJPEG } := by
          unfold FrameToJPEG
          rw [if_neg hm, hj]
        rw [e] at h
        cases h
        have := h3 d hj
        have e2 : (({ f with data := d, frame_format := UVC_FRAME_FORMAT_MJPEG } :
          uvc_frame).data_bytes : Int) = (d.length : Int) := rfl
        rw [e2]
        unfold toInt32
        omega
    · cases h
      unfold toInt32
      omega

theorem chunkSize_eq (t : TUVC) (f fr : uvc_frame) (env : FrameEnv) (size : Int)
    (h : aviFrameSize t f env = some (fr, size)) :
    chunkSize t f env = toInt32 (size + 3) / 4 * 4 + 8 := by
  unfold chunkSize
  rw [h]
  rfl

/-- The effect of a call of `WriteFrame` that returns 1 for a chunk of an AVI
file, on any sink: the frame count advances by 1 and the total size by the
size of the chunk; when the segment size with the chunk exceeds 0x7F000000 the
segment size is 0 and the index empty on return, otherwise the segment size
advances by the size of the chunk. -/
theorem WriteFrame_written (t : TUVC) (f : uvc_frame) (env : FrameEnv)
    (h1 : (WriteFrame t f env).1 = 1) (hb : t.rbdStr = []) :
    (WriteFrame t f env).2.avi.nframes = t.avi.nframes + 1 ∧
    (WriteFrame t f env).2.avi.totsize = t.avi.totsize + chunkSize t f env ∧
    (WriteFrame t f env).2.avi.avi_hdrv.strh.handler = t.avi.avi_hdrv.strh.handler ∧
    (t.avi.segsize + chunkSize t f env > 0x7F000000 →
      (WriteFrame t f env).2.avi.segsize = 0 ∧ (WriteFrame t f env).2.avi.curr_idx = 0 ∧
      (WriteFrame t f env).2.avi.num_idx = 0 ∧ (WriteFrame t f env).2.avi.idx = none ∧
      (WriteFrame t f env).2.avi.idx_off = t.avi.idx_off) ∧
    (¬ t.avi.segsize + chunkSize t f env > 0x7F000000 →
      (WriteFrame t f env).2.avi.segsize = t.avi.segsize + chunkSize t f env) := by
  rcases WriteFrame_shape t f env with ⟨_, s2⟩ | ⟨fr, size, w, fw, d, _, _, s3, s4, _, _, s7, s8, _⟩
  · exact absurd hb (s2 h1)
  · obtain ⟨e1, e2⟩ := s8 h1
    subst e1
    rw [chunkSize_eq t f fr env fw s3, s7, averageRate_fields]
    dsimp only
    obtain ⟨a1, a2, a3, a4, a5⟩ := accountChunk_written w fw (toInt32 (fw + 3) / 4 * 4) env
    rw [s4] at a1 a2 a3 a4 a5
    refine ⟨a1, a2, a3, fun hgt => ?_, fun hle => (a5 hle).1⟩
    obtain ⟨b1, b2, b3, b4, b5⟩ := a4 hgt
    rcases b1 with b1 | b1
    · exact absurd b1 e2
    · exact ⟨b1, b2, b3, b4, b5⟩

theorem sizea_fit (size : Int) (h0 : 0 ≤ size) (h3 : size + 3 < 2147483648) :
    toInt32 (size + 3) / 4 * 4 = (size + 3) / 4 * 4 ∧ 0 ≤ (size + 3) / 4 * 4 ∧
    size ≤ (size + 3) / 4 * 4 ∧ (size + 3) / 4 * 4 < 2147483648 ∧
    (4 : Int) ∣ (size + 3) / 4 * 4 + 8 := by
  unfold toInt32
  refine ⟨by omega, by omega, by omega, by omega, ?_⟩
  exact ⟨(size + 3) / 4 + 2, by omega⟩

/-! ## The bound on the segment size -/

/-- A call of `WriteFrame` that returns 0, or that returns 1 for a stream
part, keeps the writer state; hence a call that does not return -1 either
keeps the writer state or has written a chunk of an AVI file. -/
theorem WriteFrame_no_error (t : TUVC) (f : uvc_frame) (env : FrameEnv)
    (h : (WriteFrame t f env).1 ≠ -1) :
    (WriteFrame t f env).2.avi = t.avi ∨ ((WriteFrame t f env).1 = 1 ∧ t.rbdStr = []) := by
  rcases WriteFrame_shape t f env with ⟨s1, _⟩ | ⟨_, _, _, _, _, s1, _, _, _, _, _, _, _, s9⟩
  · exact Or.inl s1
  · rcases s9 with s9 | s9
    · exact Or.inr ⟨s9, s1⟩
    · exact absurd s9 h

/-! ## The writer state after a start -/

theorem FinishRecording_zero (t : TUVC) (h : t.rchan = none → t.avi = AVI.zero) :
    (FinishRecording t).avi = AVI.zero ∧ (FinishRecording t).rchan = none ∧
    (FinishRecording t).rbdStr = [] := by
  cases hc : t.rchan with
  | none =>
    have e : FinishRecording t = { t with rbdStr := [] } := by
      unfold FinishRecording closeChannel
      simp [hc]
    rw [e]
    exact ⟨h hc, hc, rfl⟩
  | some c =>
    obtain ⟨cF, r, e, _⟩ := FinishRecording_release t c hc
    rw [e]
    exact ⟨rfl, rfl, rfl⟩

theorem setup_steps_counters (t : TUVC) (ufmt : UFMT) (doMJPG : Nat) (pos0 n0 : Int) :
    (writeStreamHeaders (initVideoHeader (writeMainHeader (initHeaders t ufmt doMJPG pos0))
      ufmt doMJPG n0)).avi.nframes = t.avi.nframes ∧
    (writeStreamHeaders (initVideoHeader (writeMainHeader (initHeaders t ufmt doMJPG pos0))
      ufmt doMJPG n0)).avi.totsize = t.avi.totsize ∧
    (writeStreamHeaders (initVideoHeader (writeMainHeader (initHeaders t ufmt doMJPG pos0))
      ufmt doMJPG n0)).avi.segsize = t.avi.segsize := by
  have h1 : ∀ x : TUVC, (writeStreamHeaders x).avi.nframes = x.avi.nframes ∧
      (writeStreamHeaders x).avi.totsize = x.avi.totsize ∧
      (writeStreamHeaders x).avi.segsize = x.avi.segsize := fun x => ⟨rfl, rfl, rfl⟩
  have h2 : ∀ x : TUVC, (initVideoHeader x ufmt doMJPG n0).avi.nframes = x.avi.nframes ∧
      (initVideoHeader x ufmt doMJPG n0).avi.totsize = x.avi.totsize ∧
      (initVideoHeader x ufmt doMJPG n0).avi.segsize = x.avi.segsize := fun x => ⟨rfl, rfl, rfl⟩
  have h3 : ∀ x : TUVC, (writeMainHeader x).avi.nframes = x.avi.nframes ∧
      (writeMainHeader x).avi.totsize = x.avi.totsize ∧
      (writeMainHeader x).avi.segsize = x.avi.segsize := fun x => ⟨rfl, rfl, rfl⟩
  have h4 : (initHeaders t ufmt doMJPG pos0).avi.nframes = t.avi.nframes ∧
      (initHeaders t ufmt doMJPG pos0).avi.totsize = t.avi.totsize ∧
      (initHeaders t ufmt doMJPG pos0).avi.segsize = t.avi.segsize := ⟨rfl, rfl, rfl⟩
  obtain ⟨a1, a2, a3⟩ := h1 (initVideoHeader (writeMainHeader (initHeaders t ufmt doMJPG pos0))
      ufmt doMJPG n0)
  obtain ⟨b1, b2, b3⟩ := h2 (writeMainHeader (initHeaders t ufmt doMJPG pos0))
  obtain ⟨c1, c2, c3⟩ := h3 (initHeaders t ufmt doMJPG pos0)
  obtain ⟨d1, d2, d3⟩ := h4
  exact ⟨a1.trans (b1.trans (c1.trans d1)), a2.trans (b2.trans (c2.trans d2)),
    a3.trans (b3.trans (c3.trans d3))⟩

theorem setupAVI_fresh (t : TUVC) (ufmt : UFMT) (doMJPG : Nat) (pos0 : Int) :
    (setupAVI t ufmt doMJPG pos0).avi.nframes = t.avi.nframes ∧
    (setupAVI t ufmt doMJPG pos0).avi.totsize = t.avi.totsize ∧
    (setupAVI t ufmt doMJPG pos0).avi.segsize = t.avi.segsize ∧
    (setupAVI t ufmt doMJPG pos0).avi.curr_idx = 0 ∧
    (setupAVI t ufmt doMJPG pos0).avi.num_idx = 0 ∧
    (setupAVI t ufmt doMJPG pos0).avi.idx = none ∧
    (setupAVI t ufmt doMJPG pos0).avi.idx_off = 4 := by
  rw [setupAVI_steps]
  obtain ⟨a1, a2, a3, _⟩ := WriteAVIHeader_false_fields (writeStreamHeaders (initVideoHeader
    (writeMainHeader (initHeaders t ufmt doMJPG pos0)) ufmt doMJPG
    (toInt32 (t.rrate.tv_sec * 1000000 + t.rrate.tv_usec))))
  obtain ⟨b1, b2, b3⟩ := setup_steps_counters t ufmt doMJPG pos0
    (toInt32 (t.rrate.tv_sec * 1000000 + t.rrate.tv_usec))
  unfold resetIndex
  exact ⟨a1.trans b1, a2.trans b2, a3.trans b3, rfl, rfl, rfl, rfl⟩

theorem setupAVI_keeps (t : TUVC) (ufmt : UFMT) (doMJPG : Nat) (pos0 : Int) :
    (setupAVI t ufmt doMJPG pos0).rbdStr = t.rbdStr ∧
    (setupAVI t ufmt doMJPG pos0).rchan.isSome = t.rchan.isSome := by
  obtain ⟨x, y, z, e, hc, _⟩ := setupAVI_ioStep t ufmt doMJPG pos0
  rw [e]
  exact ⟨rfl, hc⟩

theorem startTarget_session (t : TUVC) (d : Nat) :
    (startTarget t d).avi = t.avi ∧ (startTarget t d).rchan = t.rchan ∧
    (startTarget t d).rbdStr = t.rbdStr := by
  rw [startTarget_eq]
  exact ⟨rfl, rfl, rfl⟩

/-- The writer state `StartRecording` leaves for an AVI file, on any sink:
no boundary string, a channel, all counters 0, an empty index and the index
offset 4. It is assumed that the writer state is zeroed when no channel is set,
as it is after `open` and after every `FinishRecording`. -/
theorem beginRecording_fresh (t : TUVC) (ufmt : UFMT) (args : StartArgs) (chan : Channel)
    (pos0 : Int) (now : timeval) (h : t.rchan = none → t.avi = AVI.zero)
    (havi : (args.rbdStr.getD []).length = 0) :
    (beginRecording t ufmt args chan pos0 now).rbdStr = [] ∧
    (beginRecording t ufmt args chan pos0 now).rchan ≠ none ∧
    (beginRecording t ufmt args chan pos0 now).avi.nframes = 0 ∧
    (beginRecording t ufmt args chan pos0 now).avi.totsize = 0 ∧
    (beginRecording t ufmt args chan pos0 now).avi.segsize = 0 ∧
    (beginRecording t ufmt args chan pos0 now).avi.curr_idx = 0 ∧
    (beginRecording t ufmt args chan pos0 now).avi.num_idx = 0 ∧
    (beginRecording t ufmt args chan pos0 now).avi.idx = none ∧
    (beginRecording t ufmt args chan pos0 now).avi.idx_off = 4 := by
  obtain ⟨F, hF, z1, z2, z3⟩ : ∃ F, FinishRecording t = F ∧ F.avi = AVI.zero ∧
      F.rchan = none ∧ F.rbdStr = [] := ⟨_, rfl, FinishRecording_zero t h⟩
  unfold beginRecording
  dsimp only
  rw [hF, if_neg (by omega)]
  obtain ⟨S, hS, f1, f2, f3, f4, f5, f6, f7, k1, k2⟩ : ∃ S,
      setupAVI { F with rchan := some chan,
                        rrate := recordingInterval F.fps args.rateNum args.rateDen }
        ufmt args.doMJPG pos0 = S ∧
      S.avi.nframes = F.avi.nframes ∧ S.avi.totsize = F.avi.totsize ∧
      S.avi.segsize = F.avi.segsize ∧ S.avi.curr_idx = 0 ∧ S.avi.num_idx = 0 ∧
      S.avi.idx = none ∧ S.avi.idx_off = 4 ∧ S.rbdStr = F.rbdStr ∧
      S.rchan.isSome = true :=
    ⟨_, rfl, (setupAVI_fresh _ _ _ _).1, (setupAVI_fresh _ _ _ _).2.1,
      (setupAVI_fresh _ _ _ _).2.2.1, (setupAVI_fresh _ _ _ _).2.2.2.1,
      (setupAVI_fresh _ _ _ _).2.2.2.2.1, (setupAVI_fresh _ _ _ _).2.2.2.2.2.1,
      (setupAVI_fresh _ _ _ _).2.2.2.2.2.2, (setupAVI_keeps _ _ _ _).1,
      (setupAVI_keeps _ _ _ _).2⟩
  rw [hS]
  obtain ⟨s1, s2, s3⟩ := startTarget_session
    { S with rrate := reserve500 S.rrate, ltv := now, rtv := now } args.doUser
  rw [s1, s2, s3]
  dsimp only
  rw [z1] at f1 f2 f3
  refine ⟨k1.trans z3, ?_, f1, f2, f3, f4, f5, f6, f7⟩
  intro hn
  rw [hn] at k2
  exact absurd k2 (by simp)

theorem StartRecording_begin (s : TUVC) (args : StartArgs) (now : timeval) :
    (StartRecording s args now).1 = TCL_OK →
    ∃ ufmt chan pos0, (StartRecording s args now).2 = beginRecording s ufmt args chan pos0 now := by
  have ne : TCL_ERROR ≠ TCL_OK := by decide
  unfold StartRecording
  split
  · exact fun h => absurd h ne
  · split
    · exact fun h => absurd h ne
    · split
      · exact fun h => absurd h ne
      · split
        · exact fun h => absurd h ne
        · split
          · exact fun h => absurd h ne
          · split
            · split
              · exact fun h => absurd h ne
              · split
                · exact fun h => absurd h ne
                · exact fun _ => ⟨_, _, _, rfl⟩
            · split
              · exact fun h => absurd h ne
              · exact fun _ => ⟨_, _, _, rfl⟩

/-- The writer state after a successful `record start` for an AVI file. -/
theorem StartRecording_fresh (s : TUVC) (args : StartArgs) (now : timeval)
    (h : s.rchan = none → s.avi = AVI.zero)
    (hstart : (StartRecording s args now).1 = TCL_OK)
    (havi : (args.rbdStr.getD []).length = 0) :
    (StartRecording s args now).2.rbdStr = [] ∧
    (StartRecording s args now).2.rchan ≠ none ∧
    (StartRecording s args now).2.avi.nframes = 0 ∧
    (StartRecording s args now).2.avi.totsize = 0 ∧
    (StartRecording s args now).2.avi.segsize = 0 ∧
    (StartRecording s args now).2.avi.curr_idx = 0 ∧
    (StartRecording s args now).2.avi.num_idx = 0 ∧
    (StartRecording s args now).2.avi.idx = none ∧
    (StartRecording s args now).2.avi.idx_off = 4 := by
  obtain ⟨ufmt, chan, pos0, e⟩ := StartRecording_begin s args now hstart
  rw [e]
  exact beginRecording_fresh s ufmt args chan pos0 now h havi

/-! ## Accounting of the sizes -/

theorem chunkBytes_append (a b : List Nat) : chunkBytes (a ++ b) = chunkBytes a + chunkBytes b := by
  unfold chunkBytes
  rw [List.map_append, List.sum_append]

theorem chunkBytes_single (p : Nat) : chunkBytes [p] = 8 + p := by
  unfold chunkBytes
  simp

theorem chunkBytes_cons (p : Nat) (ps : List Nat) :
    chunkBytes (p :: ps) = 8 + p + chunkBytes ps := by
  unfold chunkBytes
  simp

theorem chunkBytes_dvd (ps : List Nat) (h : ∀ p ∈ ps, 4 ∣ p) : 4 ∣ chunkBytes ps := by
  induction ps with
  | nil => exact ⟨0, rfl⟩
  | cons p ps ih =>
    rw [chunkBytes_cons]
    obtain ⟨a, ha⟩ := h p (List.mem_cons_self _ _)
    obtain ⟨b, hb⟩ := ih (fun q hq => h q (List.mem_cons_of_mem _ hq))
    exact ⟨2 + a + b, by omega⟩

theorem openSegment_suffix (ps : List Nat) :
    ∀ acc, ∃ closed, acc ++ ps = closed ++ openSegment acc ps := by
  induction ps with
  | nil => exact fun acc => ⟨[], by simp [openSegment]⟩
  | cons p ps ih =>
    intro acc
    unfold openSegment
    split
    · obtain ⟨c, hc⟩ := ih []
      refine ⟨acc ++ [p] ++ c, ?_⟩
      rw [List.append_assoc (acc ++ [p]), ← hc]
      simp
    · obtain ⟨c, hc⟩ := ih (acc ++ [p])
      refine ⟨c, ?_⟩
      rw [← hc]
      simp

theorem paddedSize_dvd (n : Nat) : 4 ∣ paddedSize n := ⟨(n + 3) / 4, by unfold paddedSize; omega⟩

theorem writtenPadded_dvd (fes : List (uvc_frame × FrameEnv)) :
    ∀ (t : TUVC), ∀ p ∈ writtenPadded t fes, 4 ∣ p := by
  induction fes with
  | nil => exact fun t p hp => absurd hp (List.not_mem_nil _)
  | cons fe rest ih =>
    intro t p hp
    unfold writtenPadded at hp
    rcases List.mem_append.mp hp with h | h
    · split at h
      · rw [List.mem_singleton.mp h]
        exact paddedSize_dvd _
      · exact absurd h (List.not_mem_nil _)
    · exact ih _ p h

theorem chunkSize_padded (t : TUVC) (f fr : uvc_frame) (env : FrameEnv) (size : Int)
    (hfit : sizesFit f env) (h : aviFrameSize t f env = some (fr, size)) :
    chunkSize t f env = ((8 + paddedSize (payloadSize t f env) : Nat) : Int) := by
  obtain ⟨h0, h3⟩ := aviFrameSize_fit t f fr env size hfit h
  obtain ⟨e1, _⟩ := sizea_fit size h0 h3
  rw [chunkSize_eq t f fr env size h, e1]
  unfold payloadSize paddedSize
  rw [h]
  dsimp only
  omega

theorem WriteFrame_one_sel (t : TUVC) (f : uvc_frame) (env : FrameEnv)
    (h1 : (WriteFrame t f env).1 = 1) (hb : t.rbdStr = []) :
    ∃ fr size, aviFrameSize t f env = some (fr, size) := by
  rcases WriteFrame_shape t f env with ⟨_, s2⟩ | ⟨fr, size, _, _, _, _, _, s3, _⟩
  · exact absurd hb (s2 h1)
  · exact ⟨fr, size, s3⟩

theorem WriteFrame_rbdStr (t : TUVC) (f : uvc_frame) (env : FrameEnv) :
    (WriteFrame t f env).2.rbdStr = t.rbdStr := by
  obtain ⟨a, b, c, d, e, h, _⟩ := WriteFrame_recStep t f env
  rw [h]

/-- The sizes of a written chunk in natural numbers: a call of `WriteFrame`
that returns 1 for a frame whose sizes fit adds `8 + paddedSize payload` to the
total size, and to the segment size unless the segment is closed. -/
theorem WriteFrame_written_nat (t : TUVC) (f : uvc_frame) (env : FrameEnv)
    (hfit : sizesFit f env) (h1 : (WriteFrame t f env).1 = 1) (hb : t.rbdStr = []) :
    (WriteFrame t f env).2.avi.nframes = t.avi.nframes + 1 ∧
    (WriteFrame t f env).2.avi.totsize =
      t.avi.totsize + ((8 + paddedSize (payloadSize t f env) : Nat) : Int) ∧
    (t.avi.segsize + ((8 + paddedSize (payloadSize t f env) : Nat) : Int) > 0x7F000000 →
      (WriteFrame t f env).2.avi.segsize = 0) ∧
    (¬ t.avi.segsize + ((8 + paddedSize (payloadSize t f env) : Nat) : Int) > 0x7F000000 →
      (WriteFrame t f env).2.avi.segsize =
        t.avi.segsize + ((8 + paddedSize (payloadSize t f env) : Nat) : Int)) := by
  obtain ⟨fr, size, hsel⟩ := WriteFrame_one_sel t f env h1 hb
  obtain ⟨w1, w2, _, w4, w5⟩ := WriteFrame_written t f env h1 hb
  rw [chunkSize_padded t f fr env size hfit hsel] at w2 w4 w5
  exact ⟨w1, w2, fun h => (w4 h).1, w5⟩

theorem session_sizes (fes : List (uvc_frame × FrameEnv)) :
    ∀ (t : TUVC) (acc : List Nat) (T N : Nat), t.rbdStr = [] →
      t.avi.segsize = (chunkBytes acc : Int) → t.avi.totsize = (T : Int) →
      t.avi.nframes = (N : Int) →
      (∀ fe ∈ fes, sizesFit fe.1 fe.2) → anyWriteError t fes = false →
      (recordAll t fes).rbdStr = [] ∧
      (recordAll t fes).avi.totsize = ((T + chunkBytes (writtenPadded t fes) : Nat) : Int) ∧
      (recordAll t fes).avi.segsize =
        ((chunkBytes (openSegment acc (writtenPadded t fes)) : Nat) : Int) ∧
      (recordAll t fes).avi.nframes = ((N + (writtenPadded t fes).length : Nat) : Int) := by
  induction fes with
  | nil =>
    intro t acc T N hb hs ht hn _ _
    exact ⟨hb, by simpa [writtenPadded, recordAll, chunkBytes] using ht,
      by simpa [writtenPadded, recordAll, openSegment] using hs,
      by simpa [writtenPadded, recordAll] using hn⟩
  | cons fe rest ih =>
    intro t acc T N hb hs ht hn hfit hok
    unfold anyWriteError at hok
    rw [Bool.or_eq_false_iff] at hok
    obtain ⟨hok1, hok2⟩ := hok
    have hne : (WriteFrame t fe.1 fe.2).1 ≠ -1 := by
      intro h
      rw [h] at hok1
      exact absurd hok1 (by decide)
    have hb2 : (WriteFrame t fe.1 fe.2).2.rbdStr = [] := (WriteFrame_rbdStr _ _ _).trans hb
    have hfit2 : ∀ fe2 ∈ rest, sizesFit fe2.1 fe2.2 :=
      fun fe2 h => hfit fe2 (List.mem_cons_of_mem _ h)
    unfold recordAll writtenPadded
    by_cases h1 : (WriteFrame t fe.1 fe.2).1 = 1
    · obtain ⟨w1, w2, w3, w4⟩ := WriteFrame_written_nat t fe.1 fe.2
        (hfit fe (List.mem_cons_self _ _)) h1 hb
      rw [if_pos h1]
      by_cases hgt : chunkBytes (acc ++ [paddedSize (payloadSize t fe.1 fe.2)]) > 0x7F000000
      · have hgt2 : t.avi.segsize + ((8 + paddedSize (payloadSize t fe.1 fe.2) : Nat) : Int)
            > 0x7F000000 := by
          rw [chunkBytes_append, chunkBytes_single] at hgt
          rw [hs]
          omega
        obtain ⟨r1, r2, r3, r4⟩ := ih (WriteFrame t fe.1 fe.2).2 []
          (T + (8 + paddedSize (payloadSize t fe.1 fe.2))) (N + 1) hb2
          (by rw [w3 hgt2]; rfl) (by rw [w2, ht]; push_cast; ring)
          (by rw [w1, hn]; push_cast; ring) hfit2 hok2
        refine ⟨r1, ?_, ?_, ?_⟩
        · rw [r2, List.singleton_append, chunkBytes_cons]
          push_cast
          ring
        · rw [r3, List.singleton_append]
          conv_rhs => unfold openSegment
          rw [if_pos hgt]
        · rw [r4, List.singleton_append, List.length_cons]
          push_cast
          ring
      · have hgt2 : ¬ t.avi.segsize + ((8 + paddedSize (payloadSize t fe.1 fe.2) : Nat) : Int)
            > 0x7F000000 := by
          rw [chunkBytes_append, chunkBytes_single] at hgt
          rw [hs]
          omega
        obtain ⟨r1, r2, r3, r4⟩ := ih (WriteFrame t fe.1 fe.2).2
          (acc ++ [paddedSize (payloadSize t fe.1 fe.2)])
          (T + (8 + paddedSize (payloadSize t fe.1 fe.2))) (N + 1) hb2
          (by rw [w4 hgt2, hs, chunkBytes_append, chunkBytes_single]; push_cast; ring)
          (by rw [w2, ht]; push_cast; ring)
          (by rw [w1, hn]; push_cast; ring) hfit2 hok2
        refine ⟨r1, ?_, ?_, ?_⟩
        · rw [r2, List.singleton_append, chunkBytes_cons]
          push_cast
          ring
        · rw [r3, List.singleton_append]
          conv_rhs => unfold openSegment
          rw [if_neg hgt]
        · rw [r4, List.singleton_append, List.length_cons]
          push_cast
          ring
    · have hk : (WriteFrame t fe.1 fe.2).2.avi = t.avi := by
        rcases WriteFrame_no_error t fe.1 fe.2 hne with hk | ⟨h, _⟩
        · exact hk
        · exact absurd h h1
      rw [if_neg h1, List.nil_append]
      exact ih (WriteFrame t fe.1 fe.2).2 acc T N hb2 (by rw [hk]; exact hs)
        (by rw [hk]; exact ht) (by rw [hk]; exact hn) hfit2 hok2

/-- C25 (amended). An AVI recording is started with `record start` (any sink)
and frames whose sizes fit are handed to `WriteFrame`; no call has returned
-1. Then the total size is the sum of `8 + padded payload size` over the frames
written so far (result 1), over all segments; the segment size is the same sum
over the frames written since the last rotation, where a segment is closed
after the chunk with which it exceeds 0x7F000000; the written chunks are those
of the closed segments followed by those of the open one, so the total size is
the segment size plus the sizes of the closed segments; both sizes are multiples
of 4; and a further call that writes a frame leaves the segment size 0 exactly
when the segment with the new chunk exceeds 0x7F000000, which is when it
rotates. -/
theorem C25_size_accounting (s : TUVC) (args : StartArgs) (now : timeval)
    (fes : List (uvc_frame × FrameEnv))
    (hs : s.rchan = none → s.avi = AVI.zero)
    (hstart : (StartRecording s args now).1 = TCL_OK)
    (havi : (args.rbdStr.getD []).length = 0)
    (hfit : ∀ fe ∈ fes, sizesFit fe.1 fe.2)
    (hok : anyWriteError (StartRecording s args now).2 fes = false) :
    (recordAll (StartRecording s args now).2 fes).avi.totsize =
      chunkBytes (writtenPadded (StartRecording s args now).2 fes) ∧
    (recordAll (StartRecording s args now).2 fes).avi.segsize =
      chunkBytes (openSegment [] (writtenPadded (StartRecording s args now).2 fes)) ∧
    (∃ closed, writtenPadded (StartRecording s args now).2 fes =
        closed ++ openSegment [] (writtenPadded (StartRecording s args now).2 fes) ∧
      (recordAll (StartRecording s args now).2 fes).avi.totsize =
        chunkBytes closed + (recordAll (StartRecording s args now).2 fes).avi.segsize) ∧
    (4 : Int) ∣ (recordAll (StartRecording s args now).2 fes).avi.totsize ∧
    (4 : Int) ∣ (recordAll (StartRecording s args now).2 fes).avi.segsize ∧
    ∀ f env, sizesFit f env →
      (WriteFrame (recordAll (StartRecording s args now).2 fes) f env).1 = 1 →
      ((WriteFrame (recordAll (StartRecording s args now).2 fes) f env).2.avi.segsize = 0 ↔
        (recordAll (StartRecording s args now).2 fes).avi.segsize +
          ((8 + paddedSize (payloadSize (recordAll (StartRecording s args now).2 fes) f env)
            : Nat) : Int) > 0x7F000000) := by
  obtain ⟨f1, _, f3, f4, f5, _⟩ := StartRecording_fresh s args now hs hstart havi
  obtain ⟨r1, r2, r3, _⟩ := session_sizes fes (StartRecording s args now).2 [] 0 0 f1
    (by rw [f5]; rfl) (by rw [f4]; rfl) (by rw [f3]; rfl) hfit hok
  rw [Nat.zero_add] at r2
  obtain ⟨closed, hcl⟩ := openSegment_suffix (writtenPadded (StartRecording s args now).2 fes) []
  rw [List.nil_append] at hcl
  have hd := writtenPadded_dvd fes (StartRecording s args now).2
  refine ⟨r2, r3, ⟨closed, hcl, ?_⟩, ?_, ?_, ?_⟩
  · rw [r2, r3]
    conv_lhs => rw [hcl, chunkBytes_append]
    push_cast
    ring
  · rw [r2]
    exact Int.natCast_dvd_natCast.mpr (chunkBytes_dvd _ hd)
  · rw [r3]
    refine Int.natCast_dvd_natCast.mpr (chunkBytes_dvd _ (fun p hp => hd p ?_))
    rw [hcl]
    exact List.mem_append_right _ hp
  · intro f env hf h1
    obtain ⟨_, _, w3, w4⟩ := WriteFrame_written_nat _ f env hf h1 r1
    constructor
    · intro h0
      by_contra hgt
      rw [w4 hgt, r3] at h0
      omega
    · exact w3

/-- Witness of C25 (amended): `record start -chan c -fps 10` at time 0 while
capture runs, two frames of 4 payload bytes at 100 ms and 200 ms. Both are
written; total size and segment size are 24. -/
theorem C25_size_accounting_witness :
    writtenPadded (StartRecording capturingFmt (aviStart emptyChannel 10) (atMicros 0)).2
      [liveFrame 100000 100000 0, liveFrame 100000 100000 1] = [4, 4] ∧
    (recordAll (StartRecording capturingFmt (aviStart emptyChannel 10) (atMicros 0)).2
      [liveFrame 100000 100000 0, liveFrame 100000 100000 1]).avi.totsize =
      chunkBytes (writtenPadded
        (StartRecording capturingFmt (aviStart emptyChannel 10) (atMicros 0)).2
        [liveFrame 100000 100000 0, liveFrame 100000 100000 1]) ∧
    (recordAll (StartRecording capturingFmt (aviStart emptyChannel 10) (atMicros 0)).2
      [liveFrame 100000 100000 0, liveFrame 100000 100000 1]).avi.segsize =
      chunkBytes (openSegment [] (writtenPadded
        (StartRecording capturingFmt (aviStart emptyChannel 10) (atMicros 0)).2
        [liveFrame 100000 100000 0, liveFrame 100000 100000 1])) ∧
    (recordAll (StartRecording capturingFmt (aviStart emptyChannel 10) (atMicros 0)).2
      [liveFrame 100000 100000 0, liveFrame 100000 100000 1]).avi.totsize = 24 :=
  have h := C25_size_accounting capturingFmt (aviStart emptyChannel 10) (atMicros 0)
    [liveFrame 100000 100000 0, liveFrame 100000 100000 1]
    (fun _ => by decide) (by decide) (by decide)
    (fun fe hfe => by
      simp only [List.mem_cons, List.mem_singleton, List.not_mem_nil, or_false] at hfe
      rcases hfe with rfl | rfl
      · exact ⟨by decide, by decide, fun d hd => by
          cases hd
          decide⟩
      · exact ⟨by decide, by decide, fun d hd => by
          cases hd
          decide⟩)
    (by decide)
  ⟨by decide, h.1, h.2.1, by decide⟩

/-- C25 (counterexample). `record start` on a sink that accepts the header
block and nothing afterwards; the first frame is handed to `WriteFrame` at
100 ms. The call returns -1, the sink keeps its 240 bytes of header and no
frame counts as written, but the total size and the segment size are 12 and
the frame count is 1. -/
theorem C25_counterexample :
    (StartRecording capturingFmt (aviStart fullChannel 10) (atMicros 0)).1 = TCL_OK ∧
    (StartRecording capturingFmt (aviStart fullChannel 10) (atMicros 0)).2.avi.totsize = 0 ∧
    (WriteFrame (StartRecording capturingFmt (aviStart fullChannel 10) (atMicros 0)).2
      (sampleFrame 1 100000) (wallClock 100000)).1 = -1 ∧
    (WriteFrame (StartRecording capturingFmt (aviStart fullChannel 10) (atMicros 0)).2
      (sampleFrame 1 100000) (wallClock 100000)).2.rchan.map (fun c => c.bytes.length) =
      some 240 ∧
    (StartRecording capturingFmt (aviStart fullChannel 10) (atMicros 0)).2.rchan.map
      (fun c => c.bytes.length) = some 240 ∧
    writtenPadded (StartRecording capturingFmt (aviStart fullChannel 10) (atMicros 0)).2
      [(sampleFrame 1 100000, wallClock 100000)] = [] ∧
    (WriteFrame (StartRecording capturingFmt (aviStart fullChannel 10) (atMicros 0)).2
      (sampleFrame 1 100000) (wallClock 100000)).2.avi.totsize = 12 ∧
    (WriteFrame (StartRecording capturingFmt (aviStart fullChannel 10) (atMicros 0)).2
      (sampleFrame 1 100000) (wallClock 100000)).2.avi.segsize = 12 ∧
    (WriteFrame (StartRecording capturingFmt (aviStart fullChannel 10) (atMicros 0)).2
      (sampleFrame 1 100000) (wallClock 100000)).2.avi.nframes = 1 :=
  ⟨by decide, by decide, by decide, by decide, by decide, by decide, by decide, by decide,
    by decide⟩

/-! ## The index buffer -/

theorem takeD_take_head {α : Type} (z : α) (k : Nat) :
    ∀ (n : Nat) (b : List α), k ≤ n → k ≤ b.length → (List.takeD n b z).take k = b.take k := by
  induction k with
  | zero => intro n b _ _; rfl
  | succ k ih =>
    intro n b hn hb
    cases n with
    | zero => omega
    | succ n =>
      cases b with
      | nil => simp at hb
      | cons a b =>
        show List.take (k + 1) (a :: List.takeD n b z) = List.take (k + 1) (a :: b)
        rw [List.take_succ_cons, List.take_succ_cons, ih n b (by omega) (by simpa using hb)]

theorem take_set_succ {α : Type} (e : α) :
    ∀ (k : Nat) (b : List α), k < b.length → (b.set k e).take (k + 1) = b.take k ++ [e] := by
  intro k
  induction k with
  | zero =>
    intro b hb
    cases b with
    | nil => simp at hb
    | cons a b => simp
  | succ k ih =>
    intro b hb
    cases b with
    | nil => simp at hb
    | cons a b =>
      have hb2 : k < b.length := by simpa using hb
      show List.take (k + 1 + 1) (a :: b.set k e) = List.take (k + 1) (a :: b) ++ [e]
      rw [List.take_succ_cons, List.take_succ_cons, ih b hb2]
      rfl

theorem indexBounds_of_eq (a b : AVI) (h1 : b.curr_idx = a.curr_idx)
    (h2 : b.num_idx = a.num_idx) (h3 : b.idx = a.idx) (h : indexBounds a) : indexBounds b := by
  unfold indexBounds at *
  rw [h1, h2, h3]
  exact h

theorem indexBounds_empty (a : AVI) (h : indexEmpty a) : indexBounds a := by
  obtain ⟨h1, h2, h3⟩ := h
  unfold indexBounds
  rw [h1, h2, h3]
  refine ⟨le_refl _, le_refl _, ⟨0, rfl⟩, ?_, ?_⟩
  · constructor
    · intro h
      cases h
    · intro h
      exact absurd h (by decide)
  · intro buf hb
    cases hb

theorem indexInv_zero (t : TUVC) (h : t.avi = AVI.zero) : indexInv t := by
  refine ⟨indexBounds_empty _ ?_, fun _ => h⟩
  rw [h]
  exact ⟨rfl, rfl, rfl⟩

theorem addIndexEntry_grow (t : TUVC) (sizea : Int) (env : FrameEnv)
    (h : t.avi.curr_idx ≥ t.avi.num_idx) (hr : env.reallocOk = true) :
    addIndexEntry t sizea env =
      { t with avi := { t.avi with
          num_idx := t.avi.num_idx + 512,
          idx := some ((List.takeD (t.avi.num_idx + 512).toNat (t.avi.idx.getD [])
            AVI_IDX.zero).set t.avi.curr_idx.toNat
              { id := hdr0.id, flags := PUT32LE 0, offset := PUT32LE t.avi.idx_off,
                size := PUT32LE sizea }),
          curr_idx := t.avi.curr_idx + 1,
          idx_off := toInt32 (t.avi.idx_off + (sizea + sizeof_CHUNK_HDR)) } } := by
  unfold addIndexEntry
  dsimp only
  rw [if_pos h, if_pos hr]

theorem addIndexEntry_fail (t : TUVC) (sizea : Int) (env : FrameEnv)
    (h : t.avi.curr_idx ≥ t.avi.num_idx) (hr : env.reallocOk = false) :
    addIndexEntry t sizea env =
      { t with avi := { t.avi with curr_idx := 0, num_idx := 0, idx := none } } := by
  unfold addIndexEntry
  dsimp only
  rw [if_pos h, if_neg (by rw [hr]; decide)]

theorem addIndexEntry_room (t : TUVC) (sizea : Int) (env : FrameEnv) (buf : List AVI_IDX)
    (h : ¬ t.avi.curr_idx ≥ t.avi.num_idx) (hI : t.avi.idx = some buf) :
    addIndexEntry t sizea env =
      { t with avi := { t.avi with
          idx := some (buf.set t.avi.curr_idx.toNat
              { id := hdr0.id, flags := PUT32LE 0, offset := PUT32LE t.avi.idx_off,
                size := PUT32LE sizea }),
          curr_idx := t.avi.curr_idx + 1,
          idx_off := toInt32 (t.avi.idx_off + (sizea + sizeof_CHUNK_HDR)) } } := by
  unfold addIndexEntry
  dsimp only
  rw [if_neg h]
  simp only [hI]

/-- The index update of `WriteFrame` on an index within its bounds: either the
buffer was exhausted and the allocation failed, and the index is empty
afterwards; or one entry was stored at the position of the old fill count,
which is inside the buffer, the fill count advanced by 1, the entries before
are kept, and the allocated count is unchanged or, when the buffer was
exhausted, larger by 512. -/
theorem addIndexEntry_index (t : TUVC) (sizea : Int) (env : FrameEnv) (k : Nat)
    (hk : t.avi.curr_idx = (k : Int)) (hb : indexBounds t.avi) :
    (env.reallocOk = false ∧ t.avi.curr_idx = t.avi.num_idx ∧
      indexEmpty (addIndexEntry t sizea env).avi ∧
      (addIndexEntry t sizea env).avi.idx_off = t.avi.idx_off) ∨
    ∃ buf, (addIndexEntry t sizea env).avi.idx = some buf ∧
      (addIndexEntry t sizea env).avi.curr_idx = (k : Int) + 1 ∧
      (buf.length : Int) = (addIndexEntry t sizea env).avi.num_idx ∧
      k < buf.length ∧
      (((addIndexEntry t sizea env).avi.num_idx = t.avi.num_idx ∧
          t.avi.curr_idx < t.avi.num_idx) ∨
        ((addIndexEntry t sizea env).avi.num_idx = t.avi.num_idx + 512 ∧
          t.avi.curr_idx = t.avi.num_idx ∧ env.reallocOk = true)) ∧
      buf.take (k + 1) = (t.avi.idx.getD []).take k ++
        [{ id := ascii "00db", flags := PUT32LE 0, offset := PUT32LE t.avi.idx_off,
           size := PUT32LE sizea }] ∧
      (addIndexEntry t sizea env).avi.idx_off = toInt32 (t.avi.idx_off + (sizea + 8)) := by
  obtain ⟨b1, b2, b3, b4, b5⟩ := hb
  have hkN : t.avi.curr_idx.toNat = k := by rw [hk]; rfl
  by_cases hge : t.avi.curr_idx ≥ t.avi.num_idx
  · have hcn : t.avi.curr_idx = t.avi.num_idx := le_antisymm b2 hge
    cases hr : env.reallocOk with
    | false =>
      left
      rw [addIndexEntry_fail t sizea env hge hr]
      exact ⟨rfl, hcn, ⟨rfl, rfl, rfl⟩, rfl⟩
    | true =>
      right
      rw [addIndexEntry_grow t sizea env hge hr, hkN]
      have hlen : (t.avi.idx.getD []).length = k := by
        cases hI : t.avi.idx with
        | none =>
          have hz : ¬ 0 < t.avi.num_idx := fun h => by
            have := b4.mpr h
            rw [hI] at this
            cases this
          show (0 : Nat) = k
          omega
        | some buf =>
          have := (b5 buf hI).1
          show buf.length = k
          omega
      have hn : (t.avi.num_idx + 512).toNat = k + 512 := by omega
      rw [hn]
      refine ⟨_, rfl, by rw [hk], ?_, ?_, Or.inr ⟨rfl, hcn, rfl⟩, ?_, rfl⟩
      · rw [List.length_set, List.takeD_length]
        show ((k + 512 : Nat) : Int) = t.avi.num_idx + 512
        omega
      · rw [List.length_set, List.takeD_length]
        omega
      · rw [take_set_succ _ _ _ (by rw [List.takeD_length]; omega),
          takeD_take_head _ _ _ _ (by omega) (by omega)]
        rfl
  · right
    have hlt : t.avi.curr_idx < t.avi.num_idx := not_le.mp hge
    have hpos : 0 < t.avi.num_idx := lt_of_le_of_lt b1 hlt
    obtain ⟨buf, hI⟩ := Option.isSome_iff_exists.mp (b4.mpr hpos)
    obtain ⟨hl, _⟩ := b5 buf hI
    rw [addIndexEntry_room t sizea env buf hge hI, hkN]
    refine ⟨_, rfl, by rw [hk], ?_, ?_, Or.inl ⟨rfl, hlt⟩, ?_, rfl⟩
    · rw [List.length_set]
      exact hl
    · rw [List.length_set]
      omega
    · rw [take_set_succ _ _ _ (by omega), hI]
      rfl

theorem addIndexEntry_bounds (t : TUVC) (sizea : Int) (env : FrameEnv)
    (hb : indexBounds t.avi) : indexBounds (addIndexEntry t sizea env).avi := by
  have hk : t.avi.curr_idx = (t.avi.curr_idx.toNat : Int) := by
    have := hb.1
    omega
  rcases addIndexEntry_index t sizea env t.avi.curr_idx.toNat hk hb with
    ⟨_, _, he, _⟩ | ⟨buf, i1, i2, i3, i4, i5, i6, _⟩
  · exact indexBounds_empty _ he
  · obtain ⟨b1, b2, b3, b4, b5⟩ := hb
    unfold indexBounds
    rw [i1, i2, ← i3]
    refine ⟨by omega, by omega, ?_, ?_, ?_⟩
    · rw [i3]
      rcases i5 with ⟨e, _⟩ | ⟨e, _, _⟩
      · rw [e]
        exact b3
      · rw [e]
        exact dvd_add b3 ⟨1, rfl⟩
    · constructor
      · intro _
        omega
      · intro _
        rfl
    · intro buf2 hb2
      cases hb2
      refine ⟨rfl, fun e he => ?_⟩
      have e1 : ((t.avi.curr_idx.toNat : Int) + 1).toNat = t.avi.curr_idx.toNat + 1 := by omega
      rw [e1, i6] at he
      rcases List.mem_append.mp he with h | h
      · cases hI : t.avi.idx with
        | none =>
          rw [hI] at h
          simp at h
        | some b0 =>
          rw [hI] at h
          exact (b5 b0 hI).2 e h
      · rw [List.mem_singleton.mp h]

/-! ## The index across a call of the writer -/

theorem indexStep_keep (a b : AVI) (h1 : b.curr_idx = a.curr_idx) (h2 : b.num_idx = a.num_idx)
    (h3 : b.idx = a.idx) : indexStep a b :=
  ⟨Or.inl h2, Or.inl ⟨h1, h3⟩⟩

theorem indexStep_empty (a b : AVI) (h : indexEmpty b) : indexStep a b :=
  ⟨Or.inr (Or.inl h), Or.inr (Or.inl h)⟩

theorem take_succ_getD (buf old : List AVI_IDX) (k : Nat) (e : AVI_IDX)
    (h : buf.take (k + 1) = old.take k ++ [e]) (hlen : (old.take k).length = k) :
    buf.getD k AVI_IDX.zero = e := by
  have h1 : (buf.take (k + 1)).getD k AVI_IDX.zero = e := by
    rw [h, List.getD_append_right _ _ _ _ (by rw [hlen]), hlen, Nat.sub_self]
    rfl
  rw [← h1, List.getD_eq_getElem?_getD, List.getD_eq_getElem?_getD, List.getElem?_take]
  simp

theorem addIndexEntry_step (t : TUVC) (sizea : Int) (env : FrameEnv)
    (hb : indexBounds t.avi) : indexStep t.avi (addIndexEntry t sizea env).avi := by
  have hk : t.avi.curr_idx = (t.avi.curr_idx.toNat : Int) := by
    have := hb.1
    omega
  rcases addIndexEntry_index t sizea env t.avi.curr_idx.toNat hk hb with
    ⟨_, _, he, _⟩ | ⟨buf, i1, i2, i3, i4, i5, i6, _⟩
  · exact indexStep_empty _ _ he
  · obtain ⟨b1, b2, b3, b4, b5⟩ := hb
    refine ⟨?_, Or.inr (Or.inr ⟨by rw [i2, ← hk], buf, i1, by omega, i3, ?_⟩)⟩
    · rcases i5 with ⟨e, _⟩ | ⟨e, e2, _⟩
      · exact Or.inl e
      · exact Or.inr (Or.inr ⟨e, e2⟩)
    · have hlen : ((t.avi.idx.getD []).take t.avi.curr_idx.toNat).length =
          t.avi.curr_idx.toNat := by
        rw [List.length_take]
        cases hI : t.avi.idx with
        | none =>
          have hz : ¬ 0 < t.avi.num_idx := fun h => by
            have := b4.mpr h
            rw [hI] at this
            cases this
          show min t.avi.curr_idx.toNat 0 = _
          omega
        | some b0 =>
          have := (b5 b0 hI).1
          show min t.avi.curr_idx.toNat b0.length = _
          omega
      rw [take_succ_getD buf _ _ _ i6 hlen]

theorem accountChunk_index (w : TUVC) (size sizea fw : Int) (env : FrameEnv)
    (hb : indexBounds w.avi) :
    indexBounds (accountChunk w size sizea fw env).avi ∧
    indexStep w.avi (accountChunk w size sizea fw env).avi := by
  unfold accountChunk
  dsimp only
  split
  · split
    · exact ⟨indexBounds_empty _ ⟨rfl, rfl, rfl⟩, indexStep_empty _ _ ⟨rfl, rfl, rfl⟩⟩
    · split
      · have hb3 : indexBounds ({ w with avi := { w.avi with
            nframes := w.avi.nframes + 1,
            totsize := w.avi.totsize + (sizea + sizeof_CHUNK_HDR),
            segsize := w.avi.segsize + (sizea + sizeof_CHUNK_HDR) } } : TUVC).avi :=
          indexBounds_of_eq w.avi _ rfl rfl rfl hb
        exact ⟨addIndexEntry_bounds _ sizea env hb3, addIndexEntry_step _ sizea env hb3⟩
      · exact ⟨indexBounds_of_eq w.avi _ rfl rfl rfl hb, indexStep_keep _ _ rfl rfl rfl⟩
  · exact ⟨indexBounds_of_eq w.avi _ rfl rfl rfl hb, indexStep_keep _ _ rfl rfl rfl⟩

/-- A call of `WriteFrame` keeps the index within its bounds and changes it by
one step: nothing, a reset, or one stored entry, with the allocated count
growing by 512 when the buffer was exhausted. -/
theorem WriteFrame_index (t : TUVC) (f : uvc_frame) (env : FrameEnv)
    (hb : indexBounds t.avi) :
    indexBounds (WriteFrame t f env).2.avi ∧ indexStep t.avi (WriteFrame t f env).2.avi := by
  rcases WriteFrame_shape t f env with ⟨s1, _⟩ | ⟨fr, size, w, fw, d, _, _, _, s4, _, _, s7, _, _⟩
  · rw [s1]
    exact ⟨hb, indexStep_keep _ _ rfl rfl rfl⟩
  · rw [s7, averageRate_fields]
    obtain ⟨a1, a2⟩ := accountChunk_index w size (toInt32 (size + 3) / 4 * 4) fw env
      (by rw [s4]; exact hb)
    rw [s4] at a2
    exact ⟨indexBounds_of_eq _ _ rfl rfl rfl a1, a2⟩

theorem WriteFrame_rchan (t : TUVC) (f : uvc_frame) (env : FrameEnv) :
    (WriteFrame t f env).2.rchan.isSome = t.rchan.isSome := by
  obtain ⟨a, b, c, d, e, h, hc, _⟩ := WriteFrame_recStep t f env
  rw [h]
  exact hc

theorem WriteFrame_no_channel (t : TUVC) (f : uvc_frame) (env : FrameEnv)
    (h : t.rchan = none) : (WriteFrame t f env).2.avi = t.avi := by
  rcases WriteFrame_shape t f env with ⟨s1, _⟩ | ⟨_, _, _, _, _, _, s2, _⟩
  · exact s1
  · exact absurd h s2

theorem indexInv_WriteFrame (t : TUVC) (f : uvc_frame) (env : FrameEnv) (h : indexInv t) :
    indexInv (WriteFrame t f env).2 := by
  refine ⟨(WriteFrame_index t f env h.1).1, fun hn => ?_⟩
  have hc := WriteFrame_rchan t f env
  rw [hn] at hc
  have ht : t.rchan = none := by
    cases hq : t.rchan with
    | none => rfl
    | some c =>
      rw [hq] at hc
      simp at hc
  rw [WriteFrame_no_channel t f env ht]
  exact h.2 ht

/-! ## The invariant of the index -/

theorem indexInv_keep (t u : TUVC) (ha : u.avi = t.avi) (hc : u.rchan = t.rchan)
    (h : indexInv t) : indexInv u := by
  unfold indexInv at *
  rw [ha, hc]
  exact h

theorem publish_session (t : TUVC) (f : uvc_frame) :
    (publish t f).avi = t.avi ∧ (publish t f).rchan = t.rchan := by
  unfold publish
  cases t.frame <;> dsimp only <;> split <;> exact ⟨rfl, rfl⟩

theorem indexInv_recordInline (t : TUVC) (f : uvc_frame) (env : FrameEnv) (h : indexInv t) :
    indexInv (recordInline t f env) := by
  unfold recordInline
  split
  · exact indexInv_WriteFrame t f env h
  · exact h

theorem indexInv_FrameCallback (t : TUVC) (f : uvc_frame) (env : CallbackEnv)
    (h : indexInv t) : indexInv (FrameCallback t f env) := by
  unfold FrameCallback
  split
  · exact h
  · split
    · exact indexInv_recordInline t f env.wf h
    · exact indexInv_keep _ _ (publish_session _ _).1 (publish_session _ _).2
        (indexInv_recordInline t f env.wf h)

theorem StopCapture_session (t : TUVC) :
    (StopCapture t).2.avi = t.avi ∧ (StopCapture t).2.rchan = t.rchan := by
  unfold StopCapture
  dsimp only
  split
  · split
    · exact ⟨rfl, rfl⟩
    · split <;> exact ⟨rfl, rfl⟩
  · exact ⟨rfl, rfl⟩

theorem StartCapture_session (t : TUVC) (env : CaptureEnv) :
    (StartCapture t env).2.avi = t.avi ∧ (StartCapture t env).2.rchan = t.rchan := by
  unfold StartCapture
  split
  · exact ⟨rfl, rfl⟩
  · split
    · exact ⟨rfl, rfl⟩
    · dsimp only
      split
      · exact ⟨rfl, rfl⟩
      · split
        · exact ⟨rfl, rfl⟩
        · split <;> exact ⟨rfl, rfl⟩

theorem indexInv_FinishRecording (t : TUVC) (h : indexInv t) : indexInv (FinishRecording t) :=
  indexInv_zero _ (FinishRecording_zero t h.2).1

theorem getImageDone_session (t : TUVC) (fr : Option uvc_frame) (d : Bool) (r : Int) :
    (getImageDone t fr d r).2.2.avi = t.avi ∧ (getImageDone t fr d r).2.2.rchan = t.rchan := by
  unfold getImageDone
  cases fr <;> cases t.frame <;> cases d <;> exact ⟨rfl, rfl⟩

theorem getImageDeliver_session (t : TUVC) (f : uvc_frame) (env : ImageEnv) :
    (getImageDeliver t f env).2.2.avi = t.avi ∧
    (getImageDeliver t f env).2.2.rchan = t.rchan := by
  unfold getImageDeliver
  split
  · split
    · exact getImageDone_session _ _ _ _
    · split <;> exact getImageDone_session _ _ _ _
  · exact getImageDone_session _ _ _ _

theorem GetImage_session (t : TUVC) (env : ImageEnv) :
    (GetImage t env).2.2.avi = t.avi ∧ (GetImage t env).2.2.rchan = t.rchan := by
  unfold GetImage
  split
  · exact ⟨rfl, rfl⟩
  · cases t.frame with
    | none => exact getImageDone_session _ _ _ _
    | some fr =>
      dsimp only
      split
      · exact getImageDone_session _ _ _ _
      · split
        · split
          · exact getImageDone_session _ _ _ _
          · cases env.conv with
            | none => exact getImageDone_session _ _ _ _
            | some d => exact getImageDeliver_session _ _ _
        · exact getImageDeliver_session _ _ _

theorem StartRecording_or (s : TUVC) (args : StartArgs) (now : timeval) :
    (StartRecording s args now).2 = s ∨
    ∃ ufmt chan pos0, (StartRecording s args now).2 = beginRecording s ufmt args chan pos0 now := by
  unfold StartRecording
  split
  · exact Or.inl rfl
  · split
    · exact Or.inl rfl
    · split
      · exact Or.inl rfl
      · split
        · exact Or.inl rfl
        · split
          · exact Or.inl rfl
          · split
            · split
              · exact Or.inl rfl
              · split
                · exact Or.inl rfl
                · exact Or.inr ⟨_, _, _, rfl⟩
            · split
              · exact Or.inl rfl
              · exact Or.inr ⟨_, _, _, rfl⟩

/-- After the part of `StartRecording` that begins a session the index is
empty and a channel is set, for an AVI file and for a stream. -/
theorem beginRecording_index (t : TUVC) (ufmt : UFMT) (args : StartArgs) (chan : Channel)
    (pos0 : Int) (now : timeval) (h : t.rchan = none → t.avi = AVI.zero) :
    indexEmpty (beginRecording t ufmt args chan pos0 now).avi ∧
    (beginRecording t ufmt args chan pos0 now).rchan ≠ none := by
  by_cases havi : (args.rbdStr.getD []).length = 0
  · obtain ⟨_, f2, _, _, _, f6, f7, f8, _⟩ := beginRecording_fresh t ufmt args chan pos0 now h havi
    exact ⟨⟨f6, f7, f8⟩, f2⟩
  · obtain ⟨F, hF, z1, z2, z3⟩ : ∃ F, FinishRecording t = F ∧ F.avi = AVI.zero ∧
        F.rchan = none ∧ F.rbdStr = [] := ⟨_, rfl, FinishRecording_zero t h⟩
    unfold beginRecording
    dsimp only
    rw [hF, if_pos (by omega)]
    obtain ⟨s1, s2, s3⟩ := startTarget_session
      { F with rchan := some chan,
               rrate := reserve500 (recordingInterval F.fps args.rateNum args.rateDen),
               rbdStr := F.rbdStr ++ args.rbdStr.getD [], ltv := now, rtv := now } args.doUser
    rw [s1, s2]
    dsimp only
    rw [z1]
    exact ⟨⟨rfl, rfl, rfl⟩, fun hn => by cases hn⟩

theorem indexInv_StartRecording (s : TUVC) (args : StartArgs) (now : timeval)
    (h : indexInv s) : indexInv (StartRecording s args now).2 := by
  rcases StartRecording_or s args now with e | ⟨ufmt, chan, pos0, e⟩
  · rw [e]
    exact h
  · rw [e]
    obtain ⟨b1, b2⟩ := beginRecording_index s ufmt args chan pos0 now h.2
    exact ⟨indexBounds_empty _ b1, fun hn => absurd hn b2⟩

theorem indexInv_stopFirst (t : TUVC) (h : indexInv t) :
    indexInv (FinishRecording
      (if t.rstate.code > REC_STOP.code then { t with rstate := REC_STOP } else t)) := by
  apply indexInv_FinishRecording
  split
  · exact indexInv_keep t _ rfl rfl h
  · exact h

/-- Every command keeps the invariant of the index. -/
theorem indexInv_UvcObjCmd (t : TUVC) (cmd : Command) (h : indexInv t) :
    indexInv (UvcObjCmd t cmd).2.2 := by
  cases cmd with
  | CMD_close =>
    exact indexInv_FinishRecording _
      (indexInv_keep _ _ (StopCapture_session t).1 (StopCapture_session t).2 h)
  | CMD_convmode flag =>
    cases flag with
    | none => exact h
    | some b =>
      unfold UvcObjCmd
      dsimp only
      split
      · exact indexInv_keep _ _ rfl rfl (indexInv_FinishRecording t h)
      · exact indexInv_keep _ _ rfl rfl h
  | CMD_format arg =>
    cases arg with
    | none => exact h
    | some k =>
      obtain ⟨k1, k2⟩ := k
      unfold UvcObjCmd
      dsimp only
      split
      · exact h
      · split
        · exact h
        · exact indexInv_keep _ _ rfl rfl (indexInv_stopFirst t h)
  | CMD_image env =>
    exact indexInv_keep _ _ (GetImage_session t env).1 (GetImage_session t env).2 h
  | CMD_parameters_update_mode flag =>
    unfold UvcObjCmd SetControls_update_mode
    dsimp only
    split
    · exact indexInv_keep _ _ rfl rfl h
    · exact h
  | CMD_record_frame args env =>
    unfold UvcObjCmd
    dsimp only
    rcases RecordFrameFromData_cases t args env with hc | ⟨f, hc⟩
    · rw [hc]; exact h
    · rw [hc]; exact indexInv_WriteFrame t f env h
  | CMD_record_pause =>
    unfold UvcObjCmd
    dsimp only
    split
    · exact indexInv_keep _ _ rfl rfl h
    · split
      · exact indexInv_keep _ _ rfl rfl h
      · split <;> exact h
  | CMD_record_resume now =>
    unfold UvcObjCmd
    dsimp only
    split
    · split
      · exact indexInv_keep _ _ rfl rfl h
      · exact h
    · split
      · split
        · exact indexInv_keep _ _ rfl rfl h
        · exact h
      · split <;> exact h
  | CMD_record_start a n => exact indexInv_StartRecording t a n h
  | CMD_record_state => exact h
  | CMD_record_stop => exact indexInv_stopFirst t h
  | CMD_start env =>
    exact indexInv_keep _ _ (StartCapture_session t env).1 (StartCapture_session t env).2 h
  | CMD_stop => exact indexInv_keep _ _ (StopCapture_session t).1 (StopCapture_session t).2 h

theorem indexInv_deferredWrite (t : TUVC) (env : FrameEnv) (h : indexInv t) :
    indexInv (deferredWrite t env) := by
  unfold deferredWrite
  split
  · cases hf : t.frame with
    | none => exact h
    | some frame =>
      dsimp only
      have hw := indexInv_WriteFrame { t with frame := none } frame env
        (indexInv_keep t _ rfl rfl h)
      split
      · exact indexInv_keep _ _ rfl rfl hw
      · exact hw
  · exact h

theorem indexInv_runCallback (t : TUVC) (script : TUVC → Int × TUVC)
    (hs : ∀ u, indexInv u → indexInv (script u).2) (h : indexInv t) :
    indexInv (runCallback t script) := by
  unfold runCallback
  cases t.frame with
  | none => exact h
  | some f =>
    dsimp only
    split
    · exact indexInv_keep _ _ (StopCapture_session _).1 (StopCapture_session _).2 (hs t h)
    · exact hs t h

theorem indexInv_FrameReady (t : TUVC) (env : FrameEnv) (script : TUVC → Int × TUVC)
    (hs : ∀ u, indexInv u → indexInv (script u).2) (h : indexInv t) :
    indexInv (FrameReady t env script) := by
  unfold FrameReady
  apply indexInv_runCallback _ _ hs
  apply indexInv_deferredWrite
  unfold clearOutstanding
  split
  · exact indexInv_keep t _ rfl rfl h
  · exact h

theorem indexInv_FrameReady0 (t : TUVC) (env : FrameEnv) (script : TUVC → Int × TUVC)
    (hs : ∀ u, indexInv u → indexInv (script u).2) (h : indexInv t) :
    indexInv (FrameReady0 t env script) := by
  unfold FrameReady0
  cases t.evq with
  | nil => exact h
  | cons valid rest =>
    dsimp only
    split
    · unfold handleEvent
      dsimp only
      split
      · split
        · exact indexInv_keep t _ rfl rfl h
        · exact indexInv_FrameReady _ env script hs (indexInv_keep t _ rfl rfl h)
      · exact indexInv_keep t _ rfl rfl h
    · exact indexInv_keep t _ rfl rfl h

theorem indexInv_idleFrameReady (t : TUVC) (env : FrameEnv) (script : TUVC → Int × TUVC)
    (hs : ∀ u, indexInv u → indexInv (script u).2) (h : indexInv t) :
    indexInv (idleFrameReady t env script) := by
  unfold idleFrameReady
  split
  · exact indexInv_FrameReady _ env script hs (indexInv_keep t _ rfl rfl h)
  · exact h

theorem indexInv_openDevice (fmts : List (Int × UFMT)) : indexInv (openDevice fmts) := by
  apply indexInv_zero
  unfold openDevice
  dsimp only
  split <;> rfl

/-! ## The index in the reachable states -/

theorem indexInv_runScript (cmds : List Command) (code : Int) :
    ∀ u, indexInv u → indexInv (runScript cmds code u).2 := by
  unfold runScript
  dsimp only
  induction cmds with
  | nil => exact fun u h => h
  | cons c cs ih =>
    intro u h
    exact ih _ (indexInv_UvcObjCmd u c h)

theorem indexInv_reachable (t : TUVC) (h : Reachable t) : indexInv t := by
  induction h with
  | opened fmts => exact indexInv_openDevice fmts
  | command t cmd _ ih => exact indexInv_UvcObjCmd t cmd ih
  | frame t f env _ ih => exact indexInv_FrameCallback t f env ih
  | event t env cmds code _ ih =>
    exact indexInv_FrameReady0 t env _ (indexInv_runScript cmds code) ih
  | idleCall t env cmds code _ ih =>
    exact indexInv_idleFrameReady t env _ (indexInv_runScript cmds code) ih

/-- C30. In every reachable state of a device the fill count of the index is
between 0 and the allocated count, the allocated count is a multiple of 512,
and the buffer is non-NULL exactly when the allocated count is positive. A
buffer has the allocated count as length, so the `idx1` chunk of the finalizer,
which offers `16 * curr_idx` bytes of the buffer to the sink, stays inside the
buffer and consists of the images of the first `curr_idx` entries, all of
which were stored by `WriteFrame` (they carry the chunk id). With no channel set the index is empty. A call of
`WriteFrame` keeps the allocated count, or empties the index, or, when the
buffer was exhausted, lets the count grow by exactly 512; and it keeps the fill
count, or empties the index, or stores one entry at the old fill count, a
position inside the buffer. The index is empty after a successful start, after
every call that rotates the segment, and after the finalizer. -/
theorem C30_index_bounds (t : TUVC) (h : Reachable t) :
    0 ≤ t.avi.curr_idx ∧ t.avi.curr_idx ≤ t.avi.num_idx ∧ (512 : Int) ∣ t.avi.num_idx ∧
    (t.avi.idx.isSome = true ↔ 0 < t.avi.num_idx) ∧
    (∀ buf, t.avi.idx = some buf →
      (buf.length : Int) = t.avi.num_idx ∧
      t.avi.curr_idx * 16 ≤ ((idxImage buf).length : Int) ∧
      List.takeD (16 * t.avi.curr_idx.toNat) (idxImage buf) 0 =
        idxImage (buf.take t.avi.curr_idx.toNat) ∧
      ∀ e ∈ buf.take t.avi.curr_idx.toNat, e.id = ascii "00db") ∧
    (t.rchan = none → indexEmpty t.avi) ∧
    (∀ f env, indexStep t.avi (WriteFrame t f env).2.avi) ∧
    (∀ f env, (WriteFrame t f env).1 = 1 → t.rbdStr = [] →
      t.avi.segsize + chunkSize t f env > 0x7F000000 →
      indexEmpty (WriteFrame t f env).2.avi) ∧
    (∀ args now, (StartRecording t args now).1 = TCL_OK →
      indexEmpty (StartRecording t args now).2.avi) ∧
    indexEmpty (FinishRecording t).avi := by
  obtain ⟨⟨b1, b2, b3, b4, b5⟩, hz⟩ := indexInv_reachable t h
  refine ⟨b1, b2, b3, b4, fun buf hb => ?_, fun hn => ?_, fun f env => ?_,
    fun f env h1 hb hgt => ?_, fun args now hstart => ?_, ?_⟩
  · obtain ⟨c1, c2⟩ := b5 buf hb
    have hk : t.avi.curr_idx.toNat ≤ buf.length := by omega
    refine ⟨c1, ?_, ?_, c2⟩
    · rw [idxImage_length]
      push_cast
      omega
    · exact idxImage_take _ buf hk
  · rw [hz hn]
    exact ⟨rfl, rfl, rfl⟩
  · exact (WriteFrame_index t f env ⟨b1, b2, b3, b4, b5⟩).2
  · obtain ⟨_, _, _, w4, _⟩ := WriteFrame_written t f env h1 hb
    exact ⟨(w4 hgt).2.1, (w4 hgt).2.2.1, (w4 hgt).2.2.2.1⟩
  · obtain ⟨ufmt, chan, pos0, e⟩ := StartRecording_begin t args now hstart
    rw [e]
    exact (beginRecording_index t ufmt args chan pos0 now hz).1
  · rw [(FinishRecording_zero t hz).1]
    exact ⟨rfl, rfl, rfl⟩

/-! ## The entries of the index -/

theorem WriteFrame_minus_one (t : TUVC) (f : uvc_frame) (env : FrameEnv)
    (h : (WriteFrame t f env).1 = -1) : (WriteFrame t f env).2.rstate = REC_ERROR := by
  unfold WriteFrame at h ⊢
  dsimp only at h ⊢
  split
  · rename_i hg
    rw [if_pos hg] at h
    by_cases hs : (noChannelCheck t).rstate = REC_ERROR
    · exact hs
    · rw [if_neg hs] at h
      simp at h
  · rename_i hg
    rw [if_neg hg] at h
    split
    · rename_i hd
      rw [if_pos hd] at h
      simp at h
    · rename_i hd
      rw [if_neg hd] at h
      split
      · rename_i hs
        exact hs
      · rename_i hs
        rw [if_neg hs] at h
        split
        · rename_i hb
          rw [if_pos hb] at h
          exact (writeBoundaryFrame_contract
            { noChannelCheck t with
              rtv := tvAdvance (effectiveNow f env) (noChannelCheck t).rrate,
              ltv := effectiveNow f env } f env hb).2.1.mp h
        · rename_i hb
          rw [if_neg hb] at h
          exact (writeAVIFrame_contract
            { noChannelCheck t with
              rtv := tvAdvance (effectiveNow f env) (noChannelCheck t).rrate,
              ltv := effectiveNow f env } f
            (tvDiff (effectiveNow f env) (noChannelCheck t).ltv) env hb).2.1.mp h

theorem WriteFrame_error_stays (t : TUVC) (f : uvc_frame) (env : FrameEnv)
    (h : t.rstate = REC_ERROR) : (WriteFrame t f env).2.rstate = REC_ERROR := by
  obtain ⟨a, b, c, d, e, hq, _, hs⟩ := WriteFrame_recStep t f env
  rw [hq]
  rcases hs with hs | hs
  · exact hs.trans h
  · exact hs

theorem recordAll_error (fes : List (uvc_frame × FrameEnv)) :
    ∀ t : TUVC, t.rstate = REC_ERROR → (recordAll t fes).rstate = REC_ERROR := by
  induction fes with
  | nil => exact fun t h => h
  | cons fe rest ih =>
    intro t h
    exact ih _ (WriteFrame_error_stays t fe.1 fe.2 h)

/-- A delivery sequence after which the state is not `REC_ERROR` has no call
of `WriteFrame` that returned -1. -/
theorem no_error_of_state (fes : List (uvc_frame × FrameEnv)) :
    ∀ t : TUVC, (recordAll t fes).rstate ≠ REC_ERROR → anyWriteError t fes = false := by
  induction fes with
  | nil => exact fun t _ => rfl
  | cons fe rest ih =>
    intro t h
    unfold anyWriteError
    rw [Bool.or_eq_false_iff]
    refine ⟨?_, ih _ h⟩
    rw [decide_eq_false_iff_not]
    intro h1
    exact h (recordAll_error rest _ (WriteFrame_minus_one t fe.1 fe.2 h1))

theorem recordAll_append (fes gs : List (uvc_frame × FrameEnv)) :
    ∀ t : TUVC, recordAll t (fes ++ gs) = recordAll (recordAll t fes) gs := by
  induction fes with
  | nil => exact fun t => rfl
  | cons fe rest ih =>
    intro t
    exact ih _

theorem writtenPadded_append (fes gs : List (uvc_frame × FrameEnv)) :
    ∀ t : TUVC, writtenPadded t (fes ++ gs) =
      writtenPadded t fes ++ writtenPadded (recordAll t fes) gs := by
  induction fes with
  | nil => exact fun t => rfl
  | cons fe rest ih =>
    intro t
    show _ ++ writtenPadded _ (rest ++ gs) = (_ ++ writtenPadded _ rest) ++ _
    rw [ih, List.append_assoc]
    rfl

theorem anyWriteError_append (fes gs : List (uvc_frame × FrameEnv)) :
    ∀ t : TUVC, anyWriteError t (fes ++ gs) =
      (anyWriteError t fes || anyWriteError (recordAll t fes) gs) := by
  induction fes with
  | nil => exact fun t => rfl
  | cons fe rest ih =>
    intro t
    show (_ || anyWriteError _ (rest ++ gs)) = ((_ || anyWriteError _ rest) || _)
    rw [ih, Bool.or_assoc]
    rfl

theorem entriesFor_snoc (ps : List Nat) :
    ∀ (off p : Nat), entriesFor off (ps ++ [p]) =
      entriesFor off ps ++ [indexEntry (off + chunkBytes ps) p] := by
  induction ps with
  | nil =>
    intro off p
    show [indexEntry off p] = [indexEntry (off + chunkBytes []) p]
    rfl
  | cons q qs ih =>
    intro off p
    show indexEntry off q :: entriesFor (off + (8 + q)) (qs ++ [p]) =
      indexEntry off q :: (entriesFor (off + (8 + q)) qs ++ [indexEntry (off + chunkBytes (q :: qs)) p])
    rw [ih, chunkBytes_cons, Nat.add_assoc off]

theorem entriesFor_length (ps : List Nat) : ∀ off, (entriesFor off ps).length = ps.length := by
  induction ps with
  | nil => exact fun _ => rfl
  | cons q qs ih =>
    intro off
    show (entriesFor (off + (8 + q)) qs).length + 1 = qs.length + 1
    rw [ih]

theorem sizea_padded (t : TUVC) (f fr : uvc_frame) (env : FrameEnv) (size : Int)
    (hfit : sizesFit f env) (h : aviFrameSize t f env = some (fr, size)) :
    toInt32 (size + 3) / 4 * 4 = ((paddedSize (payloadSize t f env) : Nat) : Int) ∧
    paddedSize (payloadSize t f env) < 2147483648 := by
  obtain ⟨h0, h3⟩ := aviFrameSize_fit t f fr env size hfit h
  obtain ⟨e1, _⟩ := sizea_fit size h0 h3
  rw [e1]
  unfold payloadSize paddedSize
  rw [h]
  dsimp only
  constructor <;> omega

theorem accountChunk_first (w : TUVC) (size sizea : Int) (env : FrameEnv)
    (hle : ¬ w.avi.segsize + (sizea + 8) > 0x7F000000) (heq : w.avi.totsize = w.avi.segsize) :
    accountChunk w size sizea size env =
      addIndexEntry { w with avi := { w.avi with
        nframes := w.avi.nframes + 1,
        totsize := w.avi.totsize + (sizea + 8),
        segsize := w.avi.segsize + (sizea + 8) } } sizea env := by
  unfold accountChunk
  dsimp only
  rw [if_pos rfl]
  have e8 : ((sizeof_CHUNK_HDR : Nat) : Int) = 8 := rfl
  rw [e8, if_neg hle, if_pos (by rw [heq])]

theorem PUT32LE_nat (n : Nat) (h : n < 4294967296) : PUT32LE (n : Int) = n := by
  unfold PUT32LE
  omega

theorem writtenPadded_single (u : TUVC) (f : uvc_frame) (env : FrameEnv) :
    writtenPadded u [(f, env)] =
      if (WriteFrame u f env).1 = 1 then [paddedSize (payloadSize u f env)] else [] := by
  show _ ++ [] = _
  rw [List.append_nil]

theorem toInt32_small (v : Int) (h0 : 0 ≤ v) (h1 : v < 2147483648) : toInt32 v = v := by
  unfold toInt32
  omega

/-- One call of `WriteFrame` in an AVI recording whose chunks are all in the
first segment and indexed: when the call does not fail, the allocation of the
index succeeds and the chunks still take at most 0x7F000000 bytes, a written
frame gets one more index entry, at the offset 4 plus the bytes of the chunks
before it and with its padded payload size; a frame that is not written
changes nothing. -/
theorem WriteFrame_indexed (u : TUVC) (ps : List Nat) (f : uvc_frame) (env : FrameEnv)
    (hJ : indexedSession u ps) (hfit : sizesFit f env) (hre : env.reallocOk = true)
    (hne : (WriteFrame u f env).1 ≠ -1)
    (hle : chunkBytes (ps ++ writtenPadded u [(f, env)]) ≤ 0x7F000000) :
    indexedSession (WriteFrame u f env).2 (ps ++ writtenPadded u [(f, env)]) := by
  obtain ⟨j1, j2, j3, j4, j5, j6, j7⟩ := hJ
  have hb' : (WriteFrame u f env).2.rbdStr = [] := (WriteFrame_rbdStr u f env).trans j1
  rw [writtenPadded_single] at hle ⊢
  rcases WriteFrame_shape u f env with ⟨s1, s2⟩ |
    ⟨fr, size, w, fw, d, _, _, s3, s4, _, _, s7, s8, s9⟩
  · have h1 : ¬ (WriteFrame u f env).1 = 1 := fun h => s2 h j1
    rw [if_neg h1, List.append_nil]
    refine ⟨hb', ?_, ?_, ?_, ?_, ?_, ?_⟩ <;> rw [s1]
    · exact j2
    · exact j3
    · exact j4
    · exact j5
    · exact j6
    · exact j7
  · have h1 : (WriteFrame u f env).1 = 1 := by
      rcases s9 with s9 | s9
      · exact s9
      · exact absurd s9 hne
    obtain ⟨e1, _⟩ := s8 h1
    subst e1
    rw [if_pos h1] at hle ⊢
    obtain ⟨p1, p2⟩ := sizea_padded u f fr env fw hfit s3
    rw [chunkBytes_append, chunkBytes_single] at hle
    have hrot : ¬ w.avi.segsize + (toInt32 (fw + 3) / 4 * 4 + 8) > 0x7F000000 := by
      rw [s4, j4, p1]
      omega
    have heq : w.avi.totsize = w.avi.segsize := by rw [s4, j3, j4]
    obtain ⟨t3, ht3, q1, q2, q3, q4, q5, q6⟩ : ∃ t3 : TUVC,
        ({ w with avi := { w.avi with
          nframes := w.avi.nframes + 1,
          totsize := w.avi.totsize + (toInt32 (fw + 3) / 4 * 4 + 8),
          segsize := w.avi.segsize + (toInt32 (fw + 3) / 4 * 4 + 8) } } : TUVC) = t3 ∧
        t3.avi.curr_idx = u.avi.curr_idx ∧ t3.avi.num_idx = u.avi.num_idx ∧
        t3.avi.idx = u.avi.idx ∧ t3.avi.idx_off = u.avi.idx_off ∧
        t3.avi.totsize = u.avi.totsize + (toInt32 (fw + 3) / 4 * 4 + 8) ∧
        t3.avi.segsize = u.avi.segsize + (toInt32 (fw + 3) / 4 * 4 + 8) := by
      refine ⟨_, rfl, ?_, ?_, ?_, ?_, ?_, ?_⟩ <;> dsimp only <;> rw [s4]
    have hA : (WriteFrame u f env).2.avi =
        { (addIndexEntry t3 (toInt32 (fw + 3) / 4 * 4) env).avi with
          rate := (averageRate (addIndexEntry t3 (toInt32 (fw + 3) / 4 * 4) env).avi d).rate } := by
      rw [s7, accountChunk_first w fw _ env hrot heq, ht3, averageRate_fields]
    have hb3 : indexBounds t3.avi := indexBounds_of_eq u.avi _ q1 q2 q3 j2
    obtain ⟨a1, _, a3, a4, _⟩ := addIndexEntry_fields t3 (toInt32 (fw + 3) / 4 * 4) env
    rcases addIndexEntry_index t3 (toInt32 (fw + 3) / 4 * 4) env ps.length
      (by rw [q1, j6]) hb3 with ⟨i0, _⟩ | ⟨buf, i1, i2, _, _, _, i6, i7⟩
    · rw [hre] at i0
      cases i0
    · refine ⟨hb', ?_, ?_, ?_, ?_, ?_, ?_⟩ <;> rw [hA]
      · exact indexBounds_of_eq _ _ rfl rfl rfl (addIndexEntry_bounds t3 _ env hb3)
      · show (addIndexEntry t3 _ env).avi.totsize = _
        rw [a3, q5, j3, p1, chunkBytes_append, chunkBytes_single]
        push_cast
        ring
      · show (addIndexEntry t3 _ env).avi.segsize = _
        rw [a4, q6, j4, p1, chunkBytes_append, chunkBytes_single]
        push_cast
        ring
      · show (addIndexEntry t3 _ env).avi.idx_off = _
        rw [i7, q4, j5, p1, chunkBytes_append, chunkBytes_single, toInt32_small]
        · push_cast
          ring
        · omega
        · omega
      · show (addIndexEntry t3 _ env).avi.curr_idx = _
        rw [i2, List.length_append]
        rfl
      · show ((addIndexEntry t3 _ env).avi.idx.getD []).take _ = _
        rw [i1, List.length_append]
        show buf.take (ps.length + 1) = _
        rw [i6, q3, j7, entriesFor_snoc, q4, j5, p1, PUT32LE_nat _ (by omega),
          PUT32LE_nat _ (by omega)]
        rfl

theorem session_indexed (fes : List (uvc_frame × FrameEnv)) (t : TUVC)
    (h0 : indexedSession t []) :
    (∀ fe ∈ fes, sizesFit fe.1 fe.2) → (∀ fe ∈ fes, fe.2.reallocOk = true) →
    anyWriteError t fes = false → chunkBytes (writtenPadded t fes) ≤ 0x7F000000 →
    indexedSession (recordAll t fes) (writtenPadded t fes) := by
  induction fes using List.reverseRecOn with
  | nil => exact fun _ _ _ _ => h0
  | append_singleton fes fe ih =>
    intro hfit hre hok hle
    rw [anyWriteError_append, Bool.or_eq_false_iff] at hok
    obtain ⟨hok1, hok2⟩ := hok
    rw [writtenPadded_append] at hle ⊢
    rw [recordAll_append]
    have hle1 : chunkBytes (writtenPadded t fes) ≤ 0x7F000000 := by
      rw [chunkBytes_append] at hle
      omega
    have hJ := ih (fun x hx => hfit x (List.mem_append_left _ hx))
      (fun x hx => hre x (List.mem_append_left _ hx)) hok1 hle1
    have hne : (WriteFrame (recordAll t fes) fe.1 fe.2).1 ≠ -1 := by
      intro h
      unfold anyWriteError at hok2
      rw [h] at hok2
      simp at hok2
    exact WriteFrame_indexed (recordAll t fes) _ fe.1 fe.2 hJ
      (hfit fe (List.mem_append_right _ (List.mem_singleton_self _)))
      (hre fe (List.mem_append_right _ (List.mem_singleton_self _))) hne hle

theorem WriteFrame_one_state (t : TUVC) (f : uvc_frame) (env : FrameEnv)
    (h : (WriteFrame t f env).1 = 1) : (WriteFrame t f env).2.rstate ≠ REC_ERROR := by
  unfold WriteFrame at h ⊢
  dsimp only at h ⊢
  split
  · rename_i hg
    rw [if_pos hg] at h
    split at h <;> simp at h
  · rename_i hg
    rw [if_neg hg] at h
    split
    · rename_i hd
      rw [if_pos hd] at h
      simp at h
    · rename_i hd
      rw [if_neg hd] at h
      split
      · rename_i hs
        rw [if_pos hs] at h
        simp at h
      · rename_i hs
        rw [if_neg hs] at h
        split
        · rename_i hb
          rw [if_pos hb] at h
          intro he
          rw [(writeBoundaryFrame_contract
            { noChannelCheck t with
              rtv := tvAdvance (effectiveNow f env) (noChannelCheck t).rrate,
              ltv := effectiveNow f env } f env hb).2.1.mpr he] at h
          simp at h
        · rename_i hb
          rw [if_neg hb] at h
          intro he
          rw [(writeAVIFrame_contract
            { noChannelCheck t with
              rtv := tvAdvance (effectiveNow f env) (noChannelCheck t).rrate,
              ltv := effectiveNow f env } f
            (tvDiff (effectiveNow f env) (noChannelCheck t).ltv) env hb).2.1.mpr he] at h
          simp at h

theorem indexedSession_fresh (s : TUVC) (args : StartArgs) (now : timeval)
    (hs : s.rchan = none → s.avi = AVI.zero)
    (hstart : (StartRecording s args now).1 = TCL_OK)
    (havi : (args.rbdStr.getD []).length = 0) :
    indexedSession (StartRecording s args now).2 [] := by
  obtain ⟨f1, _, _, f4, f5, f6, f7, f8, f9⟩ := StartRecording_fresh s args now hs hstart havi
  refine ⟨f1, indexBounds_empty _ ⟨f6, f7, f8⟩, ?_, ?_, ?_, ?_, rfl⟩
  · rw [f4]; rfl
  · rw [f5]; rfl
  · rw [f9]; rfl
  · rw [f6]; rfl

/-- C27. An AVI recording is started with `record start` and frames are handed
to `WriteFrame`; the sizes of the frames fit, the allocation of the index
succeeds in every call, and no rotation has occurred: the chunks take at most
0x7F000000 bytes, so that all are in the first segment (total size equals
segment size). Then every call that writes a frame (result 1) appends exactly
one index entry: before the call the index holds one entry per frame written
so far, after it one more, and the entries before are kept. The new entry has
the id "00db", the flags 0, the padded payload size of the chunk as size, and
as offset 4 plus the sum of `8 + padded payload size` over the chunks written
before, which is the distance of its chunk header from the `movi` fourcc and
does not depend on the position of the file header; so the first entry has the
offset 4, and the number of index entries equals the number of frames
written. -/
theorem C27_index_entries (s : TUVC) (args : StartArgs) (now : timeval)
    (fes : List (uvc_frame × FrameEnv)) (f : uvc_frame) (env : FrameEnv)
    (hs : s.rchan = none → s.avi = AVI.zero)
    (hstart : (StartRecording s args now).1 = TCL_OK)
    (havi : (args.rbdStr.getD []).length = 0)
    (hfit : ∀ fe ∈ fes ++ [(f, env)], sizesFit fe.1 fe.2)
    (hre : ∀ fe ∈ fes ++ [(f, env)], fe.2.reallocOk = true)
    (h1 : (WriteFrame (recordAll (StartRecording s args now).2 fes) f env).1 = 1)
    (hfirst : (WriteFrame (recordAll (StartRecording s args now).2 fes) f env).2.avi.totsize
      ≤ 0x7F000000) :
    (recordAll (StartRecording s args now).2 fes).avi.curr_idx =
      (writtenPadded (StartRecording s args now).2 fes).length ∧
    ((recordAll (StartRecording s args now).2 fes).avi.idx.getD []).take
        (writtenPadded (StartRecording s args now).2 fes).length =
      entriesFor 4 (writtenPadded (StartRecording s args now).2 fes) ∧
    (WriteFrame (recordAll (StartRecording s args now).2 fes) f env).2.avi.curr_idx =
      (writtenPadded (StartRecording s args now).2 fes).length + 1 ∧
    (∃ buf, (WriteFrame (recordAll (StartRecording s args now).2 fes) f env).2.avi.idx =
        some buf ∧
      buf.take ((writtenPadded (StartRecording s args now).2 fes).length + 1) =
        entriesFor 4 (writtenPadded (StartRecording s args now).2 fes) ++
          [({ id := ascii "00db", flags := 0,
              offset := 4 + chunkBytes (writtenPadded (StartRecording s args now).2 fes),
              size := paddedSize
                (payloadSize (recordAll (StartRecording s args now).2 fes) f env) } :
            AVI_IDX)]) ∧
    writtenPadded (StartRecording s args now).2 (fes ++ [(f, env)]) =
      writtenPadded (StartRecording s args now).2 fes ++
        [paddedSize (payloadSize (recordAll (StartRecording s args now).2 fes) f env)] ∧
    (WriteFrame (recordAll (StartRecording s args now).2 fes) f env).2.avi.totsize =
      (WriteFrame (recordAll (StartRecording s args now).2 fes) f env).2.avi.segsize := by
  have h0 := indexedSession_fresh s args now hs hstart havi
  obtain ⟨f1, _, f3, f4, f5, _⟩ := StartRecording_fresh s args now hs hstart havi
  have hrec : recordAll (StartRecording s args now).2 (fes ++ [(f, env)]) =
      (WriteFrame (recordAll (StartRecording s args now).2 fes) f env).2 := by
    rw [recordAll_append]
    rfl
  have hwp : writtenPadded (StartRecording s args now).2 (fes ++ [(f, env)]) =
      writtenPadded (StartRecording s args now).2 fes ++
        [paddedSize (payloadSize (recordAll (StartRecording s args now).2 fes) f env)] := by
    rw [writtenPadded_append, writtenPadded_single, if_pos h1]
  have hok : anyWriteError (StartRecording s args now).2 (fes ++ [(f, env)]) = false := by
    apply no_error_of_state
    rw [hrec]
    exact WriteFrame_one_state _ f env h1
  obtain ⟨_, r2, _, _⟩ := session_sizes (fes ++ [(f, env)]) (StartRecording s args now).2 [] 0 0
    f1 (by rw [f5]; rfl) (by rw [f4]; rfl) (by rw [f3]; rfl) hfit hok
  rw [hrec, Nat.zero_add] at r2
  have hle : chunkBytes (writtenPadded (StartRecording s args now).2 (fes ++ [(f, env)])) ≤
      0x7F000000 := by
    rw [r2] at hfirst
    exact_mod_cast hfirst
  obtain ⟨_, k2, k3, k4, _, k6, k7⟩ := session_indexed (fes ++ [(f, env)])
    (StartRecording s args now).2 h0 hfit hre hok hle
  rw [hrec] at k2 k3 k4 k6 k7
  rw [hwp] at k3 k4 k6 k7
  rw [anyWriteError_append, Bool.or_eq_false_iff] at hok
  have hle1 : chunkBytes (writtenPadded (StartRecording s args now).2 fes) ≤ 0x7F000000 := by
    rw [hwp, chunkBytes_append] at hle
    omega
  obtain ⟨_, _, _, _, _, m6, m7⟩ := session_indexed fes (StartRecording s args now).2 h0
    (fun x hx => hfit x (List.mem_append_left _ hx))
    (fun x hx => hre x (List.mem_append_left _ hx)) hok.1 hle1
  rw [List.length_append] at k6 k7
  have hpos : 0 < (WriteFrame (recordAll (StartRecording s args now).2 fes) f env).2.avi.num_idx := by
    have := k2.2.1
    rw [k6] at this
    have hl : (0 : Int) ≤ ((writtenPadded (StartRecording s args now).2 fes).length : Int) :=
      Int.natCast_nonneg _
    show (0 : Int) < _
    simp only [List.length_singleton, Nat.cast_add, Nat.cast_one] at this
    omega
  obtain ⟨buf, hbuf⟩ := Option.isSome_iff_exists.mp (k2.2.2.2.1.mpr hpos)
  refine ⟨m6, m7, ?_, ⟨buf, hbuf, ?_⟩, hwp, k3.trans k4.symm⟩
  · rw [k6]
    simp
  · rw [hbuf] at k7
    rw [entriesFor_snoc] at k7
    exact k7

/-- Witness of C27: `record start -chan c -fps 10` at time 0 on an empty file
while capture runs, a frame of 4 payload bytes at 100 ms and one at 200 ms.
The second frame is written; afterwards the index holds two entries, the
second with offset 16 and size 4, while the header of its chunk lies at the
file offset 252. -/
theorem C27_index_entries_witness :
    (WriteFrame (recordAll (StartRecording capturingFmt (aviStart emptyChannel 10)
      (atMicros 0)).2 [liveFrame 100000 100000 0]) (sampleFrame 1 200000)
      (wallClock 200000)).1 = 1 ∧
    writtenPadded (StartRecording capturingFmt (aviStart emptyChannel 10) (atMicros 0)).2
      [liveFrame 100000 100000 0] = [4] ∧
    (WriteFrame (recordAll (StartRecording capturingFmt (aviStart emptyChannel 10)
      (atMicros 0)).2 [liveFrame 100000 100000 0]) (sampleFrame 1 200000)
      (wallClock 200000)).2.avi.curr_idx =
      (writtenPadded (StartRecording capturingFmt (aviStart emptyChannel 10) (atMicros 0)).2
        [liveFrame 100000 100000 0]).length + 1 ∧
    (∃ buf, (WriteFrame (recordAll (StartRecording capturingFmt (aviStart emptyChannel 10)
        (atMicros 0)).2 [liveFrame 100000 100000 0]) (sampleFrame 1 200000)
        (wallClock 200000)).2.avi.idx = some buf ∧
      buf.take ((writtenPadded (StartRecording capturingFmt (aviStart emptyChannel 10)
          (atMicros 0)).2 [liveFrame 100000 100000 0]).length + 1) =
        entriesFor 4 (writtenPadded (StartRecording capturingFmt (aviStart emptyChannel 10)
          (atMicros 0)).2 [liveFrame 100000 100000 0]) ++
          [({ id := ascii "00db", flags := 0,
              offset := 4 + chunkBytes (writtenPadded (StartRecording capturingFmt
                (aviStart emptyChannel 10) (atMicros 0)).2 [liveFrame 100000 100000 0]),
              size := paddedSize (payloadSize (recordAll (StartRecording capturingFmt
                (aviStart emptyChannel 10) (atMicros 0)).2 [liveFrame 100000 100000 0])
                (sampleFrame 1 200000) (wallClock 200000)) } : AVI_IDX)]) ∧
    4 + chunkBytes (writtenPadded (StartRecording capturingFmt (aviStart emptyChannel 10)
      (atMicros 0)).2 [liveFrame 100000 100000 0]) = 16 ∧
    (WriteFrame (recordAll (StartRecording capturingFmt (aviStart emptyChannel 10)
      (atMicros 0)).2 [liveFrame 100000 100000 0]) (sampleFrame 1 200000)
      (wallClock 200000)).2.rchan.map (fun c => (c.bytes.drop 252).take 8) =
      some [48, 48, 100, 98, 4, 0, 0, 0] :=
  have h1 : (WriteFrame (recordAll (StartRecording capturingFmt (aviStart emptyChannel 10)
      (atMicros 0)).2 [liveFrame 100000 100000 0]) (sampleFrame 1 200000)
      (wallClock 200000)).1 = 1 := by decide
  have hfit : ∀ fe ∈ [liveFrame 100000 100000 0] ++ [(sampleFrame 1 200000, wallClock 200000)],
      sizesFit fe.1 fe.2 := fun fe hfe => by
    simp only [List.singleton_append, List.mem_cons, List.mem_singleton, List.not_mem_nil,
      or_false] at hfe
    rcases hfe with rfl | rfl
    · exact ⟨by decide, by decide, fun d hd => by
        cases hd
        decide⟩
    · exact ⟨by decide, by decide, fun d hd => by
        cases hd
        decide⟩
  have hre : ∀ fe ∈ [liveFrame 100000 100000 0] ++ [(sampleFrame 1 200000, wallClock 200000)],
      fe.2.reallocOk = true := fun fe hfe => by
    simp only [List.singleton_append, List.mem_cons, List.mem_singleton, List.not_mem_nil,
      or_false] at hfe
    rcases hfe with rfl | rfl
    · rfl
    · rfl
  have h := C27_index_entries capturingFmt (aviStart emptyChannel 10) (atMicros 0)
    [liveFrame 100000 100000 0] (sampleFrame 1 200000) (wallClock 200000)
    (fun _ => by decide) (by decide) (by decide) hfit hre h1 (by decide)
  ⟨h1, by decide, h.2.2.1, h.2.2.2.1, by decide, by decide⟩

/-- Witness of C30: the state after `open`, `start`, `record start` for an AVI
file and one delivered frame is reachable; its index holds 1 entry in a buffer
of 512 entries. -/
theorem C30_index_bounds_witness :
    Reachable afterFirstFrame ∧ afterFirstFrame.avi.curr_idx = 1 ∧
    afterFirstFrame.avi.num_idx = 512 ∧
    0 ≤ afterFirstFrame.avi.curr_idx ∧
    afterFirstFrame.avi.curr_idx ≤ afterFirstFrame.avi.num_idx ∧
    (512 : Int) ∣ afterFirstFrame.avi.num_idx ∧
    (afterFirstFrame.avi.idx.isSome = true ↔ 0 < afterFirstFrame.avi.num_idx) ∧
    indexEmpty (FinishRecording afterFirstFrame).avi :=
  have hr : Reachable afterFirstFrame :=
    Reachable.frame recordingRunning (sampleFrame 1 40000) (callbackAt 40000)
      (Reachable.command capturingFmt
        (CMD_record_start (aviStart emptyChannel 10) (atMicros 0))
        (Reachable.command (openDevice sampleFmts) (CMD_start captureOk)
          (Reachable.opened sampleFmts)))
  have h := C30_index_bounds afterFirstFrame hr
  ⟨hr, by decide, by decide, h.1, h.2.1, h.2.2.1, h.2.2.2.1, h.2.2.2.2.2.2.2.2.2⟩

/-! ## Finalization after an error -/

/-- In the state `REC_ERROR` `CloseAVISegment` returns after it has rewritten
the file header for the first segment (on a sink on which every call
succeeds): the segment size is not reset. -/
theorem CloseAVISegment_first_error (t : TUVC) (c : Channel) (p0 : Nat) (e : Bool)
    (hc : t.rchan = some c) (hw : c.wscript = []) (hs : c.sscript = [])
    (hp : t.avi.pos0 = (p0 : Int)) (hr : t.rstate = REC_ERROR)
    (hseg : ¬ t.avi.totsize > t.avi.segsize) :
    CloseAVISegment t e =
      { t with avi := firstClosed t,
               rchan := some { c with
                 bytes := storeAt c.bytes p0 (headerBlock (firstClosed t)) } } := by
  have key := WriteAVIHeader_false_good
    { t with avi := { t.avi with nframes0 := t.avi.nframes, segsize0 := t.avi.segsize } }
    c p0 hc hw hs hp
  unfold CloseAVISegment
  rw [chanSeek_cur_good t c hc hs]
  dsimp only
  rw [if_neg hseg, key]
  dsimp only
  rw [if_pos hr]
  rfl

/-- Finalisation of an AVI recording on a sink on which every call succeeds,
in any recording state, `REC_ERROR` included: the sink is closed with the
rewritten header block at the header origin, and the recording state is kept.
The total frame count of the header is the frame counter of the writer; in the
first segment the frame count and the stream length are the frame counter as
well, in a later segment they are the frame count of the first segment. -/
theorem FinishRecording_header_any (t : TUVC) (c : Channel) (p0 ss : Nat)
    (hc : t.rchan = some c) (hw : c.wscript = []) (hs : c.sscript = [])
    (hb : t.rbdStr = []) (hp : t.avi.pos0 = (p0 : Int))
    (hss : t.avi.segstart = (ss : Int)) :
    ∃ (cF : Channel) (A : AVI),
      FinishRecording t =
        { t with rchan := none, avi := AVI.zero, rbdStr := [], closed := cF :: t.closed } ∧
      (cF.bytes.drop p0).take 240 = headerBlock A ∧
      A.avi_hdro.nframes = PUT32LE (toInt32 t.avi.nframes) ∧
      A.avi_hdr.avih.nframes = A.avi_hdrv.strh.length ∧
      (¬ t.avi.totsize > t.avi.segsize →
        A.avi_hdr.avih.nframes = PUT32LE (toInt32 t.avi.nframes)) ∧
      (t.avi.totsize > t.avi.segsize →
        A.avi_hdr.avih.nframes = PUT32LE (toInt32 t.avi.nframes0)) := by
  by_cases hr : t.rstate = REC_ERROR
  · by_cases hseg : t.avi.totsize > t.avi.segsize
    · have e1 := CloseAVISegment_later t c ss true hc hw hs hss hseg
      rw [closeTail_end] at e1
      obtain ⟨cF, fl, i, h1, h2⟩ := finish_from t _ _ p0 e1 hw hs hp hb (by rw [hc]; rfl)
      obtain ⟨g1, g2, g3⟩ := patchedAvi_counts
        { t with avi := { t.avi with segsize := 0, segstart := (c.pos : Int) },
                 rchan := some { c with
                   bytes := storeAt c.bytes ss (segmentHeader t.avi.segsize).image } } fl i
      exact ⟨cF, _, h1, h2, g3, g1.trans g2.symm, fun h => absurd hseg h, fun _ => g1⟩
    · have e1 := CloseAVISegment_first_error t c p0 true hc hw hs hp hr hseg
      obtain ⟨f1, f2, f3, f4, f5, f6, f7, f8⟩ := patchedAvi_index
        { t with avi := { t.avi with nframes0 := t.avi.nframes, segsize0 := t.avi.segsize } }
        (PUT32LE 0) 0
      obtain ⟨m1, m2, m3, m4, m5, m6⟩ := patchedAvi_counters
        { t with avi := { t.avi with nframes0 := t.avi.nframes, segsize0 := t.avi.segsize } }
        (PUT32LE 0) 0
      obtain ⟨cF, fl, i, h1, h2⟩ := finish_from t _ _ p0 e1 hw hs (f2.trans hp) hb
        (by rw [hc]; rfl)
      obtain ⟨g1, g2, g3⟩ := patchedAvi_counts
        { t with avi := firstClosed t,
                 rchan := some { c with
                   bytes := storeAt c.bytes p0 (headerBlock (firstClosed t)) } } fl i
      refine ⟨cF, _, h1, h2, g3.trans ?_, g1.trans g2.symm, fun _ => g1.trans ?_,
        fun h => absurd h hseg⟩
      · exact congrArg (fun v => PUT32LE (toInt32 v)) m1
      · exact congrArg (fun v => PUT32LE (toInt32 v)) m2
  · exact FinishRecording_header t c p0 ss hc hw hs hb hr hp hss

/-- Finalisation of an AVI recording in its first segment that holds `k` index
entries, in any recording state, on a sink on which every call succeeds and
which is positioned at its end behind the header block: the header block is
rewritten in place with the index flag set and the index chunk is appended. -/
theorem FinishRecording_first_indexed_any (t : TUVC) (c : Channel) (p0 k : Nat)
    (buf : List AVI_IDX) (hc : t.rchan = some c) (hw : c.wscript = []) (hs : c.sscript = [])
    (hb : t.rbdStr = []) (hp : t.avi.pos0 = (p0 : Int))
    (hseg : ¬ t.avi.totsize > t.avi.segsize) (hi : t.avi.idx = some buf)
    (hk : t.avi.curr_idx = (k : Int)) (hkb : k ≤ buf.length) (hk2 : 16 * k < 2147483648)
    (hend : c.pos = c.bytes.length) (hhdr : p0 + 240 ≤ c.bytes.length) :
    ∃ A : AVI, FinishRecording t =
      { t with rchan := none, avi := AVI.zero, rbdStr := [],
               closed := { c with bytes := storeAt c.bytes p0 (headerBlock A) ++ indexChunk buf k,
                                  pos := c.pos + (8 + 16 * k) } :: t.closed } ∧
      A.avi_hdr.avih.flags = PUT32LE 0x10 ∧
      A.avi_hdr.riff_size =
        PUT32LE (toInt32 ((t.avi.hdrsize : Int) + t.avi.segsize) + (16 * (k : Int) + 8)) ∧
      A.avi_data.data_size = PUT32LE (toInt32 (t.avi.segsize + 4)) ∧
      A.avi_hdr.avih.nframes = PUT32LE (toInt32 t.avi.nframes) ∧
      A.avi_hdrv.strh.length = PUT32LE (toInt32 t.avi.nframes) ∧
      A.avi_hdro.nframes = PUT32LE (toInt32 t.avi.nframes) := by
  by_cases hr : t.rstate = REC_ERROR
  · have e1 := CloseAVISegment_first_error t c p0 true hc hw hs hp hr hseg
    obtain ⟨f1, f2, f3, f4, f5, f6, f7, f8⟩ := patchedAvi_index
      { t with avi := { t.avi with nframes0 := t.avi.nframes, segsize0 := t.avi.segsize } }
      (PUT32LE 0) 0
    obtain ⟨m1, m2, m3, m4, m5, m6⟩ := patchedAvi_counters
      { t with avi := { t.avi with nframes0 := t.avi.nframes, segsize0 := t.avi.segsize } }
      (PUT32LE 0) 0
    obtain ⟨xs, ys, zs, heq, hsome, _⟩ := CloseAVISegment_ioStep t true
    obtain ⟨u, hu, ru, pu, iu, ku, su, x1, x2, x3, x4⟩ : ∃ u : TUVC,
        CloseAVISegment t true = u ∧
        u.rchan = some { c with bytes := storeAt c.bytes p0 (headerBlock (firstClosed t)) } ∧
        u.avi.pos0 = (p0 : Int) ∧ u.avi.idx = some buf ∧ u.avi.curr_idx = (k : Int) ∧
        u.rstate = t.rstate ∧ u.avi.hdrsize = t.avi.hdrsize ∧
        u.avi.segsize0 = t.avi.segsize ∧ u.avi.nframes0 = t.avi.nframes ∧
        u.avi.nframes = t.avi.nframes := by
      refine ⟨_, rfl, by rw [e1], ?_, ?_, ?_, by rw [e1], ?_, ?_, ?_, ?_⟩
      · rw [e1]; exact f2.trans hp
      · rw [e1]; exact f7.trans hi
      · rw [e1]; exact f5.trans hk
      · rw [e1]; exact f1
      · rw [e1]; exact f3
      · rw [e1]; exact m2
      · rw [e1]; exact m1
    rw [hu] at heq
    have e2 := WriteAVIHeader_some_good u _ p0 buf k ru hw hs pu iu ku hkb hk2
    obtain ⟨g1, g2, g3⟩ := updateHeaderFields_counts
      { u.avi with avi_hdr := { u.avi.avi_hdr with
          avih := { u.avi.avi_hdr.avih with flags := PUT32LE 0x10 } } } (handlerIsMJPG u)
      (16 * (k : Int) + 8)
    obtain ⟨g4, g5, g6⟩ := updateHeaderFields_sizes
      { u.avi with avi_hdr := { u.avi.avi_hdr with
          avih := { u.avi.avi_hdr.avih with flags := PUT32LE 0x10 } } } (handlerIsMJPG u)
      (16 * (k : Int) + 8)
    refine ⟨patchedAvi u (PUT32LE 0x10) (16 * (k : Int) + 8), ?_, g6,
      g4.trans (congrArg₂ (fun v w => PUT32LE (toInt32 (v + w) + (16 * (k : Int) + 8))) x1 x2),
      g5.trans (congrArg (fun v => PUT32LE (toInt32 (v + 4))) x2),
      g1.trans (congrArg (fun v => PUT32LE (toInt32 v)) x3),
      g2.trans (congrArg (fun v => PUT32LE (toInt32 v)) x3),
      g3.trans (congrArg (fun v => PUT32LE (toInt32 v)) x4)⟩
    unfold FinishRecording
    dsimp only
    rw [if_pos (by simp [hc, hb]), hu, e2, closeChannel_some _ _ rfl]
    dsimp only
    rw [finish_bytes c p0 _ _ _ (headerBlock_length _) (headerBlock_length _) hend hhdr,
      indexChunk_length buf k hkb]
    subst heq
    dsimp only at su
    subst su
    rfl
  · exact FinishRecording_first_indexed t c p0 k buf hc hw hs hb hr hp hseg hi hk hkb hk2
      hend hhdr

theorem storeAt_drop_after (b : List Nat) (p : Nat) (x : List Nat) (n : Nat)
    (h : p + x.length ≤ n) : (storeAt b p x).drop n = b.drop n := by
  unfold storeAt
  have h1 : (List.takeD p b 0 ++ x).length = p + x.length := by
    simp [List.takeD_length]
  rw [List.drop_append_eq_append_drop, List.drop_eq_nil_of_le (by rw [h1]; exact h), h1,
    List.nil_append, List.drop_drop]
  congr 1
  omega

/-- Finalisation of an AVI recording in a later segment (no index is held
there), in any recording state, on a sink on which every call succeeds: the
header of the open segment is patched with the sizes of the segment at the
segment start, the header block is rewritten at the header origin, and the
recording state is kept. -/
theorem FinishRecording_later_patch (t : TUVC) (c : Channel) (p0 ss : Nat)
    (hc : t.rchan = some c) (hw : c.wscript = []) (hs : c.sscript = [])
    (hb : t.rbdStr = []) (hp : t.avi.pos0 = (p0 : Int)) (hss : t.avi.segstart = (ss : Int))
    (hseg : t.avi.totsize > t.avi.segsize) (hi : t.avi.idx = none)
    (hord : p0 + 240 ≤ ss) :
    ∃ A : AVI, FinishRecording t =
      { t with rchan := none, avi := AVI.zero, rbdStr := [],
               closed := { c with
                 bytes := storeAt (storeAt c.bytes ss (segmentHeader t.avi.segsize).image) p0
                   (headerBlock A) } :: t.closed } ∧
      ((storeAt (storeAt c.bytes ss (segmentHeader t.avi.segsize).image) p0
          (headerBlock A)).drop ss).take 24 = (segmentHeader t.avi.segsize).image ∧
      ((storeAt (storeAt c.bytes ss (segmentHeader t.avi.segsize).image) p0
          (headerBlock A)).drop p0).take 240 = headerBlock A ∧
      A.avi_hdro.nframes = PUT32LE (toInt32 t.avi.nframes) := by
  have e1 := CloseAVISegment_later t c ss true hc hw hs hss hseg
  rw [closeTail_end] at e1
  have e2 := WriteAVIHeader_none_good
    { t with avi := { t.avi with segsize := 0, segstart := (c.pos : Int) },
             rchan := some { c with
               bytes := storeAt c.bytes ss (segmentHeader t.avi.segsize).image } }
    { c with bytes := storeAt c.bytes ss (segmentHeader t.avi.segsize).image } p0 rfl hw hs hp hi
  obtain ⟨g1, g2, g3⟩ := patchedAvi_counts
    { t with avi := { t.avi with segsize := 0, segstart := (c.pos : Int) },
             rchan := some { c with
               bytes := storeAt c.bytes ss (segmentHeader t.avi.segsize).image } } (PUT32LE 0) 0
  refine ⟨_, ?_, ?_, ?_, g3⟩
  · unfold FinishRecording
    dsimp only
    rw [if_pos (by simp [hc, hb]), e1, e2, closeChannel_some _ _ rfl]
  · rw [storeAt_drop_after _ _ _ _ (by rw [headerBlock_length]; exact hord)]
    have := storeAt_window c.bytes ss (segmentHeader t.avi.segsize).image
    rw [AVIX_HDR_image_length] at this
    exact this
  · have := storeAt_window (storeAt c.bytes ss (segmentHeader t.avi.segsize).image) p0
      (headerBlock (patchedAvi
        { t with avi := { t.avi with segsize := 0, segstart := (c.pos : Int) },
                 rchan := some { c with
                   bytes := storeAt c.bytes ss (segmentHeader t.avi.segsize).image } }
        (PUT32LE 0) 0))
    rw [headerBlock_length] at this
    exact this

/-- The finalizer on a structure `u` that has the channel, the writer state,
the boundary string and the closed channels of `t`, whatever its recording
state: on a sink on which every call succeeds the header block is rewritten,
the index chunk is appended and the segment header is patched. -/
theorem FinishRecording_finalizedSink (t u : TUVC) (c : Channel) (h1 : u.rchan = some c)
    (h2 : u.avi = t.avi) (h3 : u.rbdStr = t.rbdStr) (h4 : u.closed = t.closed) :
    finalizedSink t c (FinishRecording u).closed := by
  intro hw hs hb
  have hb' : u.rbdStr = [] := h3.trans hb
  refine ⟨fun p0 ss hp hss => ?_, fun p0 k buf hp hseg hi hk hkb hk2 hend hhdr => ?_,
    fun p0 ss hp hss hseg hi hord => ?_⟩
  · obtain ⟨cF, A, e, hwin, a1, a2, a3, a4⟩ := FinishRecording_header_any u c p0 ss h1 hw hs hb'
      (by rw [h2]; exact hp) (by rw [h2]; exact hss)
    obtain ⟨f1, f2, f3, f4, f5, f6, f7⟩ := headerBlock_fields A
    rw [h2] at a1 a3 a4
    refine ⟨cF, by rw [e, ← h4], ?_, fun h => ?_, fun h => ?_⟩
    · rw [window_field _ _ _ 224 4 240 hwin (by omega), f6, a1]
    · constructor
      · rw [window_field _ _ _ 48 4 240 hwin (by omega), f4, a3 h]
      · rw [window_field _ _ _ 140 4 240 hwin (by omega), f5, ← a2, a3 h]
    · constructor
      · rw [window_field _ _ _ 48 4 240 hwin (by omega), f4, a4 h]
      · rw [window_field _ _ _ 140 4 240 hwin (by omega), f5, ← a2, a4 h]
  · obtain ⟨A, e, b1, b2, b3, b4, b5, b6⟩ := FinishRecording_first_indexed_any u c p0 k buf h1
      hw hs hb' (by rw [h2]; exact hp) (by rw [h2]; exact hseg) (by rw [h2]; exact hi)
      (by rw [h2]; exact hk) hkb hk2 hend hhdr
    rw [h2] at b2 b3 b4 b5 b6
    exact ⟨A, by rw [e, ← h4], b1, b2, b3, b4, b5, b6⟩
  · obtain ⟨A, e, w1, w2, a1⟩ := FinishRecording_later_patch u c p0 ss h1 hw hs hb'
      (by rw [h2]; exact hp) (by rw [h2]; exact hss) (by rw [h2]; exact hseg)
      (by rw [h2]; exact hi) hord
    obtain ⟨g1, g2, g3⟩ := segmentHeader_fields u.avi.segsize
    obtain ⟨f1, f2, f3, f4, f5, f6, f7⟩ := headerBlock_fields A
    rw [h2] at g2 g3 a1
    rw [h2] at w1
    refine ⟨_, by rw [e, ← h4], ?_, ?_, ?_⟩
    · dsimp only
      rw [h2, window_field _ _ _ 4 4 24 w1 (by omega), g2]
    · dsimp only
      rw [h2, window_field _ _ _ 16 4 24 w1 (by omega), g3]
    · dsimp only
      rw [window_field _ _ _ 224 4 240 w2 (by omega), f6, a1]

theorem StopCapture_sink (t : TUVC) (h : t.rstate = REC_ERROR) :
    (StopCapture t).2.rchan = t.rchan ∧ (StopCapture t).2.avi = t.avi ∧
    (StopCapture t).2.rbdStr = t.rbdStr ∧ (StopCapture t).2.closed = t.closed ∧
    (StopCapture t).2.rstate = REC_ERROR := by
  unfold StopCapture
  dsimp only
  split
  · rw [if_neg (by rw [h]; decide), if_neg (by rw [h]; decide)]
    exact ⟨rfl, rfl, rfl, rfl, h⟩
  · exact ⟨rfl, rfl, rfl, rfl, h⟩

/-- C17 (amended). A session with a sink is in state `REC_ERROR`. The command
`record stop` does what it does from any other recording state: it sets the
state to `REC_STOP` and runs `FinishRecording`. The sink is released (closed,
the member NULL); the state afterwards is `REC_STOP`, or `REC_ERROR` again when
the finalization fails, and it is `REC_STOP` when every call on the sink
succeeds. In boundary mode the channel is closed as it is, without a write or
seek. Closing the device releases the sink too and leaves the state
`REC_ERROR`. In AVI mode, on a sink on which every call succeeds, both
commands still issue the writes of the finalizer (`finalizedSink`): the header
block is rewritten at the header origin with the frame counts of the session,
the `idx1` chunk is appended when the index holds entries, and the header of a
later segment is patched with the sizes of the segment. -/
theorem C17_stop_after_error (t : TUVC) (c : Channel) (hc : t.rchan = some c)
    (he : t.rstate = REC_ERROR) :
    (∀ s : RecState,
      UvcObjCmd t CMD_record_stop = UvcObjCmd { t with rstate := s } CMD_record_stop) ∧
    UvcObjCmd t CMD_record_stop = (TCL_OK, "", FinishRecording { t with rstate := REC_STOP }) ∧
    (UvcObjCmd t CMD_record_stop).2.2.rchan = none ∧
    (∃ cF : Channel, (UvcObjCmd t CMD_record_stop).2.2.closed = cF :: t.closed) ∧
    ((UvcObjCmd t CMD_record_stop).2.2.rstate = REC_STOP ∨
      (UvcObjCmd t CMD_record_stop).2.2.rstate = REC_ERROR) ∧
    (c.wscript = [] → c.sscript = [] → 0 ≤ t.avi.pos0 → 0 ≤ t.avi.segstart →
      (UvcObjCmd t CMD_record_stop).2.2.rstate = REC_STOP) ∧
    (t.rbdStr ≠ [] →
      (UvcObjCmd t CMD_record_stop).2.2.closed = c :: t.closed ∧
      (UvcObjCmd t CMD_record_stop).2.2.rstate = REC_STOP) ∧
    (UvcObjCmd t CMD_close).2.2.rchan = none ∧
    (∃ cF : Channel, (UvcObjCmd t CMD_close).2.2.closed = cF :: t.closed) ∧
    (UvcObjCmd t CMD_close).2.2.rstate = REC_ERROR ∧
    (t.rbdStr ≠ [] → (UvcObjCmd t CMD_close).2.2.closed = c :: t.closed) ∧
    finalizedSink t c (UvcObjCmd t CMD_record_stop).2.2.closed ∧
    finalizedSink t c (UvcObjCmd t CMD_close).2.2.closed := by
  obtain ⟨cF, r, e, h1, h2⟩ := FinishRecording_release { t with rstate := REC_STOP } c hc
  have hstop : finalizedSink t c (UvcObjCmd t CMD_record_stop).2.2.closed := by
    rw [record_stop_finish]
    exact FinishRecording_finalizedSink t { t with rstate := REC_STOP } c hc rfl rfl rfl
  have hclose : finalizedSink t c (UvcObjCmd t CMD_close).2.2.closed := by
    obtain ⟨q1, q2, q3, q4, _⟩ := StopCapture_sink t he
    exact FinishRecording_finalizedSink t (StopCapture t).2 c (q1.trans hc) q2 q3 q4
  have hdev : (UvcObjCmd t CMD_close).2.2.rchan = none ∧
      (∃ cF : Channel, (UvcObjCmd t CMD_close).2.2.closed = cF :: t.closed) ∧
      (UvcObjCmd t CMD_close).2.2.rstate = REC_ERROR ∧
      (t.rbdStr ≠ [] → (UvcObjCmd t CMD_close).2.2.closed = c :: t.closed) := by
    have hcl : (StopCapture t).2.rchan = some c ∧ (StopCapture t).2.closed = t.closed ∧
        (StopCapture t).2.rstate = REC_ERROR ∧ (StopCapture t).2.rbdStr = t.rbdStr := by
      obtain ⟨q1, _, q3, q4, q5⟩ := StopCapture_sink t he
      exact ⟨q1.trans hc, q4, q5, q3⟩
    obtain ⟨cF', r', e', h1', h2'⟩ := FinishRecording_release (StopCapture t).2 c hcl.1
    have hfin : (UvcObjCmd t CMD_close).2.2 = FinishRecording (StopCapture t).2 := rfl
    rw [hfin, e']
    refine ⟨rfl, ⟨cF', by rw [← hcl.2.1]⟩, ?_, fun hb => ?_⟩
    · rcases h1' with h | h
      · exact h.trans hcl.2.2.1
      · exact h
    · obtain ⟨q1, _⟩ := h2' (by rw [hcl.2.2.2]; exact hb)
      show cF' :: (StopCapture t).2.closed = c :: t.closed
      rw [q1, hcl.2.1]
  refine ⟨fun s => ?_, record_stop_finish t, ?_, ?_, ?_, ?_, ?_, hdev.1, hdev.2.1, hdev.2.2.1,
    hdev.2.2.2, hstop, hclose⟩
  · rw [record_stop_finish, record_stop_finish]
  · rw [record_stop_finish, e]
  · rw [record_stop_finish, e]
    exact ⟨cF, rfl⟩
  · rw [record_stop_finish, e]
    exact h1
  · intro hw hs hp hss
    rw [record_stop_finish]
    exact FinishRecording_keeps_state { t with rstate := REC_STOP } c hc hw hs
      (fun h => RecState.noConfusion h) hp hss
  · intro hb
    rw [record_stop_finish, e]
    obtain ⟨q1, q2⟩ := h2 hb
    exact ⟨by rw [q1], q2⟩

/-- Witness of C17 (amended): the state after a failed frame write, an AVI
session in its first segment whose frame counter is 1 and whose sink accepts
every further call. After `record stop` the state is `REC_STOP`, after the
closing of the device it is `REC_ERROR`; in both cases the closed sink holds
the frame count 1 in the rewritten header block. -/
theorem C17_stop_after_error_witness :
    recordingFailed.rchan = some (recordingFailed.rchan.getD emptyChannel) ∧
    recordingFailed.rstate = REC_ERROR ∧ recordingFailed.avi.nframes = 1 ∧
    (UvcObjCmd recordingFailed CMD_record_stop).2.2.rstate = REC_STOP ∧
    (UvcObjCmd recordingFailed CMD_close).2.2.rstate = REC_ERROR ∧
    (∃ cF : Channel,
      (UvcObjCmd recordingFailed CMD_record_stop).2.2.closed = cF :: recordingFailed.closed ∧
      (cF.bytes.drop (0 + 224)).take 4 =
        le32 (PUT32LE (toInt32 recordingFailed.avi.nframes)) ∧
      (¬ recordingFailed.avi.totsize > recordingFailed.avi.segsize →
        (cF.bytes.drop (0 + 48)).take 4 =
          le32 (PUT32LE (toInt32 recordingFailed.avi.nframes)) ∧
        (cF.bytes.drop (0 + 140)).take 4 =
          le32 (PUT32LE (toInt32 recordingFailed.avi.nframes))) ∧
      (recordingFailed.avi.totsize > recordingFailed.avi.segsize →
        (cF.bytes.drop (0 + 48)).take 4 =
          le32 (PUT32LE (toInt32 recordingFailed.avi.nframes0)) ∧
        (cF.bytes.drop (0 + 140)).take 4 =
          le32 (PUT32LE (toInt32 recordingFailed.avi.nframes0)))) ∧
    (∃ cF : Channel,
      (UvcObjCmd recordingFailed CMD_close).2.2.closed = cF :: recordingFailed.closed ∧
      (cF.bytes.drop (0 + 224)).take 4 =
        le32 (PUT32LE (toInt32 recordingFailed.avi.nframes)) ∧
      (¬ recordingFailed.avi.totsize > recordingFailed.avi.segsize →
        (cF.bytes.drop (0 + 48)).take 4 =
          le32 (PUT32LE (toInt32 recordingFailed.avi.nframes)) ∧
        (cF.bytes.drop (0 + 140)).take 4 =
          le32 (PUT32LE (toInt32 recordingFailed.avi.nframes))) ∧
      (recordingFailed.avi.totsize > recordingFailed.avi.segsize →
        (cF.bytes.drop (0 + 48)).take 4 =
          le32 (PUT32LE (toInt32 recordingFailed.avi.nframes0)) ∧
        (cF.bytes.drop (0 + 140)).take 4 =
          le32 (PUT32LE (toInt32 recordingFailed.avi.nframes0)))) :=
  have h := C17_stop_after_error recordingFailed (recordingFailed.rchan.getD emptyChannel)
    (by decide) (by decide)
  ⟨by decide, by decide, by decide,
   h.2.2.2.2.2.1 (by decide) (by decide) (by decide) (by decide),
   h.2.2.2.2.2.2.2.2.2.1,
   (h.2.2.2.2.2.2.2.2.2.2.2.1 (by decide) (by decide) (by decide)).1 0 0 (by decide)
     (by decide),
   (h.2.2.2.2.2.2.2.2.2.2.2.2 (by decide) (by decide) (by decide)).1 0 0 (by decide)
     (by decide)⟩

/-- C17 (counterexample). The state after a failed frame write is `REC_ERROR` and the
frame count in the header of the sink (offset 48) is 0; `record stop` and the
closing of the device both rewrite the header, so the closed sink holds the
frame count 1. After `record stop` the state is `REC_STOP`, after the
closing of the device it is still `REC_ERROR`. -/
theorem C17_counterexample :
    recordingFailed.rstate = REC_ERROR ∧
    recordingFailed.rchan.map (fun c => (c.bytes.drop 48).take 4) = some [0, 0, 0, 0] ∧
    (UvcObjCmd recordingFailed CMD_record_stop).2.2.closed.map
      (fun c => (c.bytes.drop 48).take 4) = [[1, 0, 0, 0]] ∧
    (UvcObjCmd recordingFailed CMD_record_stop).2.2.rstate = REC_STOP ∧
    (UvcObjCmd recordingFailed CMD_close).2.2.closed.map
      (fun c => (c.bytes.drop 48).take 4) = [[1, 0, 0, 0]] ∧
    (UvcObjCmd recordingFailed CMD_close).2.2.rstate = REC_ERROR := by
  decide

/-! ## The segment size in the reachable states -/

theorem segInv_zero (t : TUVC) (h : t.avi = AVI.zero) : segInv t := by
  refine ⟨fun _ => ?_, fun _ => h⟩
  rw [h]
  decide

theorem segInv_keep (t u : TUVC) (ha : u.avi = t.avi) (hc : u.rchan = t.rchan)
    (hr : t.rstate = REC_ERROR → u.rstate = REC_ERROR) (h : segInv t) : segInv u := by
  refine ⟨fun hu => ?_, fun hn => ?_⟩
  · rw [ha]
    exact h.1 (fun e => hu (hr e))
  · rw [ha]
    exact h.2 (hc ▸ hn)

/-- A call of `WriteFrame` keeps the invariant of the segment size: a call
that leaves a state other than `REC_ERROR` did not return -1, so it has kept
the writer state or has written a chunk, after which the segment was rotated
or is within the bound. -/
theorem segInv_WriteFrame (t : TUVC) (f : uvc_frame) (env : FrameEnv) (h : segInv t) :
    segInv (WriteFrame t f env).2 := by
  refine ⟨fun hu => ?_, fun hn => ?_⟩
  · have ht : t.rstate ≠ REC_ERROR := fun e => hu (WriteFrame_error_stays t f env e)
    have hne : (WriteFrame t f env).1 ≠ -1 := fun e => hu (WriteFrame_minus_one t f env e)
    rcases WriteFrame_no_error t f env hne with hk | ⟨h1, hb⟩
    · rw [hk]
      exact h.1 ht
    · obtain ⟨_, _, _, w4, w5⟩ := WriteFrame_written t f env h1 hb
      by_cases hgt : t.avi.segsize + chunkSize t f env > 0x7F000000
      · rw [(w4 hgt).1]
        decide
      · rw [w5 hgt]
        exact not_lt.mp hgt
  · have hc := WriteFrame_rchan t f env
    rw [hn] at hc
    have ht : t.rchan = none := by
      cases hq : t.rchan with
      | none => rfl
      | some c =>
        rw [hq] at hc
        simp at hc
    rw [WriteFrame_no_channel t f env ht]
    exact h.2 ht

theorem segInv_recordInline (t : TUVC) (f : uvc_frame) (env : FrameEnv) (h : segInv t) :
    segInv (recordInline t f env) := by
  unfold recordInline
  split
  · exact segInv_WriteFrame t f env h
  · exact h

theorem segInv_FrameCallback (t : TUVC) (f : uvc_frame) (env : CallbackEnv)
    (h : segInv t) : segInv (FrameCallback t f env) := by
  unfold FrameCallback
  split
  · exact h
  · split
    · exact segInv_recordInline t f env.wf h
    · exact segInv_keep _ _ (publish_session _ _).1 (publish_session _ _).2
        (fun e => (publish_rstate _ _).trans e) (segInv_recordInline t f env.wf h)

theorem StartCapture_error (t : TUVC) (env : CaptureEnv) (h : t.rstate = REC_ERROR) :
    (StartCapture t env).2.rstate = REC_ERROR := by
  unfold StartCapture
  dsimp only
  split_ifs <;> simp_all

theorem segInv_FinishRecording (t : TUVC) (h : segInv t) : segInv (FinishRecording t) :=
  segInv_zero _ (FinishRecording_zero t h.2).1

/-- After the part of `StartRecording` that begins a session the segment size
is 0 and a channel is set, for an AVI file and for a stream. -/
theorem beginRecording_segsize (t : TUVC) (ufmt : UFMT) (args : StartArgs) (chan : Channel)
    (pos0 : Int) (now : timeval) (h : t.rchan = none → t.avi = AVI.zero) :
    (beginRecording t ufmt args chan pos0 now).avi.segsize = 0 ∧
    (beginRecording t ufmt args chan pos0 now).rchan ≠ none := by
  by_cases havi : (args.rbdStr.getD []).length = 0
  · obtain ⟨_, f2, _, _, f5, _⟩ := beginRecording_fresh t ufmt args chan pos0 now h havi
    exact ⟨f5, f2⟩
  · obtain ⟨F, hF, z1, z2, z3⟩ : ∃ F, FinishRecording t = F ∧ F.avi = AVI.zero ∧
        F.rchan = none ∧ F.rbdStr = [] := ⟨_, rfl, FinishRecording_zero t h⟩
    unfold beginRecording
    dsimp only
    rw [hF, if_pos (by omega)]
    obtain ⟨s1, s2, s3⟩ := startTarget_session
      { F with rchan := some chan,
               rrate := reserve500 (recordingInterval F.fps args.rateNum args.rateDen),
               rbdStr := F.rbdStr ++ args.rbdStr.getD [], ltv := now, rtv := now } args.doUser
    rw [s1, s2]
    dsimp only
    rw [z1]
    exact ⟨rfl, fun hn => by cases hn⟩

theorem segInv_StartRecording (s : TUVC) (args : StartArgs) (now : timeval)
    (h : segInv s) : segInv (StartRecording s args now).2 := by
  rcases StartRecording_or s args now with e | ⟨ufmt, chan, pos0, e⟩
  · rw [e]
    exact h
  · rw [e]
    obtain ⟨b1, b2⟩ := beginRecording_segsize s ufmt args chan pos0 now h.2
    refine ⟨fun _ => ?_, fun hn => absurd hn b2⟩
    rw [b1]
    decide

theorem segInv_stopFirst (t : TUVC) (h : segInv t) :
    segInv (FinishRecording
      (if t.rstate.code > REC_STOP.code then { t with rstate := REC_STOP } else t)) := by
  apply segInv_zero
  refine (FinishRecording_zero _ ?_).1
  split
  · exact h.2
  · exact h.2

/-- Every command keeps the invariant of the segment size: the state
`REC_ERROR` is left only through the finalizer, which zeroes the writer
state. -/
theorem segInv_UvcObjCmd (t : TUVC) (cmd : Command) (h : segInv t) :
    segInv (UvcObjCmd t cmd).2.2 := by
  cases cmd with
  | CMD_close =>
    exact segInv_zero _ (FinishRecording_zero _
      (fun hn => (StopCapture_session t).1 ▸ h.2 ((StopCapture_session t).2 ▸ hn))).1
  | CMD_convmode flag =>
    cases flag with
    | none => exact h
    | some b =>
      unfold UvcObjCmd
      dsimp only
      split
      · exact segInv_zero _ (FinishRecording_zero t h.2).1
      · exact segInv_keep t _ rfl rfl (fun e => e) h
  | CMD_format arg =>
    cases arg with
    | none => exact h
    | some k =>
      obtain ⟨k1, k2⟩ := k
      unfold UvcObjCmd
      dsimp only
      split
      · exact h
      · split
        · exact h
        · exact segInv_keep _ _ rfl rfl (fun e => e) (segInv_stopFirst t h)
  | CMD_image env =>
    exact segInv_keep t _ (GetImage_session t env).1 (GetImage_session t env).2
      (fun e => (GetImage_rstate t env).trans e) h
  | CMD_parameters_update_mode flag =>
    unfold UvcObjCmd SetControls_update_mode
    dsimp only
    split
    · exact segInv_keep t _ rfl rfl (fun e => e) h
    · exact h
  | CMD_record_frame args env =>
    unfold UvcObjCmd
    dsimp only
    rcases RecordFrameFromData_cases t args env with hc | ⟨f, hc⟩
    · rw [hc]; exact h
    · rw [hc]; exact segInv_WriteFrame t f env h
  | CMD_record_pause =>
    unfold UvcObjCmd
    dsimp only
    split
    · rename_i hs
      exact segInv_keep t _ rfl rfl (fun e => by rw [e] at hs; cases hs) h
    · split
      · rename_i hs
        exact segInv_keep t _ rfl rfl (fun e => by rw [e] at hs; cases hs) h
      · split <;> exact h
  | CMD_record_resume now =>
    unfold UvcObjCmd
    dsimp only
    split
    · rename_i hs
      split
      · exact segInv_keep t _ rfl rfl (fun e => by rw [e] at hs; cases hs) h
      · exact h
    · split
      · rename_i hs
        split
        · exact segInv_keep t _ rfl rfl (fun e => by rw [e] at hs; cases hs) h
        · exact h
      · split <;> exact h
  | CMD_record_start a n => exact segInv_StartRecording t a n h
  | CMD_record_state => exact h
  | CMD_record_stop => exact segInv_stopFirst t h
  | CMD_start env =>
    exact segInv_keep t _ (StartCapture_session t env).1 (StartCapture_session t env).2
      (StartCapture_error t env) h
  | CMD_stop =>
    exact segInv_keep t _ (StopCapture_session t).1 (StopCapture_session t).2
      (StopCapture_error t) h

theorem segInv_deferredWrite (t : TUVC) (env : FrameEnv) (h : segInv t) :
    segInv (deferredWrite t env) := by
  unfold deferredWrite
  split
  · cases hf : t.frame with
    | none => exact h
    | some frame =>
      dsimp only
      have hw := segInv_WriteFrame { t with frame := none } frame env
        (segInv_keep t _ rfl rfl (fun e => e) h)
      split
      · exact segInv_keep _ _ rfl rfl (fun e => e) hw
      · exact hw
  · exact h

theorem segInv_runCallback (t : TUVC) (script : TUVC → Int × TUVC)
    (hs : ∀ u, segInv u → segInv (script u).2) (h : segInv t) :
    segInv (runCallback t script) := by
  unfold runCallback
  cases t.frame with
  | none => exact h
  | some f =>
    dsimp only
    split
    · exact segInv_keep _ _ (StopCapture_session _).1 (StopCapture_session _).2
        (StopCapture_error _) (hs t h)
    · exact hs t h

theorem segInv_FrameReady (t : TUVC) (env : FrameEnv) (script : TUVC → Int × TUVC)
    (hs : ∀ u, segInv u → segInv (script u).2) (h : segInv t) :
    segInv (FrameReady t env script) := by
  unfold FrameReady
  apply segInv_runCallback _ _ hs
  apply segInv_deferredWrite
  unfold clearOutstanding
  split
  · exact segInv_keep t _ rfl rfl (fun e => e) h
  · exact h

theorem segInv_FrameReady0 (t : TUVC) (env : FrameEnv) (script : TUVC → Int × TUVC)
    (hs : ∀ u, segInv u → segInv (script u).2) (h : segInv t) :
    segInv (FrameReady0 t env script) := by
  unfold FrameReady0
  cases t.evq with
  | nil => exact h
  | cons valid rest =>
    dsimp only
    split
    · unfold handleEvent
      dsimp only
      split
      · split
        · exact segInv_keep t _ rfl rfl (fun e => e) h
        · exact segInv_FrameReady _ env script hs (segInv_keep t _ rfl rfl (fun e => e) h)
      · exact segInv_keep t _ rfl rfl (fun e => e) h
    · exact segInv_keep t _ rfl rfl (fun e => e) h

theorem segInv_idleFrameReady (t : TUVC) (env : FrameEnv) (script : TUVC → Int × TUVC)
    (hs : ∀ u, segInv u → segInv (script u).2) (h : segInv t) :
    segInv (idleFrameReady t env script) := by
  unfold idleFrameReady
  split
  · exact segInv_FrameReady _ env script hs (segInv_keep t _ rfl rfl (fun e => e) h)
  · exact h

theorem segInv_openDevice (fmts : List (Int × UFMT)) : segInv (openDevice fmts) := by
  apply segInv_zero
  unfold openDevice
  dsimp only
  split <;> rfl

theorem segInv_runScript (cmds : List Command) (code : Int) :
    ∀ u, segInv u → segInv (runScript cmds code u).2 := by
  unfold runScript
  dsimp only
  induction cmds with
  | nil => exact fun u h => h
  | cons c cs ih =>
    intro u h
    exact ih _ (segInv_UvcObjCmd u c h)

/-- In every reachable state of a device that is not `REC_ERROR` the open
segment holds at most 0x7F000000 bytes. -/
theorem segInv_reachable (t : TUVC) (h : Reachable t) : segInv t := by
  induction h with
  | opened fmts => exact segInv_openDevice fmts
  | command t cmd _ ih => exact segInv_UvcObjCmd t cmd ih
  | frame t f env _ ih => exact segInv_FrameCallback t f env ih
  | event t env cmds code _ ih =>
    exact segInv_FrameReady0 t env _ (segInv_runScript cmds code) ih
  | idleCall t env cmds code _ ih =>
    exact segInv_idleFrameReady t env _ (segInv_runScript cmds code) ih

theorem recordInline_error (t : TUVC) (f : uvc_frame) (env : FrameEnv)
    (h : t.rstate = REC_ERROR) : recordInline t f env = t := by
  unfold recordInline
  rw [if_neg (by simp [h])]

/-- C26. A device is in a state it can reach (it was opened, and commands,
frame deliveries and events followed), and the recording state is not
`REC_ERROR`, as in every call of `WriteFrame` the program makes: in
`REC_ERROR` the recording steps of the callers `FrameCallback`, `FrameReady`
and `RecordFrameFromData` (`recordInline`, `deferredWrite` and the function
itself) return the structure as it is, without a call of `WriteFrame` (last
part). Then the size of the open segment is at most 0x7F000000
before the call, and it is at most 0x7F000000 after every call of `WriteFrame`
that returns without error (result 1 or 0). A call that writes a chunk of an
AVI file (result 1) adds the size of the chunk, 8 bytes of chunk header and
the padded payload, to the total size; when that chunk pushes the segment size
above 0x7F000000 the rotation takes place within the same call: on return the
segment size is 0, so the new segment holds no chunk yet, and the index is
empty; otherwise the chunk is added to the open segment. -/
theorem C26_segment_bound (t : TUVC) (f : uvc_frame) (env : FrameEnv)
    (hreach : Reachable t) (hstate : t.rstate ≠ REC_ERROR) :
    t.avi.segsize ≤ 0x7F000000 ∧
    ((WriteFrame t f env).1 ≠ -1 → (WriteFrame t f env).2.avi.segsize ≤ 0x7F000000) ∧
    ((WriteFrame t f env).1 = 1 → t.rbdStr = [] →
      (WriteFrame t f env).2.avi.totsize = t.avi.totsize + chunkSize t f env ∧
      (t.avi.segsize + chunkSize t f env > 0x7F000000 →
        (WriteFrame t f env).2.avi.segsize = 0 ∧ (WriteFrame t f env).2.avi.curr_idx = 0 ∧
        (WriteFrame t f env).2.avi.num_idx = 0 ∧ (WriteFrame t f env).2.avi.idx = none) ∧
      (¬ t.avi.segsize + chunkSize t f env > 0x7F000000 →
        (WriteFrame t f env).2.avi.segsize = t.avi.segsize + chunkSize t f env)) ∧
    (∀ u : TUVC, u.rstate = REC_ERROR →
      recordInline u f env = u ∧ deferredWrite u env = u ∧
      ∀ args, (RecordFrameFromData u args env).2.2 = u) := by
  have h0 : t.avi.segsize ≤ 0x7F000000 := (segInv_reachable t hreach).1 hstate
  refine ⟨h0, fun hne => ?_, fun h1 hb => ?_, fun u hu =>
    ⟨recordInline_error u f env hu, deferredWrite_error u env hu,
      fun args => RecordFrameFromData_error u args env hu⟩⟩
  · rcases WriteFrame_no_error t f env hne with hk | ⟨h1, hb⟩
    · rw [hk]
      exact h0
    · obtain ⟨_, _, _, w4, w5⟩ := WriteFrame_written t f env h1 hb
      by_cases hgt : t.avi.segsize + chunkSize t f env > 0x7F000000
      · rw [(w4 hgt).1]
        decide
      · rw [w5 hgt]
        exact not_lt.mp hgt
  · obtain ⟨_, w2, _, w4, w5⟩ := WriteFrame_written t f env h1 hb
    exact ⟨w2, fun hgt => ⟨(w4 hgt).1, (w4 hgt).2.1, (w4 hgt).2.2.1, (w4 hgt).2.2.2.1⟩, w5⟩

/-- Witness of C26: the state after the first frame of a running recording was
written is reachable and not `REC_ERROR`; its open segment holds 12 bytes. The
chunk of the frame delivered at 200 ms takes 12 bytes and is written (result
1): on return the segment holds 24 bytes. -/
theorem C26_segment_bound_witness :
    Reachable afterFirstFrame ∧ afterFirstFrame.rstate ≠ REC_ERROR ∧
    afterFirstFrame.avi.segsize = 12 ∧
    (WriteFrame afterFirstFrame (sampleFrame 2 200000) (wallClock 200000)).1 = 1 ∧
    chunkSize afterFirstFrame (sampleFrame 2 200000) (wallClock 200000) = 12 ∧
    afterFirstFrame.avi.segsize ≤ 0x7F000000 ∧
    (WriteFrame afterFirstFrame (sampleFrame 2 200000) (wallClock 200000)).2.avi.segsize
      ≤ 0x7F000000 ∧
    (WriteFrame afterFirstFrame (sampleFrame 2 200000) (wallClock 200000)).2.avi.segsize =
      afterFirstFrame.avi.segsize +
        chunkSize afterFirstFrame (sampleFrame 2 200000) (wallClock 200000) :=
  have hr : Reachable afterFirstFrame :=
    Reachable.frame recordingRunning (sampleFrame 1 40000) (callbackAt 40000)
      (Reachable.command capturingFmt
        (CMD_record_start (aviStart emptyChannel 10) (atMicros 0))
        (Reachable.command (openDevice sampleFmts) (CMD_start captureOk)
          (Reachable.opened sampleFmts)))
  have hs : afterFirstFrame.rstate ≠ REC_ERROR := by decide
  have hw := C26_segment_bound afterFirstFrame (sampleFrame 2 200000) (wallClock 200000) hr hs
  have h1 : (WriteFrame afterFirstFrame (sampleFrame 2 200000) (wallClock 200000)).1 = 1 := by
    decide
  ⟨hr, hs, by decide, h1, by decide, hw.1, hw.2.1 (by rw [h1]; decide),
    (hw.2.2.1 h1 (by decide)).2.2 (by decide)⟩

end Tcluvc
